import Mathlib

/-!
# DNS resolver wire codec of `src/resolvers.c`

A shallow embedding of the wire-format helpers of the resolver
(`resolv_build_query`, `resolv_read_name`, `resolv_dn_label_to_str`,
`resolv_str_to_dn_label`, `resolv_hostname_validation`) and theorems about them.

Conventions of the embedding:
* a byte buffer is a `List Nat`, one entry per byte, and a pointer into it is
  the offset from its first byte;
* a C function returning `-1` on error returns `none` here;
* `int` quantities that can be negative are `Int`, the others `Nat`.
-/

namespace Resolvers

set_option autoImplicit false

/-! ## Constants and record layouts declared in headers outside `src/` -/

/-- Modelled from the spec: `sizeof(struct dns_header)`, the 12-byte DNS header
(id, flags, qdcount, ancount, nscount, arcount as 16-bit fields); the
declaration lives in a header that is not part of the sources. -/
def sizeof_dns_header : Nat := 12

/-- Modelled from the spec: `sizeof(struct dns_question)`, the 4 bytes of
qtype and qclass that follow the question name. -/
def sizeof_dns_question : Nat := 4

/-- Modelled from the spec: `sizeof(struct dns_additional_record)`, the 11-byte
OPT pseudo-record (name, type, udp_payload_size, extension, data_length). -/
def sizeof_dns_additional_record : Nat := 11

/-- Modelled from the spec: `DNS_RCLASS_IN`, the class IN. -/
def DNS_RCLASS_IN : Nat := 1

/-- Modelled from the spec: `DNS_RTYPE_OPT`, the type of the OPT record (0x29). -/
def DNS_RTYPE_OPT : Nat := 41

/-- Modelled from the spec: `DNS_MAX_NAME_SIZE`, the longest accepted name. -/
def DNS_MAX_NAME_SIZE : Nat := 255

/-- Modelled from the spec: `DNS_MAX_LABEL_SIZE`, the longest accepted label. -/
def DNS_MAX_LABEL_SIZE : Nat := 63

/-! ## Memory helpers -/

/-- The two bytes found in memory for a 16-bit field assigned `htons(x)`:
the low 16 bits of `x` in network order. -/
def htons (x : Nat) : List Nat := [x / 256 % 256, x % 256]

/-- The call `memcpy(buf + p, src, n)` with `n` the length of `src`, on a
buffer held as a list. -/
def memcpy (buf : List Nat) (p : Nat) (src : List Nat) : List Nat :=
  buf.take p ++ src ++ buf.drop (p + src.length)

/-! ## `resolv_build_query` -/

/-- Forges a DNS query into a buffer of `bufsize` bytes. Returns the number of
written bytes and the buffer, or `none` (the source's `-1`) when the buffer is
too short. `hostname_dn_len` bytes are copied from `hostname_dn`. -/
def resolv_build_query (query_id query_type accepted_payload_size : Nat)
    (hostname_dn : List Nat) (hostname_dn_len : Nat) (bufsize : Nat) :
    Option (Nat × List Nat) :=
  if sizeof_dns_header + sizeof_dns_question + sizeof_dns_additional_record
      + hostname_dn_len ≥ bufsize then
    none
  else
    -- memset(buf, 0, bufsize)
    let buf := List.replicate bufsize 0
    let p := 0
    -- dns_hdr: id, flags, qdcount, ancount, nscount, arcount
    let dns_hdr := htons query_id ++ htons 0x0100 ++ htons 1 ++ [0, 0] ++ [0, 0] ++ htons 1
    let buf := memcpy buf p dns_hdr
    let p := p + sizeof_dns_header
    -- query hostname
    let buf := memcpy buf p (hostname_dn.take hostname_dn_len)
    let p := p + hostname_dn_len
    let buf := memcpy buf p [0]
    let p := p + 1
    -- qinfo: qtype, qclass
    let qinfo := htons query_type ++ htons DNS_RCLASS_IN
    let buf := memcpy buf p qinfo
    let p := p + sizeof_dns_question
    -- edns: name, type, udp_payload_size, extension (32 bits), data_length
    let edns := [0] ++ htons DNS_RTYPE_OPT ++ htons accepted_payload_size
      ++ [0, 0, 0, 0] ++ [0, 0]
    let buf := memcpy buf p edns
    let p := p + sizeof_dns_additional_record
    some (p, buf)

/-! ## `resolv_read_name` -/

/-- Outcome of a run of `resolv_read_name`.

* `fault`: the run touched a byte outside `[buffer, bufend)` or outside
  `destination[0 .. dest_len)`;
* `nofuel`: the step budget of the embedding ran out;
* `ret nb_bytes dest offset ptrs`: the function returned `nb_bytes` (0 is the
  error value), `dest` lists the bytes stored from `destination[0]` on,
  `offset` is the last value stored in `*offset` (if any), and `ptrs` counts
  the compression pointers that were followed (one per recursive call). -/
inductive ReadName where
  | fault : ReadName
  | nofuel : ReadName
  | ret (nb_bytes : Nat) (dest : List Nat) (offset : Option Nat) (ptrs : Nat) : ReadName
deriving DecidableEq

/-- The loop after the `out:` label: walks the bytes from `name` up to
`bufend` and counts them until a NUL (counted once) or a pointer byte
(counted twice). The list is the content of `[name, bufend)`. -/
def read_name_offset : List Nat → Nat → Nat
  | [], offset => offset
  | c :: rest, offset =>
    if c &&& 0xc0 = 0xc0 then offset + 2
    else if c = 0 then offset + 1
    else read_name_offset rest (offset + 1)

/-- The body of `resolv_read_name` from the head of its `while (1)` loop, with
the loop state (`reader`, `nb_bytes`, the bytes stored so far in `dest`) made
explicit. One unit of `fuel` is spent per loop iteration and per recursive
call; `bufend` is `buffer.length`. -/
def resolv_read_name_fuel (buffer : List Nat) :
    Nat → Nat → Nat → Nat → List Nat → Int → Nat → ReadName
  | 0, _, _, _, _, _, _ => .nofuel
  | fuel + 1, name, reader, nb_bytes, dest, dest_len, depth =>
    if reader ≥ buffer.length then .ret 0 dest none 0
    else
      match buffer[reader]? with
      | none => .fault
      | some c =>
        if c &&& 0xc0 = 0xc0 then
          -- name compression is in use
          if reader + 1 ≥ buffer.length then .ret 0 dest none 0
          else
            match buffer[reader + 1]? with
            | none => .fault
            | some c1 =>
              -- "must point BEFORE current position"
              if c1 > reader then .ret 0 dest none 0
              else if depth > 100 then .ret 0 dest none 0
              else
                let target := (c &&& 0x3f) * 256 + c1
                match resolv_read_name_fuel buffer fuel target target 0 []
                    (dest_len - nb_bytes) (depth + 1) with
                | .ret n d offset ptrs =>
                  if n = 0 then .ret 0 (dest ++ d) offset (ptrs + 1)
                  else .ret (nb_bytes + n) (dest ++ d)
                    (some (read_name_offset (buffer.drop name) 0)) (ptrs + 1)
                | r => r
        else
          let label_len := c
          if label_len = 0 then
            .ret nb_bytes dest (some (read_name_offset (buffer.drop name) 0)) 0
          else if reader + label_len ≥ buffer.length
              ∨ ((nb_bytes + label_len : Nat) : Int) ≥ dest_len then
            .ret 0 dest none 0
          else
            -- +1 to take label len + label string
            let label_len := label_len + 1
            -- memcpy(dest, reader, label_len)
            if reader + label_len > buffer.length
                ∨ ((nb_bytes + label_len : Nat) : Int) > dest_len then .fault
            else
              resolv_read_name_fuel buffer fuel name (reader + label_len)
                (nb_bytes + label_len) (dest ++ (buffer.drop reader).take label_len)
                dest_len depth

/-- Step budget that is enough for every run: each level of recursion walks at
most `bufend - buffer + 1` positions and there are at most 102 levels. -/
def read_name_budget (buffer : List Nat) : Nat :=
  (buffer.length + 1) * 103

/-- The call `resolv_read_name(buffer, bufend, buffer + name, destination,
dest_len, &offset, depth)`. -/
def resolv_read_name (buffer : List Nat) (name : Nat) (dest_len : Int) (depth : Nat) :
    ReadName :=
  resolv_read_name_fuel buffer (read_name_budget buffer) name name 0 [] dest_len depth

/-! ## Label form of a list of labels -/

/-- Label form of a list of labels: each label preceded by its length byte
(the terminating NUL is not included). -/
def dn_labels (labels : List (List Nat)) : List Nat :=
  labels.flatMap (fun l => l.length :: l)

/-! ## Sample buffers -/

/-- A 259-byte buffer that starts with the compression pointer `c1 00`
(14-bit target offset 256) and holds the name `1 'a' 0` at offset 256. -/
def forward_pointer_buffer : List Nat :=
  [0xc1, 0x00] ++ List.replicate 254 0 ++ [1, 97, 0]

/-- The name `1 'a' 0` at offset 0 followed by `k` compression pointers, the
first one to offset 0 and each later one to the pointer before it; pointer
number `i` (from 0) sits at offset `3 + 2 * i`. -/
def pointer_chain (k : Nat) : List Nat :=
  [1, 97, 0] ++ (List.range k).flatMap (fun i => [0xc0, if i = 0 then 0 else 2 * i + 1])

/-! ## Dotted strings: `resolv_str_to_dn_label`, `resolv_dn_label_to_str`,
`resolv_hostname_validation` -/

/-- The dotted string `l1.l2. ... .lk` of a list of labels (46 is `'.'`). -/
def dot_join : List (List Nat) → List Nat
  | [] => []
  | [l] => l
  | l :: l2 :: ls => l ++ 46 :: dot_join (l2 :: ls)

/-- The dot-separated labels of a string, empty ones included. -/
def dot_labels : List Nat → List (List Nat)
  | [] => [[]]
  | c :: cs =>
    if c = 46 then [] :: dot_labels cs
    else
      match dot_labels cs with
      | [] => [[c]]
      | l :: ls => (c :: l) :: ls

/-- The `for` loop of `resolv_str_to_dn_label` from index `i` on; the list
holds `str[i .. str_len)`. The result is `none` on `return -1`, otherwise the
values of `i`, `offset` and the content of `dn` when the loop is left. A length
byte is stored modulo 256. -/
def str_to_dn_label_loop (str_len : Nat) :
    List Nat → Nat → Nat → List Nat → Option (Nat × Nat × List Nat)
  | [], i, offset, dn => some (i, offset, dn)
  | c :: rest, i, offset, dn =>
    if c = 46 then
      -- 2 or more consecutive dots is invalid
      if i = offset then none
      -- ignore trailing dot
      else if i + 2 = str_len then some (i + 1, offset, dn)
      else
        str_to_dn_label_loop str_len rest (i + 1) (i + 1)
          (dn.set offset ((i - offset) % 256))
    else
      str_to_dn_label_loop str_len rest (i + 1) offset (dn.set (i + 1) c)

/-- Turns a string into label form. `str` holds the bytes of the string,
terminating NUL included (at least `str_len` of them, as the source assumes);
`dn` is the destination buffer of `dn_len` bytes. Returns `none` for `-1`,
otherwise the returned length and the destination buffer. -/
def resolv_str_to_dn_label (str : List Nat) (str_len : Nat) (dn : List Nat) (dn_len : Nat) :
    Option (Nat × List Nat) :=
  if dn_len < str_len + 1 then none
  else
    match str_to_dn_label_loop str_len (str.take str_len) 0 0 dn with
    | none => none
    | some (i, offset, dn) =>
      let dn := dn.set offset (((i : Int) - offset - 1) % 256).toNat
      let dn := dn.set i 0
      some (i, dn)

/-- Outcome of a run of `resolv_dn_label_to_str`: `fault` when `memcpy` is
called with a negative size, which the run does not survive; otherwise `ret`
with the value returned, `none` for -1 or the number of bytes stored
(terminating NUL included) with those bytes. -/
inductive DnLabelToStr where
  | fault : DnLabelToStr
  | ret (r : Option (Nat × List Nat)) : DnLabelToStr
deriving DecidableEq

/-- The `for` loop of `resolv_dn_label_to_str` from index `i` on, `str` being
the bytes stored so far. Every iteration moves `i` forward, so `fuel` counts the
iterations left before `i` passes `dn_len - 1`. The length byte is read through
`const char *` into the `int sz`; `char` is taken to be signed, so a byte of
0x80 or more gives a negative `sz`, with which `memcpy` is called: `none`. -/
def dn_label_to_str_loop (dn : List Nat) (dn_len : Int) :
    Nat → Nat → List Nat → Option (List Nat)
  | 0, _, str => some str
  | fuel + 1, i, str =>
    if (i : Int) < dn_len - 1 then
      -- sz = dn[i]
      let c := dn.getD i 0
      if c ≥ 128 then none
      else
        let sz := c
        let str := if i ≠ 0 then str ++ [46] else str
        -- memcpy(ptr, dn+i+1, sz)
        let str := str ++ (dn.drop (i + 1)).take sz
        dn_label_to_str_loop dn dn_len fuel (i + sz + 1) str
    else some str

/-- Turns a label-form name into a dotted string. `dn` holds the label form
(at least the `dn_len` bytes the source reads). The loop runs at most
`dn_len - 1` times, which is the fuel it gets (see
`dn_label_to_str_loop_fuel`). -/
def resolv_dn_label_to_str (dn : List Nat) (dn_len : Int) (str_len : Int) : DnLabelToStr :=
  if str_len < dn_len - 1 then .ret none
  else
    match dn_label_to_str_loop dn dn_len (dn_len - 1).toNat 0 [] with
    | none => .fault
    | some str =>
      let str := str ++ [0]
      .ret (some (str.length, str))

/-- The character test of `resolv_hostname_validation`: `-`, `_`, `a`-`z`,
`A`-`Z`, `0`-`9`. -/
def hostname_char (c : Nat) : Bool :=
  c = 45 || c = 95 || (97 ≤ c && c ≤ 122) || (65 ≤ c && c ≤ 90) || (48 ≤ c && c ≤ 57)

/-- The two nested loops of `resolv_hostname_validation` as one walk over the
characters left, `i` being the number of characters of the current label seen
so far. -/
def hostname_validation_loop : List Nat → Nat → Bool
  | [], _ => true
  | c :: rest, i =>
    if c ≠ 46 ∧ i < DNS_MAX_LABEL_SIZE then
      if hostname_char c then hostname_validation_loop rest (i + 1) else false
    else if c ≠ 46 ∧ i ≥ DNS_MAX_LABEL_SIZE then false
    else hostname_validation_loop rest 0

/-- Validates a host name given as its characters (without the terminating
NUL): `true` is the source's 1, `false` its 0. -/
def resolv_hostname_validation (string : List Nat) : Bool :=
  if string.length > DNS_MAX_NAME_SIZE then false
  else hostname_validation_loop string 0

/-! ## Response validation: constants and data declared in headers outside `src/` -/

/-- Modelled from the spec: `DNS_RTYPE_A`, the record type A. -/
def DNS_RTYPE_A : Nat := 1

/-- Modelled from the spec: `DNS_RTYPE_CNAME`, the record type CNAME. -/
def DNS_RTYPE_CNAME : Nat := 5

/-- Modelled from the spec: `DNS_RTYPE_AAAA`, the record type AAAA. -/
def DNS_RTYPE_AAAA : Nat := 28

/-- Modelled from the spec: `DNS_RTYPE_SRV`, the record type SRV. -/
def DNS_RTYPE_SRV : Nat := 33

/-- Modelled from the spec: `DNS_FLAG_TRUNCATED`, the TC bit of the flags word. -/
def DNS_FLAG_TRUNCATED : Nat := 0x0200

/-- Modelled from the spec: `DNS_FLAG_REPLYCODE`, the mask of the RCODE (low 4
bits of the flags word). -/
def DNS_FLAG_REPLYCODE : Nat := 0xF

/-- Modelled from the spec: `DNS_RCODE_NO_ERROR`, RCODE 0. -/
def DNS_RCODE_NO_ERROR : Nat := 0

/-- Modelled from the spec: `DNS_RCODE_NX_DOMAIN`, RCODE 3. -/
def DNS_RCODE_NX_DOMAIN : Nat := 3

/-- Modelled from the spec: `DNS_RCODE_REFUSED`, RCODE 5. -/
def DNS_RCODE_REFUSED : Nat := 5

/-- Modelled from the spec: `DNS_MAX_QUERY_RECORDS`, one query per response. -/
def DNS_MAX_QUERY_RECORDS : Nat := 1

/-- Modelled from the spec: `AF_INET`, the family stored with an A record. -/
def AF_INET : Nat := 2

/-- Modelled from the spec: `AF_INET6`, the family stored with an AAAA record. -/
def AF_INET6 : Nat := 10

/-- Modelled from the spec: `TICK_ETERNITY`, the timestamp that is not set. -/
def TICK_ETERNITY : Nat := 0

/-- Modelled from the spec: `tick_add(now, timeout)`, the timestamp `timeout`
milliseconds after `now` (`last_seen + hold.obsolete`); the macro lives in a
header outside the sources and timestamps are plain numbers here. -/
def tick_add (now timeout : Nat) : Nat := now + timeout

/-- Modelled from the spec: `tick_is_lt(t1, t2)`, `t1` is before `t2`. -/
def tick_is_lt (t1 t2 : Nat) : Bool := decide (t1 < t2)

/-- Modelled from the spec: `tick_isset(t)`, the timestamp is set. -/
def tick_isset (t : Nat) : Bool := decide (t ≠ TICK_ETERNITY)

/-- Modelled from the spec: `tick_is_expired(timer, now)`; a timer that is set
is expired unless `now < timer`. -/
def tick_is_expired (timer now : Nat) : Bool := tick_isset timer && decide (timer ≤ now)

/-- Modelled from the spec: the validation codes `RSLV_RESP_*`. -/
inductive RSLV_RESP where
  | VALID | INVALID | ERROR | NX_DOMAIN | REFUSED | QUERY_COUNT_ERROR | ANCOUNT_ZERO
  | TRUNCATED | NO_EXPECTED_RECORD | CNAME_ERROR | INTERNAL | WRONG_NAME
deriving DecidableEq

/-- Modelled from the spec: the fields of `struct resolv_answer_item` other
than its `ar_item` pointer. `address` holds the bytes of `sin_addr` (A) or
`sin6_addr` (AAAA) and `family` is `address.sa_family`; `name` and `target`
hold the bytes before the terminating NUL. -/
structure resolv_answer_record where
  type : Nat
  class_ : Nat
  ttl : Nat
  priority : Nat
  weight : Nat
  port : Nat
  data_len : Nat
  family : Nat
  address : List Nat
  name : List Nat
  target : List Nat
  last_seen : Nat
deriving DecidableEq

/-- Modelled from the spec: `struct resolv_answer_item`, an answer and the
additional record attached to it, if any (the `ar_item` of an additional record
is never set). -/
structure resolv_answer_item extends resolv_answer_record where
  ar_item : Option resolv_answer_record
deriving DecidableEq

/-- Modelled from the spec: `struct resolv_query_item`; `name` is the content
of the name buffer, which `resolv_read_name` overwrites from its start. -/
structure resolv_query_item where
  name : List Nat
  type : Nat
  class_ : Nat
deriving DecidableEq

/-- Modelled from the spec: the header counters kept in `struct
resolv_response`. -/
structure resolv_response_header where
  id : Nat
  qdcount : Nat
  ancount : Nat
  nscount : Nat
  arcount : Nat
deriving DecidableEq

/-- Modelled from the spec: `struct resolv_response`. -/
structure resolv_response where
  header : resolv_response_header
  query_list : List resolv_query_item
  answer_list : List resolv_answer_item
deriving DecidableEq

/-- A record as `pool_alloc` hands it out. The source leaves the fields it does
not assign with whatever the allocator returns; they are shown as zero here,
and the allocation itself is taken to succeed. -/
def pool_alloc_answer_item : resolv_answer_item :=
  { type := 0, class_ := 0, ttl := 0, priority := 0, weight := 0, port := 0, data_len := 0,
    family := 0, address := [], name := [], target := [], last_seen := 0, ar_item := none }

/-! ## `resolv_hostname_cmp` -/

/-- The C-locale `tolower` on a byte. -/
def tolower (c : Nat) : Nat := if 65 ≤ c ∧ c ≤ 90 then c + 32 else c

/-- Compares the first `len` bytes of two names without regard to case: 0 when
they are the same, -1 otherwise. A byte past the end of a stored name reads as
0 (its terminating NUL). -/
def resolv_hostname_cmp (name1 name2 : List Nat) (len : Nat) : Int :=
  if (List.range len).all (fun i => tolower (name1.getD i 0) == tolower (name2.getD i 0))
  then 0 else -1

/-! ## `resolv_check_response`: the sweep of the answer list -/

/-- The effect of `resolv_check_response` on the answer list: an additional
record that is obsolete is dropped from its item, and an item that is obsolete
is removed. The updates of server slots made by the same function act on
servers and on the resolutions of those servers, not on this list. -/
def resolv_check_response (now hold_obsolete : Nat) (answer_list : List resolv_answer_item) :
    List resolv_answer_item :=
  answer_list.filterMap (fun item =>
    let item : resolv_answer_item :=
      match item.ar_item with
      | some ar_item =>
        -- clean up obsolete Additional record
        if tick_is_lt (tick_add ar_item.last_seen hold_obsolete) now then
          { item with ar_item := none }
        else item
      | none => item
    -- remove obsolete items
    if tick_is_lt (tick_add item.last_seen hold_obsolete) now then none
    else some item)

/-! ## `resolv_validate_dns_response` -/

/-- The 16-bit big-endian value `reader[0] * 256 + reader[1]`. -/
def read_n16 (resp : List Nat) (reader : Nat) : Nat :=
  resp.getD reader 0 * 256 + resp.getD (reader + 1) 0

/-- The values of the locals of `resolv_validate_dns_response` once the header
and the question have been read. -/
structure validate_question where
  flags : Nat
  reader : Nat
  query : resolv_query_item
  r_res : resolv_response

/-- The first part of `resolv_validate_dns_response`: header checks and the
parsing of the question. An early `return` gives the code and the response
structure as it stands. -/
def validate_header_question (resp : List Nat) (r_res : resolv_response)
    (max_answer_records : Int) : Except (RSLV_RESP × resolv_response) validate_question :=
  let bufend := resp.length
  let reader := 0
  -- query id
  if reader + 2 ≥ bufend then .error (.INVALID, r_res) else
  let r_res := { r_res with header := { r_res.header with id := read_n16 resp reader } }
  let reader := reader + 2
  -- flags and rcode
  if reader + 2 ≥ bufend then .error (.INVALID, r_res) else
  let flags := read_n16 resp reader
  if flags &&& DNS_FLAG_REPLYCODE ≠ DNS_RCODE_NO_ERROR then
    if flags &&& DNS_FLAG_REPLYCODE = DNS_RCODE_NX_DOMAIN then .error (.NX_DOMAIN, r_res)
    else if flags &&& DNS_FLAG_REPLYCODE = DNS_RCODE_REFUSED then .error (.REFUSED, r_res)
    else .error (.ERROR, r_res)
  else
  let reader := reader + 2
  -- 2 bytes for question count
  if reader + 2 ≥ bufend then .error (.INVALID, r_res) else
  let r_res := { r_res with header := { r_res.header with qdcount := read_n16 resp reader } }
  if r_res.header.qdcount ≠ 1 then .error (.QUERY_COUNT_ERROR, r_res) else
  if r_res.header.qdcount > DNS_MAX_QUERY_RECORDS then .error (.INVALID, r_res) else
  let reader := reader + 2
  -- 2 bytes for answer count
  if reader + 2 ≥ bufend then .error (.INVALID, r_res) else
  let r_res := { r_res with header := { r_res.header with ancount := read_n16 resp reader } }
  if r_res.header.ancount = 0 then .error (.ANCOUNT_ZERO, r_res) else
  if (r_res.header.ancount : Int) > max_answer_records then .error (.INVALID, r_res) else
  let reader := reader + 2
  -- 2 bytes authority count
  if reader + 2 ≥ bufend then .error (.INVALID, r_res) else
  let r_res := { r_res with header := { r_res.header with nscount := read_n16 resp reader } }
  let reader := reader + 2
  -- 2 bytes additional count
  if reader + 2 ≥ bufend then .error (.INVALID, r_res) else
  let r_res := { r_res with header := { r_res.header with arcount := read_n16 resp reader } }
  let reader := reader + 2
  -- parsing dns queries: qdcount is 1 here, the loop body runs once, on
  -- response_query_records[0], whose content is that of the last query parsed
  let query : resolv_query_item :=
    r_res.query_list.head?.getD { name := [], type := 0, class_ := 0 }
  let r_res := { r_res with query_list := [query] }
  match resolv_read_name resp reader DNS_MAX_NAME_SIZE 0 with
  | .ret len dest offset _ =>
    let query := { query with name := dest ++ query.name.drop dest.length }
    let r_res := { r_res with query_list := [query] }
    if len = 0 then .error (.INVALID, r_res) else
    let reader := reader + offset.getD 0
    -- 2 bytes for question type
    if reader + 2 ≥ bufend then .error (.INVALID, r_res) else
    let query := { query with type := read_n16 resp reader }
    let r_res := { r_res with query_list := [query] }
    let reader := reader + 2
    -- 2 bytes for question class
    if reader + 2 ≥ bufend then .error (.INVALID, r_res) else
    let query := { query with class_ := read_n16 resp reader }
    let r_res := { r_res with query_list := [query] }
    let reader := reader + 2
    .ok { flags := flags, reader := reader, query := query, r_res := r_res }
  | _ => .error (.INVALID, r_res)

/-- The lookup "did we already have this entry" of the answer loop: the list
with the first equal item refreshed (`last_seen`, and `weight` for SRV), or
`none` when no item is equal. -/
def answer_list_refresh (now : Nat) (answer_record : resolv_answer_item) :
    List resolv_answer_item → Option (List resolv_answer_item)
  | [] => none
  | tmp_record :: rest =>
    let found : Option resolv_answer_item :=
      if tmp_record.type ≠ answer_record.type then none
      else if tmp_record.type = DNS_RTYPE_A then
        if answer_record.address = tmp_record.address then some tmp_record else none
      else if tmp_record.type = DNS_RTYPE_AAAA then
        if answer_record.address = tmp_record.address then some tmp_record else none
      else if tmp_record.type = DNS_RTYPE_SRV then
        if answer_record.data_len = tmp_record.data_len
            ∧ resolv_hostname_cmp answer_record.target tmp_record.target
                answer_record.data_len = 0
            ∧ answer_record.port = tmp_record.port then
          some { tmp_record with weight := answer_record.weight }
        else none
      else none
    match found with
    | some tmp_record => some ({ tmp_record with last_seen := now } :: rest)
    | none => (answer_list_refresh now answer_record rest).map (fun l => tmp_record :: l)

/-- The locals that the loops over the records carry from one record to the
next. -/
structure validate_answers where
  reader : Nat
  previous_dname : List Nat
  nb_saved_records : Nat
  answer_list : List resolv_answer_item

/-- The fixed fields that follow the name of a resource record, and the reader
after them. -/
structure record_fields where
  type : Nat
  class_ : Nat
  ttl : Nat
  data_len : Nat
  reader : Nat

/-- The reads of "2 bytes for record type", "2 bytes for class", "4 bytes for
ttl" and "now reading data len" that both record loops of
`resolv_validate_dns_response` make after the name of a record, with their
bound checks; `none` is the jump to `invalid_resp`. -/
def read_record_fields (resp : List Nat) (reader : Nat) : Option record_fields :=
  let bufend := resp.length
  if reader ≥ bufend then none else
  -- 2 bytes for record type
  if reader + 2 > bufend then none else
  let type := read_n16 resp reader
  let reader := reader + 2
  -- 2 bytes for class
  if reader + 2 > bufend then none else
  let class_ := read_n16 resp reader
  let reader := reader + 2
  -- 4 bytes for ttl
  if reader + 4 > bufend then none else
  let ttl := resp.getD reader 0 * 16777216 + resp.getD (reader + 1) 0 * 65536
    + resp.getD (reader + 2) 0 * 256 + resp.getD (reader + 3) 0
  let reader := reader + 4
  -- now reading data len
  if reader + 2 > bufend then none else
  let data_len := read_n16 resp reader
  let reader := reader + 2
  if reader + data_len > bufend then none else
  some { type := type, class_ := class_, ttl := ttl, data_len := data_len, reader := reader }

/-- The `switch (answer_record->type)` "analyzing record content" of the answer
loop, for the record number `i` whose name is `tmpname` and whose fixed fields
are `f`: the record, the reader after it and the name the next record must
carry, or the code of the early `return`. -/
def answer_record_content (resp : List Nat) (ancount i : Nat) (previous_dname tmpname : List Nat)
    (f : record_fields) : Except RSLV_RESP (resolv_answer_item × Nat × List Nat) :=
  let reader := f.reader
  -- answer_record = pool_alloc(...); ar_item = NULL; last_seen = TICK_ETERNITY
  let answer_record : resolv_answer_item :=
    { pool_alloc_answer_item with
      ar_item := none, last_seen := TICK_ETERNITY, name := tmpname, type := f.type,
      class_ := f.class_, ttl := f.ttl, data_len := f.data_len }
  if f.type = DNS_RTYPE_A then
    if f.data_len ≠ 4 then .error .INVALID
    else
      let address := (resp.drop reader).take f.data_len
      .ok ({ answer_record with family := AF_INET, address := address },
           reader + f.data_len, previous_dname)
  else if f.type = DNS_RTYPE_CNAME then
    if i + 1 = ancount then .error .CNAME_ERROR
    else
      match resolv_read_name resp reader DNS_MAX_NAME_SIZE 0 with
      | .ret len tmpname _ _ =>
        if len = 0 then .error .INVALID
        else .ok ({ answer_record with target := tmpname }, reader + f.data_len, tmpname)
      | _ => .error .INVALID
  else if f.type = DNS_RTYPE_SRV then
    if f.data_len ≤ 6 then .error .INVALID
    else
      let priority := read_n16 resp reader
      let weight := read_n16 resp (reader + 2)
      let port := read_n16 resp (reader + 2 + 2)
      let reader := reader + 2 + 2 + 2
      match resolv_read_name resp reader DNS_MAX_NAME_SIZE 0 with
      | .ret len tmpname offset _ =>
        if len = 0 then .error .INVALID
        else
          .ok ({ answer_record with
                  priority := priority, weight := weight, port := port,
                  data_len := len, target := tmpname, ar_item := none },
               reader + offset.getD 0, previous_dname)
      | _ => .error .INVALID
  else if f.type = DNS_RTYPE_AAAA then
    if f.data_len ≠ 16 then .error .INVALID
    else
      let address := (resp.drop reader).take f.data_len
      .ok ({ answer_record with family := AF_INET6, address := address },
           reader + f.data_len, previous_dname)
  else .ok (answer_record, reader + f.data_len, previous_dname)

/-- The end of a pass of the answer loop, "lookup to see if we already had
this entry": an equal item is refreshed, otherwise the record is appended
with `last_seen = now` and no additional record. -/
def answer_list_store (now : Nat) (answer_record : resolv_answer_item)
    (answer_list : List resolv_answer_item) : List resolv_answer_item :=
  match answer_list_refresh now answer_record answer_list with
  | some refreshed => refreshed
  | none => answer_list ++ [{ answer_record with last_seen := now, ar_item := none }]

/-- One pass of the loop "now parsing response records" of
`resolv_validate_dns_response`, for the record number `i`. An early `return`
gives the code and the answer list as it stands. -/
def validate_answer_record (resp : List Nat) (now : Nat) (query_type ancount : Nat) (i : Nat)
    (st : validate_answers) : Except (RSLV_RESP × List resolv_answer_item) validate_answers :=
  let bufend := resp.length
  if st.reader ≥ bufend then .error (.INVALID, st.answer_list) else
  match resolv_read_name resp st.reader DNS_MAX_NAME_SIZE 0 with
  | .ret len tmpname offset _ =>
    if len = 0 then .error (.INVALID, st.answer_list) else
    -- check if the current record dname is valid
    if query_type ≠ DNS_RTYPE_SRV ∧ resolv_hostname_cmp st.previous_dname tmpname len ≠ 0 then
      if i = 0 then .error (.INVALID, st.answer_list)
      else .error (.CNAME_ERROR, st.answer_list)
    else
    match read_record_fields resp (st.reader + offset.getD 0) with
    | none => .error (.INVALID, st.answer_list)
    | some f =>
      match answer_record_content resp ancount i st.previous_dname tmpname f with
      | .error cause => .error (cause, st.answer_list)
      | .ok parsed =>
        .ok { reader := parsed.2.1, previous_dname := parsed.2.2,
              nb_saved_records := st.nb_saved_records + 1,
              answer_list := answer_list_store now parsed.1 st.answer_list }
  | _ => .error (.INVALID, st.answer_list)

/-- The loop "now parsing response records": `n` records are left to parse and
`i` is the loop counter. -/
def validate_answer_loop (resp : List Nat) (now : Nat) (query_type ancount : Nat) :
    Nat → Nat → validate_answers → Except (RSLV_RESP × List resolv_answer_item) validate_answers
  | 0, _, st => .ok st
  | n + 1, i, st =>
    match validate_answer_record resp now query_type ancount i st with
    | .error e => .error e
    | .ok st => validate_answer_loop resp now query_type ancount n (i + 1) st

/-- One pass of the loop "if we find Authority records, just skip them": the
reader after the record, `none` being the jump to `invalid_resp`. -/
def validate_authority_record (resp : List Nat) (reader : Nat) : Option Nat :=
  let bufend := resp.length
  match resolv_read_name resp reader DNS_MAX_NAME_SIZE 0 with
  | .ret len _ offset _ =>
    if len = 0 then some reader
    else
      let offset := offset.getD 0
      if reader + offset + 10 ≥ bufend then none
      else
        -- skip class, type and ttl
        let reader := reader + offset + 2 + 2 + 4
        -- read data len
        let len := read_n16 resp reader
        let reader := reader + 2
        if reader + len ≥ bufend then none
        else some (reader + len)
  | _ => some reader

/-- The loop over the `n` authority records left. -/
def validate_authority_loop (resp : List Nat) : Nat → Nat → Option Nat
  | 0, reader => some reader
  | n + 1, reader =>
    match validate_authority_record resp reader with
    | none => none
    | some reader => validate_authority_loop resp n reader

/-- The test that the lookup "did we already have this entry" of the
additional-record loop makes on the item `tmp_record`: it is an SRV item whose
additional record has the type of the new record, was not seen at this very
millisecond, belongs to the same name, and holds the same address. -/
def additional_record_found (now : Nat) (answer_record : resolv_answer_item) (len : Nat)
    (tmp_record : resolv_answer_item) : Bool :=
  match tmp_record.ar_item with
  | none => false
  | some ar_item =>
    if tmp_record.type ≠ DNS_RTYPE_SRV then false
    else if ar_item.type ≠ answer_record.type ∨ ar_item.last_seen = now
        ∨ len ≠ tmp_record.data_len
        ∨ resolv_hostname_cmp answer_record.name tmp_record.target tmp_record.data_len ≠ 0
    then false
    else if ar_item.type = DNS_RTYPE_A then
      decide (answer_record.address = ar_item.address)
    else if ar_item.type = DNS_RTYPE_AAAA then
      decide (answer_record.address = ar_item.address)
    else false

/-- The lookup "did we already have this entry" of the additional-record loop:
the list with the matching additional record refreshed, or `none`. -/
def additional_list_refresh (now : Nat) (answer_record : resolv_answer_item) (len : Nat) :
    List resolv_answer_item → Option (List resolv_answer_item)
  | [] => none
  | tmp_record :: rest =>
    if additional_record_found now answer_record len tmp_record then
      some ({ tmp_record with
                ar_item := tmp_record.ar_item.map (fun ar_item =>
                  { ar_item with last_seen := now }) } :: rest)
    else (additional_list_refresh now answer_record len rest).map (fun l => tmp_record :: l)

/-- The search for "the SRV record in the response list linked to this
additional record": the record is attached to the first SRV item without
additional record whose target is its name; otherwise it is dropped. -/
def additional_list_attach (answer_record : resolv_answer_record) :
    List resolv_answer_item → List resolv_answer_item
  | [] => []
  | tmp_record :: rest =>
    if tmp_record.type = DNS_RTYPE_SRV ∧ tmp_record.ar_item = none
        ∧ resolv_hostname_cmp tmp_record.target answer_record.name tmp_record.data_len = 0 then
      { tmp_record with ar_item := some answer_record } :: rest
    else tmp_record :: additional_list_attach answer_record rest

/-- The end of a pass of the additional-record loop, "lookup to see if we
already had this entry": a matching additional record is refreshed, otherwise
the record is attached to the SRV item it belongs to, with `last_seen = now`. -/
def additional_list_store (now : Nat) (answer_record : resolv_answer_item) (len : Nat)
    (answer_list : List resolv_answer_item) : List resolv_answer_item :=
  match additional_list_refresh now answer_record len answer_list with
  | some refreshed => refreshed
  | none =>
    additional_list_attach
      { answer_record.toresolv_answer_record with last_seen := now } answer_list

/-- One pass of the loop over the additional records of an SRV response. An
early `return` gives the code and the answer list as it stands; a `continue`
leaves the reader where the pass put it. -/
def validate_additional_record (resp : List Nat) (now : Nat) (st : validate_answers) :
    Except (RSLV_RESP × List resolv_answer_item) validate_answers :=
  let bufend := resp.length
  if st.reader ≥ bufend then .error (.INVALID, st.answer_list) else
  -- answer_record = pool_alloc(...); last_seen = TICK_ETERNITY
  match resolv_read_name resp st.reader DNS_MAX_NAME_SIZE 0 with
  | .ret len tmpname offset _ =>
    if len = 0 then .ok st
    else
    match read_record_fields resp (st.reader + offset.getD 0) with
    | none => .error (.INVALID, st.answer_list)
    | some f =>
      -- analyzing record content
      if f.type = DNS_RTYPE_A ∧ f.data_len ≠ 4 then .error (.INVALID, st.answer_list)
      else if f.type = DNS_RTYPE_AAAA ∧ f.data_len ≠ 16 then .error (.INVALID, st.answer_list)
      else if f.type ≠ DNS_RTYPE_A ∧ f.type ≠ DNS_RTYPE_AAAA then
        -- default: the record is released and the loop goes on from this reader
        .ok { st with reader := f.reader }
      else
      let family := if f.type = DNS_RTYPE_A then AF_INET else AF_INET6
      let address := (resp.drop f.reader).take f.data_len
      let answer_record : resolv_answer_item :=
        { pool_alloc_answer_item with
          last_seen := TICK_ETERNITY, name := tmpname, type := f.type, class_ := f.class_,
          ttl := f.ttl, data_len := f.data_len, family := family, address := address }
      .ok { st with reader := f.reader + f.data_len,
                    nb_saved_records := st.nb_saved_records + 1,
                    answer_list := additional_list_store now answer_record len st.answer_list }
  | _ => .ok st

/-- The loop over the `n` additional records left. -/
def validate_additional_loop (resp : List Nat) (now : Nat) :
    Nat → validate_answers → Except (RSLV_RESP × List resolv_answer_item) validate_answers
  | 0, st => .ok st
  | n + 1, st =>
    match validate_additional_record resp now st with
    | .error e => .error e
    | .ok st => validate_additional_loop resp now n st

/-- The response structure with the counts of records "we really own" and the
answer list stored in it. -/
def response_store (r_res : resolv_response) (ancount arcount : Nat)
    (answer_list : List resolv_answer_item) : resolv_response :=
  { header := { r_res.header with ancount := ancount, arcount := arcount },
    query_list := r_res.query_list,
    answer_list := answer_list }

/-- Validates the DNS response held in `resp` (`bufend` is its end) against the
response structure `r_res` of the resolution, at time `now` (`now_ms`), for a
section whose `hold.obsolete` is `hold_obsolete`. Returns the `RSLV_RESP_*`
code and the response structure as the call leaves it. -/
def resolv_validate_dns_response (resp : List Nat) (r_res : resolv_response)
    (max_answer_records : Int) (now hold_obsolete : Nat) : RSLV_RESP × resolv_response :=
  match validate_header_question resp r_res max_answer_records with
  | .error e => e
  | .ok q =>
    -- TRUNCATED flag must be checked after we could read the query type
    if q.query.type ≠ DNS_RTYPE_SRV ∧ q.flags &&& DNS_FLAG_TRUNCATED ≠ 0 then
      (.TRUNCATED, q.r_res)
    else
      -- now parsing response records
      match validate_answer_loop resp now q.query.type q.r_res.header.ancount
          q.r_res.header.ancount 0
          { reader := q.reader, previous_dname := q.query.name, nb_saved_records := 0,
            answer_list := q.r_res.answer_list } with
      | .error e =>
        (e.1, response_store q.r_res q.r_res.header.ancount q.r_res.header.arcount e.2)
      | .ok a =>
        -- header.ancount = nb_saved_records
        if q.query.type ≠ DNS_RTYPE_SRV then
          -- skip_parsing_additional_records: header.arcount = nb_saved_records
          (.VALID, response_store q.r_res a.nb_saved_records a.nb_saved_records
            (resolv_check_response now hold_obsolete a.answer_list))
        else
          match validate_authority_loop resp q.r_res.header.nscount a.reader with
          | none =>
            (.INVALID, response_store q.r_res a.nb_saved_records q.r_res.header.arcount
              a.answer_list)
          | some reader =>
            match validate_additional_loop resp now q.r_res.header.arcount
                { reader := reader, previous_dname := a.previous_dname, nb_saved_records := 0,
                  answer_list := a.answer_list } with
            | .error e =>
              (e.1, response_store q.r_res a.nb_saved_records q.r_res.header.arcount e.2)
            | .ok b =>
              (.VALID, response_store q.r_res a.nb_saved_records b.nb_saved_records
                (resolv_check_response now hold_obsolete b.answer_list))


/-! ## Equivalent answer items -/

/-- The fields of an answer item that the lookups "did we already have this
entry" compare: type, address, `data_len`, port and target. -/
def answer_key (a : resolv_answer_item) : Nat × List Nat × Nat × Nat × List Nat :=
  (a.type, a.address, a.data_len, a.port, a.target)

/-- Two answer items are equivalent when they have the same type and are either
A or AAAA items with the same address bytes, or SRV items with the same
`data_len`, the same port and targets equal up to ASCII case. -/
def answer_equivalent (a b : resolv_answer_item) : Prop :=
  a.type = b.type
    ∧ (((a.type = DNS_RTYPE_A ∨ a.type = DNS_RTYPE_AAAA) ∧ a.address = b.address)
       ∨ (a.type = DNS_RTYPE_SRV ∧ a.data_len = b.data_len ∧ a.port = b.port
          ∧ a.target.map tolower = b.target.map tolower))

instance (a b : resolv_answer_item) : Decidable (answer_equivalent a b) := by
  unfold answer_equivalent
  infer_instance

/-- No two items of the list are equivalent. -/
def no_equivalent_items (l : List resolv_answer_item) : Prop :=
  l.Pairwise (fun a b => ¬ answer_equivalent a b)


/-! ## Sample responses -/

/-- An empty response structure: zeroed header, no query item, no answer item. -/
def empty_response : resolv_response :=
  { header := { id := 0, qdcount := 0, ancount := 0, nscount := 0, arcount := 0 },
    query_list := [], answer_list := [] }

/-- A 45-byte response to the SRV question `a.`, whose second byte of header
flags is 0 and whose first byte of flags is `fl` (bit 1 of `fl` is the TC
flag): one SRV answer with priority 10, weight 5, port 80 and, as its target,
a compression pointer to offset 2, the flags word. -/
def srv_response_flags (fl : Nat) : List Nat :=
  [0x12, 0x34, fl, 0x00, 0, 1, 0, 1, 0, 0, 0, 0]
    ++ [1, 97, 0] ++ [0, 33, 0, 1]
    ++ [0xc0, 12, 0, 33, 0, 1, 0, 0, 1, 44, 0, 8, 0, 10, 0, 5, 0, 80, 0xc0, 2]

/-- A response (RCODE 0, TC clear, qdcount 1, ancount 1) to the A question
whose name has the label form `n`: the question, then one A answer with TTL
300 whose owner name is written as `owner` and whose 4 address bytes are `a`. -/
def a_response (n owner a : List Nat) : List Nat :=
  [0x12, 0x34, 0x81, 0x80, 0, 1, 0, 1, 0, 0, 0, 0]
    ++ n ++ [0] ++ [0, 1, 0, 1]
    ++ owner ++ [0, 1, 0, 1, 0, 0, 1, 44, 0, 4] ++ a

/-- An answer item of type A with the address bytes `a`, seen at `last_seen`. -/
def a_item (a : List Nat) (last_seen : Nat) : resolv_answer_item :=
  { pool_alloc_answer_item with
    type := DNS_RTYPE_A, family := AF_INET, address := a, last_seen := last_seen }


/-! ## Resolutions, requesters and resolvers sections

The section is held by value: `resolutions.curr` and `resolutions.wait` are
lists of resolutions, each resolution holds the list of its requesters, and a
pointer to a resolution is the place of the resolution in its list. The tree
`query_ids` is the set of the resolutions whose node `qid` is linked, looked up
by key. The owners of the requesters (servers, SRV requests, streams), the
clock, the buffer `trash` and the sockets are outside `resolvers.c`: what the
code reads from them is a parameter of the embedding. -/

/-- Modelled from the spec: the steps of a resolution, `RSLV_STEP_*`. -/
inductive RSLV_STEP where
  | NONE | RUNNING
deriving DecidableEq

/-- Modelled from the spec: the statuses of a resolution, `RSLV_STATUS_*`. -/
inductive RSLV_STATUS where
  | NONE | VALID | INVALID | NX | REFUSED | TIMEOUT | OTHER
deriving DecidableEq

/-- Modelled from the spec: the kinds of requester owner, `OBJ_TYPE_*`; `NONE`
stands for any other object type. -/
inductive OBJ_TYPE where
  | NONE | SERVER | SRVRQ | STREAM
deriving DecidableEq

/-- The success callbacks that `resolv_link_resolution` installs. -/
inductive requester_cb_t where
  | snr_resolution_cb | act_resolution_cb
deriving DecidableEq

/-- The error callbacks that `resolv_link_resolution` installs. -/
inductive requester_error_cb_t where
  | snr_resolution_error_cb | srvrq_resolution_error_cb | act_resolution_error_cb
deriving DecidableEq

/-- A requester: the type and the identity of its owner and its two callbacks.
Its field `resolution` is the resolution whose list holds it. -/
structure resolv_requester where
  owner_type : OBJ_TYPE
  owner : Nat
  requester_cb : requester_cb_t
  requester_error_cb : requester_error_cb_t
deriving DecidableEq

/-- A resolution. `hostname_dn` is `none` for a NULL pointer; `qid_key` is
`qid.key` and `qid_linked` tells whether the node `qid` is in the tree
`query_ids`; `try_` is the field `try`. -/
structure resolv_resolution where
  uuid : Nat
  hostname_dn : Option (List Nat)
  hostname_dn_len : Nat
  prefered_query_type : Nat
  query_type : Nat
  step : RSLV_STEP
  status : RSLV_STATUS
  try_ : Int
  query_id : Nat
  qid_key : Nat
  qid_linked : Bool
  last_query : Nat
  last_resolution : Nat
  last_valid : Nat
  nb_queries : Nat
  nb_responses : Nat
  requesters : List resolv_requester
  response : resolv_response
deriving DecidableEq

/-- The counters of a nameserver that `resolvers.c` updates. -/
structure dns_counters where
  snd_error : Nat
  too_big : Nat
  invalid : Nat
  outdated : Nat
  valid : Nat
  nx : Nat
  refused : Nat
  any_err : Nat
  cname_error : Nat
  truncated : Nat
  other : Nat
deriving DecidableEq

/-- The second argument of an error callback: `process_resolvers` passes the
status of the resolution and `resolv_process_responses` passes the code of the
response. -/
inductive error_code where
  | status (s : RSLV_STATUS)
  | resp (r : RSLV_RESP)
deriving DecidableEq

/-- What the code hands to the outside, in the order it does so: a datagram sent
to the nameserver number `ns`, and the calls of the callbacks of a requester;
`first` tells that the success callback got the counters of the nameserver (the
other requesters get NULL). -/
inductive resolv_event where
  | send (ns : Nat) (datagram : List Nat)
  | requester_cb (req : resolv_requester) (first : Bool)
  | requester_error_cb (req : resolv_requester) (code : error_code)
deriving DecidableEq

/-- A resolvers section with the file-scope variables `resolution_uuid` and
`resolv_query_id_seed`, the expiration date `t_expire` of its task and the
trace `events` of what it handed to the outside. -/
structure resolvers where
  accepted_payload_size : Nat
  resolve_retries : Int
  timeout_resolve : Nat
  timeout_retry : Nat
  hold_obsolete : Nat
  nameservers : List dns_counters
  curr : List resolv_resolution
  wait : List resolv_resolution
  t_expire : Nat
  resolution_uuid : Nat
  resolv_query_id_seed : Nat
  events : List resolv_event
deriving DecidableEq

/-- What the code reads from outside `resolvers.c`: the clock `now_ms`, the
size of the buffer `trash`, the fields `hostname_dn`, `hostname_dn_len` and
`family_prio` of the owner of a given type and identity, and the result of
`dns_send_nameserver` for a nameserver and a datagram (negative on failure). -/
structure resolv_env where
  now_ms : Nat
  trash_size : Nat
  hostname_dn : OBJ_TYPE → Nat → Option (List Nat)
  hostname_dn_len : OBJ_TYPE → Nat → Nat
  family_prio : OBJ_TYPE → Nat → Nat
  dns_send_nameserver : Nat → List Nat → Int

/-- A pointer to a resolution of the section: the list it is on, the
resolutions before it in that list, the resolution, and those after it. -/
structure res_ptr where
  on_curr : Bool
  before : List resolv_resolution
  res : resolv_resolution
  after : List resolv_resolution
deriving DecidableEq

/-- The first element of a list that satisfies `p`, with the elements before
it and those after it. -/
def list_find_split {α : Type} (p : α → Bool) : List α → Option (List α × α × List α)
  | [] => none
  | a :: l =>
    if p a then some ([], a, l)
    else
      match list_find_split p l with
      | some r => some (a :: r.1, r.2.1, r.2.2)
      | none => none

/-- The first resolution that satisfies `p`, searched in `resolutions.curr`
then in `resolutions.wait`. -/
def find_resolution (p : resolv_resolution → Bool) (s : resolvers) : Option res_ptr :=
  match list_find_split p s.curr with
  | some r => some { on_curr := true, before := r.1, res := r.2.1, after := r.2.2 }
  | none =>
    match list_find_split p s.wait with
    | some r => some { on_curr := false, before := r.1, res := r.2.1, after := r.2.2 }
    | none => none

/-- The section after `LIST_DELETE(&res->list)`. -/
def list_delete (s : resolvers) (r : res_ptr) : resolvers :=
  if r.on_curr then { s with curr := r.before ++ r.after }
  else { s with wait := r.before ++ r.after }

/-- The section once the fields of the resolution `r` points to are those of
`res`, the resolution staying where it is. -/
def store_resolution (s : resolvers) (r : res_ptr) (res : resolv_resolution) : resolvers :=
  if r.on_curr then { s with curr := r.before ++ res :: r.after }
  else { s with wait := r.before ++ res :: r.after }

/-- The lookup `eb32_lookup(&resolvers->query_ids, query_id)`: the resolution
whose node is in the tree with this key. -/
def eb32_lookup (s : resolvers) (query_id : Nat) : Option res_ptr :=
  find_resolution (fun res => res.qid_linked && res.qid_key == query_id) s

/-- The 2 bytes random generator for DNS query IDs, a xorshift on the 64-bit
seed: the value returned and the new seed. -/
def resolv_rnd16 (now_ms : Nat) (seed : Nat) : Nat × Nat :=
  let seed := if seed = 0 then now_ms else seed
  let seed := seed ^^^ ((seed <<< 13) % 2 ^ 64)
  let seed := seed ^^^ (seed >>> 7)
  let seed := seed ^^^ ((seed <<< 17) % 2 ^ 64)
  (seed % 2 ^ 16, seed)

/-- Resets some resolution parameters to initial values and deletes the query
ID from the tree of the section. -/
def resolv_reset_resolution (env : resolv_env) (resolution : resolv_resolution) :
    resolv_resolution :=
  { resolution with
    step := .NONE, try_ := 0, last_resolution := env.now_ms, nb_queries := 0,
    nb_responses := 0, query_type := resolution.prefered_query_type,
    qid_linked := false, query_id := 0, qid_key := 0 }

/-- The loop of `resolv_send_query` over the nameservers, from the nameserver
number `i` on: the counters, the number of queries sent and the datagrams
handed to `dns_send_nameserver`. -/
def send_query_loop (env : resolv_env) (query : Option (Nat × List Nat)) :
    Nat → List dns_counters → List dns_counters × Nat × List resolv_event
  | _, [] => ([], 0, [])
  | i, ns :: rest =>
    let r := send_query_loop env query (i + 1) rest
    match query with
    | none => ({ ns with snd_error := ns.snd_error + 1 } :: r.1, r.2.1, r.2.2)
    | some q =>
      if env.dns_send_nameserver i (q.2.take q.1) < 0 then
        ({ ns with snd_error := ns.snd_error + 1 } :: r.1, r.2.1,
          .send i (q.2.take q.1) :: r.2.2)
      else (ns :: r.1, r.2.1 + 1, .send i (q.2.take q.1) :: r.2.2)

/-- Sends a DNS query to the nameservers of the section for the resolution `r`
points to, whose fields are those of `r.res`, and pushes the resolution at the
end of the active list. -/
def resolv_send_query (env : resolv_env) (s : resolvers) (r : res_ptr) : resolvers :=
  -- update resolution
  let resolution :=
    { r.res with nb_queries := 0, nb_responses := 0, last_query := env.now_ms }
  let query := resolv_build_query resolution.query_id resolution.query_type
    s.accepted_payload_size (resolution.hostname_dn.getD []) resolution.hostname_dn_len
    env.trash_size
  let sent := send_query_loop env query 0 s.nameservers
  let resolution := { resolution with nb_queries := sent.2.1 }
  -- push the resolution at the end of the active list
  let s := list_delete s r
  { s with nameservers := sent.1, events := s.events ++ sent.2.2,
           curr := s.curr ++ [resolution] }

/-- The loop of `resolv_run_resolution` that draws a query id: `n` draws are
left; the id found (`none` for -1) and the seed after the draws. -/
def run_resolution_query_id (env : resolv_env) (s : resolvers) :
    Nat → Nat → Option Nat × Nat
  | 0, seed => (none, seed)
  | n + 1, seed =>
    let d := resolv_rnd16 env.now_ms seed
    if (eb32_lookup s d.1).isNone then (some d.1, d.2)
    else run_resolution_query_id env s n d.2

/-- Prepares and sends a DNS resolution for the resolution `r` points to.
Returns 1 if the query was sent, 0 if skipped and -1 if an error occurred. -/
def resolv_run_resolution (env : resolv_env) (s : resolvers) (r : res_ptr) : Int × resolvers :=
  let resolution := r.res
  -- avoid sending requests for resolutions that don't yet have an hostname
  if resolution.hostname_dn = none then (0, s)
  -- a resolution has already been started
  else if resolution.step ≠ .NONE then (0, s)
  else
    -- generates a new query id, at most 100 times
    let d := run_resolution_query_id env s 100 s.resolv_query_id_seed
    let s := { s with resolv_query_id_seed := d.2 }
    match d.1 with
    | none => (-1, s)
    | some query_id =>
      -- update resolution parameters
      let resolution :=
        { resolution with
          query_id := query_id, qid_key := query_id, step := .RUNNING,
          query_type := resolution.prefered_query_type, try_ := s.resolve_retries,
          qid_linked := true }
      -- send the DNS query
      let resolution := { resolution with try_ := resolution.try_ - 1 }
      (1, resolv_send_query env s { r with res := resolution })


/-- The test of `resolv_pick_resolution` on a resolution of a list: it has a
hostname, the same query type, the same length and the same hostname up to
case. -/
def pick_resolution_match (hostname_dn : List Nat) (hostname_dn_len : Nat) (query_type : Nat)
    (res : resolv_resolution) : Bool :=
  match res.hostname_dn with
  | none => false
  | some res_hostname_dn =>
    query_type == res.prefered_query_type
      && hostname_dn_len == res.hostname_dn_len
      && resolv_hostname_cmp hostname_dn res_hostname_dn hostname_dn_len == 0

/-- The resolution that `pool_zalloc` and the initialisation of
`resolv_pick_resolution` give. -/
def new_resolution (env : resolv_env) (s : resolvers) (hostname_dn : Option (List Nat))
    (hostname_dn_len : Nat) (query_type : Nat) : resolv_resolution :=
  { uuid := s.resolution_uuid, hostname_dn := hostname_dn, hostname_dn_len := hostname_dn_len,
    prefered_query_type := query_type, query_type := query_type,
    step := .NONE, status := .NONE, try_ := 0, query_id := 0, qid_key := 0,
    qid_linked := false, last_query := 0, last_resolution := 0, last_valid := env.now_ms,
    nb_queries := 0, nb_responses := 0, requesters := [],
    response := { header := { id := 0, qdcount := 0, ancount := 0, nscount := 0, arcount := 0 },
                  query_list := [], answer_list := [] } }

/-- Looks for an existing resolution for this hostname and query type in
`resolutions.curr` then in `resolutions.wait`, and otherwise gets a new one,
put at the end of `resolutions.wait`. The allocation is taken to succeed.
Returns the resolution and the section. -/
def resolv_pick_resolution (env : resolv_env) (s : resolvers) (hostname_dn : Option (List Nat))
    (hostname_dn_len : Nat) (query_type : Nat) : res_ptr × resolvers :=
  let found : Option res_ptr :=
    match hostname_dn with
    | none => none
    | some hostname_dn =>
      find_resolution (pick_resolution_match hostname_dn hostname_dn_len query_type) s
  match found with
  | some r => (r, s)
  | none =>
    -- from_pool: no resolution could be found, so let's allocate a new one
    let res := new_resolution env s hostname_dn hostname_dn_len query_type
    ({ on_curr := false, before := s.wait, res := res, after := [] },
     { s with resolution_uuid := s.resolution_uuid + 1, wait := s.wait ++ [res] })

/-- The resolution after `resolv_purge_resolution_answer_records`. -/
def resolv_purge_resolution_answer_records (resolution : resolv_resolution) :
    resolv_resolution :=
  { resolution with response := { resolution.response with answer_list := [] } }

/-- Releases a resolution from its requesters and moves it back to the pool:
the section without it. Its requesters go with it: their field `resolution`
is NULL. -/
def resolv_free_resolution (s : resolvers) (r : res_ptr) : resolvers :=
  list_delete s r

/-- The `switch (requester_type)` of `resolv_link_resolution` and the requester
it sets up for the owner: the query type and the requester, with its callbacks,
or `none` for an owner of another type. -/
def link_requester (env : resolv_env) (requester : Nat) (requester_type : OBJ_TYPE) :
    Option (Nat × resolv_requester) :=
  match requester_type with
  | .SERVER =>
    some (if env.family_prio .SERVER requester = AF_INET then DNS_RTYPE_A else DNS_RTYPE_AAAA,
          { owner_type := .SERVER, owner := requester,
            requester_cb := .snr_resolution_cb,
            requester_error_cb := .snr_resolution_error_cb })
  | .SRVRQ =>
    some (DNS_RTYPE_SRV,
          { owner_type := .SRVRQ, owner := requester,
            requester_cb := .snr_resolution_cb,
            requester_error_cb := .srvrq_resolution_error_cb })
  | .STREAM =>
    some (if env.family_prio .STREAM requester = AF_INET then DNS_RTYPE_A else DNS_RTYPE_AAAA,
          { owner_type := .STREAM, owner := requester,
            requester_cb := .act_resolution_cb,
            requester_error_cb := .act_resolution_error_cb })
  | .NONE => none

/-- Links a requester (the server, SRV request or stream number `requester`)
with a resolution. Returns 0 on success, -1 otherwise, and the section. The
requester of the owner is taken not to be on the list of a resolution, and
the allocations to succeed. -/
def resolv_link_resolution (env : resolv_env) (s : resolvers) (requester : Nat)
    (requester_type : OBJ_TYPE) : Int × resolvers :=
  match link_requester env requester requester_type with
  | none => (-1, s)
  | some target =>
    -- get a resolution from the resolvers' wait queue or pool
    let picked := resolv_pick_resolution env s (env.hostname_dn requester_type requester)
      (env.hostname_dn_len requester_type requester) target.1
    -- req->resolution = res; LIST_APPEND(&res->requesters, &req->list)
    (0, store_resolution picked.2 picked.1
          { picked.1.res with requesters := picked.1.res.requesters ++ [target.2] })

/-- Removes a requester from its resolution. If `safe` is not 0 the resolution
is not released when it loses its last requester. -/
def resolv_unlink_resolution (env : resolv_env) (s : resolvers) (requester : resolv_requester)
    (safe : Int) : resolvers :=
  -- nothing to do if the requester has no resolution
  match find_resolution (fun res => decide (requester ∈ res.requesters)) s with
  | none => s
  | some r =>
    -- clean up the requester
    let res := { r.res with requesters := r.res.requesters.erase requester }
    -- we need to find another requester linked on this resolution
    match res.requesters with
    | [] =>
      if safe ≠ 0 then
        -- don't release it yet
        let res := resolv_reset_resolution env res
        let res := { res with hostname_dn := none, hostname_dn_len := 0 }
        store_resolution s r (resolv_purge_resolution_answer_records res)
      else resolv_free_resolution s r
    | req :: _ =>
      -- move hostname_dn related pointers to the next requester
      let res :=
        match req.owner_type with
        | .NONE => { res with hostname_dn := none, hostname_dn_len := 0 }
        | t =>
          { res with hostname_dn := env.hostname_dn t req.owner,
                     hostname_dn_len := env.hostname_dn_len t req.owner }
      store_resolution s r res

/-- Updates the timeout of the task of the section for its next wake up. -/
def resolv_update_resolvers_timeout (env : resolv_env) (s : resolvers) : resolvers :=
  let next := tick_add env.now_ms s.timeout_resolve
  let next :=
    match s.curr with
    | [] => next
    | res :: _ => min next (tick_add res.last_query s.timeout_retry)
  let next := s.wait.foldl
    (fun next res => min next (tick_add res.last_resolution s.timeout_resolve)) next
  { s with t_expire := next }


/-! ## `process_resolvers` -/

/-- One pass of the loop of `process_resolvers` over the active list, on the
resolution `res` at the head of `resolutions.curr`, `rest` being the
resolutions after it: the section after the pass, and whether the loop goes
on. The loop is a `list_for_each_entry_safe`: the next resolution is taken
before the pass, so a resolution that the pass pushes back at the end of a
list it was the last of ends the loop. Every pass that does not `break` takes
the resolution away from the head, so the loop always works at the head. The
error callbacks are taken not to touch the lists. -/
def process_curr_resolution (env : resolv_env) (s : resolvers) (res : resolv_resolution)
    (rest : List resolv_resolution) : resolvers × Bool :=
  let r : res_ptr := { on_curr := true, before := [], res := res, after := rest }
  if res.requesters = [] then (resolv_free_resolution s r, true)
  else
    -- when we find the first resolution in the future, then we can stop here
    let exp := tick_add res.last_query s.timeout_retry
    if ¬ tick_is_expired exp env.now_ms then (s, false)
    else if res.try_ = 0 then
      -- notify the result to the requesters
      let res := if res.nb_responses = 0 then { res with status := .TIMEOUT } else res
      let events := res.requesters.map
        (fun req => resolv_event.requester_error_cb req (.status res.status))
      -- clean up resolution info and remove it from the current list
      let res := resolv_reset_resolution env res
      let s := list_delete s r
      ({ s with events := s.events ++ events, wait := s.wait ++ [res] }, true)
    else
      -- otherwise resend the DNS query and requeue the resolution
      let res :=
        if res.nb_responses = 0 ∨ res.prefered_query_type ≠ res.query_type then
          -- no response received (a real timeout) or fallback already done
          { res with query_type := res.prefered_query_type, try_ := res.try_ - 1 }
        else if res.prefered_query_type = DNS_RTYPE_A then
          { res with query_type := DNS_RTYPE_AAAA }
        else if res.prefered_query_type = DNS_RTYPE_AAAA then
          { res with query_type := DNS_RTYPE_A }
        else { res with try_ := res.try_ - 1 }
      (resolv_send_query env s { r with res := res }, decide (rest ≠ []))

/-- The loop of `process_resolvers` over the active list; `none` when the
`fuel` passes allowed are not enough. -/
def process_curr_loop (env : resolv_env) : Nat → resolvers → Option resolvers
  | 0, _ => none
  | fuel + 1, s =>
    match s.curr with
    | [] => some s
    | res :: rest =>
      let r := process_curr_resolution env s res rest
      if r.2 then process_curr_loop env fuel r.1 else some r.1

/-- One pass of the loop of `process_resolvers` over the wait list, on the
resolution `res` that sits at position `k` of `resolutions.wait`: the section
after the pass and the position of the next resolution, `none` when the loop is
over because the pass pushed back at the end of the list the resolution that
was the last of it. -/
def process_wait_resolution (env : resolv_env) (s : resolvers) (k : Nat)
    (res : resolv_resolution) : resolvers × Option Nat :=
  let r : res_ptr :=
    { on_curr := false, before := s.wait.take k, res := res, after := s.wait.drop (k + 1) }
  if res.requesters = [] then (resolv_free_resolution s r, some k)
  else
    let exp := tick_add res.last_resolution s.timeout_resolve
    if tick_isset res.last_resolution ∧ ¬ tick_is_expired exp env.now_ms then (s, some (k + 1))
    else
      let ran := resolv_run_resolution env s r
      if ran.1 ≠ 1 then
        let res := { res with last_resolution := env.now_ms }
        let s := list_delete ran.2 r
        ({ s with wait := s.wait ++ [res] }, if r.after = [] then none else some k)
      else (ran.2, some k)

/-- The loop of `process_resolvers` over the wait list, from position `k` on;
`none` when the `fuel` passes allowed are not enough. -/
def process_wait_loop (env : resolv_env) : Nat → resolvers → Nat → Option resolvers
  | 0, _, _ => none
  | fuel + 1, s, k =>
    match s.wait.drop k with
    | [] => some s
    | res :: _ =>
      let r := process_wait_resolution env s k res
      match r.2 with
      | none => some r.1
      | some k => process_wait_loop env fuel r.1 k

/-- Processes DNS resolutions: checks the active list to detect expired
resolutions and retry them if possible, else reports a timeout; then checks the
wait list to trigger new resolutions. Each loop is allowed `fuel` passes;
`none` when they are not enough. -/
def process_resolvers (env : resolv_env) (fuel : Nat) (s : resolvers) : Option resolvers :=
  match process_curr_loop env fuel s with
  | none => none
  | some s =>
    match process_wait_loop env fuel s 0 with
    | none => none
    | some s => some (resolv_update_resolvers_timeout env s)

/-! ## `resolv_process_responses` -/

/-- The update `f` of the counters of the nameserver number `ns`. -/
def ns_counters (f : dns_counters → dns_counters) (ns : Nat) (s : resolvers) : resolvers :=
  match s.nameservers[ns]? with
  | none => s
  | some c => { s with nameservers := s.nameservers.set ns (f c) }

/-- A call of `resolv_link_resolution` or `resolv_unlink_resolution`. -/
inductive resolv_call where
  | link (requester : Nat) (requester_type : OBJ_TYPE)
  | unlink (requester : resolv_requester) (safe : Int)
deriving DecidableEq

/-- The section after a list of calls. -/
def resolv_apply_calls (env : resolv_env) : List resolv_call → resolvers → resolvers
  | [], s => s
  | .link requester requester_type :: calls, s =>
    resolv_apply_calls env calls (resolv_link_resolution env s requester requester_type).2
  | .unlink requester safe :: calls, s =>
    resolv_apply_calls env calls (resolv_unlink_resolution env s requester safe)

/-- The label `report_res_error`: the error callbacks of the requesters are
called with the code, the resolution is reset and moved to the wait list. -/
def report_res_error (env : resolv_env) (s : resolvers) (r : res_ptr) (dns_resp : RSLV_RESP) :
    resolvers :=
  let events := r.res.requesters.map
    (fun req => resolv_event.requester_error_cb req (.resp dns_resp))
  let res := resolv_reset_resolution env r.res
  let s := list_delete s r
  { s with events := s.events ++ events, wait := s.wait ++ [res] }

/-- The status of the resolution and the counter of the nameserver for a code
other than `RSLV_RESP_VALID`, as the `switch (dns_resp)` sets them. -/
def response_error_status (dns_resp : RSLV_RESP) :
    RSLV_STATUS × (dns_counters → dns_counters) :=
  match dns_resp with
  | .INVALID | .QUERY_COUNT_ERROR | .WRONG_NAME =>
    (.INVALID, fun c => { c with invalid := c.invalid + 1 })
  | .NX_DOMAIN => (.NX, fun c => { c with nx := c.nx + 1 })
  | .REFUSED => (.REFUSED, fun c => { c with refused := c.refused + 1 })
  | .ANCOUNT_ZERO => (.OTHER, fun c => { c with any_err := c.any_err + 1 })
  | .CNAME_ERROR => (.OTHER, fun c => { c with cname_error := c.cname_error + 1 })
  | .TRUNCATED => (.OTHER, fun c => { c with truncated := c.truncated + 1 })
  | _ => (.OTHER, fun c => { c with other := c.other + 1 })

/-- What `resolv_process_responses` does of a message whose code `dns_resp` is
not `RSLV_RESP_VALID`, for the resolution `r` points to, whose fields are those
of `r.res` (the response has been counted and stored). -/
def process_response_error (env : resolv_env) (ns : Nat) (s : resolvers) (r : res_ptr)
    (dns_resp : RSLV_RESP) : resolvers :=
  let st := response_error_status dns_resp
  let res : resolv_resolution := { r.res with status := st.1 }
  let s := ns_counters st.2 ns s
  -- wait all nameservers response to handle errors
  if res.nb_responses < res.nb_queries then store_resolution s r res
  -- process error codes
  else if res.prefered_query_type ≠ res.query_type then
    -- the fallback on the query type was already performed, so check the try
    -- counter: if it falls to 0, we can report an error, else wait the next attempt
    if res.try_ = 0 then report_res_error env s { r with res := res } dns_resp
    else store_resolution s r res
  else
    -- fallback from A to AAAA or the opposite and re-send the resolution
    -- immediately; try counter is not decremented
    if res.prefered_query_type = DNS_RTYPE_A then
      resolv_send_query env s { r with res := { res with query_type := DNS_RTYPE_AAAA } }
    else if res.prefered_query_type = DNS_RTYPE_AAAA then
      resolv_send_query env s { r with res := { res with query_type := DNS_RTYPE_A } }
    else store_resolution s r res

/-- What `resolv_process_responses` does of a message that is valid, for the
resolution `r` points to: the name of the query is checked against the
hostname of the resolution (a NULL hostname reads as zero bytes), then the
callbacks of the requesters are called, the first one with the counters of the
nameserver, and the resolution is reset and moved to the wait list. The
callbacks are taken not to touch the lists. -/
def process_response_valid (env : resolv_env) (ns : Nat) (s : resolvers) (r : res_ptr) :
    resolvers :=
  let res := r.res
  let wrong_name : Bool :=
    match res.response.query_list with
    | [] => false
    | query :: _ =>
      resolv_hostname_cmp query.name (res.hostname_dn.getD []) res.hostname_dn_len != 0
  if wrong_name then
    let s := ns_counters (fun c => { c with other := c.other + 1 }) ns s
    report_res_error env s r .WRONG_NAME
  else
    -- so the resolution succeeded
    let res : resolv_resolution := { res with status := .VALID, last_valid := env.now_ms }
    let s := ns_counters (fun c => { c with valid := c.valid + 1 }) ns s
    -- report_res_success
    let events : List resolv_event :=
      match res.requesters with
      | [] => []
      | req :: reqs =>
        .requester_cb req true :: reqs.map (fun req => resolv_event.requester_cb req false)
    let res := resolv_reset_resolution env res
    let s := list_delete s r
    { s with events := s.events ++ events, wait := s.wait ++ [res] }

/-- One pass of the loop of `resolv_process_responses`, for the message `buf`
received from the nameserver number `ns`. `header_size` and `min_record_size`
are the constants `DNS_HEADER_SIZE` and `DNS_MIN_RECORD_SIZE`, which are not in
`resolvers.c`. `calls` are the calls of `resolv_unlink_resolution` and
`resolv_link_resolution` that `resolv_check_response` makes, at the end of a
valid response, for the servers of the proxies of the SRV requests: which
servers they are depends on the proxies, outside `resolvers.c`. These calls
are for requesters of other resolutions; if they released the resolution of
the message, the pass ends there. -/
def process_response (env : resolv_env) (header_size min_record_size : Nat) (ns : Nat)
    (buf : List Nat) (calls : List resolv_call) (s : resolvers) : resolvers :=
  let buflen := buf.length
  -- message too big
  if buflen > s.accepted_payload_size then
    ns_counters (fun c => { c with too_big := c.too_big + 1 }) ns s
  -- read the query id from the packet (16 bits)
  else if 2 > buflen then
    ns_counters (fun c => { c with invalid := c.invalid + 1 }) ns s
  else
    let query_id := buf.getD 0 0 * 256 + buf.getD 1 0
    -- search the query_id in the pending resolution tree
    match eb32_lookup s query_id with
    | none =>
      -- unknown query id means an outdated response and can be safely ignored
      ns_counters (fun c => { c with outdated := c.outdated + 1 }) ns s
    | some r =>
      -- number of responses received
      let res := { r.res with nb_responses := r.res.nb_responses + 1 }
      let max_answer_records : Int :=
        Int.tdiv ((s.accepted_payload_size : Int) - header_size) min_record_size
      let v := resolv_validate_dns_response buf res.response max_answer_records env.now_ms
        s.hold_obsolete
      let res := { res with response := v.2 }
      if v.1 ≠ .VALID then process_response_error env ns s { r with res := res } v.1
      else
        let s := resolv_apply_calls env calls (store_resolution s r res)
        match eb32_lookup s query_id with
        | none => s
        | some r => process_response_valid env ns s r

/-- The loop of `resolv_process_responses` over the messages received from the
nameserver number `ns`, each with the calls that `resolv_check_response` makes
for it, then the update of the timeout of the task. -/
def resolv_process_responses (env : resolv_env) (header_size min_record_size : Nat) (ns : Nat)
    (msgs : List (List Nat × List resolv_call)) (s : resolvers) : resolvers :=
  resolv_update_resolvers_timeout env
    (msgs.foldl (fun s m => process_response env header_size min_record_size ns m.1 m.2 s) s)


/-! ## Invariant of a section -/

/-- The state of the resolutions of a section, as the operations keep it: a
resolution has its query id in `query_ids` exactly when its step is RUNNING;
every resolution on `resolutions.wait` has the step NONE; a resolution on
`resolutions.curr` has the step RUNNING, or it has the step NONE and then it
has no requester and no hostname. -/
def resolvers_invariant (s : resolvers) : Prop :=
  (∀ R ∈ s.curr ++ s.wait, R.qid_linked = true ↔ R.step = .RUNNING)
    ∧ (∀ R ∈ s.wait, R.step = .NONE)
    ∧ (∀ R ∈ s.curr, R.step = .RUNNING ∨ (R.requesters = [] ∧ R.hostname_dn = none))

instance (s : resolvers) : Decidable (resolvers_invariant s) := by
  unfold resolvers_invariant
  infer_instance

/-- A pointer points into the section: the list it names is made of what it
holds. -/
def res_ptr_valid (s : resolvers) (r : res_ptr) : Prop :=
  if r.on_curr then s.curr = r.before ++ r.res :: r.after
  else s.wait = r.before ++ r.res :: r.after

/-- The state of a resolution of `resolutions.curr` under the invariant. -/
def curr_ok (R : resolv_resolution) : Prop :=
  (R.step = .RUNNING ∧ R.qid_linked = true)
    ∨ (R.step = .NONE ∧ R.qid_linked = false ∧ R.requesters = [] ∧ R.hostname_dn = none)

/-- The state of a resolution of `resolutions.wait` under the invariant. -/
def wait_ok (R : resolv_resolution) : Prop :=
  R.step = .NONE ∧ R.qid_linked = false

/-- The invariant on the two lists of a section. -/
def lists_ok (curr wait : List resolv_resolution) : Prop :=
  (∀ R ∈ curr, curr_ok R) ∧ (∀ R ∈ wait, wait_ok R)


/-! ## Sample section -/

/-- An environment at the date `now`: the owner number `owner` has the hostname
`names owner` in label form and prefers IPv4, the buffer `trash` has 64 bytes
and every datagram is sent in full. -/
def sample_env_of (names : Nat → List Nat) (now : Nat) : resolv_env :=
  { now_ms := now, trash_size := 64,
    hostname_dn := fun _ owner => some (names owner),
    hostname_dn_len := fun _ owner => (names owner).length,
    family_prio := fun _ _ => AF_INET,
    dns_send_nameserver := fun _ datagram => datagram.length }

/-- The environment at the date `now` in which the owner number 1 has the
hostname `www.ab`, the owner number 2 the hostname `www.ac`, and so on. -/
def sample_env (now : Nat) : resolv_env :=
  sample_env_of (fun owner => [3, 119, 119, 119, 2, 97, 97 + owner]) now

/-- The environment at the date `now` in which the owner number 1 has the
hostname `www.ab` and every other owner the hostname `WWW.AB`. -/
def sample_env_case (now : Nat) : resolv_env :=
  sample_env_of
    (fun owner =>
      if owner = 1 then [3, 119, 119, 119, 2, 97, 98] else [3, 87, 87, 87, 2, 65, 66]) now

/-- A section without resolution, with one nameserver, `resolve_retries` 3 and
the timeouts `resolve` and `retry` of 1000 ms. -/
def sample_section : resolvers :=
  { accepted_payload_size := 512, resolve_retries := 3, timeout_resolve := 1000,
    timeout_retry := 1000, hold_obsolete := 0,
    nameservers := [{ snd_error := 0, too_big := 0, invalid := 0, outdated := 0, valid := 0,
                      nx := 0, refused := 0, any_err := 0, cname_error := 0, truncated := 0,
                      other := 0 }],
    curr := [], wait := [], t_expire := 0, resolution_uuid := 1, resolv_query_id_seed := 0,
    events := [] }

/-- The requester of the server number `owner`. -/
def server_requester (owner : Nat) : resolv_requester :=
  { owner_type := .SERVER, owner := owner, requester_cb := .snr_resolution_cb,
    requester_error_cb := .snr_resolution_error_cb }

/-- The sample section once the server number 1 is linked, at the date 500. -/
def sample_section_linked : resolvers :=
  (resolv_link_resolution (sample_env 500) sample_section 1 .SERVER).2

/-- The sample section after the tick of the date 1000 that follows: the
resolution of the server is running. -/
def sample_section_running : resolvers :=
  (process_resolvers (sample_env 1000) 8 sample_section_linked).getD sample_section

/-- The sample section once the servers number 1 and 2, which have different
hostnames, are linked at the date 500, after the tick of the date 1000: their
two resolutions are running. -/
def sample_section_two_running : resolvers :=
  (process_resolvers (sample_env 1000) 8
    (resolv_link_resolution (sample_env 500) sample_section_linked 2 .SERVER).2).getD
    sample_section

/-- The section above once the server number 2 is unlinked with `safe` set, at
the date 1200. -/
def sample_section_two_unlinked : resolvers :=
  resolv_unlink_resolution (sample_env 1200) sample_section_two_running (server_requester 2) 1

/-- The running resolution of `sample_section_running`. -/
def sample_resolution : resolv_resolution :=
  sample_section_running.curr.getD 0 (new_resolution (sample_env 0) sample_section none 0 0)

/-- A response with the query id `query_id` and the RCODE 3 (NXDOMAIN) to the A
question `www.ab`, without answer. -/
def nx_response (query_id : Nat) : List Nat :=
  [query_id / 256, query_id % 256, 0x81, 0x83, 0, 1, 0, 0, 0, 0, 0, 0]
    ++ [3, 119, 119, 119, 2, 97, 98, 0] ++ [0, 1, 0, 1]

/-- The state in which the loop of `process_resolvers` over the active list
leaves that list, at the date `now` and for the timeout `timeout_retry`: every
resolution has a requester, or the first resolution has a requester and its
timer `last_query + timeout.retry` has not expired. -/
def curr_swept (now timeout_retry : Nat) (curr : List resolv_resolution) : Prop :=
  (∀ R ∈ curr, R.requesters ≠ [])
    ∨ ∃ H rest, curr = H :: rest ∧ H.requesters ≠ []
        ∧ tick_is_expired (tick_add H.last_query timeout_retry) now = false


/-- The datagrams that a call of `resolv_send_query` hands to
`dns_send_nameserver` when the section has `n` nameservers: the query built,
once for each nameserver in turn, and nothing when the query does not fit the
buffer. -/
def query_events (query : Option (Nat × List Nat)) (n : Nat) : List resolv_event :=
  match query with
  | none => []
  | some q => (List.range n).map (fun i => resolv_event.send i (q.2.take q.1))


/-- The section after the ticks of the task of the section at the dates `ts`,
each loop of each tick being allowed `fuel` passes. -/
def process_resolvers_at (env : resolv_env) (fuel : Nat) : List Nat → resolvers → Option resolvers
  | [], s => some s
  | t :: ts, s =>
    match process_resolvers { env with now_ms := t } fuel s with
    | none => none
    | some s => process_resolvers_at env fuel ts s

/-- Each date of the list is one at which the timer started at the date before
it (`t0` for the first one), for `timeout` milliseconds, has expired. -/
def expired_dates (timeout : Nat) : Nat → List Nat → Prop
  | _, [] => True
  | t0, t :: ts => tick_is_expired (tick_add t0 timeout) t = true ∧ expired_dates timeout t ts

instance expired_dates_decidable (timeout : Nat) :
    ∀ (t0 : Nat) (ts : List Nat), Decidable (expired_dates timeout t0 ts)
  | _, [] => isTrue trivial
  | t0, t :: ts =>
    match expired_dates_decidable timeout t ts with
    | isTrue h =>
      if h1 : tick_is_expired (tick_add t0 timeout) t = true then isTrue ⟨h1, h⟩
      else isFalse (fun hc => h1 hc.1)
    | isFalse h => isFalse (fun hc => h hc.2)

/-- The state of a section `sj` whose only resolution is the resolution `R` of
the section `s`, running on the active list with the query id `q`, `tries`
tries left and no response, its query last sent at the date `last_query`; the
configuration and the number of nameservers are those of `s`. -/
def retry_running (s : resolvers) (R : resolv_resolution) (q : Nat) (tries : Int)
    (last_query : Nat) (events : List resolv_event) (sj : resolvers) : Prop :=
  ∃ Rj, sj.curr = [Rj] ∧ sj.wait = []
    ∧ sj.timeout_retry = s.timeout_retry ∧ sj.timeout_resolve = s.timeout_resolve
    ∧ sj.accepted_payload_size = s.accepted_payload_size
    ∧ sj.nameservers.length = s.nameservers.length
    ∧ sj.events = events
    ∧ Rj.requesters = R.requesters ∧ Rj.hostname_dn = R.hostname_dn
    ∧ Rj.hostname_dn_len = R.hostname_dn_len
    ∧ Rj.prefered_query_type = R.prefered_query_type
    ∧ Rj.query_type = R.prefered_query_type
    ∧ Rj.query_id = q ∧ Rj.step = .RUNNING ∧ Rj.try_ = tries ∧ Rj.nb_responses = 0
    ∧ Rj.last_query = last_query


/-! ## `resolv_check_response`: the weight given to a server -/

/-- The weight that `resolv_check_response` hands to the server of an SRV item
whose DNS weight is `weight`: `ha_weight = (item->weight + 255) / 256`. The
field `weight` is a 16-bit value and the sum is computed on `int`, where it
cannot overflow. -/
def ha_weight (weight : Nat) : Nat := (weight + 255) / 256

/-! ## Sample answer lists -/

/-- An answer item of type SRV for the target `target` in label form, seen at
`last_seen`, with the additional record `ar_item`. -/
def srv_item (priority weight port : Nat) (target : List Nat) (last_seen : Nat)
    (ar_item : Option resolv_answer_record) : resolv_answer_item :=
  { pool_alloc_answer_item with
    type := DNS_RTYPE_SRV, priority := priority, weight := weight, port := port,
    target := target, data_len := target.length, last_seen := last_seen, ar_item := ar_item }

/-! ## `resolv_get_ip_from_response` -/

/-- Modelled from the spec: `AF_UNSPEC`, no address family. -/
def AF_UNSPEC : Nat := 0

/-- Modelled from the spec: the codes `RSLV_UPD_*` that
`resolv_get_ip_from_response` returns. -/
inductive RSLV_UPD where
  | NO | SRVIP_NOT_FOUND | NO_IP_FOUND
deriving DecidableEq

/-- Modelled from the spec: an entry of `resolv_opts->pref_net`, a preferred
network: its family, and the bytes of its mask and of its address. -/
structure resolv_pref_net where
  family : Int
  mask : List Nat
  addr : List Nat
deriving DecidableEq

/-- Modelled from the spec: the fields of `struct resolv_options` that
`resolv_get_ip_from_response` reads; `pref_net_nb` is the length of `pref_net`
and `accept_duplicate_ip` is non-zero when it is `true`. -/
structure resolv_options where
  family_prio : Int
  pref_net : List resolv_pref_net
  accept_duplicate_ip : Bool
deriving DecidableEq

/-- The functions that `resolv_get_ip_from_response` calls and that are not in
`resolvers.c`: `in_net_ipv4(ip, mask, addr)` and `in_net_ipv6(ip, mask, addr)`,
which tell whether the address is in the network, and
`snr_check_ip_callback(owner, ip, &ip_type)`, the probe that tells whether
another server of the owner's group already has the address (a non-zero return
is `true`). -/
structure get_ip_env where
  in_net_ipv4 : List Nat → List Nat → List Nat → Bool
  in_net_ipv6 : List Nat → List Nat → List Nat → Bool
  snr_check_ip_callback : Nat → List Nat → Nat → Bool

/-- The locals `ip` and `ip_type`, then `score` and `currentip_sel`, of one pass
of the loop of `resolv_get_ip_from_response` once the score is computed. `ip`
is the content of the address that the pointer `ip` designates. -/
structure get_ip_scored where
  ip : List Nat
  ip_type : Nat
  score : Int
  currentip_sel : Bool
deriving DecidableEq

/-- The values of `newip4`, `newip6` (`none` is `NULL`, otherwise the content of
the address pointed to), `currentip_found` and `max_score`. -/
structure get_ip_locals where
  newip4 : Option (List Nat)
  newip6 : Option (List Nat)
  currentip_found : Bool
  max_score : Int
deriving DecidableEq

/-- What `resolv_get_ip_from_response` hands back: the code, `*newip` (`none`
is `NULL`), `*newip_sin_family` and the answer list of `r_res`. -/
structure get_ip_result where
  code : RSLV_UPD
  newip : Option (List Nat)
  newip_sin_family : Nat
  answer_list : List resolv_answer_item
deriving DecidableEq

/-- The loop over `resolv_opts->pref_net` ("check for preferred network"): 4 is
added to the score at the first network of the family of the address that
holds the address. -/
def get_ip_pref_net (env : get_ip_env) (ip : List Nat) (ip_type : Nat) :
    List resolv_pref_net → Int
  | [] => 0
  | net :: nets =>
    -- compare only the same addresses class
    if net.family ≠ (ip_type : Int) then get_ip_pref_net env ip ip_type nets
    else if (ip_type = AF_INET ∧ env.in_net_ipv4 ip net.mask net.addr = true)
        ∨ (ip_type = AF_INET6 ∧ env.in_net_ipv6 ip net.mask net.addr = true) then 4
    else get_ip_pref_net env ip ip_type nets

/-- The test "check for current ip matching": the families are the same and
the first 4 (IPv4) or 16 (IPv6) bytes are those of `currentip` (`memcmp`). -/
def get_ip_current (ip : List Nat) (ip_type : Nat) (currentip : List Nat)
    (currentip_sin_family : Int) : Bool :=
  decide ((ip_type : Int) = currentip_sin_family
    ∧ ((currentip_sin_family = AF_INET ∧ ip.take 4 = currentip.take 4)
      ∨ (currentip_sin_family = AF_INET6 ∧ ip.take 16 = currentip.take 16)))

/-- The test `owner && snr_check_ip_callback(owner, ip, &ip_type)` of the loop
of `resolv_get_ip_from_response`; `owner` is `none` for a `NULL` owner. -/
def get_ip_duplicate (env : get_ip_env) (owner : Option Nat) (ip : List Nat) (ip_type : Nat) :
    Bool :=
  match owner with
  | none => false
  | some owner => env.snr_check_ip_callback owner ip ip_type

/-- The body of the loop of `resolv_get_ip_from_response` from `score = 0` down
to the value of `currentip_sel`, for the address `ip` of the family `ip_type`:
`none` when the duplicate check ends the body on a `continue`. -/
def get_ip_score_of (env : get_ip_env) (resolv_opts : resolv_options) (currentip : List Nat)
    (currentip_sin_family : Int) (owner : Option Nat) (ip : List Nat) (ip_type : Nat) :
    Option get_ip_scored :=
  let family_priority := resolv_opts.family_prio
  let allowed_duplicated_ip := resolv_opts.accept_duplicate_ip
  let score : Int := 0
  -- check for preferred ip protocol
  let score := if (ip_type : Int) = family_priority then score + 8 else score
  -- check for preferred network
  let score := score + get_ip_pref_net env ip ip_type resolv_opts.pref_net
  -- check if the IP found in the record is already affected to a member of a group
  if get_ip_duplicate env owner ip ip_type = true ∧ allowed_duplicated_ip = false then none
  else
    let score := if get_ip_duplicate env owner ip ip_type = true then score else score + 2
    -- check for current ip matching
    if get_ip_current ip ip_type currentip currentip_sin_family = true then
      some { ip := ip, ip_type := ip_type, score := score + 1, currentip_sel := true }
    else
      some { ip := ip, ip_type := ip_type, score := score, currentip_sel := false }

/-- The first part of the body of the loop of `resolv_get_ip_from_response`,
down to the value of `currentip_sel`: `none` when the body ends on a
`continue`, that is for a record that is neither A nor AAAA and for a record
that the duplicate check skips. -/
def get_ip_score (env : get_ip_env) (resolv_opts : resolv_options) (currentip : List Nat)
    (currentip_sin_family : Int) (owner : Option Nat) (record : resolv_answer_item) :
    Option get_ip_scored :=
  if record.type = DNS_RTYPE_A then
    get_ip_score_of env resolv_opts currentip currentip_sin_family owner record.address AF_INET
  else if record.type = DNS_RTYPE_AAAA then
    get_ip_score_of env resolv_opts currentip currentip_sin_family owner record.address AF_INET6
  else none

/-- The body of the loop of `resolv_get_ip_from_response` for one record: the
locals after it, or the code of the `return` in the loop. -/
def get_ip_record (env : get_ip_env) (resolv_opts : resolv_options) (currentip : List Nat)
    (currentip_sin_family : Int) (owner : Option Nat) (l : get_ip_locals)
    (record : resolv_answer_item) : Except RSLV_UPD get_ip_locals :=
  match get_ip_score env resolv_opts currentip currentip_sin_family owner record with
  | none => .ok l
  | some sc =>
    -- keep the address if the score is better than the previous score
    if sc.score > l.max_score then
      let newip4 := if sc.ip_type = AF_INET then some sc.ip else l.newip4
      let newip6 := if sc.ip_type = AF_INET then l.newip6 else some sc.ip
      if sc.score = 15 then .error .NO
      else
        .ok { newip4 := newip4, newip6 := newip6, currentip_found := sc.currentip_sel,
              max_score := sc.score }
    else .ok l

/-- The loop of `resolv_get_ip_from_response` over the records of the answer
list. -/
def get_ip_loop (env : get_ip_env) (resolv_opts : resolv_options) (currentip : List Nat)
    (currentip_sin_family : Int) (owner : Option Nat) :
    List resolv_answer_item → get_ip_locals → Except RSLV_UPD get_ip_locals
  | [], l => .ok l
  | record :: records, l =>
    match get_ip_record env resolv_opts currentip currentip_sin_family owner l record with
    | .error code => .error code
    | .ok l => get_ip_loop env resolv_opts currentip currentip_sin_family owner records l

/-- The label `not_found` of `resolv_get_ip_from_response`: the first record
of the list is moved to its end, and `RSLV_UPD_SRVIP_NOT_FOUND` is returned. -/
def get_ip_not_found (newip : Option (List Nat)) (newip_sin_family : Nat)
    (answer_list : List resolv_answer_item) : get_ip_result :=
  let answer_list :=
    match answer_list with
    | [] => []
    | record :: records => records ++ [record]
  { code := .SRVIP_NOT_FOUND, newip := newip, newip_sin_family := newip_sin_family,
    answer_list := answer_list }

/-- The assignments of `*newip` and `*newip_sin_family` when the family
`first_family` of the address `first` is looked for before the family
`second_family` of the address `second`. -/
def get_ip_select (first : Option (List Nat)) (first_family : Nat)
    (second : Option (List Nat)) (second_family : Nat) : Option (List Nat) × Nat :=
  match first, second with
  | some ip, _ => (some ip, first_family)
  | none, some ip => (some ip, second_family)
  | none, none => (none, AF_UNSPEC)

/-- The function `resolv_get_ip_from_response`: `currentip` is the content of
the current address, `owner` is `none` for a `NULL` owner. -/
def resolv_get_ip_from_response (env : get_ip_env) (r_res : resolv_response)
    (resolv_opts : resolv_options) (currentip : List Nat) (currentip_sin_family : Int)
    (owner : Option Nat) : get_ip_result :=
  let family_priority := resolv_opts.family_prio
  match get_ip_loop env resolv_opts currentip currentip_sin_family owner r_res.answer_list
      { newip4 := none, newip6 := none, currentip_found := false, max_score := -1 } with
  | .error code =>
    { code := code, newip := none, newip_sin_family := AF_UNSPEC,
      answer_list := r_res.answer_list }
  | .ok l =>
    -- no IP found in the response
    if l.newip4 = none ∧ l.newip6 = none then
      { code := .NO_IP_FOUND, newip := none, newip_sin_family := AF_UNSPEC,
        answer_list := r_res.answer_list }
    -- case when the caller looks first for an IPv4 address
    else if family_priority = AF_INET then
      let out := get_ip_select l.newip4 AF_INET l.newip6 AF_INET6
      if l.currentip_found = false then get_ip_not_found out.1 out.2 r_res.answer_list
      else
        { code := .NO, newip := out.1, newip_sin_family := out.2,
          answer_list := r_res.answer_list }
    -- case when the caller looks first for an IPv6 address
    else if family_priority = AF_INET6 then
      let out := get_ip_select l.newip6 AF_INET6 l.newip4 AF_INET
      if l.currentip_found = false then get_ip_not_found out.1 out.2 r_res.answer_list
      else
        { code := .NO, newip := out.1, newip_sin_family := out.2,
          answer_list := r_res.answer_list }
    -- case when the caller have no preference (we prefer IPv6)
    else if family_priority = AF_UNSPEC then
      let out := get_ip_select l.newip6 AF_INET6 l.newip4 AF_INET
      if l.currentip_found = false then get_ip_not_found out.1 out.2 r_res.answer_list
      else
        { code := .NO, newip := out.1, newip_sin_family := out.2,
          answer_list := r_res.answer_list }
    -- no reason why we should change the server's IP address
    else
      { code := .NO, newip := none, newip_sin_family := AF_UNSPEC,
        answer_list := r_res.answer_list }

/-- Following the spec ("keep the highest-scoring record; ties resolved by
first-seen"): the better of the best record so far and the next one. -/
def spec_best_step (best : Option get_ip_scored) (sc : get_ip_scored) : Option get_ip_scored :=
  match best with
  | none => some sc
  | some b => if sc.score > b.score then some sc else some b

/-- Following the spec: the first record, in the order of the list, that has
the greatest score among the records that are given a score. -/
def spec_best_record (env : get_ip_env) (resolv_opts : resolv_options) (currentip : List Nat)
    (currentip_sin_family : Int) (owner : Option Nat)
    (answer_list : List resolv_answer_item) : Option get_ip_scored :=
  (answer_list.filterMap
    (get_ip_score env resolv_opts currentip currentip_sin_family owner)).foldl spec_best_step none

/-- A sample environment: the preferred networks hold the addresses whose first
byte is the first byte of the address of the network, and the probe finds the
addresses whose last byte is the number of the owner. -/
def sample_get_ip_env : get_ip_env :=
  { in_net_ipv4 := fun ip _ addr => ip.head? == addr.head?,
    in_net_ipv6 := fun ip _ addr => ip.head? == addr.head?,
    snr_check_ip_callback := fun owner ip _ => ip.getLast? == some owner }

/-- An answer item of type AAAA with the address bytes `a`, seen at
`last_seen`. -/
def aaaa_item (a : List Nat) (last_seen : Nat) : resolv_answer_item :=
  { pool_alloc_answer_item with
    type := DNS_RTYPE_AAAA, family := AF_INET6, address := a, last_seen := last_seen }

/-- A response structure whose answer list is `answer_list`. -/
def response_of (answer_list : List resolv_answer_item) : resolv_response :=
  { empty_response with answer_list := answer_list }

/-- The relation kept by the loop of `resolv_get_ip_from_response` between its
locals and `best`, the record that the spec keeps among the records scanned so
far: `max_score` and `currentip_found` are those of `best`, whose address is
in `newip4` or `newip6` according to its family; and the pointer of the
preferred family, once set, is that of `best`. -/
def get_ip_inv (family_prio : Int) (l : get_ip_locals) (best : Option get_ip_scored) : Prop :=
  match best with
  | none => l.newip4 = none ∧ l.newip6 = none ∧ l.max_score = -1
  | some b =>
    l.max_score = b.score ∧ 0 ≤ b.score ∧ l.currentip_found = b.currentip_sel
    ∧ (b.ip_type = AF_INET ∨ b.ip_type = AF_INET6)
    ∧ ((b.ip_type : Int) = family_prio → 8 ≤ b.score)
    ∧ (b.ip_type = AF_INET → l.newip4 = some b.ip)
    ∧ (b.ip_type = AF_INET6 → l.newip6 = some b.ip)
    ∧ (family_prio = AF_INET → l.newip4 ≠ none → b.ip_type = AF_INET)
    ∧ (family_prio = AF_INET6 → l.newip6 ≠ none → b.ip_type = AF_INET6)

/-- The network 10.0.0.0/8 as a preferred network. -/
def sample_pref_net : resolv_pref_net :=
  { family := AF_INET, mask := [255, 0, 0, 0], addr := [10, 0, 0, 0] }

/-- Options in which the family `family_prio` and the network 10.0.0.0/8 are
preferred, and duplicates are not accepted. -/
def sample_options (family_prio : Int) : resolv_options :=
  { family_prio := family_prio, pref_net := [sample_pref_net], accept_duplicate_ip := false }

/-- The IPv6 address 2001:db8::1. -/
def sample_ipv6 : List Nat := [0x20, 0x01, 0x0d, 0xb8, 0, 0, 0, 0, 0, 0, 0, 0, 0, 0, 0, 1]

/-! ## Sample responses to the query of the sample section -/

/-- The response `a_response n owner a` with the query id `query_id`. -/
def a_response_id (query_id : Nat) (n owner a : List Nat) : List Nat :=
  [query_id / 256, query_id % 256] ++ (a_response n owner a).drop 2

/-- The label form of `www.ab`, the hostname of the server number 1. -/
def www_ab : List Nat := [3, 119, 119, 119, 2, 97, 98]

/-- The label form of `www.ab.x`, which starts with the label form of
`www.ab`. -/
def www_ab_x : List Nat := [3, 119, 119, 119, 2, 97, 98, 1, 120]

/-! ## Sample responses to an SRV question -/

/-- A response (RCODE 0, TC clear, qdcount 1, ancount 1, nscount 0, arcount 1)
to the SRV question whose name has the label form `q`: the question, then one
SRV answer with TTL 300 whose owner is a compression pointer to offset 12 and
whose rdata holds `priority`, `weight`, `port` and the target `t` written in
full, then one additional A record with TTL 60 whose owner is `t` written in
full and whose 4 address bytes are `a`. -/
def srv_glue_response (q t : List Nat) (priority weight port : Nat) (a : List Nat) : List Nat :=
  [0x12, 0x34, 0x81, 0x80, 0, 1, 0, 1, 0, 0, 0, 1]
    ++ q ++ [0] ++ [0, 33, 0, 1]
    ++ [0xc0, 12, 0, 33, 0, 1, 0, 0, 1, 44, (6 + t.length + 1) / 256, (6 + t.length + 1) % 256,
        priority / 256, priority % 256, weight / 256, weight % 256, port / 256, port % 256]
    ++ t ++ [0]
    ++ t ++ [0] ++ [0, 1, 0, 1, 0, 0, 0, 60, 0, 4] ++ a

/-- The label form of `_http._tcp.example`. -/
def http_tcp_example : List Nat :=
  [5, 95, 104, 116, 116, 112, 4, 95, 116, 99, 112, 7, 101, 120, 97, 109, 112, 108, 101]

/-- The label form of `backend.example`. -/
def backend_example : List Nat :=
  [7, 98, 97, 99, 107, 101, 110, 100, 7, 101, 120, 97, 109, 112, 108, 101]

/-- The label form of `bé.example`, whose first label holds the UTF-8 bytes
`c3 a9`. -/
def be_example : List Nat := [3, 98, 0xc3, 0xa9, 7, 101, 120, 97, 109, 112, 108, 101]

/-! ## The size of a name in a message -/

/-- Following the spec: the size on the wire of the name that starts the list
`l`, within `fuel` labels: the sum of `1 + length` over its leading labels,
plus 1 when they end with the zero terminator, or plus 2 when they end with a
compression pointer; `none` when the list ends before the name does. -/
def wire_size_fuel : Nat → List Nat → Option Nat
  | 0, _ => none
  | _ + 1, [] => none
  | fuel + 1, c :: rest =>
    if c &&& 0xc0 = 0xc0 then some 2
    else if c = 0 then some 1
    else (wire_size_fuel fuel (rest.drop c)).map (fun n => 1 + c + n)

/-- Following the spec: the size on the wire of the name at the offset `name`
of the buffer. -/
def name_wire_size (buffer : List Nat) (name : Nat) : Option Nat :=
  wire_size_fuel (buffer.length + 1) (buffer.drop name)

/-! ## Sample responses with several records -/

/-- A response (RCODE 0, TC clear, qdcount 1, ancount 2) to the A question
`www.ab`: the question, then the A answer 1.2.3.4 whose owner is a compression
pointer to the question name, then the A answer 5.6.7.8 whose owner is written
as `owner2`. -/
def two_a_response (owner2 : List Nat) : List Nat :=
  [0x12, 0x34, 0x81, 0x80, 0, 1, 0, 2, 0, 0, 0, 0]
    ++ www_ab ++ [0] ++ [0, 1, 0, 1]
    ++ [0xc0, 12] ++ [0, 1, 0, 1, 0, 0, 1, 44, 0, 4] ++ [1, 2, 3, 4]
    ++ owner2 ++ [0, 1, 0, 1, 0, 0, 1, 44, 0, 4] ++ [5, 6, 7, 8]

/-- A response (RCODE 0, TC clear, qdcount 1, ancount 1, nscount 0, arcount 2)
to the SRV question `_http._tcp.example`: the question, the SRV answer
`10 5 80 backend.example`, then two additional records, `first` followed by
`second`. -/
def srv_additional_response (first second : List Nat) : List Nat :=
  [0x12, 0x34, 0x81, 0x80, 0, 1, 0, 1, 0, 0, 0, 2]
    ++ http_tcp_example ++ [0] ++ [0, 33, 0, 1]
    ++ [0xc0, 12, 0, 33, 0, 1, 0, 0, 1, 44, 0, 23, 0, 10, 0, 5, 0, 80]
    ++ backend_example ++ [0]
    ++ first ++ second

/-- The additional A record `backend.example` 10.0.0.1, with TTL 60. -/
def glue_record : List Nat :=
  backend_example ++ [0] ++ [0, 1, 0, 1, 0, 0, 0, 60, 0, 4] ++ [10, 0, 0, 1]

/-- The additional TXT record of `backend.example`, with TTL 60, whose rdata
is the 4 bytes of the string `abc`. -/
def txt_record : List Nat :=
  backend_example ++ [0] ++ [0, 16, 0, 1, 0, 0, 0, 60, 0, 4] ++ [3, 97, 98, 99]

/-- The OPT record of EDNS: the root name as owner, type 41, a payload size of
512 in the class field, no rdata. -/
def opt_record : List Nat := [0] ++ [0, 41, 2, 0, 0, 0, 0, 0, 0, 0]

/-- The SRV item that the sample SRV responses store, with the additional
record `ar_item`. -/
def sample_srv_item (ar_item : Option resolv_answer_record) : resolv_answer_item :=
  { pool_alloc_answer_item with
    type := DNS_RTYPE_SRV, class_ := 1, ttl := 300, priority := 10, weight := 5, port := 80,
    data_len := 16, name := http_tcp_example, target := backend_example, last_seen := 1000,
    ar_item := ar_item }

/-- The additional record that `glue_record` gives, seen at 1000. -/
def sample_glue : resolv_answer_record :=
  { pool_alloc_answer_item.toresolv_answer_record with
    type := DNS_RTYPE_A, class_ := 1, ttl := 60, data_len := 4, family := AF_INET,
    address := [10, 0, 0, 1], name := backend_example, last_seen := 1000 }

/-! ## Sample sections, continued -/

/-- The sample section once the response `www.ab` 1.2.3.4 has been received at
the date 1200 and the resolution has been started again by the tick of the
date 2300: the resolution is running with the status VALID of its last
outcome. -/
def sample_section_rerun : resolvers :=
  (process_resolvers (sample_env 2300) 8
    (process_response (sample_env 1200) 12 11 0
      (a_response_id 63983 www_ab [0xc0, 12] [1, 2, 3, 4]) [] sample_section_running)).getD
    sample_section

/-- The label form of `www.ac`. -/
def www_ac : List Nat := [3, 119, 119, 119, 2, 97, 99]

/-! ## Query ids of a section -/

/-- The keys of the nodes that the resolutions of a list have in the tree
`query_ids`. -/
def qid_keys (l : List resolv_resolution) : List Nat :=
  (l.filter (fun res => res.qid_linked)).map (fun res => res.qid_key)

/-- The keys of the tree `query_ids` of a section: a resolution is in the tree
while its node `qid` is linked. -/
def query_ids (s : resolvers) : List Nat :=
  qid_keys (s.curr ++ s.wait)

/-- The query ids of the RUNNING resolutions of a section. -/
def running_query_ids (s : resolvers) : List Nat :=
  ((s.curr ++ s.wait).filter (fun res => decide (res.step = .RUNNING))).map
    (fun res => res.query_id)

/-- The values that `n` calls in a row of `resolv_rnd16` return, from the seed
`seed` on. -/
def resolv_rnd16_draws (now_ms : Nat) : Nat → Nat → List Nat
  | 0, _ => []
  | n + 1, seed =>
    let d := resolv_rnd16 now_ms seed
    d.1 :: resolv_rnd16_draws now_ms n d.2

instance (s : resolvers) (r : res_ptr) : Decidable (res_ptr_valid s r) := by
  unfold res_ptr_valid
  infer_instance

/-- The pointer to the resolution of the requester, or to nothing. -/
def requester_ptr (s : resolvers) (requester : resolv_requester) : res_ptr :=
  (find_resolution (fun res => decide (requester ∈ res.requesters)) s).getD
    { on_curr := false, before := [], res := new_resolution (sample_env 0) s none 0 0,
      after := [] }

/-- The sample section once the servers number 1 and 2 are linked at the date
0, the seed of the generator being 0. -/
def sample_section_zero_linked : resolvers :=
  (resolv_link_resolution (sample_env 0)
    (resolv_link_resolution (sample_env 0) sample_section 1 .SERVER).2 2 .SERVER).2

/-- The section above once the resolution of the server number 1 is run at the
date 0: every draw of the generator is 0, and the resolution has the query id
0. -/
def sample_section_zero : resolvers :=
  (resolv_run_resolution (sample_env 0) sample_section_zero_linked
    (requester_ptr sample_section_zero_linked (server_requester 1))).2

/-- The sample section with its running resolution once the NXDOMAIN response
to its A query is processed, at the date 1200: the query is sent again with the
type AAAA. -/
def sample_section_fallback : resolvers :=
  process_response (sample_env 1200) 12 11 0 (nx_response 63983) [] sample_section_running
/-! ## Messages that differ in the first byte of the flags -/

/-- The message `resp2` is the message `resp` but for the byte at offset 2, the
first byte of the flags word, which holds the TC flag. -/
def same_but_flags (resp resp2 : List Nat) : Prop :=
  resp2.length = resp.length ∧ resp2.take 2 = resp.take 2 ∧ resp2.drop 3 = resp.drop 3

instance same_but_flags_decidable (resp resp2 : List Nat) :
    Decidable (same_but_flags resp resp2) := by
  unfold same_but_flags
  infer_instance

/-- The offsets at which one pass of the answer loop of
`resolv_validate_dns_response` calls `resolv_read_name` on the message: the
name of the record, then the name in the data of a CNAME record or the target
of an SRV record when the pass gets there. -/
def answer_record_names (resp : List Nat) (query_type ancount i : Nat)
    (st : validate_answers) : List Nat :=
  if st.reader ≥ resp.length then []
  else
    st.reader ::
      (match resolv_read_name resp st.reader DNS_MAX_NAME_SIZE 0 with
       | .ret len tmpname offset _ =>
         if len = 0 then []
         else if query_type ≠ DNS_RTYPE_SRV
             ∧ resolv_hostname_cmp st.previous_dname tmpname len ≠ 0 then []
         else
           match read_record_fields resp (st.reader + offset.getD 0) with
           | none => []
           | some f =>
             if f.type = DNS_RTYPE_CNAME ∧ i + 1 ≠ ancount then [f.reader]
             else if f.type = DNS_RTYPE_SRV ∧ 6 < f.data_len then [f.reader + 2 + 2 + 2]
             else []
       | _ => [])

/-- The offsets at which the answer loop calls `resolv_read_name`, `n` records
being left to parse. -/
def answer_loop_names (resp : List Nat) (now : Nat) (query_type ancount : Nat) :
    Nat → Nat → validate_answers → List Nat
  | 0, _, _ => []
  | n + 1, i, st =>
    answer_record_names resp query_type ancount i st
      ++ (match validate_answer_record resp now query_type ancount i st with
          | .error _ => []
          | .ok st => answer_loop_names resp now query_type ancount n (i + 1) st)

/-- The offsets at which the loop over the `n` authority records left calls
`resolv_read_name`: the name of each record. -/
def authority_loop_names (resp : List Nat) : Nat → Nat → List Nat
  | 0, _ => []
  | n + 1, reader =>
    reader ::
      (match validate_authority_record resp reader with
       | none => []
       | some reader => authority_loop_names resp n reader)

/-- The offsets at which the loop over the `n` additional records left calls
`resolv_read_name`: the name of each record. -/
def additional_loop_names (resp : List Nat) (now : Nat) :
    Nat → validate_answers → List Nat
  | 0, _ => []
  | n + 1, st =>
    (if st.reader ≥ resp.length then [] else [st.reader])
      ++ (match validate_additional_record resp now st with
          | .error _ => []
          | .ok st => additional_loop_names resp now n st)

/-- The offsets at which `resolv_validate_dns_response` calls
`resolv_read_name` on a message that passes the header checks, whose question
is read into `q`, and that is not refused as truncated: offset 12 for the name
of the question, then the names that the answer loop reads and, for an SRV
question, those of the authority and additional records. -/
def validate_names (resp : List Nat) (now : Nat) (q : validate_question) : List Nat :=
  12 ::
    (answer_loop_names resp now q.query.type q.r_res.header.ancount q.r_res.header.ancount 0
        { reader := q.reader, previous_dname := q.query.name, nb_saved_records := 0,
          answer_list := q.r_res.answer_list }
      ++ (match validate_answer_loop resp now q.query.type q.r_res.header.ancount
            q.r_res.header.ancount 0
            { reader := q.reader, previous_dname := q.query.name, nb_saved_records := 0,
              answer_list := q.r_res.answer_list } with
          | .error _ => []
          | .ok a =>
            if q.query.type ≠ DNS_RTYPE_SRV then []
            else
              authority_loop_names resp q.r_res.header.nscount a.reader
                ++ (match validate_authority_loop resp q.r_res.header.nscount a.reader with
                    | none => []
                    | some reader =>
                      additional_loop_names resp now q.r_res.header.arcount
                        { reader := reader, previous_dname := a.previous_dname,
                          nb_saved_records := 0, answer_list := a.answer_list })))

/-- No name that `resolv_validate_dns_response` reads in the message `resp` is
read through the byte at offset 2: each of them decodes the same way in the
message `resp2`. -/
def same_names (resp resp2 : List Nat) (now : Nat) (q : validate_question) : Prop :=
  ∀ name ∈ validate_names resp now q,
    resolv_read_name resp2 name DNS_MAX_NAME_SIZE 0
      = resolv_read_name resp name DNS_MAX_NAME_SIZE 0

instance same_names_decidable (resp resp2 : List Nat) (now : Nat) (q : validate_question) :
    Decidable (same_names resp resp2 now q) := by
  unfold same_names
  infer_instance

/-- The SRV response `_http._tcp.example SRV 10 5 80 backend.example` with the
A record of the target and an OPT record in its additional section, the first
byte of its flags being `fl`. -/
def srv_glue_flags (fl : Nat) : List Nat :=
  (srv_additional_response glue_record opt_record).set 2 fl

/-! ## A resolution among others on the active list -/

/-- The resolution `Y` has a requester and is held on the wait list at the
date `now`: `last_resolution` is set and `last_resolution + timeout.resolve`
has not expired. -/
def held (now resolve : Nat) (Y : resolv_resolution) : Prop :=
  Y.requesters ≠ [] ∧ tick_isset Y.last_resolution = true
    ∧ ¬ tick_is_expired (tick_add Y.last_resolution resolve) now = true

instance held_decidable (now resolve : Nat) (Y : resolv_resolution) :
    Decidable (held now resolve Y) := by
  unfold held
  infer_instance

theorem memcpy_append (A B src : List Nat) (p : Nat) (hp : p = A.length) :
    memcpy (A ++ B) p src = A ++ src ++ B.drop src.length := by
  subst hp
  simp [memcpy]

theorem memcpy_zeros (A src : List Nat) (k p : Nat) (hp : p = A.length) :
    memcpy (A ++ List.replicate k 0) p src
      = (A ++ src) ++ List.replicate (k - src.length) 0 := by
  rw [memcpy_append A _ src p hp]
  simp

/-- The buffer produced by a successful `resolv_build_query`, in closed form. -/
theorem resolv_build_query_eq (query_id query_type accepted_payload_size : Nat)
    (hostname_dn : List Nat) (bufsize : Nat)
    (h : ¬ (12 + 4 + 11 + hostname_dn.length ≥ bufsize)) :
    resolv_build_query query_id query_type accepted_payload_size hostname_dn
        hostname_dn.length bufsize
      = some (12 + hostname_dn.length + 1 + 4 + 11,
          [query_id / 256 % 256, query_id % 256, 1, 0, 0, 1, 0, 0, 0, 0, 0, 1]
            ++ hostname_dn ++ [0]
            ++ [query_type / 256 % 256, query_type % 256, 0, 1]
            ++ [0, 0, 41, accepted_payload_size / 256 % 256, accepted_payload_size % 256,
                0, 0, 0, 0, 0, 0]
            ++ List.replicate (bufsize - (12 + hostname_dn.length + 1 + 4 + 11)) 0) := by
  have h1 : ∀ hdr : List Nat, memcpy (List.replicate bufsize 0) 0 hdr
      = hdr ++ List.replicate (bufsize - hdr.length) 0 := by
    intro hdr
    simpa using memcpy_zeros [] hdr bufsize 0 rfl
  simp only [resolv_build_query, sizeof_dns_header, sizeof_dns_question,
    sizeof_dns_additional_record, htons, DNS_RCLASS_IN, DNS_RTYPE_OPT]
  rw [if_neg h]
  simp only [List.take_length, Nat.zero_add, Nat.reduceDiv, Nat.reduceMod]
  rw [h1]
  rw [memcpy_zeros _ hostname_dn _ 12 (by simp)]
  rw [memcpy_zeros _ [0] _ _ (by simp; omega)]
  rw [memcpy_zeros _ _ _ _ (by simp; omega)]
  rw [memcpy_zeros _ _ _ _ (by simp; omega)]
  simp only [List.length_append, List.length_cons, List.length_nil, Nat.sub_sub]
  rfl

theorem resolv_build_query_none (query_id query_type accepted_payload_size : Nat)
    (hostname_dn : List Nat) (hostname_dn_len bufsize : Nat) :
    resolv_build_query query_id query_type accepted_payload_size hostname_dn
        hostname_dn_len bufsize = none
      ↔ 12 + 4 + 11 + hostname_dn_len ≥ bufsize := by
  unfold resolv_build_query
  simp only [sizeof_dns_header, sizeof_dns_question, sizeof_dns_additional_record]
  split <;> simp_all

/-- Length and content of a successfully built query. -/
theorem resolv_build_query_take (query_id query_type accepted_payload_size : Nat)
    (n : List Nat) (bufsize L : Nat) (buf : List Nat)
    (h : resolv_build_query query_id query_type accepted_payload_size n n.length bufsize
      = some (L, buf)) :
    L = 12 + n.length + 1 + 4 + 11
    ∧ buf.take L
        = [query_id / 256 % 256, query_id % 256, 0x01, 0x00, 0x00, 0x01,
            0x00, 0x00, 0x00, 0x00, 0x00, 0x01]
          ++ n ++ [0]
          ++ [query_type / 256 % 256, query_type % 256, 0x00, 0x01]
          ++ [0x00, 0x00, 0x29, accepted_payload_size / 256 % 256,
              accepted_payload_size % 256, 0x00, 0x00, 0x00, 0x00, 0x00, 0x00]
    ∧ buf.length = bufsize := by
  have hn : ¬ (12 + 4 + 11 + n.length ≥ bufsize) := by
    intro hc
    rw [(resolv_build_query_none _ _ _ _ _ _).mpr hc] at h
    exact Option.noConfusion h
  rw [resolv_build_query_eq _ _ _ _ _ hn] at h
  simp only [Option.some.injEq, Prod.mk.injEq] at h
  obtain ⟨hL, hbuf⟩ := h
  subst hL
  subst hbuf
  refine ⟨rfl, ?_, ?_⟩
  · rw [List.take_left']
    simp
    omega
  · simp
    omega

/-- C2: a successful `resolv_build_query` on a label-form name `n` returns
`12 + len(n) + 1 + 4 + 11`, and the written bytes are the header (id in
big-endian, flags 01 00, qdcount 00 01, ancount 00 00, nscount 00 00, arcount
00 01), then `n`, one zero byte, the query type in big-endian, class 00 01 and
the 11-byte OPT record 00, 00 29, payload size in big-endian, four zero bytes,
00 00. The buffer keeps its size. -/
theorem resolv_build_query_bytes (query_id query_type accepted_payload_size : Nat)
    (n : List Nat) (bufsize L : Nat) (buf : List Nat)
    (h : resolv_build_query query_id query_type accepted_payload_size n n.length bufsize
      = some (L, buf)) :
    L = 12 + n.length + 1 + 4 + 11
    ∧ buf.take L
        = [query_id / 256 % 256, query_id % 256, 0x01, 0x00, 0x00, 0x01,
            0x00, 0x00, 0x00, 0x00, 0x00, 0x01]
          ++ n ++ [0]
          ++ [query_type / 256 % 256, query_type % 256, 0x00, 0x01]
          ++ [0x00, 0x00, 0x29, accepted_payload_size / 256 % 256,
              accepted_payload_size % 256, 0x00, 0x00, 0x00, 0x00, 0x00, 0x00]
    ∧ buf.length = bufsize :=
  resolv_build_query_take query_id query_type accepted_payload_size n bufsize L buf h

/-- Witness for C2: the query for `www.ab`, id 0x1234, type A, payload 512. -/
theorem resolv_build_query_bytes_witness :
    resolv_build_query 0x1234 1 512 [3, 119, 119, 119, 2, 97, 98] 7 64
        = some (35, [0x12, 0x34, 1, 0, 0, 1, 0, 0, 0, 0, 0, 1, 3, 119, 119, 119, 2, 97, 98,
            0, 0, 1, 0, 1, 0, 0, 41, 2, 0, 0, 0, 0, 0, 0, 0] ++ List.replicate 29 0)
    ∧ (35 = 12 + 7 + 1 + 4 + 11
      ∧ ([0x12, 0x34, 1, 0, 0, 1, 0, 0, 0, 0, 0, 1, 3, 119, 119, 119, 2, 97, 98,
            0, 0, 1, 0, 1, 0, 0, 41, 2, 0, 0, 0, 0, 0, 0, 0] ++ List.replicate 29 0).take 35
          = [0x1234 / 256 % 256, 0x1234 % 256, 0x01, 0x00, 0x00, 0x01,
              0x00, 0x00, 0x00, 0x00, 0x00, 0x01]
            ++ [3, 119, 119, 119, 2, 97, 98] ++ [0]
            ++ [1 / 256 % 256, 1 % 256, 0x00, 0x01]
            ++ [0x00, 0x00, 0x29, 512 / 256 % 256, 512 % 256,
                0x00, 0x00, 0x00, 0x00, 0x00, 0x00]
      ∧ ([0x12, 0x34, 1, 0, 0, 1, 0, 0, 0, 0, 0, 1, 3, 119, 119, 119, 2, 97, 98,
            0, 0, 1, 0, 1, 0, 0, 41, 2, 0, 0, 0, 0, 0, 0, 0] ++ List.replicate 29 0).length
          = 64) :=
  ⟨by decide, resolv_build_query_bytes 0x1234 1 512 [3, 119, 119, 119, 2, 97, 98] 64 35 _
    (by decide)⟩

/-- C3 (counterexample): with a 2-byte name and a 29-byte buffer,
`12 + 4 + 11 + 2 > 29` is false, yet the function reports the buffer as too
small. -/
theorem resolv_build_query_gt_counterexample :
    ¬ (12 + 4 + 11 + 2 > 29)
    ∧ resolv_build_query 7 1 512 [1, 97] 2 29 = none := by
  decide

/-- C3 (amended): `resolv_build_query` returns the buffer-too-small error
exactly when `12 + 4 + 11 + hostname_dn_len >= bufsize`, that is when the
buffer cannot hold header, name, terminating zero byte, question info and OPT
record; in every other case it returns the written length
`12 + hostname_dn_len + 1 + 4 + 11`. -/
theorem resolv_build_query_result (query_id query_type accepted_payload_size : Nat)
    (hostname_dn : List Nat) (hostname_dn_len bufsize : Nat) :
    (resolv_build_query query_id query_type accepted_payload_size hostname_dn
        hostname_dn_len bufsize).map Prod.fst
      = if 12 + 4 + 11 + hostname_dn_len ≥ bufsize then none
        else some (12 + hostname_dn_len + 1 + 4 + 11) := by
  unfold resolv_build_query
  simp only [sizeof_dns_header, sizeof_dns_question, sizeof_dns_additional_record]
  split <;> simp

/-! ## Theorems: `resolv_read_name` -/

theorem read_name_fuel_succ (buffer : List Nat) (fuel name reader nb_bytes : Nat)
    (dest : List Nat) (dest_len : Int) (depth : Nat)
    (h : resolv_read_name_fuel buffer fuel name reader nb_bytes dest dest_len depth
      ≠ .nofuel) :
    resolv_read_name_fuel buffer (fuel + 1) name reader nb_bytes dest dest_len depth
      = resolv_read_name_fuel buffer fuel name reader nb_bytes dest dest_len depth := by
  induction fuel generalizing name reader nb_bytes dest dest_len depth with
  | zero => exact absurd rfl h
  | succ n ih =>
    rw [resolv_read_name_fuel] at h
    rw [resolv_read_name_fuel]
    conv_rhs => rw [resolv_read_name_fuel]
    by_cases h1 : reader ≥ buffer.length
    · simp only [h1, ↓reduceIte]
    simp only [h1, ↓reduceIte] at h ⊢
    cases hc : buffer[reader]? with
    | none => simp only [hc]
    | some c =>
      simp only [hc] at h ⊢
      by_cases h2 : c &&& 0xc0 = 0xc0
      · simp only [h2, ↓reduceIte] at h ⊢
        by_cases h3 : reader + 1 ≥ buffer.length
        · simp only [h3, ↓reduceIte]
        simp only [h3, ↓reduceIte] at h ⊢
        cases hc1 : buffer[reader + 1]? with
        | none => simp only [hc1]
        | some c1 =>
          simp only [hc1] at h ⊢
          by_cases h4 : c1 > reader
          · simp only [h4, ↓reduceIte]
          simp only [h4, ↓reduceIte] at h ⊢
          by_cases h5 : depth > 100
          · simp only [h5, ↓reduceIte]
          simp only [h5, ↓reduceIte] at h ⊢
          have hrec : resolv_read_name_fuel buffer n ((c &&& 63) * 256 + c1)
              ((c &&& 63) * 256 + c1) 0 [] (dest_len - nb_bytes) (depth + 1)
                ≠ .nofuel := by
            intro hcon
            rw [hcon] at h
            exact h rfl
          rw [ih _ _ _ _ _ _ hrec]
      · simp only [h2, ↓reduceIte] at h ⊢
        by_cases h3 : c = 0
        · simp only [h3, ↓reduceIte]
        simp only [h3, ↓reduceIte] at h ⊢
        by_cases h4 : reader + c ≥ buffer.length ∨ ((nb_bytes + c : Nat) : Int) ≥ dest_len
        · simp only [h4, ↓reduceIte]
        simp only [h4, ↓reduceIte] at h ⊢
        by_cases h5 : reader + (c + 1) > buffer.length
            ∨ ((nb_bytes + (c + 1) : Nat) : Int) > dest_len
        · simp only [h5, ↓reduceIte]
        simp only [h5, ↓reduceIte] at h ⊢
        exact ih _ _ _ _ _ _ h

theorem read_name_fuel_enough (buffer : List Nat) (fuel name reader nb_bytes : Nat)
    (dest : List Nat) (dest_len : Int) (depth : Nat)
    (h : (buffer.length - reader) + 1 + (101 - depth) * (buffer.length + 1) ≤ fuel) :
    resolv_read_name_fuel buffer fuel name reader nb_bytes dest dest_len depth
      ≠ .nofuel := by
  induction fuel generalizing name reader nb_bytes dest dest_len depth with
  | zero => omega
  | succ n ih =>
    rw [resolv_read_name_fuel]
    by_cases h1 : reader ≥ buffer.length
    · simp only [h1, ↓reduceIte]; exact ReadName.noConfusion
    simp only [h1, ↓reduceIte]
    cases hc : buffer[reader]? with
    | none => simp only [hc]; exact ReadName.noConfusion
    | some c =>
      simp only [hc]
      by_cases h2 : c &&& 0xc0 = 0xc0
      · simp only [h2, ↓reduceIte]
        by_cases h3 : reader + 1 ≥ buffer.length
        · simp only [h3, ↓reduceIte]; exact ReadName.noConfusion
        simp only [h3, ↓reduceIte]
        cases hc1 : buffer[reader + 1]? with
        | none => simp only [hc1]; exact ReadName.noConfusion
        | some c1 =>
          simp only [hc1]
          by_cases h4 : c1 > reader
          · simp only [h4, ↓reduceIte]; exact ReadName.noConfusion
          simp only [h4, ↓reduceIte]
          by_cases h5 : depth > 100
          · simp only [h5, ↓reduceIte]; exact ReadName.noConfusion
          simp only [h5, ↓reduceIte]
          have hmul : (101 - depth) * (buffer.length + 1)
              = (101 - (depth + 1)) * (buffer.length + 1) + (buffer.length + 1) := by
            have : 101 - depth = (101 - (depth + 1)) + 1 := by omega
            rw [this, Nat.succ_mul]
          have hrec := ih ((c &&& 63) * 256 + c1) ((c &&& 63) * 256 + c1) 0 []
            (dest_len - nb_bytes) (depth + 1) (by
              generalize (101 - (depth + 1)) * (buffer.length + 1) = M at hmul ⊢
              omega)
          revert hrec
          cases resolv_read_name_fuel buffer n ((c &&& 63) * 256 + c1)
              ((c &&& 63) * 256 + c1) 0 [] (dest_len - nb_bytes) (depth + 1) with
          | fault => intro _; exact ReadName.noConfusion
          | nofuel => intro hrec; exact absurd rfl hrec
          | ret n d o k =>
            intro _
            dsimp only
            split <;> exact ReadName.noConfusion
      · simp only [h2, ↓reduceIte]
        by_cases h3 : c = 0
        · simp only [h3, ↓reduceIte]; exact ReadName.noConfusion
        simp only [h3, ↓reduceIte]
        by_cases h4 : reader + c ≥ buffer.length ∨ ((nb_bytes + c : Nat) : Int) ≥ dest_len
        · simp only [h4, ↓reduceIte]; exact ReadName.noConfusion
        simp only [h4, ↓reduceIte]
        by_cases h5 : reader + (c + 1) > buffer.length
            ∨ ((nb_bytes + (c + 1) : Nat) : Int) > dest_len
        · simp only [h5, ↓reduceIte]; exact ReadName.noConfusion
        simp only [h5, ↓reduceIte]
        apply ih
        generalize (101 - depth) * (buffer.length + 1) = M at h ⊢
        omega

theorem read_name_fuel_stable (buffer : List Nat) (fuel k name reader nb_bytes : Nat)
    (dest : List Nat) (dest_len : Int) (depth : Nat)
    (h : resolv_read_name_fuel buffer fuel name reader nb_bytes dest dest_len depth
      ≠ .nofuel) :
    resolv_read_name_fuel buffer (fuel + k) name reader nb_bytes dest dest_len depth
      = resolv_read_name_fuel buffer fuel name reader nb_bytes dest dest_len depth := by
  induction k with
  | zero => rfl
  | succ k ih =>
    rw [← Nat.add_assoc, read_name_fuel_succ _ _ _ _ _ _ _ _ (by rw [ih]; exact h), ih]

theorem read_name_budget_enough (buffer : List Nat) (name depth : Nat) :
    (buffer.length - name) + 1 + (101 - depth) * (buffer.length + 1)
      ≤ read_name_budget buffer := by
  unfold read_name_budget
  have h1 : (101 - depth) * (buffer.length + 1) ≤ 101 * (buffer.length + 1) :=
    Nat.mul_le_mul_right _ (by omega)
  generalize (101 - depth) * (buffer.length + 1) = M at h1 ⊢
  omega

/-- C7: `resolv_read_name` terminates on every input: with the step budget
`read_name_budget buffer` the run never exhausts its budget, whatever the
buffer (cyclic or self-referencing pointers included), the cursor, `dest_len`
and the depth, and every larger budget yields the same outcome. -/
theorem resolv_read_name_terminates (buffer : List Nat) (name : Nat) (dest_len : Int)
    (depth : Nat) :
    resolv_read_name buffer name dest_len depth ≠ .nofuel
    ∧ ∀ extra : Nat,
        resolv_read_name_fuel buffer (read_name_budget buffer + extra) name name 0 []
            dest_len depth
          = resolv_read_name buffer name dest_len depth := by
  have h := read_name_fuel_enough buffer (read_name_budget buffer) name name 0 [] dest_len
    depth (read_name_budget_enough buffer name depth)
  exact ⟨h, fun extra => read_name_fuel_stable _ _ extra _ _ _ _ _ _ h⟩

theorem read_name_fuel_safe (buffer : List Nat) (fuel name reader nb_bytes : Nat)
    (dest : List Nat) (dest_len : Int) (depth : Nat) :
    resolv_read_name_fuel buffer fuel name reader nb_bytes dest dest_len depth ≠ .fault
    ∧ ∀ nb' dest' off k,
        resolv_read_name_fuel buffer fuel name reader nb_bytes dest dest_len depth
          = .ret nb' dest' off k →
        ∃ d, dest' = dest ++ d
          ∧ (d = [] ∨ ((nb_bytes + d.length : Nat) : Int) ≤ dest_len)
          ∧ (nb' ≠ 0 → nb' = nb_bytes + d.length) := by
  induction fuel generalizing name reader nb_bytes dest dest_len depth with
  | zero =>
    rw [resolv_read_name_fuel]
    exact ⟨ReadName.noConfusion, fun _ _ _ _ h => ReadName.noConfusion h⟩
  | succ n ih =>
    have err : (ReadName.ret 0 dest none 0 ≠ .fault)
        ∧ ∀ nb' dest' off k, ReadName.ret 0 dest none 0 = .ret nb' dest' off k →
          ∃ d, dest' = dest ++ d
            ∧ (d = [] ∨ ((nb_bytes + d.length : Nat) : Int) ≤ dest_len)
            ∧ (nb' ≠ 0 → nb' = nb_bytes + d.length) := by
      refine ⟨ReadName.noConfusion, ?_⟩
      intro nb' dest' off k h
      injection h with e1 e2 e3 e4
      exact ⟨[], by simp [e2], Or.inl rfl, fun hne => absurd e1.symm hne⟩
    have flt : ∀ P : Prop, (ReadName.fault ≠ .fault ∧ P) → False := fun _ h => h.1 rfl
    rw [resolv_read_name_fuel]
    by_cases h1 : reader ≥ buffer.length
    · simp only [h1, ↓reduceIte]; exact err
    simp only [h1, ↓reduceIte]
    have hlt : reader < buffer.length := Nat.lt_of_not_ge h1
    cases hc : buffer[reader]? with
    | none =>
      exact absurd hc (by simp [List.getElem?_eq_none_iff]; omega)
    | some c =>
      simp only [hc]
      by_cases h2 : c &&& 0xc0 = 0xc0
      · simp only [h2, ↓reduceIte]
        by_cases h3 : reader + 1 ≥ buffer.length
        · simp only [h3, ↓reduceIte]; exact err
        simp only [h3, ↓reduceIte]
        cases hc1 : buffer[reader + 1]? with
        | none =>
          exact absurd hc1 (by simp [List.getElem?_eq_none_iff]; omega)
        | some c1 =>
          simp only [hc1]
          by_cases h4 : c1 > reader
          · simp only [h4, ↓reduceIte]; exact err
          simp only [h4, ↓reduceIte]
          by_cases h5 : depth > 100
          · simp only [h5, ↓reduceIte]; exact err
          simp only [h5, ↓reduceIte]
          have hrec := ih ((c &&& 63) * 256 + c1) ((c &&& 63) * 256 + c1) 0 []
            (dest_len - nb_bytes) (depth + 1)
          revert hrec
          cases resolv_read_name_fuel buffer n ((c &&& 63) * 256 + c1)
              ((c &&& 63) * 256 + c1) 0 [] (dest_len - nb_bytes) (depth + 1) with
          | fault => intro hrec; exact absurd rfl hrec.1
          | nofuel =>
            intro _
            exact ⟨ReadName.noConfusion, fun _ _ _ _ h => ReadName.noConfusion h⟩
          | ret m d o k =>
            intro hrec
            obtain ⟨d', hd', hbound, hm⟩ := hrec.2 m d o k rfl
            simp only [List.nil_append] at hd'
            subst hd'
            have hbound' : d = [] ∨ ((nb_bytes + d.length : Nat) : Int) ≤ dest_len := by
              rcases hbound with hb | hb
              · exact Or.inl hb
              · right
                push_cast at hb ⊢
                omega
            dsimp only
            by_cases hm0 : m = 0
            · simp only [hm0, ↓reduceIte]
              refine ⟨ReadName.noConfusion, ?_⟩
              intro nb' dest' off k' h
              injection h with e1 e2 e3 e4
              exact ⟨d, e2.symm, hbound', fun hne => absurd e1.symm hne⟩
            · simp only [hm0, ↓reduceIte]
              refine ⟨ReadName.noConfusion, ?_⟩
              intro nb' dest' off k' h
              injection h with e1 e2 e3 e4
              refine ⟨d, e2.symm, hbound', fun _ => ?_⟩
              have := hm hm0
              omega
      · simp only [h2, ↓reduceIte]
        by_cases h3 : c = 0
        · simp only [h3, ↓reduceIte]
          refine ⟨ReadName.noConfusion, ?_⟩
          intro nb' dest' off k h
          injection h with e1 e2 e3 e4
          exact ⟨[], by simp [e2], Or.inl rfl, fun _ => by simp [e1]⟩
        simp only [h3, ↓reduceIte]
        by_cases h4 : reader + c ≥ buffer.length ∨ ((nb_bytes + c : Nat) : Int) ≥ dest_len
        · simp only [h4, ↓reduceIte]; exact err
        simp only [h4, ↓reduceIte]
        have h4a : reader + c < buffer.length := by
          by_contra hcon; exact h4 (Or.inl (Nat.le_of_not_lt hcon))
        have h4b : ((nb_bytes + c : Nat) : Int) < dest_len := by
          by_contra hcon; exact h4 (Or.inr (Int.not_lt.mp hcon))
        by_cases h5 : reader + (c + 1) > buffer.length
            ∨ ((nb_bytes + (c + 1) : Nat) : Int) > dest_len
        · exfalso
          rcases h5 with h5 | h5
          · omega
          · push_cast at h5 h4b; omega
        simp only [h5, ↓reduceIte]
        have hrec := ih name (reader + (c + 1)) (nb_bytes + (c + 1))
          (dest ++ List.take (c + 1) (List.drop reader buffer)) dest_len depth
        refine ⟨hrec.1, ?_⟩
        intro nb' dest' off k h
        obtain ⟨d2, hd2, hbound, hnb⟩ := hrec.2 nb' dest' off k h
        have hlen : (List.take (c + 1) (List.drop reader buffer)).length = c + 1 := by
          simp; omega
        refine ⟨List.take (c + 1) (List.drop reader buffer) ++ d2, ?_, ?_, ?_⟩
        · rw [hd2, List.append_assoc]
        · right
          rw [List.length_append, hlen]
          rcases hbound with hb | hb
          · subst hb
            push_cast at h4b ⊢
            simp
            omega
          · push_cast at hb ⊢
            omega
        · intro hne
          rw [List.length_append, hlen]
          have := hnb hne
          omega

/-- C6: for every buffer, cursor, `dest_len` and depth, `resolv_read_name`
reads only bytes inside `[buffer, bufend)` and stores only inside
`destination[0 .. dest_len)` (the run never faults, and the bytes stored are
either none or at most `dest_len` many); when it returns a non-zero byte count,
that count is the number of bytes stored and is at most `dest_len`. -/
theorem resolv_read_name_safe (buffer : List Nat) (name : Nat) (dest_len : Int)
    (depth : Nat) :
    resolv_read_name buffer name dest_len depth ≠ .fault
    ∧ ∀ nb_bytes dest offset ptrs,
        resolv_read_name buffer name dest_len depth = .ret nb_bytes dest offset ptrs →
        (dest = [] ∨ (dest.length : Int) ≤ dest_len)
        ∧ (nb_bytes ≠ 0 → nb_bytes = dest.length ∧ (nb_bytes : Int) ≤ dest_len) := by
  have h := read_name_fuel_safe buffer (read_name_budget buffer) name name 0 [] dest_len depth
  refine ⟨h.1, ?_⟩
  intro nb_bytes dest offset ptrs hr
  obtain ⟨d, hd, hbound, hnb⟩ := h.2 nb_bytes dest offset ptrs hr
  simp only [List.nil_append, Nat.zero_add] at hd hbound hnb
  subst hd
  refine ⟨hbound, fun hne => ?_⟩
  have e := hnb hne
  refine ⟨e, ?_⟩
  rcases hbound with hb | hb
  · subst hb
    simp at e
    exact absurd e hne
  · rw [e]; exact hb

theorem read_name_fuel_ptrs (buffer : List Nat) (fuel name reader nb_bytes : Nat)
    (dest : List Nat) (dest_len : Int) (depth : Nat) (nb' : Nat) (dest' : List Nat)
    (off : Option Nat) (k : Nat)
    (h : resolv_read_name_fuel buffer fuel name reader nb_bytes dest dest_len depth
      = .ret nb' dest' off k) :
    k ≤ 101 - depth := by
  induction fuel generalizing name reader nb_bytes dest dest_len depth nb' dest' off k with
  | zero =>
    rw [resolv_read_name_fuel] at h
    exact ReadName.noConfusion h
  | succ n ih =>
    have err : ∀ (a : Nat) (o : Option Nat),
        ReadName.ret a dest o 0 = .ret nb' dest' off k → k ≤ 101 - depth := by
      intro a o h
      injection h with e1 e2 e3 e4
      omega
    rw [resolv_read_name_fuel] at h
    by_cases h1 : reader ≥ buffer.length
    · simp only [h1, ↓reduceIte] at h; exact err _ _ h
    simp only [h1, ↓reduceIte] at h
    cases hc : buffer[reader]? with
    | none => simp only [hc] at h; exact ReadName.noConfusion h
    | some c =>
      simp only [hc] at h
      by_cases h2 : c &&& 0xc0 = 0xc0
      · simp only [h2, ↓reduceIte] at h
        by_cases h3 : reader + 1 ≥ buffer.length
        · simp only [h3, ↓reduceIte] at h; exact err _ _ h
        simp only [h3, ↓reduceIte] at h
        cases hc1 : buffer[reader + 1]? with
        | none => simp only [hc1] at h; exact ReadName.noConfusion h
        | some c1 =>
          simp only [hc1] at h
          by_cases h4 : c1 > reader
          · simp only [h4, ↓reduceIte] at h; exact err _ _ h
          simp only [h4, ↓reduceIte] at h
          by_cases h5 : depth > 100
          · simp only [h5, ↓reduceIte] at h; exact err _ _ h
          simp only [h5, ↓reduceIte] at h
          have hrec := ih ((c &&& 63) * 256 + c1) ((c &&& 63) * 256 + c1) 0 []
            (dest_len - nb_bytes) (depth + 1)
          revert hrec h
          cases resolv_read_name_fuel buffer n ((c &&& 63) * 256 + c1)
              ((c &&& 63) * 256 + c1) 0 [] (dest_len - nb_bytes) (depth + 1) with
          | fault => intro h; exact ReadName.noConfusion h
          | nofuel => intro h; exact ReadName.noConfusion h
          | ret m d o k0 =>
            intro h hrec
            have hk0 := hrec m d o k0 rfl
            dsimp only at h
            by_cases hm0 : m = 0
            · simp only [hm0, ↓reduceIte] at h
              injection h with e1 e2 e3 e4
              omega
            · simp only [hm0, ↓reduceIte] at h
              injection h with e1 e2 e3 e4
              omega
      · simp only [h2, ↓reduceIte] at h
        by_cases h3 : c = 0
        · simp only [h3, ↓reduceIte] at h; exact err _ _ h
        simp only [h3, ↓reduceIte] at h
        by_cases h4 : reader + c ≥ buffer.length ∨ ((nb_bytes + c : Nat) : Int) ≥ dest_len
        · simp only [h4, ↓reduceIte] at h; exact err _ _ h
        simp only [h4, ↓reduceIte] at h
        by_cases h5 : reader + (c + 1) > buffer.length
            ∨ ((nb_bytes + (c + 1) : Nat) : Int) > dest_len
        · simp only [h5, ↓reduceIte] at h; exact ReadName.noConfusion h
        simp only [h5, ↓reduceIte] at h
        exact ih _ _ _ _ _ _ _ _ _ _ h

/-- A pointer byte met at recursion depth above 100 ends the run with the
error value, whatever follows. -/
theorem read_name_fuel_pointer_too_deep (buffer : List Nat) (fuel name reader nb_bytes : Nat)
    (dest : List Nat) (dest_len : Int) (depth c : Nat)
    (hc : buffer[reader]? = some c) (hptr : c &&& 0xc0 = 0xc0) (hdepth : 100 < depth) :
    resolv_read_name_fuel buffer (fuel + 1) name reader nb_bytes dest dest_len depth
      = .ret 0 dest none 0 := by
  have hlt : reader < buffer.length := by
    by_contra hcon
    rw [List.getElem?_eq_none (Nat.le_of_not_lt hcon)] at hc
    exact Option.noConfusion hc
  rw [resolv_read_name_fuel]
  simp only [ge_iff_le, Nat.not_le.mpr hlt, ↓reduceIte, hc, hptr]
  split
  · rfl
  · rename_i h3
    cases hc1 : buffer[reader + 1]? with
    | none => exact absurd hc1 (by simp [List.getElem?_eq_none_iff]; omega)
    | some c1 =>
      simp only [gt_iff_lt, hdepth, ↓reduceIte]
      split <;> rfl

set_option maxRecDepth 100000

/-- C4 (evaluation at the failing input): the pointer `c1 00` at offset 0 has
the 14-bit target offset 256, which is not smaller than the pointer's own
offset 0, yet `resolv_read_name` follows it and returns the 2-byte name found
at offset 256. -/
theorem resolv_read_name_forward_pointer :
    forward_pointer_buffer[0]? = some 0xc1
    ∧ forward_pointer_buffer[1]? = some 0x00
    ∧ ¬ ((0xc1 &&& 0x3f) * 256 + 0x00 < 0)
    ∧ resolv_read_name forward_pointer_buffer 0 255 0 = .ret 2 [1, 97] (some 2) 1 := by
  decide

/-- C5 (counterexample): a name whose decoding follows 100 nested compression
pointers is decoded successfully by a call at depth 0. -/
theorem resolv_read_name_depth_100_counterexample :
    resolv_read_name (pointer_chain 100) 201 255 0 = .ret 2 [1, 97] (some 2) 100 := by
  decide

/-- C5 (amended): a run of `resolv_read_name` started at recursion depth `depth`
follows at most `101 - depth` nested compression pointers, whatever its
outcome; from depth 0 that is at most 101, so no name whose decoding follows
102 or more nested pointers is decoded successfully. -/
theorem resolv_read_name_pointer_depth (buffer : List Nat) (name : Nat) (dest_len : Int)
    (depth nb_bytes : Nat) (dest : List Nat) (offset : Option Nat) (ptrs : Nat)
    (h : resolv_read_name buffer name dest_len depth = .ret nb_bytes dest offset ptrs) :
    ptrs ≤ 101 - depth :=
  read_name_fuel_ptrs buffer _ name name 0 [] dest_len depth nb_bytes dest offset ptrs h

/-- Witness for C5: a chain of 101 pointers is decoded from depth 0. -/
theorem resolv_read_name_pointer_depth_witness :
    resolv_read_name (pointer_chain 101) 203 255 0 = .ret 2 [1, 97] (some 2) 101
    ∧ 101 ≤ 101 - 0 :=
  ⟨by decide,
   resolv_read_name_pointer_depth (pointer_chain 101) 203 255 0 2 [1, 97] (some 2) 101
    (by decide)⟩

/-- A chain of 102 pointers is refused from depth 0, after 101 of them were
followed. -/
theorem resolv_read_name_depth_102 :
    resolv_read_name (pointer_chain 102) 205 255 0 = .ret 0 [] none 101 := by
  decide

/-- Witness for C6: a name made of a pointer to a label stored earlier in the
buffer. -/
theorem resolv_read_name_safe_witness :
    resolv_read_name [0, 0, 1, 97, 0, 0xc0, 2] 5 255 0 = .ret 2 [1, 97] (some 2) 1
    ∧ ([1, 97] = [] ∨ (([1, 97] : List Nat).length : Int) ≤ 255)
    ∧ (2 ≠ 0 → 2 = ([1, 97] : List Nat).length ∧ ((2 : Nat) : Int) ≤ 255) :=
  ⟨by decide,
   (resolv_read_name_safe [0, 0, 1, 97, 0, 0xc0, 2] 5 255 0).2 2 [1, 97] (some 2) 1
    (by decide)⟩

theorem land_c0_of_le_63 (c : Nat) (h : c ≤ 63) : ¬ (c &&& 0xc0 = 0xc0) := by
  have := @Nat.and_le_left c 0xc0
  omega

theorem dn_labels_cons (l : List Nat) (ls : List (List Nat)) :
    dn_labels (l :: ls) = (l.length :: l) ++ dn_labels ls := by
  simp [dn_labels]

theorem dn_labels_length_ge (labels : List (List Nat)) :
    labels.length ≤ (dn_labels labels).length := by
  induction labels with
  | nil => simp [dn_labels]
  | cons l ls ih =>
    rw [dn_labels_cons]
    simp only [List.length_append, List.length_cons]
    omega

theorem getElem?_append_cons (pre rest : List Nat) (x : Nat) :
    (pre ++ x :: rest)[pre.length]? = some x := by
  rw [List.getElem?_append_right (Nat.le_refl _)]
  simp

/-- Decoding an uncompressed label-form name that sits in the buffer after
`pre` and is followed by a zero byte. -/
theorem read_name_fuel_labels (labels : List (List Nat)) :
    ∀ (fuel : Nat) (pre post : List Nat) (name nb_bytes : Nat) (dest : List Nat)
      (dest_len : Int) (depth : Nat),
      (∀ l ∈ labels, 1 ≤ l.length ∧ l.length ≤ 63) →
      labels.length + 1 ≤ fuel →
      ((nb_bytes + (dn_labels labels).length : Nat) : Int) < dest_len →
      resolv_read_name_fuel (pre ++ dn_labels labels ++ 0 :: post) fuel name pre.length
          nb_bytes dest dest_len depth
        = .ret (nb_bytes + (dn_labels labels).length) (dest ++ dn_labels labels)
            (some (read_name_offset ((pre ++ dn_labels labels ++ 0 :: post).drop name) 0))
            0 := by
  induction labels with
  | nil =>
    intro fuel pre post name nb_bytes dest dest_len depth _ hfuel _
    obtain ⟨f, rfl⟩ : ∃ f, fuel = f + 1 := ⟨fuel - 1, by omega⟩
    have hb : pre ++ dn_labels [] ++ 0 :: post = pre ++ 0 :: post := by simp [dn_labels]
    have c1 : ¬ (pre.length ≥ (pre ++ 0 :: post).length) := by simp
    have c2 : ¬ (0 &&& 0xc0 = 0xc0) := by decide
    rw [hb, resolv_read_name_fuel]
    simp only [c1, ↓reduceIte, getElem?_append_cons, c2]
    simp [dn_labels]
  | cons l ls ih =>
    intro fuel pre post name nb_bytes dest dest_len depth hlab hfuel hdest
    obtain ⟨f, rfl⟩ : ∃ f, fuel = f + 1 := ⟨fuel - 1, by omega⟩
    have hl := hlab l (List.mem_cons_self _ _)
    have hbuf : pre ++ dn_labels (l :: ls) ++ 0 :: post
        = (pre ++ l.length :: l) ++ dn_labels ls ++ 0 :: post := by
      rw [dn_labels_cons]; simp
    have hbuf2 : pre ++ dn_labels (l :: ls) ++ 0 :: post
        = pre ++ l.length :: (l ++ dn_labels ls ++ 0 :: post) := by
      rw [dn_labels_cons]; simp
    have hget : (pre ++ dn_labels (l :: ls) ++ 0 :: post)[pre.length]? = some l.length := by
      rw [hbuf2]; exact getElem?_append_cons _ _ _
    have hlen : (pre ++ dn_labels (l :: ls) ++ 0 :: post).length
        = pre.length + (l.length + 1) + (dn_labels ls).length + (post.length + 1) := by
      rw [dn_labels_cons]; simp; omega
    have htake : List.take (l.length + 1)
        (List.drop pre.length (pre ++ dn_labels (l :: ls) ++ 0 :: post)) = l.length :: l := by
      rw [hbuf2]; simp
    have hdl : (dn_labels (l :: ls)).length = (l.length + 1) + (dn_labels ls).length := by
      rw [dn_labels_cons]; simp; omega
    have hdest' : (nb_bytes : Int) + (l.length + 1) + (dn_labels ls).length < dest_len := by
      rw [hdl] at hdest; push_cast at hdest; omega
    rw [resolv_read_name_fuel]
    have c1 : ¬ (pre.length ≥ (pre ++ dn_labels (l :: ls) ++ 0 :: post).length) := by
      rw [hlen]; omega
    have c3 : ¬ (l.length = 0) := by omega
    have c4 : ¬ (pre.length + l.length ≥ (pre ++ dn_labels (l :: ls) ++ 0 :: post).length
        ∨ ((nb_bytes + l.length : Nat) : Int) ≥ dest_len) := by
      rw [hlen]
      push_cast
      omega
    have c5 : ¬ (pre.length + (l.length + 1)
          > (pre ++ dn_labels (l :: ls) ++ 0 :: post).length
        ∨ ((nb_bytes + (l.length + 1) : Nat) : Int) > dest_len) := by
      rw [hlen]
      push_cast
      omega
    simp only [c1, ↓reduceIte, hget, land_c0_of_le_63 _ hl.2, c3, c4, c5, htake]
    rw [hbuf]
    have := ih f (pre ++ l.length :: l) post name (nb_bytes + (l.length + 1))
      (dest ++ l.length :: l) dest_len depth
      (fun l' hl' => hlab l' (List.mem_cons_of_mem _ hl'))
      (by simp at hfuel; omega)
      (by push_cast; omega)
    rw [List.length_append, List.length_cons] at this
    rw [this, hdl, dn_labels_cons]
    simp
    omega

/-- C1: for every query id, query type, payload size and every non-empty
label-form name `n` (labels of 1..63 bytes), when `resolv_build_query` succeeds
with length `L` into `buf`, `resolv_read_name` run on `[buf, buf + L)` from
offset 12 at depth 0 with `dest_len > len(n)` returns `len(n)` (which is not
the error value 0) and stores exactly the bytes of `n`. -/
theorem build_query_read_name_roundtrip (query_id query_type accepted_payload_size : Nat)
    (labels : List (List Nat)) (bufsize L : Nat) (buf : List Nat) (dest_len : Int)
    (hne : labels ≠ [])
    (hlab : ∀ l ∈ labels, 1 ≤ l.length ∧ l.length ≤ 63)
    (hbuild : resolv_build_query query_id query_type accepted_payload_size
      (dn_labels labels) (dn_labels labels).length bufsize = some (L, buf))
    (hdest : ((dn_labels labels).length : Int) < dest_len) :
    (dn_labels labels).length ≠ 0
    ∧ ∃ offset, resolv_read_name (buf.take L) 12 dest_len 0
      = .ret (dn_labels labels).length (dn_labels labels) offset 0 := by
  refine ⟨?_, ?_⟩
  · have := dn_labels_length_ge labels
    have : labels.length ≠ 0 := fun h0 => hne (List.length_eq_zero.mp h0)
    omega
  obtain ⟨_, hbytes, _⟩ := resolv_build_query_take _ _ _ _ _ _ _ hbuild
  rw [hbytes]
  unfold resolv_read_name
  have h := read_name_fuel_labels labels
    (read_name_budget ([query_id / 256 % 256, query_id % 256, 0x01, 0x00, 0x00, 0x01,
            0x00, 0x00, 0x00, 0x00, 0x00, 0x01]
          ++ dn_labels labels ++ [0]
          ++ [query_type / 256 % 256, query_type % 256, 0x00, 0x01]
          ++ [0x00, 0x00, 0x29, accepted_payload_size / 256 % 256,
              accepted_payload_size % 256, 0x00, 0x00, 0x00, 0x00, 0x00, 0x00]))
    [query_id / 256 % 256, query_id % 256, 0x01, 0x00, 0x00, 0x01,
            0x00, 0x00, 0x00, 0x00, 0x00, 0x01]
    ([query_type / 256 % 256, query_type % 256, 0x00, 0x01]
          ++ [0x00, 0x00, 0x29, accepted_payload_size / 256 % 256,
              accepted_payload_size % 256, 0x00, 0x00, 0x00, 0x00, 0x00, 0x00])
    12 0 [] dest_len 0 hlab
    (by
      have := dn_labels_length_ge labels
      unfold read_name_budget
      simp only [List.length_append, List.length_cons, List.length_nil]
      omega)
    (by simpa using hdest)
  simp only [List.length_cons, List.length_nil, Nat.zero_add, List.nil_append] at h
  simp only [List.append_assoc, List.cons_append, List.nil_append] at h ⊢
  exact ⟨_, h⟩

/-- Witness for C1: the query for `www.ab` built in a 64-byte buffer and its
question name read back. -/
theorem build_query_read_name_roundtrip_witness :
    ([[119, 119, 119], [97, 98]] : List (List Nat)) ≠ []
    ∧ (∀ l ∈ ([[119, 119, 119], [97, 98]] : List (List Nat)), 1 ≤ l.length ∧ l.length ≤ 63)
    ∧ resolv_build_query 0x1234 1 512 (dn_labels [[119, 119, 119], [97, 98]])
        (dn_labels [[119, 119, 119], [97, 98]]).length 64
        = some (35, [0x12, 0x34, 1, 0, 0, 1, 0, 0, 0, 0, 0, 1, 3, 119, 119, 119, 2, 97, 98,
            0, 0, 1, 0, 1, 0, 0, 41, 2, 0, 0, 0, 0, 0, 0, 0] ++ List.replicate 29 0)
    ∧ (((dn_labels [[119, 119, 119], [97, 98]]).length : Int) < 255)
    ∧ ((dn_labels [[119, 119, 119], [97, 98]]).length ≠ 0
      ∧ ∃ offset, resolv_read_name
          (([0x12, 0x34, 1, 0, 0, 1, 0, 0, 0, 0, 0, 1, 3, 119, 119, 119, 2, 97, 98,
            0, 0, 1, 0, 1, 0, 0, 41, 2, 0, 0, 0, 0, 0, 0, 0] ++ List.replicate 29 0).take 35)
          12 255 0
        = .ret (dn_labels [[119, 119, 119], [97, 98]]).length
            (dn_labels [[119, 119, 119], [97, 98]]) offset 0) :=
  ⟨by decide, by decide, by decide, by decide,
   build_query_read_name_roundtrip 0x1234 1 512 [[119, 119, 119], [97, 98]] 64 35 _ 255
    (by decide) (by decide) (by decide) (by decide)⟩

/-! ## Theorems: `resolv_str_to_dn_label` -/

theorem set_append_cons (A B : List Nat) (x y n : Nat) (h : n = A.length) :
    (A ++ x :: B).set n y = A ++ y :: B := by
  subst h
  induction A with
  | nil => rfl
  | cons a A ih => simp [ih]

theorem dot_join_cons_cons (l l2 : List Nat) (ls : List (List Nat)) :
    dot_join (l :: l2 :: ls) = l ++ 46 :: dot_join (l2 :: ls) := rfl

theorem dn_labels_length (labels : List (List Nat)) (hne : labels ≠ []) :
    (dn_labels labels).length = (dot_join labels).length + 1 := by
  induction labels with
  | nil => exact absurd rfl hne
  | cons l ls ih =>
    cases ls with
    | nil => simp [dn_labels, dot_join]
    | cons l2 ls =>
      rw [dn_labels_cons, dot_join_cons_cons]
      have := ih (List.cons_ne_nil _ _)
      simp only [List.length_append, List.length_cons]
      omega

/-- Characters other than `'.'` are copied one position to the right. -/
theorem str_to_dn_label_loop_chars (str_len : Nat) (l : List Nat) :
    ∀ (rest : List Nat) (i offset : Nat) (A B : List Nat),
      46 ∉ l → A.length = i + 1 → l.length ≤ B.length →
      str_to_dn_label_loop str_len (l ++ rest) i offset (A ++ B)
        = str_to_dn_label_loop str_len rest (i + l.length) offset
            (A ++ l ++ B.drop l.length) := by
  induction l with
  | nil => intro rest i offset A B _ _ _; simp
  | cons c l ih =>
    intro rest i offset A B hdot hA hB
    have hc : ¬ (c = 46) := fun h => hdot (by simp [h])
    have hl : 46 ∉ l := fun h => hdot (List.mem_cons_of_mem _ h)
    cases B with
    | nil => simp at hB
    | cons b B =>
      rw [List.cons_append, str_to_dn_label_loop]
      simp only [hc, ↓reduceIte]
      rw [set_append_cons A B b c (i + 1) hA.symm]
      have := ih rest (i + 1) offset (A ++ [c]) B hl (by simp [hA])
        (by simp at hB; omega)
      simp only [List.append_assoc, List.singleton_append] at this
      rw [this]
      simp only [List.length_cons, List.drop_succ_cons, List.append_assoc, List.cons_append]
      congr 1
      omega

theorem dot_join_length_pos (l : List Nat) (ls : List (List Nat)) (hl : l ≠ []) :
    1 ≤ (dot_join (l :: ls)).length := by
  have hpos : 1 ≤ l.length := List.length_pos.mpr hl
  cases ls with
  | nil => simpa [dot_join] using hpos
  | cons l2 ls =>
    rw [dot_join_cons_cons]
    simp only [List.length_append, List.length_cons]
    omega

/-- The loop of `resolv_str_to_dn_label` on a dotted string of non-empty labels
followed by the terminating NUL, started at the first character of a label, and
the two stores that follow the loop. -/
theorem str_to_dn_label_loop_labels (str_len : Nat) (labels : List (List Nat)) :
    ∀ (P : List Nat) (g : Nat) (B : List Nat),
      labels ≠ [] →
      (∀ l ∈ labels, l ≠ [] ∧ 46 ∉ l ∧ l.length ≤ 255) →
      str_len = P.length + (dot_join labels).length + 1 →
      (dot_join labels).length + 1 ≤ B.length →
      ∃ offset dn',
        str_to_dn_label_loop str_len (dot_join labels ++ [0]) P.length P.length
            (P ++ g :: B) = some (str_len, offset, dn')
        ∧ (dn'.set offset (((str_len : Int) - offset - 1) % 256).toNat).set str_len 0
            = P ++ dn_labels labels ++ 0 :: B.drop ((dot_join labels).length + 1) := by
  induction labels with
  | nil => intro P g B hne; exact absurd rfl hne
  | cons l ls ih =>
    intro P g B _ hlab hlen hB
    obtain ⟨hlne, hldot, hl255⟩ := hlab l (List.mem_cons_self _ _)
    have hlpos : 1 ≤ l.length := List.length_pos.mpr hlne
    cases ls with
    | nil =>
      simp only [dot_join] at hlen hB ⊢
      have h0 : 46 ∉ l ++ [0] := by
        intro h
        rcases List.mem_append.mp h with h | h
        · exact hldot h
        · simp at h
      have hc : str_to_dn_label_loop str_len (l ++ [0]) P.length P.length (P ++ g :: B)
          = some (str_len, P.length, P ++ g :: (l ++ 0 :: B.drop (l.length + 1))) := by
        have hc := str_to_dn_label_loop_chars str_len (l ++ [0]) [] P.length P.length
          (P ++ [g]) B h0 (by simp) (by simpa using hB)
        have e : P ++ [g] ++ B = P ++ g :: B := by simp
        rw [List.append_nil, e] at hc
        rw [hc, str_to_dn_label_loop, hlen]
        simp [Nat.add_assoc]
      refine ⟨P.length, P ++ g :: (l ++ 0 :: B.drop (l.length + 1)), hc, ?_⟩
      have hv : (((str_len : Int) - P.length - 1) % 256).toNat = l.length := by
        rw [hlen]; push_cast; omega
      rw [hv, set_append_cons P _ g l.length P.length rfl]
      have : P ++ l.length :: (l ++ 0 :: List.drop (l.length + 1) B)
          = (P ++ l.length :: l) ++ 0 :: List.drop (l.length + 1) B := by simp
      rw [this, set_append_cons _ _ 0 0 str_len (by rw [hlen]; simp; omega)]
      simp [dn_labels]
    | cons l2 ls =>
      have hl2 := hlab l2 (List.mem_cons_of_mem _ (List.mem_cons_self _ _))
      have hdj : 1 ≤ (dot_join (l2 :: ls)).length := dot_join_length_pos l2 ls hl2.1
      rw [dot_join_cons_cons] at hlen hB ⊢
      simp only [List.length_append, List.length_cons] at hlen hB
      have hc := str_to_dn_label_loop_chars str_len l (46 :: (dot_join (l2 :: ls) ++ [0]))
        P.length P.length (P ++ [g]) B hldot (by simp) (by omega)
      have e0 : P ++ [g] ++ B = P ++ g :: B := by simp
      have e00 : P ++ [g] ++ l ++ List.drop l.length B
          = P ++ g :: (l ++ List.drop l.length B) := by simp
      rw [e0, e00] at hc
      have hlist : l ++ 46 :: dot_join (l2 :: ls) ++ [0]
          = l ++ 46 :: (dot_join (l2 :: ls) ++ [0]) := by simp
      obtain ⟨g', B', hB'⟩ : ∃ g' B', B.drop l.length = g' :: B' := by
        cases hd : B.drop l.length with
        | nil =>
          have := congrArg List.length hd
          simp at this
          omega
        | cons g' B' => exact ⟨g', B', rfl⟩
      have hB'len : B'.length + 1 + l.length = B.length := by
        have := congrArg List.length hB'
        simp at this
        omega
      have hdrop : List.drop ((dot_join (l2 :: ls)).length + 1) B'
          = List.drop (l.length + ((dot_join (l2 :: ls)).length + 1) + 1) B := by
        have h1 : List.drop ((dot_join (l2 :: ls)).length + 1 + 1) (List.drop l.length B)
            = List.drop (l.length + ((dot_join (l2 :: ls)).length + 1) + 1) B := by
          rw [List.drop_drop]
          rfl
        rw [← h1, hB', List.drop_succ_cons]
      obtain ⟨offset, dn', hrun, hfin⟩ := ih (P ++ l.length :: l) g' B'
        (List.cons_ne_nil _ _)
        (fun l' hl' => hlab l' (List.mem_cons_of_mem _ hl'))
        (by simp only [List.length_append, List.length_cons]; omega)
        (by omega)
      refine ⟨offset, dn', ?_, ?_⟩
      · rw [hlist, hc, str_to_dn_label_loop]
        have c1 : ¬ (P.length + l.length = P.length) := by omega
        have c2 : ¬ (P.length + l.length + 2 = str_len) := by omega
        have hv : (P.length + l.length - P.length) % 256 = l.length := by
          rw [Nat.add_sub_cancel_left]; exact Nat.mod_eq_of_lt (by omega)
        simp only [↓reduceIte, c1, c2, hv, hB']
        rw [set_append_cons P _ g l.length P.length rfl]
        have e1 : P ++ l.length :: (l ++ g' :: B') = (P ++ l.length :: l) ++ g' :: B' := by
          simp
        have e2 : P.length + l.length + 1 = (P ++ l.length :: l).length := by simp; omega
        rw [e1, e2]
        exact hrun
      · rw [hfin, hdrop, dn_labels_cons l (l2 :: ls)]
        simp

/-- Label form produced for a dotted string of non-empty labels. -/
theorem str_to_dn_label_dot_join (labels : List (List Nat)) (dn : List Nat)
    (dn_len : Nat)
    (hne : labels ≠ [])
    (hlab : ∀ l ∈ labels, l ≠ [] ∧ 46 ∉ l ∧ l.length ≤ 255)
    (hdn : dn.length = dn_len)
    (hlen : (dot_join labels).length + 2 ≤ dn_len) :
    resolv_str_to_dn_label (dot_join labels ++ [0]) ((dot_join labels).length + 1) dn dn_len
      = some ((dot_join labels).length + 1,
          dn_labels labels ++ [0] ++ dn.drop ((dot_join labels).length + 2))
    ∧ (dn_labels labels).length = (dot_join labels).length + 1 := by
  refine ⟨?_, dn_labels_length labels hne⟩
  obtain ⟨g, B, rfl⟩ : ∃ g B, dn = g :: B := by
    cases dn with
    | nil => simp at hdn; omega
    | cons g B => exact ⟨g, B, rfl⟩
  simp only [List.length_cons] at hdn
  obtain ⟨offset, dn', hrun, hfin⟩ := str_to_dn_label_loop_labels
    ((dot_join labels).length + 1) labels [] g B hne
    hlab
    (by simp) (by omega)
  simp only [List.length_nil, List.nil_append] at hrun hfin
  unfold resolv_str_to_dn_label
  have c1 : ¬ (dn_len < (dot_join labels).length + 1 + 1) := by omega
  have ht : List.take ((dot_join labels).length + 1) (dot_join labels ++ [0])
      = dot_join labels ++ [0] := by
    apply List.take_of_length_le
    simp
  simp only [c1, ↓reduceIte, ht, hrun]
  rw [hfin]
  simp

/-- C9: for every dotted string `s = l1.l2. ... .lk` with `k >= 1` whose labels
are non-empty, contain no `'.'` and are at most 63 bytes, and every buffer of
`dn_len >= strlen(s) + 2` bytes, `resolv_str_to_dn_label(s, strlen(s)+1, dn,
dn_len)` stores the label form (each label preceded by its length byte, then
one zero byte) at the start of `dn`, leaves the rest of `dn` untouched, and
returns the label-form length without the terminating zero, `strlen(s) + 1`. -/
theorem resolv_str_to_dn_label_labels (labels : List (List Nat)) (dn : List Nat)
    (dn_len : Nat)
    (hne : labels ≠ [])
    (hlab : ∀ l ∈ labels, l ≠ [] ∧ 46 ∉ l ∧ l.length ≤ 63)
    (hdn : dn.length = dn_len)
    (hlen : (dot_join labels).length + 2 ≤ dn_len) :
    resolv_str_to_dn_label (dot_join labels ++ [0]) ((dot_join labels).length + 1) dn dn_len
      = some ((dot_join labels).length + 1,
          dn_labels labels ++ [0] ++ dn.drop ((dot_join labels).length + 2))
    ∧ (dn_labels labels).length = (dot_join labels).length + 1 :=
  str_to_dn_label_dot_join labels dn dn_len hne
    (fun l hl => ⟨(hlab l hl).1, (hlab l hl).2.1, Nat.le_trans (hlab l hl).2.2 (by decide)⟩)
    hdn hlen

/-- Witness for C9: `www.ab` in a 10-byte buffer. -/
theorem resolv_str_to_dn_label_labels_witness :
    ([[119, 119, 119], [97, 98]] : List (List Nat)) ≠ []
    ∧ (∀ l ∈ ([[119, 119, 119], [97, 98]] : List (List Nat)),
        l ≠ [] ∧ 46 ∉ l ∧ l.length ≤ 63)
    ∧ (List.replicate 10 170).length = 10
    ∧ (dot_join [[119, 119, 119], [97, 98]]).length + 2 ≤ 10
    ∧ (resolv_str_to_dn_label (dot_join [[119, 119, 119], [97, 98]] ++ [0])
          ((dot_join [[119, 119, 119], [97, 98]]).length + 1) (List.replicate 10 170) 10
        = some ((dot_join [[119, 119, 119], [97, 98]]).length + 1,
            dn_labels [[119, 119, 119], [97, 98]] ++ [0]
              ++ (List.replicate 10 170).drop
                  ((dot_join [[119, 119, 119], [97, 98]]).length + 2))
      ∧ (dn_labels [[119, 119, 119], [97, 98]]).length
          = (dot_join [[119, 119, 119], [97, 98]]).length + 1) :=
  ⟨by decide, by decide, by decide, by decide,
   resolv_str_to_dn_label_labels [[119, 119, 119], [97, 98]] (List.replicate 10 170) 10
    (by decide) (by decide) (by decide) (by decide)⟩

/-- Two dots in a row, with at least the terminating NUL after them, make the
loop of `resolv_str_to_dn_label` return the error. -/
theorem str_to_dn_label_loop_double_dot (str_len : Nat) (a : List Nat) :
    ∀ (tail : List Nat) (i offset : Nat) (dn : List Nat),
      offset ≤ i → i + a.length + 3 ≤ str_len →
      str_to_dn_label_loop str_len (a ++ 46 :: 46 :: tail) i offset dn = none := by
  induction a with
  | nil =>
    intro tail i offset dn ho hlen
    simp only [List.nil_append, List.length_nil] at hlen ⊢
    rw [str_to_dn_label_loop]
    simp only [↓reduceIte]
    by_cases h1 : i = offset
    · simp only [h1, ↓reduceIte]
    · have h2 : ¬ (i + 2 = str_len) := by omega
      simp only [h1, h2, ↓reduceIte]
      rw [str_to_dn_label_loop]
      simp only [↓reduceIte]
  | cons c a ih =>
    intro tail i offset dn ho hlen
    simp only [List.length_cons] at hlen
    rw [List.cons_append, str_to_dn_label_loop]
    by_cases hc : c = 46
    · simp only [hc, ↓reduceIte]
      by_cases h1 : i = offset
      · simp only [h1, ↓reduceIte]
      · have h2 : ¬ (i + 2 = str_len) := by omega
        simp only [h1, h2, ↓reduceIte]
        exact ih tail (i + 1) (i + 1) _ (Nat.le_refl _) (by omega)
    · simp only [hc, ↓reduceIte]
      exact ih tail (i + 1) offset _ (by omega) (by omega)

/-- C10: for every string `s` that starts with `'.'` or contains two
consecutive dots, `resolv_str_to_dn_label(s, strlen(s)+1, dn, dn_len)` returns
the error, whatever the destination buffer and its size. -/
theorem resolv_str_to_dn_label_rejects (s dn : List Nat) (dn_len : Nat)
    (h : (∃ b, s = 46 :: b) ∨ (∃ a b, s = a ++ 46 :: 46 :: b)) :
    resolv_str_to_dn_label (s ++ [0]) (s.length + 1) dn dn_len = none := by
  unfold resolv_str_to_dn_label
  by_cases hsz : dn_len < s.length + 1 + 1
  · simp only [hsz, ↓reduceIte]
  · have ht : List.take (s.length + 1) (s ++ [0]) = s ++ [0] := by
      apply List.take_of_length_le
      simp
    simp only [hsz, ↓reduceIte, ht]
    have hnone : str_to_dn_label_loop (s.length + 1) (s ++ [0]) 0 0 dn = none := by
      rcases h with ⟨b, rfl⟩ | ⟨a, b, rfl⟩
      · rw [List.cons_append, str_to_dn_label_loop]
        simp only [↓reduceIte]
      · have := str_to_dn_label_loop_double_dot ((a ++ 46 :: 46 :: b).length + 1) a
          (b ++ [0]) 0 0 dn (Nat.le_refl _)
          (by simp only [List.length_append, List.length_cons]; omega)
        simpa using this
    rw [hnone]

/-- Witness for C10: `a..b` is rejected. -/
theorem resolv_str_to_dn_label_rejects_witness :
    ((∃ b, [97, 46, 46, 98] = 46 :: b) ∨ (∃ a b, [97, 46, 46, 98] = a ++ 46 :: 46 :: b))
    ∧ resolv_str_to_dn_label ([97, 46, 46, 98] ++ [0]) (([97, 46, 46, 98] : List Nat).length + 1)
        (List.replicate 16 170) 16 = none :=
  ⟨Or.inr ⟨[97], [98], rfl⟩,
   resolv_str_to_dn_label_rejects [97, 46, 46, 98] (List.replicate 16 170) 16
    (Or.inr ⟨[97], [98], rfl⟩)⟩

/-! ## Theorems: `resolv_dn_label_to_str` and the round trip -/

theorem dot_join_cons_char (c : Nat) (l : List Nat) (ls : List (List Nat)) :
    dot_join ((c :: l) :: ls) = c :: dot_join (l :: ls) := by
  cases ls with
  | nil => rfl
  | cons l2 ls => rfl

theorem dot_labels_ne_nil (s : List Nat) : dot_labels s ≠ [] := by
  cases s with
  | nil => simp [dot_labels]
  | cons c cs =>
    rw [dot_labels]
    split
    · exact List.cons_ne_nil _ _
    · split <;> exact List.cons_ne_nil _ _

theorem dot_join_dot_labels (s : List Nat) : dot_join (dot_labels s) = s := by
  induction s with
  | nil => rfl
  | cons c cs ih =>
    rw [dot_labels]
    by_cases hc : c = 46
    · simp only [hc, ↓reduceIte]
      cases hd : dot_labels cs with
      | nil => exact absurd hd (dot_labels_ne_nil cs)
      | cons l ls =>
        rw [dot_join_cons_cons, ← hd, ih]
        rfl
    · simp only [hc, ↓reduceIte]
      cases hd : dot_labels cs with
      | nil => exact absurd hd (dot_labels_ne_nil cs)
      | cons l ls =>
        rw [hd] at ih
        simp only
        rw [dot_join_cons_char, ih]

theorem dot_labels_mem (s : List Nat) :
    ∀ l ∈ dot_labels s, 46 ∉ l ∧ l.length ≤ s.length := by
  induction s with
  | nil => intro l hl; simp [dot_labels] at hl; simp [hl]
  | cons c cs ih =>
    intro l hl
    rw [dot_labels] at hl
    by_cases hc : c = 46
    · simp only [hc, ↓reduceIte, List.mem_cons] at hl
      rcases hl with rfl | hl
      · simp
      · have := ih l hl
        exact ⟨this.1, by simp only [List.length_cons]; omega⟩
    · simp only [hc, ↓reduceIte] at hl
      cases hd : dot_labels cs with
      | nil => exact absurd hd (dot_labels_ne_nil cs)
      | cons l0 ls =>
        rw [hd] at hl ih
        simp only [List.mem_cons] at hl
        rcases hl with rfl | hl
        · have := ih l0 (List.mem_cons_self _ _)
          refine ⟨?_, by simp only [List.length_cons]; omega⟩
          intro hmem
          rcases List.mem_cons.mp hmem with h | h
          · exact hc h.symm
          · exact this.1 h
        · have := ih l (List.mem_cons_of_mem _ hl)
          exact ⟨this.1, by simp only [List.length_cons]; omega⟩

theorem dot_join_eq_flatMap (l : List Nat) (ls : List (List Nat)) :
    dot_join (l :: ls) = l ++ ls.flatMap (fun x => 46 :: x) := by
  induction ls generalizing l with
  | nil => simp [dot_join]
  | cons l2 ls ih =>
    rw [dot_join_cons_cons, ih l2]
    simp

/-! ## Theorems: `resolv_hostname_validation` -/

/-- The loop of `resolv_hostname_validation`, entered with `i` characters of the
current label already seen, accepts the string exactly when every character
other than a dot is allowed and no label grows beyond 63 characters. -/
theorem hostname_validation_loop_iff (s : List Nat) :
    ∀ i : Nat, i ≤ DNS_MAX_LABEL_SIZE →
      (hostname_validation_loop s i = true
        ↔ (∀ c ∈ s, c ≠ 46 → hostname_char c = true)
          ∧ (dot_labels s).head!.length + i ≤ DNS_MAX_LABEL_SIZE
          ∧ ∀ l ∈ (dot_labels s).tail, l.length ≤ DNS_MAX_LABEL_SIZE) := by
  induction s with
  | nil =>
    intro i hi
    simp [hostname_validation_loop, dot_labels, hi]
  | cons c cs ih =>
    intro i hi
    rw [hostname_validation_loop, dot_labels]
    by_cases hc : c = 46
    · subst hc
      have h0 := ih 0 (Nat.zero_le _)
      simp only [ne_eq, not_true_eq_false, false_and, ↓reduceIte, h0]
      cases hd : dot_labels cs with
      | nil => exact absurd hd (dot_labels_ne_nil cs)
      | cons l ls =>
        simp only [List.mem_cons, List.head!_cons, List.tail_cons, List.length_nil,
          Nat.zero_add, Nat.add_zero, forall_eq_or_imp, not_true_eq_false, false_implies,
          true_and]
        constructor
        · rintro ⟨h1, h2, h3⟩
          exact ⟨h1, hi, h2, h3⟩
        · rintro ⟨h1, _, h2, h3⟩
          exact ⟨h1, h2, h3⟩
    · cases hd : dot_labels cs with
      | nil => exact absurd hd (dot_labels_ne_nil cs)
      | cons l ls =>
        rw [hd] at ih
        simp only [List.head!_cons, List.tail_cons] at ih
        by_cases hi2 : i < DNS_MAX_LABEL_SIZE
        · have h1 := ih (i + 1) hi2
          simp only [ne_eq, hc, not_false_eq_true, hi2, and_self, ↓reduceIte, List.mem_cons,
            forall_eq_or_imp, true_implies, List.head!_cons, List.tail_cons,
            List.length_cons]
          by_cases hv : hostname_char c = true
          · simp only [hv, ↓reduceIte, h1, true_and]
            constructor
            · rintro ⟨a, b, d⟩
              exact ⟨a, by omega, d⟩
            · rintro ⟨a, b, d⟩
              exact ⟨a, by omega, d⟩
          · simp only [hv, Bool.false_eq_true, ↓reduceIte, false_and]
        · have hge : i ≥ DNS_MAX_LABEL_SIZE := Nat.le_of_not_lt hi2
          simp only [ne_eq, hc, not_false_eq_true, hi2, and_false, ↓reduceIte, hge, and_self,
            Bool.false_eq_true, List.head!_cons, List.length_cons, false_iff, not_and]
          intro _ hcon
          omega

/-- C11: `resolv_hostname_validation` returns 1 for a string if and only if
its total length is at most 255, every dot-separated label is at most 63 bytes
long and every byte other than the separating dots is in `[A-Za-z0-9_-]`; it
returns 0 otherwise. -/
theorem resolv_hostname_validation_iff (s : List Nat) :
    resolv_hostname_validation s = true
      ↔ s.length ≤ 255
        ∧ (∀ l ∈ dot_labels s, l.length ≤ 63)
        ∧ (∀ c ∈ s, c ≠ 46 →
            c = 45 ∨ c = 95 ∨ (97 ≤ c ∧ c ≤ 122) ∨ (65 ≤ c ∧ c ≤ 90) ∨ (48 ≤ c ∧ c ≤ 57)) := by
  have hchar : ∀ c : Nat, hostname_char c = true
      ↔ (c = 45 ∨ c = 95 ∨ (97 ≤ c ∧ c ≤ 122) ∨ (65 ≤ c ∧ c ≤ 90) ∨ (48 ≤ c ∧ c ≤ 57)) := by
    intro c
    simp [hostname_char, or_assoc]
  have hloop := hostname_validation_loop_iff s 0 (Nat.zero_le _)
  unfold resolv_hostname_validation
  simp only [DNS_MAX_NAME_SIZE, DNS_MAX_LABEL_SIZE, Nat.add_zero] at hloop ⊢
  cases hd : dot_labels s with
  | nil => exact absurd hd (dot_labels_ne_nil s)
  | cons l ls =>
    rw [hd] at hloop
    simp only [List.head!_cons, List.tail_cons] at hloop
    by_cases hlen : s.length > 255
    · simp only [hlen, ↓reduceIte, Bool.false_eq_true, false_iff]
      intro h
      omega
    · simp only [hlen, ↓reduceIte, hloop, List.mem_cons, forall_eq_or_imp]
      constructor
      · rintro ⟨a, b, d⟩
        exact ⟨by omega, ⟨b, d⟩, fun c hc hne => (hchar c).mp (a c hc hne)⟩
      · rintro ⟨_, ⟨b, d⟩, a⟩
        exact ⟨fun c hc hne => (hchar c).mpr (a c hc hne), b, d⟩


/-- The loop of `resolv_dn_label_to_str` past the first label: every label is
stored after a dot. -/
theorem dn_label_to_str_loop_labels (labels : List (List Nat)) :
    ∀ (P rest str : List Nat) (fuel : Nat),
      P ≠ [] → labels.length ≤ fuel → (∀ l ∈ labels, l.length < 128) →
      dn_label_to_str_loop (P ++ dn_labels labels ++ 0 :: rest)
          ((P.length + (dn_labels labels).length + 1 : Nat) : Int) fuel P.length str
        = some (str ++ labels.flatMap (fun x => 46 :: x)) := by
  induction labels with
  | nil =>
    intro P rest str fuel _ _ _
    cases fuel with
    | zero => simp [dn_label_to_str_loop]
    | succ f =>
      rw [dn_label_to_str_loop]
      have : ¬ ((P.length : Int) < ((P.length + (dn_labels []).length + 1 : Nat) : Int) - 1) := by
        simp [dn_labels]
      simp only [this, ↓reduceIte]
      simp
  | cons l ls ih =>
    intro P rest str fuel hP hfuel hsz
    have hl128 : ¬ (l.length ≥ 128) := Nat.not_le.mpr (hsz l (List.mem_cons_self _ _))
    obtain ⟨f, rfl⟩ : ∃ f, fuel = f + 1 := ⟨fuel - 1, by simp at hfuel; omega⟩
    have hdl : (dn_labels (l :: ls)).length = (l.length + 1) + (dn_labels ls).length := by
      rw [dn_labels_cons]; simp; omega
    have hbuf : P ++ dn_labels (l :: ls) ++ 0 :: rest
        = P ++ l.length :: (l ++ (dn_labels ls ++ 0 :: rest)) := by
      rw [dn_labels_cons]; simp
    have hbuf2 : P ++ dn_labels (l :: ls) ++ 0 :: rest
        = (P ++ l.length :: l) ++ dn_labels ls ++ 0 :: rest := by
      rw [dn_labels_cons]; simp
    have hget : (P ++ dn_labels (l :: ls) ++ 0 :: rest).getD P.length 0 = l.length := by
      rw [hbuf, List.getD_eq_getElem?_getD, getElem?_append_cons]
      rfl
    have htake : List.take l.length
        (List.drop (P.length + 1) (P ++ dn_labels (l :: ls) ++ 0 :: rest)) = l := by
      rw [hbuf]
      have : P.length + 1 = (P ++ [l.length]).length := by simp
      have e : P ++ l.length :: (l ++ (dn_labels ls ++ 0 :: rest))
          = (P ++ [l.length]) ++ (l ++ (dn_labels ls ++ 0 :: rest)) := by simp
      rw [this, e, List.drop_left, List.take_left]
    have hguard : (P.length : Int)
        < ((P.length + (dn_labels (l :: ls)).length + 1 : Nat) : Int) - 1 := by
      rw [hdl]; push_cast; omega
    have hP0 : P.length ≠ 0 := fun h0 => hP (List.length_eq_zero.mp h0)
    rw [dn_label_to_str_loop]
    simp only [hguard, ↓reduceIte, hget, hl128, htake, hP0, ne_eq, not_false_eq_true]
    have hlen' : P.length + (dn_labels (l :: ls)).length + 1
        = (P ++ l.length :: l).length + (dn_labels ls).length + 1 := by
      rw [hdl]; simp only [List.length_append, List.length_cons]; omega
    have hi : P.length + l.length + 1 = (P ++ l.length :: l).length := by
      simp only [List.length_append, List.length_cons]; omega
    rw [hlen', hi, hbuf2]
    rw [ih (P ++ l.length :: l) rest (str ++ [46] ++ l) f (by simp)
      (by simp at hfuel; omega) (fun x hx => hsz x (List.mem_cons_of_mem _ hx))]
    simp

/-- The dotted string produced by `resolv_dn_label_to_str` for the label form
of a non-empty list of labels. -/
theorem dn_label_to_str_dn_labels (labels : List (List Nat)) (rest : List Nat)
    (str_len : Int) (hne : labels ≠ []) (hsz : ∀ l ∈ labels, l.length < 128)
    (hstr : (((dot_join labels).length + 1 : Nat) : Int) ≤ str_len) :
    resolv_dn_label_to_str (dn_labels labels ++ [0] ++ rest)
        ((((dot_join labels).length + 1 : Nat) : Int) + 1) str_len
      = .ret (some ((dot_join labels).length + 1, dot_join labels ++ [0])) := by
  obtain ⟨l, ls, rfl⟩ : ∃ l ls, labels = l :: ls := by
    cases labels with
    | nil => exact absurd rfl hne
    | cons l ls => exact ⟨l, ls, rfl⟩
  have hlen := dn_labels_length (l :: ls) hne
  have hge := dn_labels_length_ge ls
  have hl128 : ¬ (l.length ≥ 128) := Nat.not_le.mpr (hsz l (List.mem_cons_self _ _))
  have hdl : (dn_labels (l :: ls)).length = (l.length + 1) + (dn_labels ls).length := by
    rw [dn_labels_cons]; simp; omega
  unfold resolv_dn_label_to_str
  have c1 : ¬ (str_len < (((dot_join (l :: ls)).length + 1 : Nat) : Int) + 1 - 1) := by
    omega
  have hfuel : ((((dot_join (l :: ls)).length + 1 : Nat) : Int) + 1 - 1).toNat
      = (dn_labels ls).length + l.length + 1 := by
    omega
  simp only [c1, ↓reduceIte, hfuel]
  rw [dn_label_to_str_loop]
  have hguard : ((0 : Nat) : Int) < (((dot_join (l :: ls)).length + 1 : Nat) : Int) + 1 - 1 := by
    omega
  have hbuf : dn_labels (l :: ls) ++ [0] ++ rest
      = l.length :: (l ++ (dn_labels ls ++ 0 :: rest)) := by
    rw [dn_labels_cons]; simp
  have hbuf2 : l.length :: (l ++ (dn_labels ls ++ 0 :: rest))
      = (l.length :: l) ++ dn_labels ls ++ 0 :: rest := by simp
  simp only [hguard, ↓reduceIte, ne_eq, not_true_eq_false, List.nil_append, Nat.zero_add]
  rw [hbuf]
  simp only [List.getD_cons_zero, hl128, ↓reduceIte, List.drop_succ_cons, List.drop_zero,
    List.take_left']
  have key := dn_label_to_str_loop_labels ls (l.length :: l) rest l
    ((dn_labels ls).length + l.length) (List.cons_ne_nil _ _) (by omega)
    (fun x hx => hsz x (List.mem_cons_of_mem _ hx))
  simp only [List.length_cons] at key
  have hdl2 : (((dot_join (l :: ls)).length + 1 : Nat) : Int) + 1
      = ((l.length + 1 + (dn_labels ls).length + 1 : Nat) : Int) := by
    push_cast; omega
  rw [hdl2, hbuf2, key]
  rw [dot_join_eq_flatMap]
  simp [Nat.add_assoc]

/-- The iteration count given to the loop of `resolv_dn_label_to_str` never
cuts it short: once `fuel` covers the distance from `i` to `dn_len - 1`, more
fuel changes nothing. -/
theorem dn_label_to_str_loop_fuel (dn : List Nat) (dn_len : Int) (fuel : Nat) :
    ∀ (extra i : Nat) (str : List Nat), dn_len - 1 - i ≤ fuel →
      dn_label_to_str_loop dn dn_len (fuel + extra) i str
        = dn_label_to_str_loop dn dn_len fuel i str := by
  induction fuel with
  | zero =>
    intro extra i str h
    cases extra with
    | zero => rfl
    | succ e =>
      have hg : ¬ ((i : Int) < dn_len - 1) := by push_cast at h; omega
      rw [Nat.zero_add, dn_label_to_str_loop, dn_label_to_str_loop]
      simp only [hg, ↓reduceIte]
  | succ f ih =>
    intro extra i str h
    have e : f + 1 + extra = (f + extra) + 1 := by omega
    rw [e, dn_label_to_str_loop, dn_label_to_str_loop]
    by_cases hg : (i : Int) < dn_len - 1
    · simp only [hg, ↓reduceIte]
      by_cases hc : dn.getD i 0 ≥ 128
      · simp only [hc, ↓reduceIte]
      · simp only [hc, ↓reduceIte]
        apply ih
        push_cast at h ⊢
        omega
    · simp only [hg, ↓reduceIte]

/-- Every dot-separated label of a string accepted by
`resolv_hostname_validation` is at most 63 bytes long. -/
theorem hostname_validation_labels (s : List Nat)
    (hvalid : resolv_hostname_validation s = true) :
    ∀ l ∈ dot_labels s, l.length ≤ 63 := by
  unfold resolv_hostname_validation at hvalid
  split at hvalid
  · exact Bool.noConfusion hvalid
  · have h := (hostname_validation_loop_iff s 0 (Nat.zero_le _)).mp hvalid
    intro l hl
    cases hd : dot_labels s with
    | nil => exact absurd hd (dot_labels_ne_nil s)
    | cons l0 ls =>
      rw [hd] at h hl
      simp only [List.head!_cons, List.tail_cons, Nat.add_zero] at h
      rcases List.mem_cons.mp hl with rfl | hl
      · exact h.2.1
      · exact h.2.2 l hl

/-- A label-form name with a length byte of 0x80 or more: the size given to
`memcpy` is negative. -/
theorem resolv_dn_label_to_str_high_length :
    resolv_dn_label_to_str ([0x80] ++ List.replicate 128 97 ++ [0]) 130 255 = .fault := by
  decide

/-- C8 (counterexample): `.` and `a.` are accepted by
`resolv_hostname_validation`, but `resolv_str_to_dn_label` rejects `.`, and
`a.` converted to label form and back comes out as `a`. -/
theorem hostname_roundtrip_counterexample :
    resolv_hostname_validation [46] = true
    ∧ resolv_str_to_dn_label ([46] ++ [0]) 2 (List.replicate 8 0) 8 = none
    ∧ resolv_hostname_validation [97, 46] = true
    ∧ resolv_str_to_dn_label ([97, 46] ++ [0]) 3 (List.replicate 8 0) 8
        = some (2, [1, 97, 0, 0, 0, 0, 0, 0])
    ∧ resolv_dn_label_to_str [1, 97, 0, 0, 0, 0, 0, 0] (2 + 1) 8
        = .ret (some (2, [97, 0])) := by
  decide

/-- C8 (amended): for every string `s` accepted by `resolv_hostname_validation`
that has no empty label (`s` is empty, or none of its dot-separated labels is
empty: no leading dot, no trailing dot, no two dots in a row),
`resolv_str_to_dn_label(s, strlen(s)+1, dn, dn_len)` succeeds for every
`dn_len >= strlen(s) + 2` and `resolv_dn_label_to_str` applied to the produced
label form with `dn_len = result + 1` yields exactly `s` (NUL-terminated). -/
theorem hostname_roundtrip (s dn : List Nat) (dn_len : Nat) (str_len : Int)
    (hvalid : resolv_hostname_validation s = true)
    (hlabels : s = [] ∨ [] ∉ dot_labels s)
    (hdn : dn.length = dn_len)
    (hcap : s.length + 2 ≤ dn_len)
    (hstr : ((s.length + 1 : Nat) : Int) ≤ str_len) :
    ∃ result dn',
      resolv_str_to_dn_label (s ++ [0]) (s.length + 1) dn dn_len = some (result, dn')
      ∧ resolv_dn_label_to_str dn' ((result : Int) + 1) str_len
          = .ret (some (s.length + 1, s ++ [0])) := by
  have h255 : s.length ≤ 255 := by
    unfold resolv_hostname_validation DNS_MAX_NAME_SIZE at hvalid
    by_contra hcon
    rw [if_pos (by omega)] at hvalid
    exact Bool.noConfusion hvalid
  by_cases hs : s = []
  · subst hs
    obtain ⟨g, g2, B, rfl⟩ : ∃ g g2 B, dn = g :: g2 :: B := by
      match dn, hdn with
      | [], h => simp at h; simp at hcap; omega
      | [_], h => simp at h; simp at hcap; omega
      | g :: g2 :: B, _ => exact ⟨g, g2, B, rfl⟩
    refine ⟨1, 0 :: 0 :: B, ?_, ?_⟩
    · have c1 : ¬ (dn_len < 1 + 1) := by simp at hcap; omega
      simp [resolv_str_to_dn_label, str_to_dn_label_loop, c1]
    · have c1 : ¬ (str_len < 1) := by simp at hstr; omega
      simp [resolv_dn_label_to_str, dn_label_to_str_loop, c1]
  · have hno : [] ∉ dot_labels s := by
      rcases hlabels with h | h
      · exact absurd h hs
      · exact h
    have hjoin := dot_join_dot_labels s
    have hlab : ∀ l ∈ dot_labels s, l ≠ [] ∧ 46 ∉ l ∧ l.length ≤ 255 := by
      intro l hl
      have := dot_labels_mem s l hl
      exact ⟨fun h0 => hno (h0 ▸ hl), this.1, by omega⟩
    have h1 := str_to_dn_label_dot_join (dot_labels s) dn dn_len (dot_labels_ne_nil s) hlab
      hdn (by rw [hjoin]; exact hcap)
    rw [hjoin] at h1
    refine ⟨s.length + 1, _, h1.1, ?_⟩
    have h2 := dn_label_to_str_dn_labels (dot_labels s) (dn.drop (s.length + 2)) str_len
      (dot_labels_ne_nil s)
      (fun l hl => Nat.lt_of_le_of_lt (hostname_validation_labels s hvalid l hl) (by decide))
      (by rw [hjoin]; exact hstr)
    rw [hjoin] at h2
    exact h2

/-- Witness for C8: `www.ab`. -/
theorem hostname_roundtrip_witness :
    resolv_hostname_validation [119, 119, 119, 46, 97, 98] = true
    ∧ ([119, 119, 119, 46, 97, 98] = [] ∨ [] ∉ dot_labels [119, 119, 119, 46, 97, 98])
    ∧ (List.replicate 16 170).length = 16
    ∧ ([119, 119, 119, 46, 97, 98] : List Nat).length + 2 ≤ 16
    ∧ ((([119, 119, 119, 46, 97, 98] : List Nat).length + 1 : Nat) : Int) ≤ 255
    ∧ ∃ result dn',
        resolv_str_to_dn_label ([119, 119, 119, 46, 97, 98] ++ [0])
            (([119, 119, 119, 46, 97, 98] : List Nat).length + 1) (List.replicate 16 170) 16
          = some (result, dn')
        ∧ resolv_dn_label_to_str dn' ((result : Int) + 1) 255
            = .ret (some (([119, 119, 119, 46, 97, 98] : List Nat).length + 1,
                [119, 119, 119, 46, 97, 98] ++ [0])) :=
  ⟨by decide, by decide, by decide, by decide, by decide,
   hostname_roundtrip [119, 119, 119, 46, 97, 98] (List.replicate 16 170) 16 255
    (by decide) (by decide) (by decide) (by decide) (by decide)⟩


/-! ## Theorems: `resolv_validate_dns_response`, header -/

/-- The start of `resolv_validate_dns_response` on a response of at least 5
bytes whose RCODE is not 0. -/
theorem validate_header_question_rcode (resp : List Nat) (r_res : resolv_response)
    (max_answer_records : Int) (hlen : 5 ≤ resp.length)
    (hrc : read_n16 resp 2 &&& DNS_FLAG_REPLYCODE ≠ DNS_RCODE_NO_ERROR) :
    validate_header_question resp r_res max_answer_records
      = .error
          (if read_n16 resp 2 &&& DNS_FLAG_REPLYCODE = DNS_RCODE_NX_DOMAIN then .NX_DOMAIN
           else if read_n16 resp 2 &&& DNS_FLAG_REPLYCODE = DNS_RCODE_REFUSED then .REFUSED
           else .ERROR,
           { r_res with header := { r_res.header with id := read_n16 resp 0 } }) := by
  unfold validate_header_question
  have h1 : ¬ (0 + 2 ≥ resp.length) := by omega
  have h2 : ¬ (0 + 2 + 2 ≥ resp.length) := by omega
  simp only [h1, h2, ↓reduceIte, hrc, ne_eq, not_false_eq_true, Nat.zero_add]
  split
  · rfl
  · split <;> rfl

/-- C18: for every response of at least 5 bytes, `resolv_validate_dns_response`
classifies by RCODE (the low 4 bits of the flags word at offset 2) before
anything else: RCODE 3 gives `RSLV_RESP_NX_DOMAIN`, RCODE 5 gives
`RSLV_RESP_REFUSED` and any other non-zero RCODE gives `RSLV_RESP_ERROR`,
whatever the counts, the question and the records that follow. -/
theorem resolv_validate_dns_response_rcode (resp : List Nat) (r_res : resolv_response)
    (max_answer_records : Int) (now hold_obsolete : Nat) (hlen : 5 ≤ resp.length) :
    (read_n16 resp 2 % 16 = 3 →
      (resolv_validate_dns_response resp r_res max_answer_records now hold_obsolete).1
        = .NX_DOMAIN)
    ∧ (read_n16 resp 2 % 16 = 5 →
      (resolv_validate_dns_response resp r_res max_answer_records now hold_obsolete).1
        = .REFUSED)
    ∧ (read_n16 resp 2 % 16 ≠ 0 → read_n16 resp 2 % 16 ≠ 3 → read_n16 resp 2 % 16 ≠ 5 →
      (resolv_validate_dns_response resp r_res max_answer_records now hold_obsolete).1
        = .ERROR) := by
  have hmod : read_n16 resp 2 &&& DNS_FLAG_REPLYCODE = read_n16 resp 2 % 16 :=
    Nat.and_pow_two_sub_one_eq_mod (read_n16 resp 2) 4
  have key : ∀ h : read_n16 resp 2 % 16 ≠ 0,
      (resolv_validate_dns_response resp r_res max_answer_records now hold_obsolete).1
        = (if read_n16 resp 2 % 16 = 3 then RSLV_RESP.NX_DOMAIN
           else if read_n16 resp 2 % 16 = 5 then RSLV_RESP.REFUSED else RSLV_RESP.ERROR) := by
    intro h
    unfold resolv_validate_dns_response
    rw [validate_header_question_rcode resp r_res max_answer_records hlen
      (by rw [hmod]; exact h)]
    simp only [hmod, DNS_RCODE_NX_DOMAIN, DNS_RCODE_REFUSED]
  refine ⟨fun h3 => ?_, fun h5 => ?_, fun h0 h3 h5 => ?_⟩
  · rw [key (by omega)]; simp [h3]
  · rw [key (by omega)]; simp [h5]
  · rw [key h0]; simp [h3, h5]

/-- Witness for C18: a 12-byte header with flags 0x8183 (RCODE 3). -/
theorem resolv_validate_dns_response_rcode_witness :
    5 ≤ ([0x12, 0x34, 0x81, 0x83, 0, 1, 0, 0, 0, 0, 0, 0] : List Nat).length
    ∧ read_n16 [0x12, 0x34, 0x81, 0x83, 0, 1, 0, 0, 0, 0, 0, 0] 2 % 16 = 3
    ∧ (resolv_validate_dns_response [0x12, 0x34, 0x81, 0x83, 0, 1, 0, 0, 0, 0, 0, 0]
          { header := ⟨0, 0, 0, 0, 0⟩, query_list := [], answer_list := [] } 31 1000 0).1
        = .NX_DOMAIN :=
  ⟨by decide, by decide,
   (resolv_validate_dns_response_rcode [0x12, 0x34, 0x81, 0x83, 0, 1, 0, 0, 0, 0, 0, 0]
      { header := ⟨0, 0, 0, 0, 0⟩, query_list := [], answer_list := [] } 31 1000 0
      (by decide)).1 (by decide)⟩


/-- What the header checks and the question parsing have established when they
succeed: the flags are the word at offset 2, the RCODE is 0, qdcount is 1 and
ancount is between 1 and `max_answer_records`. -/
theorem validate_header_question_ok (resp : List Nat) (r_res : resolv_response)
    (max_answer_records : Int) (q : validate_question)
    (hq : validate_header_question resp r_res max_answer_records = .ok q) :
    q.flags = read_n16 resp 2
    ∧ read_n16 resp 2 &&& DNS_FLAG_REPLYCODE = DNS_RCODE_NO_ERROR
    ∧ read_n16 resp 4 = 1
    ∧ 1 ≤ read_n16 resp 6 ∧ (read_n16 resp 6 : Int) ≤ max_answer_records
    ∧ q.r_res.header.ancount = read_n16 resp 6
    ∧ q.r_res.header.nscount = read_n16 resp 8
    ∧ q.r_res.header.arcount = read_n16 resp 10
    ∧ q.r_res.answer_list = r_res.answer_list
    ∧ q.r_res.query_list = [q.query] := by
  by_cases h1 : 0 + 2 ≥ resp.length
  · unfold validate_header_question at hq
    simp only [h1, ↓reduceIte] at hq
    exact Except.noConfusion hq
  by_cases h2 : 0 + 2 + 2 ≥ resp.length
  · unfold validate_header_question at hq
    simp only [h1, h2, ↓reduceIte] at hq
    exact Except.noConfusion hq
  by_cases hrc : read_n16 resp (0 + 2) &&& DNS_FLAG_REPLYCODE = DNS_RCODE_NO_ERROR
  swap
  · unfold validate_header_question at hq
    simp only [h1, h2, hrc, ne_eq, not_false_eq_true, ↓reduceIte] at hq
    split at hq
    · exact Except.noConfusion hq
    · split at hq <;> exact Except.noConfusion hq
  by_cases h3 : 0 + 2 + 2 + 2 ≥ resp.length
  · unfold validate_header_question at hq
    simp only [h1, h2, hrc, h3, ne_eq, not_true_eq_false, ↓reduceIte] at hq
    exact Except.noConfusion hq
  by_cases hqd : read_n16 resp (0 + 2 + 2) = 1
  swap
  · unfold validate_header_question at hq
    simp only [h1, h2, hrc, h3, hqd, ne_eq, not_true_eq_false, not_false_eq_true,
      ↓reduceIte] at hq
    exact Except.noConfusion hq
  have hqd2 : ¬ (1 > DNS_MAX_QUERY_RECORDS) := by decide
  by_cases h4 : 0 + 2 + 2 + 2 + 2 ≥ resp.length
  · unfold validate_header_question at hq
    simp only [h1, h2, hrc, h3, hqd, hqd2, h4, ne_eq, not_true_eq_false, not_false_eq_true,
      ↓reduceIte] at hq
    exact Except.noConfusion hq
  by_cases han : read_n16 resp (0 + 2 + 2 + 2) = 0
  · unfold validate_header_question at hq
    simp only [h1, h2, hrc, h3, hqd, hqd2, h4, han, ne_eq, not_true_eq_false,
      not_false_eq_true, ↓reduceIte] at hq
    exact Except.noConfusion hq
  by_cases hmax : (read_n16 resp (0 + 2 + 2 + 2) : Int) > max_answer_records
  · unfold validate_header_question at hq
    simp only [h1, h2, hrc, h3, hqd, hqd2, h4, han, hmax, ne_eq, not_true_eq_false,
      not_false_eq_true, ↓reduceIte] at hq
    exact Except.noConfusion hq
  by_cases h5 : 0 + 2 + 2 + 2 + 2 + 2 ≥ resp.length
  · unfold validate_header_question at hq
    simp only [h1, h2, hrc, h3, hqd, hqd2, h4, han, hmax, h5, ne_eq, not_true_eq_false,
      not_false_eq_true, ↓reduceIte] at hq
    exact Except.noConfusion hq
  by_cases h6 : 0 + 2 + 2 + 2 + 2 + 2 + 2 ≥ resp.length
  · unfold validate_header_question at hq
    simp only [h1, h2, hrc, h3, hqd, hqd2, h4, han, hmax, h5, h6, ne_eq, not_true_eq_false,
      not_false_eq_true, ↓reduceIte] at hq
    exact Except.noConfusion hq
  unfold validate_header_question at hq
  simp only [h1, h2, hrc, h3, hqd, hqd2, h4, han, hmax, h5, h6, ne_eq, not_true_eq_false,
    not_false_eq_true, ↓reduceIte] at hq
  split at hq
  swap
  · exact Except.noConfusion hq
  split at hq
  · exact Except.noConfusion hq
  split at hq
  · exact Except.noConfusion hq
  split at hq
  · exact Except.noConfusion hq
  injection hq with hq
  subst hq
  simp only [Nat.zero_add, Nat.reduceAdd] at hrc hqd han hmax
  refine ⟨rfl, hrc, hqd, by omega, by omega, rfl, rfl, rfl, rfl, rfl⟩

/-- When the header checks or the question parsing return early, the answer
list of the response structure is as it was. -/
theorem validate_header_question_error (resp : List Nat) (r_res : resolv_response)
    (max_answer_records : Int) (e : RSLV_RESP × resolv_response)
    (hq : validate_header_question resp r_res max_answer_records = .error e) :
    e.2.answer_list = r_res.answer_list := by
  by_cases h1 : 0 + 2 ≥ resp.length
  · unfold validate_header_question at hq
    simp only [h1, ↓reduceIte] at hq
    injection hq with hq; subst hq; rfl
  by_cases h2 : 0 + 2 + 2 ≥ resp.length
  · unfold validate_header_question at hq
    simp only [h1, h2, ↓reduceIte] at hq
    injection hq with hq; subst hq; rfl
  by_cases hrc : read_n16 resp (0 + 2) &&& DNS_FLAG_REPLYCODE = DNS_RCODE_NO_ERROR
  swap
  · unfold validate_header_question at hq
    simp only [h1, h2, hrc, ne_eq, not_false_eq_true, ↓reduceIte] at hq
    split at hq
    · injection hq with hq; subst hq; rfl
    · split at hq <;> (injection hq with hq; subst hq; rfl)
  by_cases h3 : 0 + 2 + 2 + 2 ≥ resp.length
  · unfold validate_header_question at hq
    simp only [h1, h2, hrc, h3, ne_eq, not_true_eq_false, ↓reduceIte] at hq
    injection hq with hq; subst hq; rfl
  by_cases hqd : read_n16 resp (0 + 2 + 2) = 1
  swap
  · unfold validate_header_question at hq
    simp only [h1, h2, hrc, h3, hqd, ne_eq, not_true_eq_false, not_false_eq_true,
      ↓reduceIte] at hq
    injection hq with hq; subst hq; rfl
  have hqd2 : ¬ (1 > DNS_MAX_QUERY_RECORDS) := by decide
  by_cases h4 : 0 + 2 + 2 + 2 + 2 ≥ resp.length
  · unfold validate_header_question at hq
    simp only [h1, h2, hrc, h3, hqd, hqd2, h4, ne_eq, not_true_eq_false, not_false_eq_true,
      ↓reduceIte] at hq
    injection hq with hq; subst hq; rfl
  by_cases han : read_n16 resp (0 + 2 + 2 + 2) = 0
  · unfold validate_header_question at hq
    simp only [h1, h2, hrc, h3, hqd, hqd2, h4, han, ne_eq, not_true_eq_false,
      not_false_eq_true, ↓reduceIte] at hq
    injection hq with hq; subst hq; rfl
  by_cases hmax : (read_n16 resp (0 + 2 + 2 + 2) : Int) > max_answer_records
  · unfold validate_header_question at hq
    simp only [h1, h2, hrc, h3, hqd, hqd2, h4, han, hmax, ne_eq, not_true_eq_false,
      not_false_eq_true, ↓reduceIte] at hq
    injection hq with hq; subst hq; rfl
  by_cases h5 : 0 + 2 + 2 + 2 + 2 + 2 ≥ resp.length
  · unfold validate_header_question at hq
    simp only [h1, h2, hrc, h3, hqd, hqd2, h4, han, hmax, h5, ne_eq, not_true_eq_false,
      not_false_eq_true, ↓reduceIte] at hq
    injection hq with hq; subst hq; rfl
  by_cases h6 : 0 + 2 + 2 + 2 + 2 + 2 + 2 ≥ resp.length
  · unfold validate_header_question at hq
    simp only [h1, h2, hrc, h3, hqd, hqd2, h4, han, hmax, h5, h6, ne_eq, not_true_eq_false,
      not_false_eq_true, ↓reduceIte] at hq
    injection hq with hq; subst hq; rfl
  unfold validate_header_question at hq
  simp only [h1, h2, hrc, h3, hqd, hqd2, h4, han, hmax, h5, h6, ne_eq, not_true_eq_false,
    not_false_eq_true, ↓reduceIte] at hq
  split at hq
  swap
  · injection hq with hq; subst hq; rfl
  split at hq
  · injection hq with hq; subst hq; rfl
  split at hq
  · injection hq with hq; subst hq; rfl
  split at hq
  · injection hq with hq; subst hq; rfl
  exact Except.noConfusion hq


/-- The switch on the record type returns early with `INVALID` or `CNAME_ERROR`
only. -/
theorem answer_record_content_error (resp : List Nat) (ancount i : Nat)
    (previous_dname tmpname : List Nat) (f : record_fields) (cause : RSLV_RESP)
    (h : answer_record_content resp ancount i previous_dname tmpname f = .error cause) :
    cause = .INVALID ∨ cause = .CNAME_ERROR := by
  unfold answer_record_content at h
  dsimp only at h
  repeat' split at h
  all_goals first
    | (injection h with h; subst h; simp)
    | exact Except.noConfusion h

/-- An early return of the answer-record pass carries `INVALID` or
`CNAME_ERROR` and leaves the answer list as it was. -/
theorem validate_answer_record_error (resp : List Nat) (now query_type ancount i : Nat)
    (st : validate_answers) (e : RSLV_RESP × List resolv_answer_item)
    (h : validate_answer_record resp now query_type ancount i st = .error e) :
    (e.1 = .INVALID ∨ e.1 = .CNAME_ERROR) ∧ e.2 = st.answer_list := by
  unfold validate_answer_record at h
  dsimp only at h
  repeat' split at h
  all_goals first
    | (injection h with h; subst h; simp; done)
    | exact Except.noConfusion h
    | skip
  rename_i cause hc
  injection h with h; subst h
  exact ⟨answer_record_content_error _ _ _ _ _ _ _ hc, rfl⟩

/-- An early return of the additional-record pass carries `INVALID` and leaves
the answer list as it was. -/
theorem validate_additional_record_error (resp : List Nat) (now : Nat)
    (st : validate_answers) (e : RSLV_RESP × List resolv_answer_item)
    (h : validate_additional_record resp now st = .error e) :
    e.1 = .INVALID ∧ e.2 = st.answer_list := by
  unfold validate_additional_record at h
  dsimp only at h
  repeat' split at h
  all_goals first
    | (injection h with h; subst h; simp)
    | exact Except.noConfusion h

/-- The additional-record loop returns early with `INVALID` only. -/
theorem validate_additional_loop_error (resp : List Nat) (now : Nat) :
    ∀ (n : Nat) (st : validate_answers) (e : RSLV_RESP × List resolv_answer_item),
      validate_additional_loop resp now n st = .error e → e.1 = .INVALID := by
  intro n
  induction n with
  | zero => intro st e h; exact Except.noConfusion h
  | succ n ih =>
    intro st e h
    rw [validate_additional_loop] at h
    split at h
    · rename_i e1 he
      injection h with h; subst h
      exact (validate_additional_record_error resp now st _ he).1
    · exact ih _ _ h

/-- The answer loop returns early with `INVALID` or `CNAME_ERROR` only. -/
theorem validate_answer_loop_error (resp : List Nat) (now query_type ancount : Nat) :
    ∀ (n i : Nat) (st : validate_answers) (e : RSLV_RESP × List resolv_answer_item),
      validate_answer_loop resp now query_type ancount n i st = .error e →
        e.1 = .INVALID ∨ e.1 = .CNAME_ERROR := by
  intro n
  induction n with
  | zero => intro i st e h; exact Except.noConfusion h
  | succ n ih =>
    intro i st e h
    rw [validate_answer_loop] at h
    split at h
    · rename_i e1 he
      injection h with h; subst h
      exact (validate_answer_record_error resp now query_type ancount i st _ he).1
    · exact ih _ _ _ h

/-- Past the header and the question, `resolv_validate_dns_response` returns
`RSLV_RESP_TRUNCATED` exactly at the test of the TC flag. -/
theorem validate_truncated_iff_flags (resp : List Nat) (r_res : resolv_response)
    (max_answer_records : Int) (now hold_obsolete : Nat) (q : validate_question)
    (hq : validate_header_question resp r_res max_answer_records = .ok q) :
    (resolv_validate_dns_response resp r_res max_answer_records now hold_obsolete).1
        = .TRUNCATED
      ↔ (q.query.type ≠ DNS_RTYPE_SRV ∧ q.flags &&& DNS_FLAG_TRUNCATED ≠ 0) := by
  unfold resolv_validate_dns_response
  rw [hq]
  dsimp only
  by_cases htc : q.query.type ≠ DNS_RTYPE_SRV ∧ q.flags &&& DNS_FLAG_TRUNCATED ≠ 0
  · rw [if_pos htc]
    exact ⟨fun _ => htc, fun _ => rfl⟩
  · rw [if_neg htc]
    refine ⟨fun h => ?_, fun h => absurd h htc⟩
    exfalso
    split at h
    · rename_i e he
      have := validate_answer_loop_error _ _ _ _ _ _ _ _ he
      dsimp only at h
      rw [h] at this
      rcases this with h1 | h1 <;> exact RSLV_RESP.noConfusion h1
    · split at h
      · exact RSLV_RESP.noConfusion h
      · split at h
        · exact RSLV_RESP.noConfusion h
        · split at h
          · rename_i e he
            have := validate_additional_loop_error _ _ _ _ _ he
            dsimp only at h
            rw [h] at this
            exact RSLV_RESP.noConfusion this
          · exact RSLV_RESP.noConfusion h


/-! ## Theorems: the first byte of the flags of an SRV response -/

/-- Two messages that differ in the byte at offset 2 only: the bytes, the
16-bit words and the tails from offset 3 on are the same, and so are the bytes
0 and 1 and the low bits of the flags word, where the RCODE is. -/
theorem same_but_flags_reads (resp resp2 : List Nat) (h : same_but_flags resp resp2) :
    resp2.length = resp.length
    ∧ (∀ r, 3 ≤ r → resp2.drop r = resp.drop r)
    ∧ (∀ i, 3 ≤ i → resp2.getD i 0 = resp.getD i 0)
    ∧ (∀ r, 3 ≤ r → read_n16 resp2 r = read_n16 resp r)
    ∧ read_n16 resp2 0 = read_n16 resp 0
    ∧ read_n16 resp2 2 &&& DNS_FLAG_REPLYCODE = read_n16 resp 2 &&& DNS_FLAG_REPLYCODE := by
  obtain ⟨hlen, h01, h3⟩ := h
  have hd : ∀ r, 3 ≤ r → resp2.drop r = resp.drop r := by
    intro r hr
    have e : r = 3 + (r - 3) := by omega
    rw [e, ← List.drop_drop, ← List.drop_drop, h3]
  have hg : ∀ i, 3 ≤ i → resp2.getD i 0 = resp.getD i 0 := by
    intro i hi
    have e1 : resp2.getD i 0 = (resp2.drop i).getD 0 0 := by
      simp [List.getD_eq_getElem?_getD, List.getElem?_drop]
    have e2 : resp.getD i 0 = (resp.drop i).getD 0 0 := by
      simp [List.getD_eq_getElem?_getD, List.getElem?_drop]
    rw [e1, e2, hd i hi]
  have hl : ∀ i, i < 2 → resp2.getD i 0 = resp.getD i 0 := by
    intro i hi
    have e1 : resp2.getD i 0 = (resp2.take 2).getD i 0 := by
      simp [List.getD_eq_getElem?_getD, List.getElem?_take, hi]
    have e2 : resp.getD i 0 = (resp.take 2).getD i 0 := by
      simp [List.getD_eq_getElem?_getD, List.getElem?_take, hi]
    rw [e1, e2, h01]
  refine ⟨hlen, hd, hg, fun r hr => ?_, ?_, ?_⟩
  · unfold read_n16
    rw [hg r hr, hg (r + 1) (by omega)]
  · unfold read_n16
    rw [hl 0 (by decide), hl 1 (by decide)]
  · unfold read_n16 DNS_FLAG_REPLYCODE
    have e : ∀ x : Nat, x &&& 0xF = x % 16 := fun x => Nat.and_pow_two_sub_one_eq_mod x 4
    rw [e, e, hg (2 + 1) (by decide)]
    omega

/-- A name that starts at the end of the message or past it: the read returns
0 at once, whatever the bytes. -/
theorem resolv_read_name_past_end (buffer : List Nat) (name : Nat) (dest_len : Int)
    (depth : Nat) (h : buffer.length ≤ name) :
    resolv_read_name buffer name dest_len depth = .ret 0 [] none 0 := by
  unfold resolv_read_name read_name_budget
  have e : (buffer.length + 1) * 103 = ((buffer.length + 1) * 103 - 1) + 1 := by omega
  rw [e, resolv_read_name_fuel, if_pos h]

/-- The fixed fields of a record read from offset 3 on are the same in the two
messages. -/
theorem read_record_fields_congr (resp resp2 : List Nat) (h : same_but_flags resp resp2)
    (reader : Nat) (hr : 3 ≤ reader) :
    read_record_fields resp2 reader = read_record_fields resp reader := by
  obtain ⟨hlen, _, hg, h16, _, _⟩ := same_but_flags_reads resp resp2 h
  unfold read_record_fields
  simp only [hlen, h16 reader hr, h16 (reader + 2) (by omega),
    h16 (reader + 2 + 2 + 4) (by omega), hg (reader + 2 + 2) (by omega),
    hg (reader + 2 + 2 + 1) (by omega), hg (reader + 2 + 2 + 2) (by omega),
    hg (reader + 2 + 2 + 3) (by omega)]

/-- The reader that `read_record_fields` returns is 10 bytes past the one it is
given. -/
theorem read_record_fields_reader (resp : List Nat) (reader : Nat) (f : record_fields)
    (h : read_record_fields resp reader = some f) : f.reader = reader + 10 := by
  unfold read_record_fields at h
  dsimp only at h
  repeat' split at h
  all_goals first
    | exact Option.noConfusion h
    | (injection h with h; subst h; rfl)

/-- The switch on the type of an answer record gives the same result in the
two messages, for a record whose data start past the header, when the name
that the switch reads, if any, decodes the same way. -/
theorem answer_record_content_congr (resp resp2 : List Nat) (h : same_but_flags resp resp2)
    (ancount i : Nat) (previous_dname tmpname : List Nat)
    (f : record_fields) (hf : 12 ≤ f.reader)
    (hcn : f.type = DNS_RTYPE_CNAME → i + 1 ≠ ancount →
      resolv_read_name resp2 f.reader DNS_MAX_NAME_SIZE 0
        = resolv_read_name resp f.reader DNS_MAX_NAME_SIZE 0)
    (hsv : f.type = DNS_RTYPE_SRV → 6 < f.data_len →
      resolv_read_name resp2 (f.reader + 2 + 2 + 2) DNS_MAX_NAME_SIZE 0
        = resolv_read_name resp (f.reader + 2 + 2 + 2) DNS_MAX_NAME_SIZE 0) :
    answer_record_content resp2 ancount i previous_dname tmpname f
      = answer_record_content resp ancount i previous_dname tmpname f := by
  obtain ⟨_, hd, _, h16, _, _⟩ := same_but_flags_reads resp resp2 h
  unfold answer_record_content
  simp only [hd f.reader (by omega), h16 f.reader (by omega), h16 (f.reader + 2) (by omega),
    h16 (f.reader + 2 + 2) (by omega)]
  by_cases hA : f.type = DNS_RTYPE_A
  · rw [if_pos hA, if_pos hA]
  rw [if_neg hA, if_neg hA]
  by_cases hC : f.type = DNS_RTYPE_CNAME
  · rw [if_pos hC, if_pos hC]
    by_cases hi : i + 1 = ancount
    · rw [if_pos hi, if_pos hi]
    · rw [if_neg hi, if_neg hi, hcn hC hi]
  rw [if_neg hC, if_neg hC]
  by_cases hS : f.type = DNS_RTYPE_SRV
  · rw [if_pos hS, if_pos hS]
    by_cases hl : f.data_len ≤ 6
    · rw [if_pos hl, if_pos hl]
    · rw [if_neg hl, if_neg hl, hsv hS (by omega)]
  rw [if_neg hS, if_neg hS]

/-- The reader after an answer record is not before its data. -/
theorem answer_record_content_reader (resp : List Nat) (ancount i : Nat)
    (previous_dname tmpname : List Nat) (f : record_fields)
    (parsed : resolv_answer_item × Nat × List Nat)
    (h : answer_record_content resp ancount i previous_dname tmpname f = .ok parsed) :
    f.reader ≤ parsed.2.1 := by
  unfold answer_record_content at h
  dsimp only at h
  repeat' split at h
  all_goals first
    | exact Except.noConfusion h
    | (injection h with h; subst h; dsimp only; omega)

/-- The offsets that `answer_record_names` lists for a pass of the answer
loop. -/
theorem answer_record_names_mem (resp : List Nat) (query_type ancount i : Nat)
    (st : validate_answers) (hb : ¬ st.reader ≥ resp.length) :
    st.reader ∈ answer_record_names resp query_type ancount i st
    ∧ ∀ len tmpname offset p f,
        resolv_read_name resp st.reader DNS_MAX_NAME_SIZE 0 = .ret len tmpname offset p →
        len ≠ 0 →
        ¬ (query_type ≠ DNS_RTYPE_SRV
          ∧ resolv_hostname_cmp st.previous_dname tmpname len ≠ 0) →
        read_record_fields resp (st.reader + offset.getD 0) = some f →
        (f.type = DNS_RTYPE_CNAME → i + 1 ≠ ancount →
          f.reader ∈ answer_record_names resp query_type ancount i st)
        ∧ (f.type = DNS_RTYPE_SRV → 6 < f.data_len →
          f.reader + 2 + 2 + 2 ∈ answer_record_names resp query_type ancount i st) := by
  unfold answer_record_names
  rw [if_neg hb]
  refine ⟨List.mem_cons_self _ _, ?_⟩
  intro len tmpname offset p f hname hl hc hf
  rw [hname]
  dsimp only
  rw [if_neg hl, if_neg hc, hf]
  dsimp only
  constructor
  · intro hC hi
    rw [if_pos ⟨hC, hi⟩]
    simp
  · intro hS hd
    have hn : ¬ (f.type = DNS_RTYPE_CNAME ∧ i + 1 ≠ ancount) := by
      intro hx
      rw [hS] at hx
      exact absurd hx.1 (by decide)
    rw [if_neg hn, if_pos ⟨hS, hd⟩]
    simp

/-- One pass of the answer loop gives the same result in the two messages, from
a reader past the header, when the names that the pass reads decode the same
way, and leaves the reader past the header. -/
theorem validate_answer_record_congr (resp resp2 : List Nat) (h : same_but_flags resp resp2)
    (now query_type ancount i : Nat) (st : validate_answers)
    (hn : ∀ name ∈ answer_record_names resp query_type ancount i st,
      resolv_read_name resp2 name DNS_MAX_NAME_SIZE 0
        = resolv_read_name resp name DNS_MAX_NAME_SIZE 0)
    (hr : 12 ≤ st.reader) :
    validate_answer_record resp2 now query_type ancount i st
      = validate_answer_record resp now query_type ancount i st
    ∧ ∀ st2, validate_answer_record resp now query_type ancount i st = .ok st2 →
        12 ≤ st2.reader := by
  unfold validate_answer_record
  dsimp only
  rw [h.1]
  by_cases hb : st.reader ≥ resp.length
  · simp only [hb, ↓reduceIte]
    exact ⟨trivial, fun st2 h2 => Except.noConfusion h2⟩
  obtain ⟨m0, m1⟩ := answer_record_names_mem resp query_type ancount i st hb
  rw [hn st.reader m0]
  simp only [hb, ↓reduceIte]
  cases hname : resolv_read_name resp st.reader DNS_MAX_NAME_SIZE 0 with
  | fault => exact ⟨rfl, fun st2 h2 => Except.noConfusion h2⟩
  | nofuel => exact ⟨rfl, fun st2 h2 => Except.noConfusion h2⟩
  | ret len tmpname offset p =>
    dsimp only
    by_cases hl : len = 0
    · simp only [hl, ↓reduceIte]
      exact ⟨trivial, fun st2 h2 => Except.noConfusion h2⟩
    simp only [hl, ↓reduceIte]
    by_cases hc : query_type ≠ DNS_RTYPE_SRV
        ∧ resolv_hostname_cmp st.previous_dname tmpname len ≠ 0
    · rw [if_pos hc, if_pos hc]
      refine ⟨rfl, fun st2 h2 => ?_⟩
      split at h2 <;> exact Except.noConfusion h2
    rw [if_neg hc, if_neg hc, read_record_fields_congr resp resp2 h _ (by omega)]
    cases hf : read_record_fields resp (st.reader + offset.getD 0) with
    | none => exact ⟨rfl, fun st2 h2 => Except.noConfusion h2⟩
    | some f =>
      have hfr := read_record_fields_reader resp _ f hf
      obtain ⟨m2, m3⟩ := m1 len tmpname offset p f hname hl hc hf
      dsimp only
      rw [answer_record_content_congr resp resp2 h ancount i st.previous_dname tmpname f
        (by omega) (fun hC hi => hn _ (m2 hC hi)) (fun hS hd => hn _ (m3 hS hd))]
      refine ⟨rfl, fun st2 h2 => ?_⟩
      cases hp : answer_record_content resp ancount i st.previous_dname tmpname f with
      | error e => rw [hp] at h2; exact Except.noConfusion h2
      | ok parsed =>
        rw [hp] at h2
        injection h2 with h2
        subst h2
        have := answer_record_content_reader resp ancount i st.previous_dname tmpname f
          parsed hp
        dsimp only
        omega

/-- The answer loop gives the same result in the two messages, from a reader
past the header, when the names that the loop reads decode the same way, and
leaves the reader past the header. -/
theorem validate_answer_loop_congr (resp resp2 : List Nat) (h : same_but_flags resp resp2)
    (now query_type ancount : Nat) :
    ∀ (n i : Nat) (st : validate_answers), 12 ≤ st.reader →
      (∀ name ∈ answer_loop_names resp now query_type ancount n i st,
        resolv_read_name resp2 name DNS_MAX_NAME_SIZE 0
          = resolv_read_name resp name DNS_MAX_NAME_SIZE 0) →
      validate_answer_loop resp2 now query_type ancount n i st
        = validate_answer_loop resp now query_type ancount n i st
      ∧ ∀ st2, validate_answer_loop resp now query_type ancount n i st = .ok st2 →
          12 ≤ st2.reader := by
  intro n
  induction n with
  | zero =>
    intro i st hr _
    refine ⟨rfl, fun st2 h2 => ?_⟩
    rw [validate_answer_loop] at h2
    injection h2 with h2
    subst h2
    exact hr
  | succ n ih =>
    intro i st hr hn
    rw [answer_loop_names] at hn
    obtain ⟨e, hb⟩ := validate_answer_record_congr resp resp2 h now query_type ancount i
      st (fun name hm => hn name (List.mem_append_left _ hm)) hr
    rw [validate_answer_loop, validate_answer_loop, e]
    cases hs : validate_answer_record resp now query_type ancount i st with
    | error e1 => exact ⟨rfl, fun st2 h2 => Except.noConfusion h2⟩
    | ok st1 =>
      rw [hs] at hn
      exact ih (i + 1) st1 (hb st1 hs) (fun name hm => hn name (List.mem_append_right _ hm))

/-- One pass of the loop over the authority records gives the same reader in
the two messages, from a reader past the header, when the name of the record
decodes the same way, and a reader past the header. -/
theorem validate_authority_record_congr (resp resp2 : List Nat)
    (h : same_but_flags resp resp2) (reader : Nat)
    (hn : resolv_read_name resp2 reader DNS_MAX_NAME_SIZE 0
      = resolv_read_name resp reader DNS_MAX_NAME_SIZE 0)
    (hr : 12 ≤ reader) :
    validate_authority_record resp2 reader = validate_authority_record resp reader
    ∧ ∀ r2, validate_authority_record resp reader = some r2 → 12 ≤ r2 := by
  obtain ⟨hlen, _, _, h16, _, _⟩ := same_but_flags_reads resp resp2 h
  unfold validate_authority_record
  dsimp only
  rw [hlen, hn]
  cases hname : resolv_read_name resp reader DNS_MAX_NAME_SIZE 0 with
  | fault =>
    refine ⟨rfl, fun r2 h2 => ?_⟩
    injection h2 with h2; omega
  | nofuel =>
    refine ⟨rfl, fun r2 h2 => ?_⟩
    injection h2 with h2; omega
  | ret len tmpname offset p =>
    dsimp only
    rw [h16 (reader + offset.getD 0 + 2 + 2 + 4) (by omega)]
    refine ⟨rfl, fun r2 h2 => ?_⟩
    repeat' split at h2
    all_goals first
      | exact Option.noConfusion h2
      | (injection h2 with h2; omega)

/-- The loop over the authority records gives the same reader in the two
messages, when the names of the records decode the same way. -/
theorem validate_authority_loop_congr (resp resp2 : List Nat)
    (h : same_but_flags resp resp2) :
    ∀ (n reader : Nat), 12 ≤ reader →
      (∀ name ∈ authority_loop_names resp n reader,
        resolv_read_name resp2 name DNS_MAX_NAME_SIZE 0
          = resolv_read_name resp name DNS_MAX_NAME_SIZE 0) →
      validate_authority_loop resp2 n reader = validate_authority_loop resp n reader
      ∧ ∀ r2, validate_authority_loop resp n reader = some r2 → 12 ≤ r2 := by
  intro n
  induction n with
  | zero =>
    intro reader hr _
    refine ⟨rfl, fun r2 h2 => ?_⟩
    rw [validate_authority_loop] at h2
    injection h2 with h2
    omega
  | succ n ih =>
    intro reader hr hn
    rw [authority_loop_names] at hn
    obtain ⟨e, hb⟩ := validate_authority_record_congr resp resp2 h reader
      (hn reader (List.mem_cons_self _ _)) hr
    rw [validate_authority_loop, validate_authority_loop, e]
    cases hs : validate_authority_record resp reader with
    | none => exact ⟨rfl, fun r2 h2 => Option.noConfusion h2⟩
    | some r1 =>
      rw [hs] at hn
      exact ih r1 (hb r1 hs) (fun name hm => hn name (List.mem_cons_of_mem _ hm))

/-- One pass of the loop over the additional records gives the same result in
the two messages, from a reader past the header, when the name of the record
decodes the same way, and leaves the reader past the header. -/
theorem validate_additional_record_congr (resp resp2 : List Nat)
    (h : same_but_flags resp resp2) (now : Nat) (st : validate_answers)
    (hn : ¬ st.reader ≥ resp.length →
      resolv_read_name resp2 st.reader DNS_MAX_NAME_SIZE 0
        = resolv_read_name resp st.reader DNS_MAX_NAME_SIZE 0)
    (hr : 12 ≤ st.reader) :
    validate_additional_record resp2 now st = validate_additional_record resp now st
    ∧ ∀ st2, validate_additional_record resp now st = .ok st2 → 12 ≤ st2.reader := by
  obtain ⟨hlen, hd, _, _, _, _⟩ := same_but_flags_reads resp resp2 h
  unfold validate_additional_record
  dsimp only
  rw [hlen]
  by_cases hb : st.reader ≥ resp.length
  · simp only [hb, ↓reduceIte]
    exact ⟨trivial, fun st2 h2 => Except.noConfusion h2⟩
  rw [hn hb]
  simp only [hb, ↓reduceIte]
  cases hname : resolv_read_name resp st.reader DNS_MAX_NAME_SIZE 0 with
  | fault =>
    refine ⟨rfl, fun st2 h2 => ?_⟩
    injection h2 with h2; subst h2; exact hr
  | nofuel =>
    refine ⟨rfl, fun st2 h2 => ?_⟩
    injection h2 with h2; subst h2; exact hr
  | ret len tmpname offset p =>
    dsimp only
    by_cases hl : len = 0
    · simp only [hl, ↓reduceIte]
      refine ⟨trivial, fun st2 h2 => ?_⟩
      injection h2 with h2; subst h2; exact hr
    simp only [hl, ↓reduceIte]
    rw [read_record_fields_congr resp resp2 h _ (by omega)]
    cases hf : read_record_fields resp (st.reader + offset.getD 0) with
    | none => exact ⟨rfl, fun st2 h2 => Except.noConfusion h2⟩
    | some f =>
      have hfr := read_record_fields_reader resp _ f hf
      dsimp only
      rw [hd f.reader (by omega)]
      refine ⟨rfl, fun st2 h2 => ?_⟩
      repeat' split at h2
      all_goals first
        | exact Except.noConfusion h2
        | (injection h2 with h2; subst h2; dsimp only; omega)

/-- The loop over the additional records gives the same result in the two
messages, when the names of the records decode the same way. -/
theorem validate_additional_loop_congr (resp resp2 : List Nat)
    (h : same_but_flags resp resp2) (now : Nat) :
    ∀ (n : Nat) (st : validate_answers), 12 ≤ st.reader →
      (∀ name ∈ additional_loop_names resp now n st,
        resolv_read_name resp2 name DNS_MAX_NAME_SIZE 0
          = resolv_read_name resp name DNS_MAX_NAME_SIZE 0) →
      validate_additional_loop resp2 now n st = validate_additional_loop resp now n st := by
  intro n
  induction n with
  | zero => intro st _ _; rfl
  | succ n ih =>
    intro st hr hn
    rw [additional_loop_names] at hn
    obtain ⟨e, hb⟩ := validate_additional_record_congr resp resp2 h now st
      (fun hlt => hn st.reader (List.mem_append_left _ (by rw [if_neg hlt]; simp))) hr
    rw [validate_additional_loop, validate_additional_loop, e]
    cases hs : validate_additional_record resp now st with
    | error e1 => rfl
    | ok st1 =>
      rw [hs] at hn
      exact ih st1 (hb st1 hs) (fun name hm => hn name (List.mem_append_right _ hm))

/-- The header checks and the parsing of the question give the same result in
the two messages, but for the flags word that is kept, when the name of the
question decodes the same way. -/
theorem validate_header_question_congr (resp resp2 : List Nat)
    (h : same_but_flags resp resp2)
    (hn : resolv_read_name resp2 12 DNS_MAX_NAME_SIZE 0
      = resolv_read_name resp 12 DNS_MAX_NAME_SIZE 0)
    (r_res : resolv_response) (max_answer_records : Int) :
    validate_header_question resp2 r_res max_answer_records
      = (match validate_header_question resp r_res max_answer_records with
         | .error e => .error e
         | .ok q => .ok { q with flags := read_n16 resp2 2 }) := by
  obtain ⟨hlen, _, _, h16, e0, hrc0⟩ := same_but_flags_reads resp resp2 h
  have e2 : read_n16 resp2 (0 + 2) &&& DNS_FLAG_REPLYCODE
      = read_n16 resp (0 + 2) &&& DNS_FLAG_REPLYCODE := hrc0
  have e4 := h16 (0 + 2 + 2) (by decide)
  have e6 := h16 (0 + 2 + 2 + 2) (by decide)
  have e8 := h16 (0 + 2 + 2 + 2 + 2) (by decide)
  have e10 := h16 (0 + 2 + 2 + 2 + 2 + 2) (by decide)
  have en : resolv_read_name resp2 (0 + 2 + 2 + 2 + 2 + 2 + 2) DNS_MAX_NAME_SIZE 0
      = resolv_read_name resp (0 + 2 + 2 + 2 + 2 + 2 + 2) DNS_MAX_NAME_SIZE 0 := hn
  by_cases h1 : 0 + 2 ≥ resp.length
  · unfold validate_header_question
    simp only [hlen, e0, e2, e4, e6, e8, e10, en, h1, ne_eq, not_true_eq_false, not_false_eq_true, ↓reduceIte]
  by_cases h2 : 0 + 2 + 2 ≥ resp.length
  · unfold validate_header_question
    simp only [hlen, e0, e2, e4, e6, e8, e10, en, h1, h2, ne_eq, not_true_eq_false, not_false_eq_true, ↓reduceIte]
  by_cases hrc : read_n16 resp (0 + 2) &&& DNS_FLAG_REPLYCODE = DNS_RCODE_NO_ERROR
  swap
  · unfold validate_header_question
    simp only [hlen, e0, e2, e4, e6, e8, e10, en, h1, h2, hrc, ne_eq, not_true_eq_false, not_false_eq_true, ↓reduceIte]
    split
    · rfl
    · split <;> rfl
  by_cases h3 : 0 + 2 + 2 + 2 ≥ resp.length
  · unfold validate_header_question
    simp only [hlen, e0, e2, e4, e6, e8, e10, en, h1, h2, hrc, h3, ne_eq, not_true_eq_false, not_false_eq_true, ↓reduceIte]
  by_cases hqd : read_n16 resp (0 + 2 + 2) = 1
  swap
  · unfold validate_header_question
    simp only [hlen, e0, e2, e4, e6, e8, e10, en, h1, h2, hrc, h3, hqd, ne_eq, not_true_eq_false, not_false_eq_true, ↓reduceIte]
  have hqd2 : ¬ (1 > DNS_MAX_QUERY_RECORDS) := by decide
  by_cases h4 : 0 + 2 + 2 + 2 + 2 ≥ resp.length
  · unfold validate_header_question
    simp only [hlen, e0, e2, e4, e6, e8, e10, en, h1, h2, hrc, h3, hqd, hqd2, h4, ne_eq, not_true_eq_false, not_false_eq_true, ↓reduceIte]
  by_cases han : read_n16 resp (0 + 2 + 2 + 2) = 0
  · unfold validate_header_question
    simp only [hlen, e0, e2, e4, e6, e8, e10, en, h1, h2, hrc, h3, hqd, hqd2, h4, han, ne_eq, not_true_eq_false, not_false_eq_true, ↓reduceIte]
  by_cases hmax : (read_n16 resp (0 + 2 + 2 + 2) : Int) > max_answer_records
  · unfold validate_header_question
    simp only [hlen, e0, e2, e4, e6, e8, e10, en, h1, h2, hrc, h3, hqd, hqd2, h4, han, hmax, ne_eq, not_true_eq_false, not_false_eq_true, ↓reduceIte]
  by_cases h5 : 0 + 2 + 2 + 2 + 2 + 2 ≥ resp.length
  · unfold validate_header_question
    simp only [hlen, e0, e2, e4, e6, e8, e10, en, h1, h2, hrc, h3, hqd, hqd2, h4, han, hmax, h5, ne_eq, not_true_eq_false, not_false_eq_true, ↓reduceIte]
  by_cases h6 : 0 + 2 + 2 + 2 + 2 + 2 + 2 ≥ resp.length
  · unfold validate_header_question
    simp only [hlen, e0, e2, e4, e6, e8, e10, en, h1, h2, hrc, h3, hqd, hqd2, h4, han, hmax, h5, h6, ne_eq, not_true_eq_false, not_false_eq_true, ↓reduceIte]
  unfold validate_header_question
  simp only [hlen, e0, e2, e4, e6, e8, e10, en, h1, h2, hrc, h3, hqd, hqd2, h4, han, hmax, h5, h6, ne_eq, not_true_eq_false, not_false_eq_true, ↓reduceIte]
  cases hname : resolv_read_name resp (0 + 2 + 2 + 2 + 2 + 2 + 2) DNS_MAX_NAME_SIZE 0 with
  | fault => rfl
  | nofuel => rfl
  | ret len dest offset p =>
    dsimp only
    by_cases hl : len = 0
    · simp only [hl, ↓reduceIte]
    simp only [hl, ↓reduceIte,
      h16 (0 + 2 + 2 + 2 + 2 + 2 + 2 + offset.getD 0) (by omega),
      h16 (0 + 2 + 2 + 2 + 2 + 2 + 2 + offset.getD 0 + 2) (by omega)]
    by_cases h7 : 0 + 2 + 2 + 2 + 2 + 2 + 2 + offset.getD 0 + 2 ≥ resp.length
    · simp only [h7, ↓reduceIte]
    simp only [h7, ↓reduceIte]
    by_cases h8 : 0 + 2 + 2 + 2 + 2 + 2 + 2 + offset.getD 0 + 2 + 2 ≥ resp.length
    · simp only [h8, ↓reduceIte]
    simp only [h8, ↓reduceIte]

/-- When the header checks and the parsing of the question succeed, the reader
is past the header. -/
theorem validate_header_question_reader (resp : List Nat) (r_res : resolv_response)
    (max_answer_records : Int) (q : validate_question)
    (hq : validate_header_question resp r_res max_answer_records = .ok q) :
    12 ≤ q.reader := by
  by_cases h1 : 0 + 2 ≥ resp.length
  · unfold validate_header_question at hq
    simp only [h1, ne_eq, not_true_eq_false, not_false_eq_true, ↓reduceIte] at hq
    exact Except.noConfusion hq
  by_cases h2 : 0 + 2 + 2 ≥ resp.length
  · unfold validate_header_question at hq
    simp only [h1, h2, ne_eq, not_true_eq_false, not_false_eq_true, ↓reduceIte] at hq
    exact Except.noConfusion hq
  by_cases hrc : read_n16 resp (0 + 2) &&& DNS_FLAG_REPLYCODE = DNS_RCODE_NO_ERROR
  swap
  · unfold validate_header_question at hq
    simp only [h1, h2, hrc, ne_eq, not_true_eq_false, not_false_eq_true, ↓reduceIte] at hq
    split at hq
    · exact Except.noConfusion hq
    · split at hq <;> exact Except.noConfusion hq
  by_cases h3 : 0 + 2 + 2 + 2 ≥ resp.length
  · unfold validate_header_question at hq
    simp only [h1, h2, hrc, h3, ne_eq, not_true_eq_false, not_false_eq_true, ↓reduceIte] at hq
    exact Except.noConfusion hq
  by_cases hqd : read_n16 resp (0 + 2 + 2) = 1
  swap
  · unfold validate_header_question at hq
    simp only [h1, h2, hrc, h3, hqd, ne_eq, not_true_eq_false, not_false_eq_true, ↓reduceIte] at hq
    exact Except.noConfusion hq
  have hqd2 : ¬ (1 > DNS_MAX_QUERY_RECORDS) := by decide
  by_cases h4 : 0 + 2 + 2 + 2 + 2 ≥ resp.length
  · unfold validate_header_question at hq
    simp only [h1, h2, hrc, h3, hqd, hqd2, h4, ne_eq, not_true_eq_false, not_false_eq_true, ↓reduceIte] at hq
    exact Except.noConfusion hq
  by_cases han : read_n16 resp (0 + 2 + 2 + 2) = 0
  · unfold validate_header_question at hq
    simp only [h1, h2, hrc, h3, hqd, hqd2, h4, han, ne_eq, not_true_eq_false, not_false_eq_true, ↓reduceIte] at hq
    exact Except.noConfusion hq
  by_cases hmax : (read_n16 resp (0 + 2 + 2 + 2) : Int) > max_answer_records
  · unfold validate_header_question at hq
    simp only [h1, h2, hrc, h3, hqd, hqd2, h4, han, hmax, ne_eq, not_true_eq_false, not_false_eq_true, ↓reduceIte] at hq
    exact Except.noConfusion hq
  by_cases h5 : 0 + 2 + 2 + 2 + 2 + 2 ≥ resp.length
  · unfold validate_header_question at hq
    simp only [h1, h2, hrc, h3, hqd, hqd2, h4, han, hmax, h5, ne_eq, not_true_eq_false, not_false_eq_true, ↓reduceIte] at hq
    exact Except.noConfusion hq
  by_cases h6 : 0 + 2 + 2 + 2 + 2 + 2 + 2 ≥ resp.length
  · unfold validate_header_question at hq
    simp only [h1, h2, hrc, h3, hqd, hqd2, h4, han, hmax, h5, h6, ne_eq, not_true_eq_false, not_false_eq_true, ↓reduceIte] at hq
    exact Except.noConfusion hq
  unfold validate_header_question at hq
  simp only [h1, h2, hrc, h3, hqd, hqd2, h4, han, hmax, h5, h6, ne_eq, not_true_eq_false, not_false_eq_true, ↓reduceIte] at hq
  split at hq
  swap
  · exact Except.noConfusion hq
  split at hq
  · exact Except.noConfusion hq
  split at hq
  · exact Except.noConfusion hq
  split at hq
  · exact Except.noConfusion hq
  injection hq with hq
  subst hq
  dsimp only
  omega

/-- For an SRV question, the byte at offset 2 of the message, which holds the
TC flag, has no effect on what `resolv_validate_dns_response` returns, when
every name that the function reads decodes the same way with either byte. -/
theorem validate_srv_flags (resp resp2 : List Nat) (h : same_but_flags resp resp2)
    (r_res : resolv_response) (max_answer_records : Int)
    (now hold_obsolete : Nat) (q : validate_question)
    (hq : validate_header_question resp r_res max_answer_records = .ok q)
    (hsrv : q.query.type = DNS_RTYPE_SRV)
    (hn : same_names resp resp2 now q) :
    resolv_validate_dns_response resp2 r_res max_answer_records now hold_obsolete
      = resolv_validate_dns_response resp r_res max_answer_records now hold_obsolete := by
  have hr := validate_header_question_reader resp r_res max_answer_records q hq
  have hsrv2 : ¬ (q.query.type ≠ DNS_RTYPE_SRV) := not_not.mpr hsrv
  unfold same_names validate_names at hn
  unfold resolv_validate_dns_response
  rw [validate_header_question_congr resp resp2 h (hn 12 (List.mem_cons_self _ _)), hq]
  dsimp only
  rw [if_neg (fun hc => hsrv2 hc.1), if_neg (fun hc => hsrv2 hc.1)]
  obtain ⟨ea, hra⟩ := validate_answer_loop_congr resp resp2 h now q.query.type
    q.r_res.header.ancount q.r_res.header.ancount 0
    { reader := q.reader, previous_dname := q.query.name, nb_saved_records := 0,
      answer_list := q.r_res.answer_list } hr
    (fun name hm => hn name (List.mem_cons_of_mem _ (List.mem_append_left _ hm)))
  rw [ea]
  cases hal : validate_answer_loop resp now q.query.type q.r_res.header.ancount
      q.r_res.header.ancount 0
      { reader := q.reader, previous_dname := q.query.name, nb_saved_records := 0,
        answer_list := q.r_res.answer_list } with
  | error e => rfl
  | ok a =>
    rw [hal] at hn
    dsimp only at hn
    rw [if_neg hsrv2] at hn
    dsimp only
    rw [if_neg hsrv2, if_neg hsrv2]
    obtain ⟨eb, hrb⟩ := validate_authority_loop_congr resp resp2 h q.r_res.header.nscount
      a.reader (hra a hal)
      (fun name hm => hn name (List.mem_cons_of_mem _ (List.mem_append_right _
        (List.mem_append_left _ hm))))
    rw [eb]
    cases hau : validate_authority_loop resp q.r_res.header.nscount a.reader with
    | none => rfl
    | some reader =>
      rw [hau] at hn
      dsimp only at hn
      dsimp only
      rw [validate_additional_loop_congr resp resp2 h now q.r_res.header.arcount
        { reader := reader, previous_dname := a.previous_dname, nb_saved_records := 0,
          answer_list := a.answer_list } (hrb reader hau)
        (fun name hm => hn name (List.mem_cons_of_mem _ (List.mem_append_right _
          (List.mem_append_right _ hm))))]

/-- C19, as amended: for every response that passes the header checks (RCODE
0, qdcount 1, 1 ≤ ancount ≤ `max_answer_records`) and whose question decodes,
`resolv_validate_dns_response` returns `RSLV_RESP_TRUNCATED` if and only if the
TC flag (bit 0x0200 of the flags word at offset 2) is set and the echoed
question type is not SRV; for an SRV question the TC flag has no effect on the
returned code or on the resulting answer list, provided no name is read through
the flags: for every message `resp2` that is the response but for the byte at
offset 2, which holds TC, and in which every name that the function reads in
the response decodes as in the response, the code and the response structure
returned are the same. -/
theorem resolv_validate_dns_response_truncated (resp : List Nat) (r_res : resolv_response)
    (max_answer_records : Int) (now hold_obsolete : Nat) (q : validate_question)
    (hq : validate_header_question resp r_res max_answer_records = .ok q) :
    ((resolv_validate_dns_response resp r_res max_answer_records now hold_obsolete).1
        = .TRUNCATED
      ↔ (read_n16 resp 2 &&& DNS_FLAG_TRUNCATED ≠ 0 ∧ q.query.type ≠ DNS_RTYPE_SRV))
    ∧ (q.query.type = DNS_RTYPE_SRV →
        ∀ resp2, same_but_flags resp resp2 → same_names resp resp2 now q →
          resolv_validate_dns_response resp2 r_res max_answer_records now hold_obsolete
            = resolv_validate_dns_response resp r_res max_answer_records now
                hold_obsolete) := by
  have hfl := (validate_header_question_ok resp r_res max_answer_records q hq).1
  have key := validate_truncated_iff_flags resp r_res max_answer_records now hold_obsolete q hq
  rw [hfl] at key
  refine ⟨?_, fun hsrv resp2 h hn => ?_⟩
  · rw [key]; exact And.comm
  · exact validate_srv_flags resp resp2 h r_res max_answer_records now hold_obsolete q hq
      hsrv hn

/-- Witness for C19: the SRV response `_http._tcp.example SRV 10 5 80
backend.example` with its additional records, with the TC flag clear (first
byte of the flags 0x81) and set (0x83): both are valid, with the same answer
list. -/
theorem resolv_validate_dns_response_truncated_witness :
    validate_header_question (srv_glue_flags 0x81) empty_response 31
        = .ok { flags := 0x8180, reader := 36,
                query := { name := http_tcp_example, type := 33, class_ := 1 },
                r_res := { header := { id := 0x1234, qdcount := 1, ancount := 1,
                                       nscount := 0, arcount := 2 },
                           query_list := [{ name := http_tcp_example, type := 33,
                                            class_ := 1 }],
                           answer_list := [] } }
    ∧ same_but_flags (srv_glue_flags 0x81) (srv_glue_flags 0x83)
    ∧ same_names (srv_glue_flags 0x81) (srv_glue_flags 0x83) 1000
        { flags := 0x8180, reader := 36,
          query := { name := http_tcp_example, type := 33, class_ := 1 },
          r_res := { header := { id := 0x1234, qdcount := 1, ancount := 1,
                                 nscount := 0, arcount := 2 },
                     query_list := [{ name := http_tcp_example, type := 33,
                                      class_ := 1 }],
                     answer_list := [] } }
    ∧ read_n16 (srv_glue_flags 0x83) 2 &&& DNS_FLAG_TRUNCATED ≠ 0
    ∧ read_n16 (srv_glue_flags 0x81) 2 &&& DNS_FLAG_TRUNCATED = 0
    ∧ (resolv_validate_dns_response (srv_glue_flags 0x81) empty_response 31 1000 0).1 = .VALID
    ∧ resolv_validate_dns_response (srv_glue_flags 0x83) empty_response 31 1000 0
        = resolv_validate_dns_response (srv_glue_flags 0x81) empty_response 31 1000 0 :=
  ⟨rfl, by decide, by decide, by decide, by decide, by decide,
   (resolv_validate_dns_response_truncated (srv_glue_flags 0x81) empty_response 31 1000 0
      { flags := 0x8180, reader := 36,
        query := { name := http_tcp_example, type := 33, class_ := 1 },
        r_res := { header := { id := 0x1234, qdcount := 1, ancount := 1,
                               nscount := 0, arcount := 2 },
                   query_list := [{ name := http_tcp_example, type := 33, class_ := 1 }],
                   answer_list := [] } } rfl).2 rfl (srv_glue_flags 0x83) (by decide)
      (by decide)⟩

/-- C19, counterexample to "for an SRV question the TC flag has no effect": two
responses to an SRV question that differ in the TC flag only, both with RCODE
0, qdcount 1, ancount 1 and a question that decodes. The target of the SRV
answer is a compression pointer to the flags word, so with TC clear the target
is empty and the response is invalid, and with TC set the target is a name and
the response is valid. -/
theorem truncated_flag_srv_counterexample :
    (∃ q, validate_header_question (srv_response_flags 0) empty_response 31 = .ok q
        ∧ q.query.type = DNS_RTYPE_SRV)
    ∧ (∃ q, validate_header_question (srv_response_flags 2) empty_response 31 = .ok q
        ∧ q.query.type = DNS_RTYPE_SRV)
    ∧ (resolv_validate_dns_response (srv_response_flags 0) empty_response 31 1000 0).1
        = .INVALID
    ∧ (resolv_validate_dns_response (srv_response_flags 2) empty_response 31 1000 0).1
        = .VALID
    ∧ ((resolv_validate_dns_response (srv_response_flags 2) empty_response 31 1000 0).2
        ).answer_list.length = 1 := by
  refine ⟨⟨_, rfl, rfl⟩, ⟨_, rfl, rfl⟩, ?_, ?_, ?_⟩ <;> decide


/-! ## Theorems: the answer list holds no two equivalent items -/

/-- Equivalence of two items only depends on their keys. -/
theorem answer_equivalent_congr (a a2 b b2 : resolv_answer_item)
    (ha : answer_key a = answer_key a2) (hb : answer_key b = answer_key b2) :
    answer_equivalent a b ↔ answer_equivalent a2 b2 := by
  unfold answer_key at ha hb
  simp only [Prod.mk.injEq] at ha hb
  obtain ⟨h1, h2, h3, h4, h5⟩ := ha
  obtain ⟨g1, g2, g3, g4, g5⟩ := hb
  unfold answer_equivalent
  rw [h1, h2, h3, h4, h5, g1, g2, g3, g4, g5]

/-- Being without equivalent items is a property of the list of keys. -/
theorem no_equivalent_items_iff_keys (m : List resolv_answer_item) :
    no_equivalent_items m
      ↔ (m.map answer_key).Pairwise (fun k1 k2 =>
          ∀ a b, answer_key a = k1 → answer_key b = k2 → ¬ answer_equivalent a b) := by
  unfold no_equivalent_items
  rw [List.pairwise_map]
  refine ⟨fun hm => hm.imp ?_, fun hm => hm.imp ?_⟩
  · intro x y hxy a b ha hb hab
    exact hxy ((answer_equivalent_congr a x b y ha hb).mp hab)
  · intro x y hxy
    exact hxy x y rfl rfl

/-- A list whose keys are a sublist of the keys of a list without equivalent
items is without equivalent items. -/
theorem no_equivalent_items_of_keys_sublist (l l2 : List resolv_answer_item)
    (h : (l2.map answer_key).Sublist (l.map answer_key)) (hl : no_equivalent_items l) :
    no_equivalent_items l2 := by
  rw [no_equivalent_items_iff_keys] at hl ⊢
  exact List.Pairwise.sublist h hl

/-- A list with the same keys, item by item, as a list without equivalent items
is without equivalent items. -/
theorem no_equivalent_items_of_keys (l l2 : List resolv_answer_item)
    (h : l2.map answer_key = l.map answer_key) (hl : no_equivalent_items l) :
    no_equivalent_items l2 :=
  no_equivalent_items_of_keys_sublist l l2 (by rw [h]) hl

/-- Names with the same lower-case bytes compare equal over any length. -/
theorem resolv_hostname_cmp_of_map (n1 n2 : List Nat) (len : Nat)
    (h : n1.map tolower = n2.map tolower) : resolv_hostname_cmp n1 n2 len = 0 := by
  unfold resolv_hostname_cmp
  have e : ∀ i, tolower (n1.getD i 0) = tolower (n2.getD i 0) := by
    intro i
    have h0 : tolower 0 = 0 := by decide
    have e1 : ∀ n : List Nat, tolower (n.getD i 0) = (n.map tolower).getD i 0 := by
      intro n
      simp only [List.getD_eq_getElem?_getD, List.getElem?_map]
      cases n[i]? <;> simp [h0]
    rw [e1 n1, e1 n2, h]
  rw [if_pos]
  simp only [List.all_eq_true, List.mem_range, beq_iff_eq]
  intro i _
  exact e i


/-- When the lookup of the answer loop finds no equal item, no item of the list
is equivalent to the record. -/
theorem answer_list_refresh_none (now : Nat) (answer_record : resolv_answer_item) :
    ∀ l : List resolv_answer_item, answer_list_refresh now answer_record l = none →
      ∀ a ∈ l, ¬ answer_equivalent a answer_record := by
  intro l
  induction l with
  | nil => intro _ a ha; cases ha
  | cons tmp rest ih =>
    intro h a ha heq
    rw [answer_list_refresh] at h
    rcases List.mem_cons.mp ha with rfl | hmem
    · obtain ⟨ht, hrest⟩ := heq
      rw [if_neg (not_not.mpr ht)] at h
      rcases hrest with ⟨hA | hAAAA, haddr⟩ | ⟨hS, hd, hp, htg⟩
      · rw [if_pos hA, if_pos haddr.symm] at h
        exact Option.noConfusion h
      · by_cases hA : a.type = DNS_RTYPE_A
        · rw [if_pos hA, if_pos haddr.symm] at h
          exact Option.noConfusion h
        · rw [if_neg hA, if_pos hAAAA, if_pos haddr.symm] at h
          exact Option.noConfusion h
      · have hA : a.type ≠ DNS_RTYPE_A := by rw [hS]; decide
        have hAAAA : a.type ≠ DNS_RTYPE_AAAA := by rw [hS]; decide
        have hc : answer_record.data_len = a.data_len
            ∧ resolv_hostname_cmp answer_record.target a.target answer_record.data_len = 0
            ∧ answer_record.port = a.port :=
          ⟨hd.symm, resolv_hostname_cmp_of_map _ _ _ htg.symm, hp.symm⟩
        rw [if_neg hA, if_neg hAAAA, if_pos hS, if_pos hc] at h
        exact Option.noConfusion h
    · split at h
      · exact Option.noConfusion h
      · cases hr : answer_list_refresh now answer_record rest with
        | none => exact ih hr a hmem heq
        | some l2 => rw [hr] at h; exact Option.noConfusion h

/-- When the lookup of the answer loop finds an equal item, the list keeps its
keys. -/
theorem answer_list_refresh_keys (now : Nat) (answer_record : resolv_answer_item) :
    ∀ l l2 : List resolv_answer_item, answer_list_refresh now answer_record l = some l2 →
      l2.map answer_key = l.map answer_key := by
  intro l
  induction l with
  | nil => intro l2 h; exact Option.noConfusion h
  | cons tmp rest ih =>
    intro l2 h
    rw [answer_list_refresh] at h
    split at h
    · rename_i found hf
      injection h with h
      subst h
      have hk : answer_key found = answer_key tmp := by
        repeat' split at hf
        all_goals first
          | exact Option.noConfusion hf
          | (injection hf with hf; subst hf; rfl)
      simp only [List.map_cons, List.cons.injEq, and_true]
      exact hk
    · cases hr : answer_list_refresh now answer_record rest with
      | none => rw [hr] at h; exact Option.noConfusion h
      | some l3 =>
        rw [hr] at h
        injection h with h
        subst h
        simp only [List.map_cons, ih l3 hr]

/-- The end of a pass of the answer loop keeps the list without equivalent
items. -/
theorem answer_list_store_no_equivalent (now : Nat) (answer_record : resolv_answer_item)
    (l : List resolv_answer_item) (hl : no_equivalent_items l) :
    no_equivalent_items (answer_list_store now answer_record l) := by
  unfold answer_list_store
  split
  · rename_i refreshed hr
    exact no_equivalent_items_of_keys l refreshed
      (answer_list_refresh_keys now answer_record l refreshed hr) hl
  · rename_i hr
    unfold no_equivalent_items at hl ⊢
    rw [List.pairwise_append]
    refine ⟨hl, List.pairwise_singleton _ _, ?_⟩
    intro a ha b hb
    rw [List.mem_singleton] at hb
    subst hb
    intro heq
    exact answer_list_refresh_none now answer_record l hr a ha
      ((answer_equivalent_congr _ _ _ _ rfl rfl).mp heq)

/-- The refresh of an additional record keeps the keys of the list. -/
theorem additional_list_refresh_keys (now : Nat) (answer_record : resolv_answer_item)
    (len : Nat) :
    ∀ l l2 : List resolv_answer_item,
      additional_list_refresh now answer_record len l = some l2 →
        l2.map answer_key = l.map answer_key := by
  intro l
  induction l with
  | nil => intro l2 h; exact Option.noConfusion h
  | cons tmp rest ih =>
    intro l2 h
    rw [additional_list_refresh] at h
    split at h
    · injection h with h
      subst h
      rfl
    · cases hr : additional_list_refresh now answer_record len rest with
      | none => rw [hr] at h; exact Option.noConfusion h
      | some l3 =>
        rw [hr] at h
        injection h with h
        subst h
        simp only [List.map_cons, ih l3 hr]

/-- Attaching an additional record keeps the keys of the list. -/
theorem additional_list_attach_keys (answer_record : resolv_answer_record) :
    ∀ l : List resolv_answer_item,
      (additional_list_attach answer_record l).map answer_key = l.map answer_key := by
  intro l
  induction l with
  | nil => rfl
  | cons tmp rest ih =>
    rw [additional_list_attach]
    split
    · rfl
    · simp only [List.map_cons, ih]

/-- The end of a pass of the additional-record loop keeps the keys of the
list. -/
theorem additional_list_store_keys (now : Nat) (answer_record : resolv_answer_item)
    (len : Nat) (l : List resolv_answer_item) :
    (additional_list_store now answer_record len l).map answer_key = l.map answer_key := by
  unfold additional_list_store
  split
  · rename_i refreshed hr
    exact additional_list_refresh_keys now answer_record len l refreshed hr
  · exact additional_list_attach_keys _ l

/-- The sweep of `resolv_check_response` leaves a sublist of the keys. -/
theorem resolv_check_response_keys (now hold_obsolete : Nat) :
    ∀ l : List resolv_answer_item,
      ((resolv_check_response now hold_obsolete l).map answer_key).Sublist
        (l.map answer_key) := by
  intro l
  unfold resolv_check_response
  induction l with
  | nil => exact List.Sublist.slnil
  | cons item rest ih =>
    rw [List.filterMap_cons]
    split
    · exact List.Sublist.cons _ ih
    · rename_i b hb
      have hk : answer_key b = answer_key item := by
        dsimp only at hb
        split at hb
        · exact Option.noConfusion hb
        · injection hb with hb
          subst hb
          split
          · split <;> rfl
          · rfl
      rw [List.map_cons, List.map_cons, hk]
      exact List.Sublist.cons₂ _ ih

/-- A pass of the answer loop keeps the list without equivalent items. -/
theorem validate_answer_record_no_equivalent (resp : List Nat)
    (now query_type ancount i : Nat) (st st2 : validate_answers)
    (h : validate_answer_record resp now query_type ancount i st = .ok st2)
    (hl : no_equivalent_items st.answer_list) : no_equivalent_items st2.answer_list := by
  unfold validate_answer_record at h
  dsimp only at h
  repeat' split at h
  all_goals first
    | exact Except.noConfusion h
    | skip
  injection h with h
  subst h
  exact answer_list_store_no_equivalent now _ _ hl

/-- A pass of the additional-record loop keeps the keys of the list. -/
theorem validate_additional_record_keys (resp : List Nat) (now : Nat)
    (st st2 : validate_answers) (h : validate_additional_record resp now st = .ok st2) :
    st2.answer_list.map answer_key = st.answer_list.map answer_key := by
  unfold validate_additional_record at h
  dsimp only at h
  repeat' split at h
  all_goals first
    | exact Except.noConfusion h
    | (injection h with h; subst h; rfl)
    | (injection h with h; subst h; exact additional_list_store_keys now _ _ _)

/-- The answer loop keeps the list without equivalent items, whether it ends or
returns early. -/
theorem validate_answer_loop_no_equivalent (resp : List Nat) (now query_type ancount : Nat) :
    ∀ (n i : Nat) (st : validate_answers), no_equivalent_items st.answer_list →
      match validate_answer_loop resp now query_type ancount n i st with
      | .error e => no_equivalent_items e.2
      | .ok st2 => no_equivalent_items st2.answer_list := by
  intro n
  induction n with
  | zero => intro i st hl; exact hl
  | succ n ih =>
    intro i st hl
    rw [validate_answer_loop]
    cases hr : validate_answer_record resp now query_type ancount i st with
    | error e =>
      dsimp only
      rw [(validate_answer_record_error resp now query_type ancount i st e hr).2]
      exact hl
    | ok st2 =>
      exact ih (i + 1) st2
        (validate_answer_record_no_equivalent resp now query_type ancount i st st2 hr hl)

/-- The additional-record loop keeps the list without equivalent items, whether
it ends or returns early. -/
theorem validate_additional_loop_no_equivalent (resp : List Nat) (now : Nat) :
    ∀ (n : Nat) (st : validate_answers), no_equivalent_items st.answer_list →
      match validate_additional_loop resp now n st with
      | .error e => no_equivalent_items e.2
      | .ok st2 => no_equivalent_items st2.answer_list := by
  intro n
  induction n with
  | zero => intro st hl; exact hl
  | succ n ih =>
    intro st hl
    rw [validate_additional_loop]
    cases hr : validate_additional_record resp now st with
    | error e =>
      dsimp only
      rw [(validate_additional_record_error resp now st e hr).2]
      exact hl
    | ok st2 =>
      exact ih st2 (no_equivalent_items_of_keys st.answer_list st2.answer_list
        (validate_additional_record_keys resp now st st2 hr) hl)

/-- The answer list stays without equivalent items through
`resolv_validate_dns_response`, whichever code is returned. -/
theorem validate_no_equivalent (resp : List Nat) (r_res : resolv_response)
    (max_answer_records : Int) (now hold_obsolete : Nat)
    (hl : no_equivalent_items r_res.answer_list) :
    no_equivalent_items
      (resolv_validate_dns_response resp r_res max_answer_records now hold_obsolete).2.answer_list
      := by
  unfold resolv_validate_dns_response
  cases hq : validate_header_question resp r_res max_answer_records with
  | error e =>
    dsimp only
    rw [validate_header_question_error resp r_res max_answer_records e hq]
    exact hl
  | ok q =>
    have hql : no_equivalent_items q.r_res.answer_list := by
      rw [(validate_header_question_ok resp r_res max_answer_records q hq).2.2.2.2.2.2.2.2.1]
      exact hl
    dsimp only
    split
    · exact hql
    · have hloop := validate_answer_loop_no_equivalent resp now q.query.type
        q.r_res.header.ancount q.r_res.header.ancount 0
        { reader := q.reader, previous_dname := q.query.name, nb_saved_records := 0,
          answer_list := q.r_res.answer_list } hql
      split
      · rename_i e he
        rw [he] at hloop
        exact hloop
      · rename_i a ha
        rw [ha] at hloop
        dsimp only at hloop
        split
        · exact no_equivalent_items_of_keys_sublist _ _
            (resolv_check_response_keys now hold_obsolete a.answer_list) hloop
        · split
          · exact hloop
          · rename_i reader _
            have hadd := validate_additional_loop_no_equivalent resp now q.r_res.header.arcount
              { reader := reader, previous_dname := a.previous_dname, nb_saved_records := 0,
                answer_list := a.answer_list } hloop
            split
            · rename_i e he
              rw [he] at hadd
              exact hadd
            · rename_i b hb
              rw [hb] at hadd
              exact no_equivalent_items_of_keys_sublist _ _
                (resolv_check_response_keys now hold_obsolete b.answer_list) hadd

/-- C15: for every response buffer and every prior answer list in which no two
items are equivalent (A/AAAA: same type and same address bytes; SRV: same
`data_len`, same port and targets equal up to ASCII case), the answer list
after `resolv_validate_dns_response` again holds no two equivalent items,
whichever `RSLV_RESP_*` code is returned. -/
theorem resolv_validate_dns_response_no_equivalent (resp : List Nat) (r_res : resolv_response)
    (max_answer_records : Int) (now hold_obsolete : Nat)
    (hl : no_equivalent_items r_res.answer_list) :
    no_equivalent_items
      (resolv_validate_dns_response resp r_res max_answer_records now hold_obsolete).2.answer_list
      :=
  validate_no_equivalent resp r_res max_answer_records now hold_obsolete hl


/-- Witness for C15: the response with the A record 93.184.216.34 for `www.ab`
processed on a list that holds this address and 10.0.0.1. -/
theorem resolv_validate_dns_response_no_equivalent_witness :
    no_equivalent_items [a_item [93, 184, 216, 34] 10, a_item [10, 0, 0, 1] 20]
    ∧ no_equivalent_items
        (resolv_validate_dns_response
          (a_response [3, 119, 119, 119, 2, 97, 98] [0xc0, 12] [93, 184, 216, 34])
          { empty_response with
            answer_list := [a_item [93, 184, 216, 34] 10, a_item [10, 0, 0, 1] 20] }
          31 1000 0).2.answer_list :=
  ⟨by unfold no_equivalent_items; decide,
   resolv_validate_dns_response_no_equivalent _ _ 31 1000 0
     (by unfold no_equivalent_items; decide)⟩


/-! ## Theorems: `resolv_validate_dns_response` on a response to an A question -/

/-- C20, failing input: the response to the A question whose name is the single
label `c3 a9` (the UTF-8 bytes of "é"), with one A answer 93.184.216.34 whose
owner is a compression pointer to offset 12, or the name in full. The question
name is decoded (3 bytes), but the offset reported for it is 3 where the name
takes 4 bytes of the message, because the byte-wise walk after `out:` takes the
label byte `c3` for a compression pointer. The question type and class are
then read one byte too early, the answer is parsed from a wrong position, and
the response is rejected with `RSLV_RESP_INVALID`, nothing being stored. -/
theorem resolv_validate_dns_response_high_byte_label :
    resolv_read_name (a_response [2, 0xc3, 0xa9] [0xc0, 12] [93, 184, 216, 34]) 12
        DNS_MAX_NAME_SIZE 0 = .ret 3 [2, 0xc3, 0xa9] (some 3) 0
    ∧ resolv_validate_dns_response
        (a_response [2, 0xc3, 0xa9] [0xc0, 12] [93, 184, 216, 34]) empty_response 31 1000 0
        = (.INVALID,
           { header := { id := 0x1234, qdcount := 1, ancount := 1, nscount := 0, arcount := 0 },
             query_list := [{ name := [2, 0xc3, 0xa9], type := 0, class_ := 256 }],
             answer_list := [] })
    ∧ (resolv_validate_dns_response
        (a_response [2, 0xc3, 0xa9] [2, 0xc3, 0xa9, 0] [93, 184, 216, 34])
        empty_response 31 1000 0).1 = .INVALID := by
  refine ⟨?_, ?_, ?_⟩ <;> decide

/-- The same response for the name `www.ab`, whose label bytes are letters, is
valid and gives the single item expected. -/
theorem resolv_validate_dns_response_a_sample :
    resolv_validate_dns_response
        (a_response [3, 119, 119, 119, 2, 97, 98] [0xc0, 12] [93, 184, 216, 34])
        empty_response 31 1000 0
      = (.VALID,
         { header := { id := 0x1234, qdcount := 1, ancount := 1, nscount := 0, arcount := 1 },
           query_list := [{ name := [3, 119, 119, 119, 2, 97, 98], type := 1, class_ := 1 }],
           answer_list :=
             [{ pool_alloc_answer_item with
                type := 1, class_ := 1, ttl := 300, data_len := 4, family := AF_INET,
                address := [93, 184, 216, 34], name := [3, 119, 119, 119, 2, 97, 98],
                last_seen := 1000, ar_item := none }] }) := by
  decide


/-! ## Theorems: pointers to resolutions -/

/-- What `list_find_split` finds: the list is cut at the first element that
satisfies `p`. -/
theorem list_find_split_some {α : Type} (p : α → Bool) :
    ∀ (l a : List α) (x : α) (b : List α), list_find_split p l = some (a, x, b) →
      l = a ++ x :: b ∧ p x = true ∧ ∀ y ∈ a, p y = false := by
  intro l
  induction l with
  | nil => intro a x b h; exact Option.noConfusion h
  | cons c l ih =>
    intro a x b h
    rw [list_find_split] at h
    by_cases hc : p c = true
    · rw [if_pos hc] at h
      injection h with h
      injection h with h1 h2
      injection h2 with h2 h3
      subst h1; subst h2; subst h3
      exact ⟨rfl, hc, fun y hy => by cases hy⟩
    · rw [if_neg hc] at h
      cases hr : list_find_split p l with
      | none => rw [hr] at h; exact Option.noConfusion h
      | some r =>
        obtain ⟨a2, x2, b2⟩ := r
        rw [hr] at h
        injection h with h
        injection h with h1 h2
        injection h2 with h2 h3
        subst h1; subst h2; subst h3
        obtain ⟨e, hp, hall⟩ := ih a2 x2 b2 hr
        refine ⟨by rw [e]; rfl, hp, ?_⟩
        intro y hy
        rcases List.mem_cons.mp hy with rfl | hy
        · simpa using hc
        · exact hall y hy

/-- When `list_find_split` finds nothing, no element satisfies `p`. -/
theorem list_find_split_none {α : Type} (p : α → Bool) :
    ∀ l : List α, list_find_split p l = none → ∀ y ∈ l, p y = false := by
  intro l
  induction l with
  | nil => intro _ y hy; cases hy
  | cons c l ih =>
    intro h y hy
    rw [list_find_split] at h
    by_cases hc : p c = true
    · rw [if_pos hc] at h; exact Option.noConfusion h
    · rw [if_neg hc] at h
      cases hr : list_find_split p l with
      | none =>
        rcases List.mem_cons.mp hy with rfl | hy
        · simpa using hc
        · exact ih hr y hy
      | some r => rw [hr] at h; exact Option.noConfusion h

/-- When no element before `x` satisfies `p` and `x` does, `list_find_split`
cuts the list at `x`. -/
theorem list_find_split_eq {α : Type} (p : α → Bool) :
    ∀ (a : List α) (x : α) (b : List α), (∀ y ∈ a, p y = false) → p x = true →
      list_find_split p (a ++ x :: b) = some (a, x, b) := by
  intro a
  induction a with
  | nil =>
    intro x b _ hx
    rw [List.nil_append, list_find_split, if_pos hx]
  | cons c a ih =>
    intro x b ha hx
    have hc : ¬ (p c = true) := by
      rw [ha c (List.mem_cons_self _ _)]; exact Bool.false_ne_true
    rw [List.cons_append, list_find_split, if_neg hc,
      ih x b (fun y hy => ha y (List.mem_cons_of_mem _ hy)) hx]

/-- What `find_resolution` finds is a pointer into the section to a resolution
that satisfies `p`. -/
theorem find_resolution_some (p : resolv_resolution → Bool) (s : resolvers) (r : res_ptr)
    (h : find_resolution p s = some r) : res_ptr_valid s r ∧ p r.res = true := by
  unfold find_resolution at h
  cases hc : list_find_split p s.curr with
  | some x =>
    obtain ⟨a, x, b⟩ := x
    rw [hc] at h
    injection h with h
    subst h
    obtain ⟨e, hp, _⟩ := list_find_split_some p _ _ _ _ hc
    exact ⟨by simpa [res_ptr_valid] using e, hp⟩
  | none =>
    rw [hc] at h
    cases hw : list_find_split p s.wait with
    | some x =>
      obtain ⟨a, x, b⟩ := x
      rw [hw] at h
      injection h with h
      subst h
      obtain ⟨e, hp, _⟩ := list_find_split_some p _ _ _ _ hw
      exact ⟨by simpa [res_ptr_valid] using e, hp⟩
    | none => rw [hw] at h; exact Option.noConfusion h

/-- When `find_resolution` finds nothing, no resolution of the section
satisfies `p`. -/
theorem find_resolution_none (p : resolv_resolution → Bool) (s : resolvers)
    (h : find_resolution p s = none) : ∀ R ∈ s.curr ++ s.wait, p R = false := by
  unfold find_resolution at h
  cases hc : list_find_split p s.curr with
  | some x => rw [hc] at h; exact Option.noConfusion h
  | none =>
    rw [hc] at h
    cases hw : list_find_split p s.wait with
    | some x => rw [hw] at h; exact Option.noConfusion h
    | none =>
      intro R hR
      rcases List.mem_append.mp hR with hR | hR
      · exact list_find_split_none p _ hc R hR
      · exact list_find_split_none p _ hw R hR

/-! ## Theorems: the invariant of a section -/

/-- The invariant, list by list. -/
theorem resolvers_invariant_iff (s : resolvers) :
    resolvers_invariant s ↔ lists_ok s.curr s.wait := by
  unfold resolvers_invariant lists_ok curr_ok wait_ok
  constructor
  · rintro ⟨h1, h2, h3⟩
    refine ⟨fun R hR => ?_, fun R hR => ?_⟩
    · have e := h1 R (List.mem_append_left _ hR)
      rcases h3 R hR with h | ⟨hq, hh⟩
      · exact Or.inl ⟨h, e.mpr h⟩
      · cases hs : R.step with
        | RUNNING => exact Or.inl ⟨rfl, e.mpr hs⟩
        | NONE =>
          refine Or.inr ⟨rfl, ?_, hq, hh⟩
          cases hl : R.qid_linked with
          | false => rfl
          | true => have := e.mp hl; rw [hs] at this; exact RSLV_STEP.noConfusion this
    · have e := h1 R (List.mem_append_right _ hR)
      refine ⟨h2 R hR, ?_⟩
      cases hl : R.qid_linked with
      | false => rfl
      | true => have := e.mp hl; rw [h2 R hR] at this; exact RSLV_STEP.noConfusion this
  · rintro ⟨hc, hw⟩
    refine ⟨fun R hR => ?_, fun R hR => (hw R hR).1, fun R hR => ?_⟩
    · rcases List.mem_append.mp hR with hR | hR
      · rcases hc R hR with ⟨h1, h2⟩ | ⟨h1, h2, _, _⟩
        · rw [h1, h2]; simp
        · rw [h1, h2]; simp
      · obtain ⟨h1, h2⟩ := hw R hR
        rw [h1, h2]; simp
    · rcases hc R hR with ⟨h1, _⟩ | ⟨_, _, h3, h4⟩
      · exact Or.inl h1
      · exact Or.inr ⟨h3, h4⟩

/-- Under the invariant, a pointer into the section points to a resolution in
the state of its list, and the section without that resolution satisfies the
invariant. -/
theorem lists_ok_ptr (s : resolvers) (r : res_ptr) (hv : res_ptr_valid s r)
    (h : lists_ok s.curr s.wait) :
    (if r.on_curr then curr_ok r.res else wait_ok r.res)
    ∧ lists_ok (list_delete s r).curr (list_delete s r).wait
    ∧ (list_delete s r).curr = (if r.on_curr then r.before ++ r.after else s.curr)
    ∧ (list_delete s r).wait = (if r.on_curr then s.wait else r.before ++ r.after) := by
  unfold res_ptr_valid at hv
  unfold list_delete
  obtain ⟨hc, hw⟩ := h
  by_cases hon : r.on_curr = true
  · simp only [hon, ↓reduceIte] at hv ⊢
    rw [hv] at hc
    refine ⟨hc _ (by simp), ⟨fun R hR => hc R ?_, hw⟩, trivial, trivial⟩
    rcases List.mem_append.mp hR with hR | hR
    · exact List.mem_append_left _ hR
    · exact List.mem_append_right _ (List.mem_cons_of_mem _ hR)
  · simp only [hon, Bool.false_eq_true, ↓reduceIte] at hv ⊢
    rw [hv] at hw
    refine ⟨hw _ (by simp), ⟨hc, fun R hR => hw R ?_⟩, trivial, trivial⟩
    rcases List.mem_append.mp hR with hR | hR
    · exact List.mem_append_left _ hR
    · exact List.mem_append_right _ (List.mem_cons_of_mem _ hR)

/-- Under the invariant, storing in place a resolution that is in the state of
its list keeps the invariant. -/
theorem lists_ok_store (s : resolvers) (r : res_ptr) (res : resolv_resolution)
    (hv : res_ptr_valid s r) (h : lists_ok s.curr s.wait)
    (hres : if r.on_curr then curr_ok res else wait_ok res) :
    lists_ok (store_resolution s r res).curr (store_resolution s r res).wait := by
  unfold res_ptr_valid at hv
  unfold store_resolution
  obtain ⟨hc, hw⟩ := h
  by_cases hon : r.on_curr = true
  · simp only [hon, ↓reduceIte] at hv hres ⊢
    rw [hv] at hc
    refine ⟨fun R hR => ?_, hw⟩
    rcases List.mem_append.mp hR with hR | hR
    · exact hc R (List.mem_append_left _ hR)
    · rcases List.mem_cons.mp hR with rfl | hR
      · exact hres
      · exact hc R (List.mem_append_right _ (List.mem_cons_of_mem _ hR))
  · simp only [hon, Bool.false_eq_true, ↓reduceIte] at hv hres ⊢
    rw [hv] at hw
    refine ⟨hc, fun R hR => ?_⟩
    rcases List.mem_append.mp hR with hR | hR
    · exact hw R (List.mem_append_left _ hR)
    · rcases List.mem_cons.mp hR with rfl | hR
      · exact hres
      · exact hw R (List.mem_append_right _ (List.mem_cons_of_mem _ hR))

/-- Appending a resolution in the state of the active list to it keeps the
invariant. -/
theorem lists_ok_append_curr (curr wait : List resolv_resolution) (res : resolv_resolution)
    (h : lists_ok curr wait) (hres : curr_ok res) : lists_ok (curr ++ [res]) wait := by
  refine ⟨fun R hR => ?_, h.2⟩
  rcases List.mem_append.mp hR with hR | hR
  · exact h.1 R hR
  · rw [List.mem_singleton] at hR; subst hR; exact hres

/-- Appending a resolution in the state of the wait list to it keeps the
invariant. -/
theorem lists_ok_append_wait (curr wait : List resolv_resolution) (res : resolv_resolution)
    (h : lists_ok curr wait) (hres : wait_ok res) : lists_ok curr (wait ++ [res]) := by
  refine ⟨h.1, fun R hR => ?_⟩
  rcases List.mem_append.mp hR with hR | hR
  · exact h.2 R hR
  · rw [List.mem_singleton] at hR; subst hR; exact hres


/-- The lists of the section after `resolv_send_query`: the resolution leaves
its place and goes to the end of the active list, with its counters of queries
and responses reset and `last_query` set to now. -/
theorem resolv_send_query_lists (env : resolv_env) (s : resolvers) (r : res_ptr) :
    ∃ n, (resolv_send_query env s r).curr
        = (list_delete s r).curr
          ++ [{ r.res with nb_queries := n, nb_responses := 0, last_query := env.now_ms }]
      ∧ (resolv_send_query env s r).wait = (list_delete s r).wait :=
  ⟨_, rfl, rfl⟩

/-- Sending the query of a RUNNING resolution whose query id is in the tree
keeps the invariant. -/
theorem resolv_send_query_ok (env : resolv_env) (s : resolvers) (r r0 : res_ptr)
    (hv : res_ptr_valid s r0) (h : lists_ok s.curr s.wait)
    (hr : r.on_curr = r0.on_curr ∧ r.before = r0.before ∧ r.after = r0.after)
    (hstep : r.res.step = .RUNNING) (hlinked : r.res.qid_linked = true) :
    lists_ok (resolv_send_query env s r).curr (resolv_send_query env s r).wait := by
  obtain ⟨n, e1, e2⟩ := resolv_send_query_lists env s r
  rw [e1, e2]
  have hd : list_delete s r = list_delete s r0 := by
    unfold list_delete
    rw [hr.1, hr.2.1, hr.2.2]
  rw [hd]
  exact lists_ok_append_curr _ _ _ (lists_ok_ptr s r0 hv h).2.1 (Or.inl ⟨hstep, hlinked⟩)

/-- What `resolv_run_resolution` returns and does: 0 and nothing when the
resolution has no hostname or is not at the step NONE; -1 and only a new seed
when no free query id is drawn; otherwise 1, and the resolution is sent with
the step RUNNING, the query id drawn, in the tree, the preferred query type and
`resolve_retries - 1` tries left. -/
theorem resolv_run_resolution_cases (env : resolv_env) (s : resolvers) (r : res_ptr) :
    ((resolv_run_resolution env s r).1 = 0 ∧ (resolv_run_resolution env s r).2 = s
      ∧ (r.res.hostname_dn = none ∨ r.res.step ≠ .NONE))
    ∨ ((resolv_run_resolution env s r).1 = -1
      ∧ (∃ seed, (resolv_run_resolution env s r).2 = { s with resolv_query_id_seed := seed })
      ∧ r.res.hostname_dn ≠ none ∧ r.res.step = .NONE)
    ∨ ((resolv_run_resolution env s r).1 = 1
      ∧ r.res.hostname_dn ≠ none ∧ r.res.step = .NONE
      ∧ ∃ seed query_id,
        (eb32_lookup s query_id).isNone = true
        ∧ (resolv_run_resolution env s r).2
          = resolv_send_query env { s with resolv_query_id_seed := seed }
              { r with res :=
                { r.res with
                  query_id := query_id, qid_key := query_id, step := .RUNNING,
                  query_type := r.res.prefered_query_type,
                  try_ := s.resolve_retries - 1, qid_linked := true } }) := by
  unfold resolv_run_resolution
  dsimp only
  by_cases hh : r.res.hostname_dn = none
  · rw [if_pos hh]
    exact Or.inl ⟨rfl, rfl, Or.inl hh⟩
  · rw [if_neg hh]
    by_cases hs : r.res.step ≠ .NONE
    · rw [if_pos hs]
      exact Or.inl ⟨rfl, rfl, Or.inr hs⟩
    · rw [if_neg hs]
      have hs2 : r.res.step = .NONE := not_not.mp hs
      have key : ∀ (n seed : Nat),
          (run_resolution_query_id env s n seed).1 = none
          ∨ ∃ q, (run_resolution_query_id env s n seed).1 = some q
              ∧ (eb32_lookup s q).isNone = true := by
        intro n
        induction n with
        | zero => intro seed; exact Or.inl rfl
        | succ n ih =>
          intro seed
          rw [run_resolution_query_id]
          by_cases hf : (eb32_lookup s (resolv_rnd16 env.now_ms seed).1).isNone = true
          · rw [if_pos hf]
            exact Or.inr ⟨_, rfl, hf⟩
          · rw [if_neg hf]
            exact ih _
      rcases key 100 s.resolv_query_id_seed with hn | ⟨q, hq, hfree⟩
      · rw [hn]
        exact Or.inr (Or.inl ⟨rfl, ⟨_, rfl⟩, hh, hs2⟩)
      · rw [hq]
        exact Or.inr (Or.inr ⟨rfl, hh, hs2, _, q, hfree, rfl⟩)

/-- Running a resolution of the wait list keeps the invariant: it stays as it
is, or it goes RUNNING to the end of the active list. -/
theorem resolv_run_resolution_ok (env : resolv_env) (s : resolvers) (r : res_ptr)
    (hv : res_ptr_valid s r) (h : lists_ok s.curr s.wait) :
    lists_ok (resolv_run_resolution env s r).2.curr (resolv_run_resolution env s r).2.wait := by
  rcases resolv_run_resolution_cases env s r with ⟨_, e, _⟩ | ⟨_, ⟨seed, e⟩, _⟩
      | ⟨_, _, _, seed, q, _, e⟩
  · rw [e]; exact h
  · rw [e]; exact h
  · rw [e]
    exact resolv_send_query_ok env _ _ r hv h ⟨rfl, rfl, rfl⟩ rfl rfl


/-- What `resolv_pick_resolution` returns: the first resolution of the section
that matches a hostname that is not NULL, the section being left as it is, or a
new resolution put at the end of the wait list. -/
theorem resolv_pick_resolution_cases (env : resolv_env) (s : resolvers)
    (hostname_dn : Option (List Nat)) (hostname_dn_len query_type : Nat) :
    (∃ h r, hostname_dn = some h
      ∧ find_resolution (pick_resolution_match h hostname_dn_len query_type) s = some r
      ∧ resolv_pick_resolution env s hostname_dn hostname_dn_len query_type = (r, s))
    ∨ ((∀ h, hostname_dn = some h →
          find_resolution (pick_resolution_match h hostname_dn_len query_type) s = none)
      ∧ resolv_pick_resolution env s hostname_dn hostname_dn_len query_type
        = ({ on_curr := false, before := s.wait,
             res := new_resolution env s hostname_dn hostname_dn_len query_type, after := [] },
           { s with
             resolution_uuid := s.resolution_uuid + 1,
             wait := s.wait
               ++ [new_resolution env s hostname_dn hostname_dn_len query_type] })) := by
  unfold resolv_pick_resolution
  cases hostname_dn with
  | none =>
    right
    exact ⟨fun h hh => Option.noConfusion hh, rfl⟩
  | some h =>
    dsimp only
    cases hf : find_resolution (pick_resolution_match h hostname_dn_len query_type) s with
    | some r =>
      left
      exact ⟨h, r, rfl, hf, rfl⟩
    | none =>
      right
      refine ⟨fun h2 hh => ?_, rfl⟩
      injection hh with hh
      subst hh
      exact hf

/-- A resolution that `resolv_pick_resolution` matches has a hostname. -/
theorem pick_resolution_match_hostname (h : List Nat) (len qt : Nat) (res : resolv_resolution)
    (hm : pick_resolution_match h len qt res = true) : res.hostname_dn ≠ none := by
  unfold pick_resolution_match at hm
  intro hn
  rw [hn] at hm
  exact Bool.false_ne_true hm

/-- Linking a requester to the resolution that `resolv_pick_resolution` gives
keeps the invariant. -/
theorem pick_store_ok (env : resolv_env) (s : resolvers) (hostname_dn : Option (List Nat))
    (hostname_dn_len query_type : Nat) (req : resolv_requester)
    (h : lists_ok s.curr s.wait) :
    lists_ok
      (store_resolution (resolv_pick_resolution env s hostname_dn hostname_dn_len query_type).2
        (resolv_pick_resolution env s hostname_dn hostname_dn_len query_type).1
        { (resolv_pick_resolution env s hostname_dn hostname_dn_len query_type).1.res with
          requesters :=
            (resolv_pick_resolution env s hostname_dn hostname_dn_len query_type).1.res.requesters
              ++ [req] }).curr
      (store_resolution (resolv_pick_resolution env s hostname_dn hostname_dn_len query_type).2
        (resolv_pick_resolution env s hostname_dn hostname_dn_len query_type).1
        { (resolv_pick_resolution env s hostname_dn hostname_dn_len query_type).1.res with
          requesters :=
            (resolv_pick_resolution env s hostname_dn hostname_dn_len query_type).1.res.requesters
              ++ [req] }).wait := by
  rcases resolv_pick_resolution_cases env s hostname_dn hostname_dn_len query_type with
    ⟨hn, r, _, hf, e⟩ | ⟨_, e⟩
  · rw [e]
    obtain ⟨hv, hm⟩ := find_resolution_some _ s r hf
    have hhost := pick_resolution_match_hostname _ _ _ _ hm
    refine lists_ok_store s r _ hv h ?_
    have hr := (lists_ok_ptr s r hv h).1
    by_cases hon : r.on_curr = true
    · simp only [hon, ↓reduceIte] at hr ⊢
      rcases hr with ⟨h1, h2⟩ | ⟨_, _, _, h4⟩
      · exact Or.inl ⟨h1, h2⟩
      · exact absurd h4 hhost
    · simp only [hon, Bool.false_eq_true, ↓reduceIte] at hr ⊢
      exact hr
  · rw [e]
    unfold store_resolution
    simp only [Bool.false_eq_true, ↓reduceIte, List.append_nil]
    refine lists_ok_append_wait _ _ _ h ?_
    exact ⟨rfl, rfl⟩

/-- The call `resolv_link_resolution` keeps the invariant. -/
theorem resolv_link_resolution_ok (env : resolv_env) (s : resolvers) (requester : Nat)
    (requester_type : OBJ_TYPE) (h : lists_ok s.curr s.wait) :
    lists_ok (resolv_link_resolution env s requester requester_type).2.curr
      (resolv_link_resolution env s requester requester_type).2.wait := by
  unfold resolv_link_resolution
  cases link_requester env requester requester_type with
  | none => exact h
  | some target => exact pick_store_ok env s _ _ _ _ h

/-- The call `resolv_unlink_resolution` keeps the invariant, whatever `safe`
is. -/
theorem resolv_unlink_resolution_ok (env : resolv_env) (s : resolvers)
    (requester : resolv_requester) (safe : Int) (h : lists_ok s.curr s.wait) :
    lists_ok (resolv_unlink_resolution env s requester safe).curr
      (resolv_unlink_resolution env s requester safe).wait := by
  unfold resolv_unlink_resolution
  cases hf : find_resolution (fun res => decide (requester ∈ res.requesters)) s with
  | none => exact h
  | some r =>
    obtain ⟨hv, hm⟩ := find_resolution_some _ s r hf
    have hmem : requester ∈ r.res.requesters := of_decide_eq_true hm
    have hr := (lists_ok_ptr s r hv h).1
    dsimp only
    cases he : r.res.requesters.erase requester with
    | nil =>
      dsimp only
      by_cases hs : safe ≠ 0
      · rw [if_pos hs]
        refine lists_ok_store s r _ hv h ?_
        by_cases hon : r.on_curr = true
        · simp only [hon, ↓reduceIte]
          exact Or.inr ⟨rfl, rfl, rfl, rfl⟩
        · simp only [hon, Bool.false_eq_true, ↓reduceIte]
          exact ⟨rfl, rfl⟩
      · rw [if_neg hs]
        exact (lists_ok_ptr s r hv h).2.1
    | cons req reqs =>
      dsimp only
      refine lists_ok_store s r _ hv h ?_
      by_cases hon : r.on_curr = true
      · simp only [hon, ↓reduceIte] at hr ⊢
        rcases hr with ⟨h1, h2⟩ | ⟨_, _, h3, _⟩
        · cases req.owner_type <;> exact Or.inl ⟨h1, h2⟩
        · rw [h3] at hmem; cases hmem
      · simp only [hon, Bool.false_eq_true, ↓reduceIte] at hr ⊢
        cases req.owner_type <;> exact hr


/-- A resolution at position `k` of the wait list gives a pointer into the
section. -/
theorem wait_ptr_valid (s : resolvers) (k : Nat) (res : resolv_resolution)
    (t : List resolv_resolution) (h : s.wait.drop k = res :: t) :
    res_ptr_valid s
      { on_curr := false, before := s.wait.take k, res := res, after := s.wait.drop (k + 1) }
    ∧ s.wait.drop (k + 1) = t := by
  have ht : s.wait.drop (k + 1) = t := by
    have := congrArg (List.drop 1) h
    rw [List.drop_drop] at this
    exact this
  refine ⟨?_, ht⟩
  unfold res_ptr_valid
  simp only [Bool.false_eq_true, ↓reduceIte]
  rw [ht, ← h, List.take_append_drop]

/-- A pass of the loop over the active list keeps the invariant. -/
theorem process_curr_resolution_ok (env : resolv_env) (s : resolvers)
    (res : resolv_resolution) (rest : List resolv_resolution) (hc : s.curr = res :: rest)
    (h : lists_ok s.curr s.wait) :
    lists_ok (process_curr_resolution env s res rest).1.curr
      (process_curr_resolution env s res rest).1.wait := by
  have hv : res_ptr_valid s { on_curr := true, before := [], res := res, after := rest } := by
    unfold res_ptr_valid
    simpa using hc
  have hp := lists_ok_ptr s _ hv h
  unfold process_curr_resolution
  dsimp only
  by_cases hreq : res.requesters = []
  · rw [if_pos hreq]
    exact hp.2.1
  rw [if_neg hreq]
  by_cases hexp : ¬ tick_is_expired (tick_add res.last_query s.timeout_retry) env.now_ms = true
  · rw [if_pos hexp]
    exact h
  rw [if_neg hexp]
  have hrun : res.step = .RUNNING ∧ res.qid_linked = true := by
    have := hp.1
    simp only [↓reduceIte] at this
    rcases this with h1 | ⟨_, _, h3, _⟩
    · exact h1
    · exact absurd h3 hreq
  by_cases htry : res.try_ = 0
  · rw [if_pos htry]
    dsimp only
    exact lists_ok_append_wait _ _ _ hp.2.1 ⟨rfl, rfl⟩
  rw [if_neg htry]
  dsimp only
  refine resolv_send_query_ok env s _ _ hv h ⟨rfl, rfl, rfl⟩ ?_ ?_
  · dsimp only
    split
    · exact hrun.1
    · split
      · exact hrun.1
      · split <;> exact hrun.1
  · dsimp only
    split
    · exact hrun.2
    · split
      · exact hrun.2
      · split <;> exact hrun.2

/-- The loop over the active list keeps the invariant. -/
theorem process_curr_loop_ok (env : resolv_env) :
    ∀ (fuel : Nat) (s s2 : resolvers), process_curr_loop env fuel s = some s2 →
      lists_ok s.curr s.wait → lists_ok s2.curr s2.wait := by
  intro fuel
  induction fuel with
  | zero => intro s s2 h; exact Option.noConfusion h
  | succ fuel ih =>
    intro s s2 h hl
    rw [process_curr_loop] at h
    cases hc : s.curr with
    | nil =>
      rw [hc] at h
      injection h with h
      subst h
      exact hl
    | cons res rest =>
      rw [hc] at h
      dsimp only at h
      have hp := process_curr_resolution_ok env s res rest hc hl
      by_cases hgo : (process_curr_resolution env s res rest).2 = true
      · rw [if_pos hgo] at h
        exact ih _ _ h hp
      · rw [if_neg hgo] at h
        injection h with h
        subst h
        exact hp

/-- A pass of the loop over the wait list keeps the invariant. -/
theorem process_wait_resolution_ok (env : resolv_env) (s : resolvers) (k : Nat)
    (res : resolv_resolution) (t : List resolv_resolution) (hd : s.wait.drop k = res :: t)
    (h : lists_ok s.curr s.wait) :
    lists_ok (process_wait_resolution env s k res).1.curr
      (process_wait_resolution env s k res).1.wait := by
  obtain ⟨hv, _⟩ := wait_ptr_valid s k res t hd
  have hp := lists_ok_ptr s _ hv h
  unfold process_wait_resolution
  dsimp only
  by_cases hreq : res.requesters = []
  · rw [if_pos hreq]
    exact hp.2.1
  rw [if_neg hreq]
  by_cases hexp : tick_isset res.last_resolution = true
      ∧ ¬ tick_is_expired (tick_add res.last_resolution s.timeout_resolve) env.now_ms = true
  · rw [if_pos hexp]
    exact h
  rw [if_neg hexp]
  by_cases hran : (resolv_run_resolution env s
      { on_curr := false, before := s.wait.take k, res := res,
        after := s.wait.drop (k + 1) }).1 ≠ 1
  · rw [if_pos hran]
    dsimp only
    have hres : wait_ok { res with last_resolution := env.now_ms } := by
      have := hp.1
      simp only [Bool.false_eq_true, ↓reduceIte] at this
      exact this
    rcases resolv_run_resolution_cases env s
        { on_curr := false, before := s.wait.take k, res := res,
          after := s.wait.drop (k + 1) } with ⟨_, e, _⟩ | ⟨_, ⟨seed, e⟩, _⟩ | ⟨e1, _⟩
    · rw [e]
      exact lists_ok_append_wait _ _ _ hp.2.1 hres
    · rw [e]
      exact lists_ok_append_wait _ _ _ hp.2.1 hres
    · exact absurd e1 hran
  · rw [if_neg hran]
    exact resolv_run_resolution_ok env s _ hv h

/-- The loop over the wait list keeps the invariant. -/
theorem process_wait_loop_ok (env : resolv_env) :
    ∀ (fuel : Nat) (s : resolvers) (k : Nat) (s2 : resolvers),
      process_wait_loop env fuel s k = some s2 →
      lists_ok s.curr s.wait → lists_ok s2.curr s2.wait := by
  intro fuel
  induction fuel with
  | zero => intro s k s2 h; exact Option.noConfusion h
  | succ fuel ih =>
    intro s k s2 h hl
    rw [process_wait_loop] at h
    cases hd : s.wait.drop k with
    | nil =>
      rw [hd] at h
      injection h with h
      subst h
      exact hl
    | cons res t =>
      rw [hd] at h
      dsimp only at h
      have hp := process_wait_resolution_ok env s k res t hd hl
      cases hn : (process_wait_resolution env s k res).2 with
      | none =>
        rw [hn] at h
        injection h with h
        subst h
        exact hp
      | some k2 =>
        rw [hn] at h
        exact ih _ _ _ h hp

/-- A tick of `process_resolvers` keeps the invariant. -/
theorem process_resolvers_ok (env : resolv_env) (fuel : Nat) (s s2 : resolvers)
    (h : process_resolvers env fuel s = some s2) (hl : lists_ok s.curr s.wait) :
    lists_ok s2.curr s2.wait := by
  unfold process_resolvers at h
  cases hc : process_curr_loop env fuel s with
  | none => rw [hc] at h; exact Option.noConfusion h
  | some s1 =>
    rw [hc] at h
    dsimp only at h
    cases hw : process_wait_loop env fuel s1 0 with
    | none => rw [hw] at h; exact Option.noConfusion h
    | some s3 =>
      rw [hw] at h
      injection h with h
      subst h
      exact process_wait_loop_ok env fuel s1 0 s3 hw (process_curr_loop_ok env fuel s s1 hc hl)


/-- Counting on a nameserver leaves the lists of the section as they are. -/
theorem ns_counters_lists (f : dns_counters → dns_counters) (ns : Nat) (s : resolvers) :
    (ns_counters f ns s).curr = s.curr ∧ (ns_counters f ns s).wait = s.wait
    ∧ (ns_counters f ns s).events = s.events := by
  unfold ns_counters
  split <;> exact ⟨rfl, rfl, rfl⟩

/-- Under the invariant, a resolution whose query id is in the tree is on the
active list, at the step RUNNING. -/
theorem linked_ptr_on_curr (s : resolvers) (r : res_ptr) (hv : res_ptr_valid s r)
    (h : lists_ok s.curr s.wait) (hl : r.res.qid_linked = true) :
    r.on_curr = true ∧ r.res.step = .RUNNING := by
  have hp := (lists_ok_ptr s r hv h).1
  by_cases hon : r.on_curr = true
  · simp only [hon, ↓reduceIte] at hp
    rcases hp with ⟨h1, _⟩ | ⟨_, h2, _⟩
    · exact ⟨hon, h1⟩
    · rw [hl] at h2; exact Bool.noConfusion h2
  · simp only [hon, Bool.false_eq_true, ↓reduceIte] at hp
    have h2 := hp.2
    rw [hl] at h2
    exact Bool.noConfusion h2

/-- What `eb32_lookup` finds is a pointer into the section to a resolution
whose node is in the tree with the key looked up. -/
theorem eb32_lookup_some (s : resolvers) (query_id : Nat) (r : res_ptr)
    (h : eb32_lookup s query_id = some r) :
    res_ptr_valid s r ∧ r.res.qid_linked = true ∧ r.res.qid_key = query_id := by
  unfold eb32_lookup at h
  obtain ⟨hv, hp⟩ := find_resolution_some _ s r h
  simp only [Bool.and_eq_true, beq_iff_eq] at hp
  exact ⟨hv, hp.1, hp.2⟩

/-- The section with other lists that are the same: the pointer stays valid. -/
theorem res_ptr_valid_congr (s s2 : resolvers) (r r2 : res_ptr)
    (hc : s2.curr = s.curr) (hw : s2.wait = s.wait)
    (hr : r2.on_curr = r.on_curr ∧ r2.before = r.before ∧ r2.after = r.after
      ∧ r2.res = r.res) (hv : res_ptr_valid s r) : res_ptr_valid s2 r2 := by
  unfold res_ptr_valid at hv ⊢
  rw [hc, hw, hr.1, hr.2.1, hr.2.2.1, hr.2.2.2]
  exact hv

/-- The label `report_res_error` keeps the invariant. -/
theorem report_res_error_ok (env : resolv_env) (s : resolvers) (r r0 : res_ptr)
    (dns_resp : RSLV_RESP) (hv : res_ptr_valid s r0) (h : lists_ok s.curr s.wait)
    (hr : r.on_curr = r0.on_curr ∧ r.before = r0.before ∧ r.after = r0.after) :
    lists_ok (report_res_error env s r dns_resp).curr
      (report_res_error env s r dns_resp).wait := by
  unfold report_res_error
  dsimp only
  have hd : list_delete s r = list_delete s r0 := by
    unfold list_delete
    rw [hr.1, hr.2.1, hr.2.2]
  rw [hd]
  exact lists_ok_append_wait _ _ _ (lists_ok_ptr s r0 hv h).2.1 ⟨rfl, rfl⟩

/-- Storing in place a RUNNING resolution whose query id is in the tree, on the
active list, keeps the invariant. -/
theorem store_running_ok (s : resolvers) (r r0 : res_ptr) (res : resolv_resolution)
    (hv : res_ptr_valid s r0) (h : lists_ok s.curr s.wait)
    (hr : r.on_curr = r0.on_curr ∧ r.before = r0.before ∧ r.after = r0.after)
    (hon : r0.on_curr = true) (hstep : res.step = .RUNNING) (hl : res.qid_linked = true) :
    lists_ok (store_resolution s r res).curr (store_resolution s r res).wait := by
  have hd : store_resolution s r res = store_resolution s r0 res := by
    unfold store_resolution
    rw [hr.1, hr.2.1, hr.2.2]
  rw [hd]
  refine lists_ok_store s r0 res hv h ?_
  simp only [hon, ↓reduceIte]
  exact Or.inl ⟨hstep, hl⟩

/-- The handling of a response that is not valid keeps the invariant. -/
theorem process_response_error_ok (env : resolv_env) (ns : Nat) (s : resolvers) (r r0 : res_ptr)
    (dns_resp : RSLV_RESP) (hv : res_ptr_valid s r0) (h : lists_ok s.curr s.wait)
    (hr : r.on_curr = r0.on_curr ∧ r.before = r0.before ∧ r.after = r0.after)
    (hon : r0.on_curr = true) (hstep : r.res.step = .RUNNING)
    (hl : r.res.qid_linked = true) :
    lists_ok (process_response_error env ns s r dns_resp).curr
      (process_response_error env ns s r dns_resp).wait := by
  unfold process_response_error
  dsimp only
  obtain ⟨ec, ew, _⟩ := ns_counters_lists (response_error_status dns_resp).2 ns s
  have hv2 : res_ptr_valid (ns_counters (response_error_status dns_resp).2 ns s) r0 :=
    res_ptr_valid_congr s _ r0 r0 ec ew ⟨rfl, rfl, rfl, rfl⟩ hv
  have h2 : lists_ok (ns_counters (response_error_status dns_resp).2 ns s).curr
      (ns_counters (response_error_status dns_resp).2 ns s).wait := by
    rw [ec, ew]; exact h
  split
  · exact store_running_ok _ r r0 _ hv2 h2 hr hon hstep hl
  · split
    · split
      · exact report_res_error_ok env _ _ r0 dns_resp hv2 h2 hr
      · exact store_running_ok _ r r0 _ hv2 h2 hr hon hstep hl
    · split
      · exact resolv_send_query_ok env _ _ r0 hv2 h2 hr hstep hl
      · split
        · exact resolv_send_query_ok env _ _ r0 hv2 h2 hr hstep hl
        · exact store_running_ok _ r r0 _ hv2 h2 hr hon hstep hl

/-- The handling of a valid response keeps the invariant. -/
theorem process_response_valid_ok (env : resolv_env) (ns : Nat) (s : resolvers) (r : res_ptr)
    (hv : res_ptr_valid s r) (h : lists_ok s.curr s.wait) :
    lists_ok (process_response_valid env ns s r).curr
      (process_response_valid env ns s r).wait := by
  unfold process_response_valid
  dsimp only
  split
  · obtain ⟨ec, ew, _⟩ := ns_counters_lists (fun c => { c with other := c.other + 1 }) ns s
    refine report_res_error_ok env _ r r .WRONG_NAME
      (res_ptr_valid_congr s _ r r ec ew ⟨rfl, rfl, rfl, rfl⟩ hv) ?_ ⟨rfl, rfl, rfl⟩
    rw [ec, ew]; exact h
  · obtain ⟨ec, ew, _⟩ := ns_counters_lists (fun c => { c with valid := c.valid + 1 }) ns s
    have hv2 := res_ptr_valid_congr s (ns_counters (fun c => { c with valid := c.valid + 1 }) ns s)
      r r ec ew ⟨rfl, rfl, rfl, rfl⟩ hv
    have h2 : lists_ok (ns_counters (fun c => { c with valid := c.valid + 1 }) ns s).curr
        (ns_counters (fun c => { c with valid := c.valid + 1 }) ns s).wait := by
      rw [ec, ew]; exact h
    exact lists_ok_append_wait _ _ _ (lists_ok_ptr _ r hv2 h2).2.1 ⟨rfl, rfl⟩

/-- A list of calls of `resolv_link_resolution` and `resolv_unlink_resolution`
keeps the invariant. -/
theorem resolv_apply_calls_ok (env : resolv_env) :
    ∀ (calls : List resolv_call) (s : resolvers), lists_ok s.curr s.wait →
      lists_ok (resolv_apply_calls env calls s).curr (resolv_apply_calls env calls s).wait := by
  intro calls
  induction calls with
  | nil => intro s h; exact h
  | cons c calls ih =>
    intro s h
    cases c with
    | link requester requester_type =>
      rw [resolv_apply_calls]
      exact ih _ (resolv_link_resolution_ok env s requester requester_type h)
    | unlink requester safe =>
      rw [resolv_apply_calls]
      exact ih _ (resolv_unlink_resolution_ok env s requester safe h)

/-- The handling of a message keeps the invariant. -/
theorem process_response_ok (env : resolv_env) (header_size min_record_size ns : Nat)
    (buf : List Nat) (calls : List resolv_call) (s : resolvers)
    (h : lists_ok s.curr s.wait) :
    lists_ok (process_response env header_size min_record_size ns buf calls s).curr
      (process_response env header_size min_record_size ns buf calls s).wait := by
  unfold process_response
  dsimp only
  split
  · obtain ⟨ec, ew, _⟩ := ns_counters_lists (fun c => { c with too_big := c.too_big + 1 }) ns s
    rw [ec, ew]; exact h
  split
  · obtain ⟨ec, ew, _⟩ := ns_counters_lists (fun c => { c with invalid := c.invalid + 1 }) ns s
    rw [ec, ew]; exact h
  split
  · obtain ⟨ec, ew, _⟩ := ns_counters_lists (fun c => { c with outdated := c.outdated + 1 }) ns s
    rw [ec, ew]; exact h
  · rename_i r hlook
    obtain ⟨hv, hl, _⟩ := eb32_lookup_some s _ r hlook
    obtain ⟨hon, hstep⟩ := linked_ptr_on_curr s r hv h hl
    split
    · exact process_response_error_ok env ns s _ r _ hv h ⟨rfl, rfl, rfl⟩ hon hstep hl
    · have h2 := resolv_apply_calls_ok env calls _
        (store_running_ok s r r
          { r.res with
            nb_responses := r.res.nb_responses + 1,
            response :=
              (resolv_validate_dns_response buf r.res.response
                (Int.tdiv ((s.accepted_payload_size : Int) - header_size) min_record_size)
                env.now_ms s.hold_obsolete).2 }
          hv h ⟨rfl, rfl, rfl⟩ hon hstep hl)
      split
      · exact h2
      · rename_i r2 hlook2
        obtain ⟨hv2, _, _⟩ := eb32_lookup_some _ _ r2 hlook2
        exact process_response_valid_ok env ns _ r2 hv2 h2

/-- The handling of the messages received from a nameserver keeps the
invariant. -/
theorem resolv_process_responses_ok (env : resolv_env) (header_size min_record_size ns : Nat)
    (msgs : List (List Nat × List resolv_call)) (s : resolvers)
    (h : lists_ok s.curr s.wait) :
    lists_ok (resolv_process_responses env header_size min_record_size ns msgs s).curr
      (resolv_process_responses env header_size min_record_size ns msgs s).wait := by
  unfold resolv_process_responses
  have key : ∀ (msgs : List (List Nat × List resolv_call)) (s : resolvers),
      lists_ok s.curr s.wait →
      lists_ok (msgs.foldl
          (fun s m => process_response env header_size min_record_size ns m.1 m.2 s) s).curr
        (msgs.foldl
          (fun s m => process_response env header_size min_record_size ns m.1 m.2 s) s).wait := by
    intro msgs
    induction msgs with
    | nil => intro s h; exact h
    | cons m msgs ih =>
      intro s h
      rw [List.foldl_cons]
      exact ih _ (process_response_ok env header_size min_record_size ns m.1 m.2 s h)
  exact key msgs s h


/-- C13, as the code has it: the following is an invariant of a resolvers
section, preserved by `resolv_link_resolution`, by `resolv_unlink_resolution`
with any `safe`, by a tick of `process_resolvers` and by
`resolv_process_responses`: a resolution has its query id in `query_ids`
exactly when its step is RUNNING; every resolution on `resolutions.wait` has
the step NONE; every resolution on `resolutions.curr` has the step RUNNING or
has no requester and no hostname (the state in which
`resolv_unlink_resolution` with `safe` set leaves a resolution that lost its
last requester, until a tick frees it). The callbacks are taken not to touch
the lists. -/
theorem resolvers_invariant_preserved (env : resolv_env) (s : resolvers)
    (h : resolvers_invariant s) :
    (∀ requester requester_type,
      resolvers_invariant (resolv_link_resolution env s requester requester_type).2)
    ∧ (∀ requester safe, resolvers_invariant (resolv_unlink_resolution env s requester safe))
    ∧ (∀ fuel s2, process_resolvers env fuel s = some s2 → resolvers_invariant s2)
    ∧ (∀ header_size min_record_size ns msgs,
      resolvers_invariant
        (resolv_process_responses env header_size min_record_size ns msgs s)) := by
  rw [resolvers_invariant_iff] at h
  refine ⟨fun requester requester_type => ?_, fun requester safe => ?_,
    fun fuel s2 h2 => ?_, fun header_size min_record_size ns msgs => ?_⟩
  · rw [resolvers_invariant_iff]
    exact resolv_link_resolution_ok env s requester requester_type h
  · rw [resolvers_invariant_iff]
    exact resolv_unlink_resolution_ok env s requester safe h
  · rw [resolvers_invariant_iff]
    exact process_resolvers_ok env fuel s s2 h2 h
  · rw [resolvers_invariant_iff]
    exact resolv_process_responses_ok env header_size min_record_size ns msgs s h

/-- Witness for C13: the sample section with its running resolution satisfies
the invariant, and so does the section after the requester is unlinked with
`safe` set. -/
theorem resolvers_invariant_preserved_witness :
    resolvers_invariant sample_section_running
    ∧ resolvers_invariant
        (resolv_unlink_resolution (sample_env 1500) sample_section_running
          (server_requester 1) 1) :=
  ⟨by decide,
   (resolvers_invariant_preserved (sample_env 1500) sample_section_running (by decide)).2.1
     (server_requester 1) 1⟩

/-- C13, counterexample to "step RUNNING iff on `resolutions.curr`, step NONE
iff on `resolutions.wait`": in the sample section the resolution of the server
is on `resolutions.curr`, RUNNING, its query id in the tree. Unlinking its
only requester with `safe` set resets it where it is: it stays on
`resolutions.curr`, with the step NONE, and `resolutions.wait` is empty. -/
theorem unlink_safe_step_counterexample :
    sample_section_running.curr.map (fun R => (R.step, R.qid_linked, R.requesters))
        = [(.RUNNING, true, [server_requester 1])]
    ∧ sample_section_running.wait = []
    ∧ (resolv_unlink_resolution (sample_env 1500) sample_section_running
          (server_requester 1) 1).curr.map
        (fun R => (R.step, R.qid_linked, R.requesters, R.hostname_dn))
        = [(.NONE, false, [], none)]
    ∧ (resolv_unlink_resolution (sample_env 1500) sample_section_running
          (server_requester 1) 1).wait = [] := by
  refine ⟨?_, ?_, ?_, ?_⟩ <;> decide


/-! ## Theorems: requesters of the resolutions after a tick -/

/-- Appending a resolution that has a requester keeps the active list in the
state the sweep leaves it in. -/
theorem curr_swept_append (now timeout_retry : Nat) (curr : List resolv_resolution)
    (res : resolv_resolution) (h : curr_swept now timeout_retry curr)
    (hres : res.requesters ≠ []) : curr_swept now timeout_retry (curr ++ [res]) := by
  rcases h with h | ⟨H, rest, e, h1, h2⟩
  · left
    intro R hR
    rcases List.mem_append.mp hR with hR | hR
    · exact h R hR
    · rw [List.mem_singleton] at hR; subst hR; exact hres
  · right
    exact ⟨H, rest ++ [res], by rw [e]; rfl, h1, h2⟩

/-- A pass of the loop over the active list: the timeout is kept, a resolution
it puts on the wait list has a requester, and when the loop stops there the
active list is in the state `curr_swept`. -/
theorem process_curr_resolution_requesters (env : resolv_env) (s : resolvers)
    (res : resolv_resolution) (rest : List resolv_resolution) (hc : s.curr = res :: rest) :
    (process_curr_resolution env s res rest).1.timeout_retry = s.timeout_retry
    ∧ (∀ R ∈ (process_curr_resolution env s res rest).1.wait, R ∈ s.wait ∨ R.requesters ≠ [])
    ∧ ((process_curr_resolution env s res rest).2 = false →
        curr_swept env.now_ms s.timeout_retry (process_curr_resolution env s res rest).1.curr)
    := by
  unfold process_curr_resolution
  dsimp only
  by_cases hreq : res.requesters = []
  · rw [if_pos hreq]
    refine ⟨rfl, fun R hR => Or.inl hR, fun hgo => Bool.noConfusion hgo⟩
  rw [if_neg hreq]
  by_cases hexp : ¬ tick_is_expired (tick_add res.last_query s.timeout_retry) env.now_ms = true
  · rw [if_pos hexp]
    refine ⟨rfl, fun R hR => Or.inl hR, fun _ => Or.inr ⟨res, rest, hc, hreq, ?_⟩⟩
    simpa using hexp
  rw [if_neg hexp]
  by_cases htry : res.try_ = 0
  · rw [if_pos htry]
    dsimp only
    refine ⟨rfl, fun R hR => ?_, fun hgo => Bool.noConfusion hgo⟩
    rcases List.mem_append.mp hR with hR | hR
    · exact Or.inl hR
    · rw [List.mem_singleton] at hR
      subst hR
      right
      unfold resolv_reset_resolution
      dsimp only
      split <;> exact hreq
  rw [if_neg htry]
  dsimp only
  refine ⟨rfl, fun R hR => Or.inl hR, fun hgo => ?_⟩
  have hrest : rest = [] := by simpa using hgo
  subst hrest
  left
  intro R hR
  have e : R.requesters = res.requesters := by
    unfold resolv_send_query list_delete at hR
    simp only [↓reduceIte, List.nil_append, List.mem_singleton] at hR
    subst hR
    dsimp only
    split
    · rfl
    · split
      · rfl
      · split <;> rfl
  rw [e]
  exact hreq

/-- The loop over the active list: the timeout is kept, the resolutions it
puts on the wait list have a requester, and the active list is left in the
state `curr_swept`. -/
theorem process_curr_loop_requesters (env : resolv_env) :
    ∀ (fuel : Nat) (s s2 : resolvers), process_curr_loop env fuel s = some s2 →
      s2.timeout_retry = s.timeout_retry
      ∧ (∀ R ∈ s2.wait, R ∈ s.wait ∨ R.requesters ≠ [])
      ∧ curr_swept env.now_ms s.timeout_retry s2.curr := by
  intro fuel
  induction fuel with
  | zero => intro s s2 h; exact Option.noConfusion h
  | succ fuel ih =>
    intro s s2 h
    rw [process_curr_loop] at h
    cases hc : s.curr with
    | nil =>
      rw [hc] at h
      injection h with h
      subst h
      refine ⟨rfl, fun R hR => Or.inl hR, Or.inl ?_⟩
      rw [hc]
      intro R hR
      cases hR
    | cons res rest =>
      rw [hc] at h
      dsimp only at h
      obtain ⟨p1, p2, p3⟩ := process_curr_resolution_requesters env s res rest hc
      by_cases hgo : (process_curr_resolution env s res rest).2 = true
      · rw [if_pos hgo] at h
        obtain ⟨q1, q2, q3⟩ := ih _ _ h
        refine ⟨by rw [q1, p1], fun R hR => ?_, by rw [← p1]; exact q3⟩
        rcases q2 R hR with hR | hR
        · exact p2 R hR
        · exact Or.inr hR
      · rw [if_neg hgo] at h
        injection h with h
        subst h
        exact ⟨p1, p2, p3 (by simpa using hgo)⟩


/-- The call `resolv_send_query` leaves the configuration of the section as it
is. -/
theorem resolv_send_query_config (env : resolv_env) (s : resolvers) (r : res_ptr) :
    (resolv_send_query env s r).timeout_retry = s.timeout_retry
    ∧ (resolv_send_query env s r).timeout_resolve = s.timeout_resolve
    ∧ (resolv_send_query env s r).resolve_retries = s.resolve_retries
    ∧ (resolv_send_query env s r).accepted_payload_size = s.accepted_payload_size
    ∧ (resolv_send_query env s r).hold_obsolete = s.hold_obsolete := by
  unfold resolv_send_query list_delete
  dsimp only
  split <;> exact ⟨rfl, rfl, rfl, rfl, rfl⟩

/-- The lists after `resolv_send_query` on a resolution of the wait list: the
resolution goes from the wait list to the end of the active list with its
requesters. -/
theorem resolv_send_query_from_wait (env : resolv_env) (s : resolvers) (r : res_ptr)
    (hon : r.on_curr = false) :
    (∃ res, res.requesters = r.res.requesters
        ∧ (resolv_send_query env s r).curr = s.curr ++ [res])
    ∧ (resolv_send_query env s r).wait = r.before ++ r.after := by
  unfold resolv_send_query list_delete
  simp only [hon, Bool.false_eq_true, ↓reduceIte]
  refine ⟨⟨_, ?_, rfl⟩, trivial⟩
  rfl

/-- The lists and the timeout after `resolv_run_resolution` on a resolution of
the wait list: nothing changes, or the resolution goes from the wait list to
the end of the active list with its requesters. -/
theorem resolv_run_resolution_lists (env : resolv_env) (s : resolvers) (r : res_ptr)
    (hon : r.on_curr = false) :
    (resolv_run_resolution env s r).2.timeout_retry = s.timeout_retry
    ∧ (((resolv_run_resolution env s r).1 ≠ 1
        ∧ (resolv_run_resolution env s r).2.curr = s.curr
        ∧ (resolv_run_resolution env s r).2.wait = s.wait)
      ∨ ((resolv_run_resolution env s r).1 = 1
        ∧ (∃ res, res.requesters = r.res.requesters
            ∧ (resolv_run_resolution env s r).2.curr = s.curr ++ [res])
        ∧ (resolv_run_resolution env s r).2.wait = r.before ++ r.after)) := by
  rcases resolv_run_resolution_cases env s r with ⟨e1, e, _⟩ | ⟨e1, ⟨seed, e⟩, _⟩
      | ⟨e1, _, _, seed, q, _, e⟩
  · rw [e, e1]
    exact ⟨rfl, Or.inl ⟨by decide, rfl, rfl⟩⟩
  · rw [e, e1]
    exact ⟨rfl, Or.inl ⟨by decide, rfl, rfl⟩⟩
  · rw [e, e1]
    have key : ∀ (S : resolvers) (R : res_ptr), S.curr = s.curr →
        S.timeout_retry = s.timeout_retry → R.on_curr = false → R.before = r.before →
        R.after = r.after → R.res.requesters = r.res.requesters →
        (resolv_send_query env S R).timeout_retry = s.timeout_retry
        ∧ (((1 : Int) ≠ 1 ∧ (resolv_send_query env S R).curr = s.curr
              ∧ (resolv_send_query env S R).wait = s.wait)
          ∨ ((1 : Int) = 1
            ∧ (∃ res, res.requesters = r.res.requesters
                ∧ (resolv_send_query env S R).curr = s.curr ++ [res])
            ∧ (resolv_send_query env S R).wait = r.before ++ r.after)) := by
      intro S R h1 h2 h3 h4 h5 h6
      obtain ⟨⟨res, hr, hc⟩, hw⟩ := resolv_send_query_from_wait env S R h3
      refine ⟨by rw [(resolv_send_query_config env S R).1, h2], Or.inr ⟨rfl, ⟨res, ?_, ?_⟩, ?_⟩⟩
      · rw [hr, h6]
      · rw [hc, h1]
      · rw [hw, h4, h5]
    exact key _ _ rfl rfl hon rfl rfl rfl

/-- A pass of the loop over the wait list, when the resolutions before the
position `k` have a requester and the active list is in the state the sweep
left it in: the same holds at the position where the loop goes on, and when the
loop is over every resolution of the wait list has a requester. -/
theorem process_wait_resolution_requesters (env : resolv_env) (s : resolvers) (k : Nat)
    (res : resolv_resolution) (t : List resolv_resolution) (now timeout_retry : Nat)
    (hd : s.wait.drop k = res :: t)
    (hJ : ∀ R ∈ s.wait.take k, R.requesters ≠ [])
    (hC : curr_swept now timeout_retry s.curr) :
    curr_swept now timeout_retry (process_wait_resolution env s k res).1.curr
    ∧ (∀ k2, (process_wait_resolution env s k res).2 = some k2 →
        ∀ R ∈ (process_wait_resolution env s k res).1.wait.take k2, R.requesters ≠ [])
    ∧ ((process_wait_resolution env s k res).2 = none →
        ∀ R ∈ (process_wait_resolution env s k res).1.wait, R.requesters ≠ []) := by
  obtain ⟨hv, ht⟩ := wait_ptr_valid s k res t hd
  have hklen : (s.wait.take k).length = k := by
    rw [List.length_take]
    have : k < s.wait.length := by
      by_contra hcon
      rw [List.drop_of_length_le (by omega)] at hd
      exact List.noConfusion hd
    omega
  have htake : ∀ l : List resolv_resolution, (s.wait.take k ++ l).take k = s.wait.take k := by
    intro l
    rw [List.take_append_of_le_length (by omega), List.take_of_length_le (by omega)]
  unfold process_wait_resolution
  dsimp only
  by_cases hreq : res.requesters = []
  · rw [if_pos hreq]
    refine ⟨hC, fun k2 hk2 => ?_, fun hn => Option.noConfusion hn⟩
    injection hk2 with hk2
    subst hk2
    unfold resolv_free_resolution list_delete
    simp only [Bool.false_eq_true, ↓reduceIte]
    rw [htake]
    exact hJ
  rw [if_neg hreq]
  by_cases hexp : tick_isset res.last_resolution = true
      ∧ ¬ tick_is_expired (tick_add res.last_resolution s.timeout_resolve) env.now_ms = true
  · rw [if_pos hexp]
    refine ⟨hC, fun k2 hk2 => ?_, fun hn => Option.noConfusion hn⟩
    injection hk2 with hk2
    subst hk2
    intro R hR
    have e : s.wait.take (k + 1) = s.wait.take k ++ [res] := by
      rw [List.take_succ]
      have : s.wait[k]? = some res := by
        have := congrArg (fun l => l[0]?) hd
        simpa using this
      rw [this]
      rfl
    rw [e] at hR
    rcases List.mem_append.mp hR with hR | hR
    · exact hJ R hR
    · rw [List.mem_singleton] at hR; subst hR; exact hreq
  rw [if_neg hexp]
  obtain ⟨_, hrun⟩ := resolv_run_resolution_lists env s
    { on_curr := false, before := s.wait.take k, res := res, after := s.wait.drop (k + 1) } rfl
  rcases hrun with ⟨hne, ec, ew⟩ | ⟨h1, ⟨res2, hres2, ec⟩, ew⟩
  · rw [if_pos hne]
    dsimp only
    unfold list_delete
    simp only [Bool.false_eq_true, ↓reduceIte]
    rw [ec]
    refine ⟨hC, fun k2 hk2 => ?_, fun hnone => ?_⟩
    · have hk2e : k2 = k := by
        split at hk2
        · exact Option.noConfusion hk2
        · injection hk2 with hk2; exact hk2.symm
      subst hk2e
      rw [List.append_assoc, htake]
      exact hJ
    · -- the loop is over: nothing was left after the resolution
      have hafter : s.wait.drop (k + 1) = [] := by
        by_contra hcon
        rw [if_neg hcon] at hnone
        exact Option.noConfusion hnone
      intro R hR
      rw [hafter, List.append_nil] at hR
      rcases List.mem_append.mp hR with hR | hR
      · exact hJ R hR
      · rw [List.mem_singleton] at hR; subst hR; exact hreq
  · rw [if_neg (not_not.mpr h1)]
    rw [ec, ew]
    refine ⟨curr_swept_append _ _ _ _ hC (by rw [hres2]; exact hreq), fun k2 hk2 => ?_,
      fun hn => Option.noConfusion hn⟩
    injection hk2 with hk2
    subst hk2
    rw [htake]
    exact hJ


/-- The loop over the wait list, entered when the resolutions before the
position `k` have a requester and the active list is in the state the sweep
left it in: at the end every resolution of the wait list has a requester and
the active list is still in that state. -/
theorem process_wait_loop_requesters (env : resolv_env) (now timeout_retry : Nat) :
    ∀ (fuel : Nat) (s : resolvers) (k : Nat) (s2 : resolvers),
      process_wait_loop env fuel s k = some s2 →
      (∀ R ∈ s.wait.take k, R.requesters ≠ []) →
      curr_swept now timeout_retry s.curr →
      (∀ R ∈ s2.wait, R.requesters ≠ []) ∧ curr_swept now timeout_retry s2.curr := by
  intro fuel
  induction fuel with
  | zero => intro s k s2 h; exact Option.noConfusion h
  | succ fuel ih =>
    intro s k s2 h hJ hC
    rw [process_wait_loop] at h
    cases hd : s.wait.drop k with
    | nil =>
      rw [hd] at h
      injection h with h
      subst h
      refine ⟨fun R hR => hJ R ?_, hC⟩
      have hk : s.wait.length ≤ k := by
        by_contra hcon
        have := List.drop_eq_nil_iff.mp hd
        omega
      rw [List.take_of_length_le hk]
      exact hR
    | cons res t =>
      rw [hd] at h
      dsimp only at h
      obtain ⟨p1, p2, p3⟩ :=
        process_wait_resolution_requesters env s k res t now timeout_retry hd hJ hC
      cases hn : (process_wait_resolution env s k res).2 with
      | none =>
        rw [hn] at h
        injection h with h
        subst h
        exact ⟨p3 hn, p1⟩
      | some k2 =>
        rw [hn] at h
        exact ih _ _ _ h (p2 k2 hn) p1

/-- The requesters of the resolutions after a tick that returns. -/
theorem process_resolvers_swept (env : resolv_env) (fuel : Nat) (s s2 : resolvers)
    (h : process_resolvers env fuel s = some s2) :
    (∀ R ∈ s2.wait, R.requesters ≠ []) ∧ curr_swept env.now_ms s.timeout_retry s2.curr := by
  unfold process_resolvers at h
  cases hc : process_curr_loop env fuel s with
  | none => rw [hc] at h; exact Option.noConfusion h
  | some s1 =>
    rw [hc] at h
    dsimp only at h
    cases hw : process_wait_loop env fuel s1 0 with
    | none => rw [hw] at h; exact Option.noConfusion h
    | some s3 =>
      rw [hw] at h
      injection h with h
      subst h
      obtain ⟨_, _, q3⟩ := process_curr_loop_requesters env fuel s s1 hc
      exact process_wait_loop_requesters env env.now_ms s.timeout_retry fuel s1 0 s3 hw
        (fun R hR => by simp at hR) q3

/-- C14, as the code has it: when `process_resolvers` returns (callbacks taken
not to touch the lists), every resolution on `resolutions.wait` has a
requester, and on `resolutions.curr` either every resolution has a requester,
or the first one has a requester and its timer `last_query + timeout.retry`
has not expired: the loop over the active list stopped there, and the
resolutions queued behind it were not looked at. -/
theorem process_resolvers_requesters (env : resolv_env) (fuel : Nat) (s s2 : resolvers)
    (h : process_resolvers env fuel s = some s2) :
    (∀ R ∈ s2.wait, R.requesters ≠ [])
    ∧ ((∀ R ∈ s2.curr, R.requesters ≠ [])
      ∨ ∃ H rest, s2.curr = H :: rest ∧ H.requesters ≠ []
          ∧ tick_is_expired (tick_add H.last_query s.timeout_retry) env.now_ms = false) :=
  process_resolvers_swept env fuel s s2 h

/-- Witness for C14: the tick of the date 1500 on the sample section in which
the second of two running resolutions has lost its requester. -/
theorem process_resolvers_requesters_witness :
    process_resolvers (sample_env 1500) 8 sample_section_two_unlinked
        = some { sample_section_two_unlinked with t_expire := 2000 }
    ∧ ∃ H rest, sample_section_two_unlinked.curr = H :: rest ∧ H.requesters ≠ []
        ∧ tick_is_expired (tick_add H.last_query sample_section_two_unlinked.timeout_retry) 1500
            = false :=
  ⟨by decide,
   ((process_resolvers_requesters (sample_env 1500) 8 sample_section_two_unlinked
      { sample_section_two_unlinked with t_expire := 2000 } (by decide)).2.resolve_left
      (by decide))⟩

/-- C14, counterexample: two servers with different hostnames are linked and
their resolutions started at the date 1000, then the second server is unlinked
with `safe` set, which leaves its resolution on `resolutions.curr` without
requester. The tick of the date 1500 returns and stops at the first
resolution, whose timer has not expired: the second resolution is still on
`resolutions.curr`, without requester. -/
theorem process_resolvers_requesters_counterexample :
    sample_section_two_unlinked.curr.map (fun R => R.requesters)
        = [[server_requester 1], []]
    ∧ ∃ s2, process_resolvers (sample_env 1500) 8 sample_section_two_unlinked = some s2
        ∧ s2.curr.map (fun R => R.requesters) = [[server_requester 1], []] :=
  ⟨by decide, { sample_section_two_unlinked with t_expire := 2000 }, by decide, by decide⟩


/-! ## Theorems: `resolv_link_resolution` shares a resolution -/

/-- When no element satisfies `p`, `list_find_split` finds nothing. -/
theorem list_find_split_eq_none {α : Type} (p : α → Bool) :
    ∀ l : List α, (∀ y ∈ l, p y = false) → list_find_split p l = none := by
  intro l
  induction l with
  | nil => intro _; rfl
  | cons c l ih =>
    intro h
    have hc : ¬ (p c = true) := by
      rw [h c (List.mem_cons_self _ _)]; exact Bool.false_ne_true
    rw [list_find_split, if_neg hc, ih (fun y hy => h y (List.mem_cons_of_mem _ hy))]

/-- The search of `find_resolution` stops in the active list at the first
resolution that satisfies `p`. -/
theorem find_resolution_curr (p : resolv_resolution → Bool) (s : resolvers)
    (a : List resolv_resolution) (x : resolv_resolution) (b : List resolv_resolution)
    (hc : s.curr = a ++ x :: b) (ha : ∀ y ∈ a, p y = false) (hx : p x = true) :
    find_resolution p s = some { on_curr := true, before := a, res := x, after := b } := by
  unfold find_resolution
  rw [hc, list_find_split_eq p a x b ha hx]

/-- When no resolution of the active list satisfies `p`, the search of
`find_resolution` stops in the wait list at the first resolution that does. -/
theorem find_resolution_wait (p : resolv_resolution → Bool) (s : resolvers)
    (a : List resolv_resolution) (x : resolv_resolution) (b : List resolv_resolution)
    (hc : ∀ y ∈ s.curr, p y = false) (hw : s.wait = a ++ x :: b)
    (ha : ∀ y ∈ a, p y = false) (hx : p x = true) :
    find_resolution p s = some { on_curr := false, before := a, res := x, after := b } := by
  unfold find_resolution
  rw [list_find_split_eq_none p _ hc, hw, list_find_split_eq p a x b ha hx]

/-- When no resolution of the section satisfies `p`, `find_resolution` finds
nothing. -/
theorem find_resolution_eq_none (p : resolv_resolution → Bool) (s : resolvers)
    (h : ∀ y ∈ s.curr ++ s.wait, p y = false) : find_resolution p s = none := by
  unfold find_resolution
  rw [list_find_split_eq_none p _ (fun y hy => h y (List.mem_append_left _ hy)),
    list_find_split_eq_none p _ (fun y hy => h y (List.mem_append_right _ hy))]

/-- The lower-case byte of a name at a position is the byte of the lower-case
name. -/
theorem tolower_getD (n : List Nat) (i : Nat) :
    tolower (n.getD i 0) = (n.map tolower).getD i 0 := by
  have h0 : tolower 0 = 0 := by decide
  simp only [List.getD_eq_getElem?_getD, List.getElem?_map]
  cases n[i]? <;> simp [h0]

/-- Two names with the same lower-case bytes compare the same way with any
name. -/
theorem resolv_hostname_cmp_congr (n1 n2 x : List Nat) (len : Nat)
    (h : n1.map tolower = n2.map tolower) :
    resolv_hostname_cmp n1 x len = resolv_hostname_cmp n2 x len := by
  unfold resolv_hostname_cmp
  simp only [tolower_getD, h]

/-- Two names with the same lower-case bytes match the same resolutions. -/
theorem pick_resolution_match_congr (n1 n2 : List Nat) (len qt : Nat)
    (res : resolv_resolution) (h : n1.map tolower = n2.map tolower) :
    pick_resolution_match n1 len qt res = pick_resolution_match n2 len qt res := by
  unfold pick_resolution_match
  cases res.hostname_dn with
  | none => rfl
  | some x =>
    dsimp only
    rw [resolv_hostname_cmp_congr n1 n2 x len h]

/-- A resolution matches its own hostname, length and preferred query type. -/
theorem pick_resolution_match_self (n : List Nat) (len qt : Nat) (res : resolv_resolution)
    (hh : res.hostname_dn = some n) (hl : res.hostname_dn_len = len)
    (hq : res.prefered_query_type = qt) : pick_resolution_match n len qt res = true := by
  unfold pick_resolution_match
  rw [hh]
  dsimp only
  rw [hl, hq, resolv_hostname_cmp_of_map n n len rfl]
  simp

/-- Linking to a section in which no resolution matches the hostname that is
asked for creates a resolution at the end of the wait list, with the requester
as its only requester. -/
theorem resolv_link_resolution_new (env : resolv_env) (s : resolvers) (requester : Nat)
    (requester_type : OBJ_TYPE) (n : List Nat) (qt : Nat) (req : resolv_requester)
    (ht : link_requester env requester requester_type = some (qt, req))
    (hn : env.hostname_dn requester_type requester = some n)
    (hnone : ∀ R ∈ s.curr ++ s.wait,
      pick_resolution_match n (env.hostname_dn_len requester_type requester) qt R = false) :
    resolv_link_resolution env s requester requester_type
      = (0, { s with
              resolution_uuid := s.resolution_uuid + 1,
              wait := s.wait
                ++ [{ new_resolution env s (some n)
                        (env.hostname_dn_len requester_type requester) qt with
                      requesters := [req] }] }) := by
  unfold resolv_link_resolution
  rw [ht]
  dsimp only
  rcases resolv_pick_resolution_cases env s (env.hostname_dn requester_type requester)
      (env.hostname_dn_len requester_type requester) qt with ⟨h, r, e1, hf, _⟩ | ⟨_, e⟩
  · rw [hn] at e1
    injection e1 with e1
    subst e1
    rw [find_resolution_eq_none _ s hnone] at hf
    exact Option.noConfusion hf
  · rw [e, hn]
    unfold store_resolution new_resolution
    simp

/-- Linking to a section in which the first resolution that matches the
hostname asked for is `R` adds the requester at the end of the requester list
of `R` and creates nothing. -/
theorem resolv_link_resolution_found (env : resolv_env) (s : resolvers) (requester : Nat)
    (requester_type : OBJ_TYPE) (n : List Nat) (qt : Nat) (req : resolv_requester)
    (r : res_ptr)
    (ht : link_requester env requester requester_type = some (qt, req))
    (hn : env.hostname_dn requester_type requester = some n)
    (hf : find_resolution
      (pick_resolution_match n (env.hostname_dn_len requester_type requester) qt) s = some r) :
    resolv_link_resolution env s requester requester_type
      = (0, store_resolution s r { r.res with requesters := r.res.requesters ++ [req] }) := by
  unfold resolv_link_resolution
  rw [ht]
  dsimp only
  rcases resolv_pick_resolution_cases env s (env.hostname_dn requester_type requester)
      (env.hostname_dn_len requester_type requester) qt with ⟨h, r2, e1, hf2, e⟩ | ⟨hnone, _⟩
  · rw [hn] at e1
    injection e1 with e1
    subst e1
    rw [hf] at hf2
    injection hf2 with hf2
    subst hf2
    rw [e]
  · rw [hnone n hn] at hf
    exact Option.noConfusion hf


/-- C12: two requesters are linked to the same section, with the same
preferred query type and hostnames of the same length that are equal up to
ASCII case, no resolution of the section matching that hostname beforehand.
The first `resolv_link_resolution` creates one resolution, at the end of
`resolutions.wait`, with the first requester on its list. The second one
returns that resolution, whether it still sits on `resolutions.wait` or has
been moved to the end of `resolutions.curr` (its hostname, preferred query
type and requester list being what they were): it creates nothing and adds the
second requester after the first one, so that the number of resolutions on
both lists has grown by one overall. Allocations are taken to succeed. -/
theorem resolv_link_resolution_shared (env : resolv_env) (s : resolvers)
    (requester1 requester2 : Nat) (type1 type2 : OBJ_TYPE) (n1 n2 : List Nat)
    (len qt : Nat) (req1 req2 : resolv_requester)
    (ht1 : link_requester env requester1 type1 = some (qt, req1))
    (ht2 : link_requester env requester2 type2 = some (qt, req2))
    (hn1 : env.hostname_dn type1 requester1 = some n1)
    (hn2 : env.hostname_dn type2 requester2 = some n2)
    (hl1 : env.hostname_dn_len type1 requester1 = len)
    (hl2 : env.hostname_dn_len type2 requester2 = len)
    (hcase : n1.map tolower = n2.map tolower)
    (hnone : ∀ R ∈ s.curr ++ s.wait, pick_resolution_match n1 len qt R = false) :
    resolv_link_resolution env s requester1 type1
      = (0, { s with
              resolution_uuid := s.resolution_uuid + 1,
              wait := s.wait
                ++ [{ new_resolution env s (some n1) len qt with requesters := [req1] }] })
    ∧ resolv_link_resolution env (resolv_link_resolution env s requester1 type1).2
        requester2 type2
      = (0, { s with
              resolution_uuid := s.resolution_uuid + 1,
              wait := s.wait
                ++ [{ new_resolution env s (some n1) len qt with
                      requesters := [req1, req2] }] })
    ∧ (resolv_link_resolution env (resolv_link_resolution env s requester1 type1).2
          requester2 type2).2.curr.length
        + (resolv_link_resolution env (resolv_link_resolution env s requester1 type1).2
          requester2 type2).2.wait.length
      = s.curr.length + s.wait.length + 1
    ∧ ∀ (s2 : resolvers) (R : resolv_resolution),
        s2.curr = s.curr ++ [R] → s2.wait = s.wait →
        R.hostname_dn = some n1 → R.hostname_dn_len = len → R.prefered_query_type = qt →
        R.requesters = [req1] →
        resolv_link_resolution env s2 requester2 type2
          = (0, { s2 with curr := s.curr ++ [{ R with requesters := [req1, req2] }] }) := by
  have hnone2 : ∀ R ∈ s.curr ++ s.wait, pick_resolution_match n2 len qt R = false := by
    intro R hR
    rw [← pick_resolution_match_congr n1 n2 len qt R hcase]
    exact hnone R hR
  have e1 := resolv_link_resolution_new env s requester1 type1 n1 qt req1 ht1 hn1
    (by rw [hl1]; exact hnone)
  rw [hl1] at e1
  have e2 : resolv_link_resolution env (resolv_link_resolution env s requester1 type1).2
        requester2 type2
      = (0, { s with
              resolution_uuid := s.resolution_uuid + 1,
              wait := s.wait
                ++ [{ new_resolution env s (some n1) len qt with
                      requesters := [req1, req2] }] }) := by
    rw [e1]
    dsimp only
    have hf := find_resolution_wait (pick_resolution_match n2 len qt)
      { s with
        resolution_uuid := s.resolution_uuid + 1,
        wait := s.wait
          ++ [{ new_resolution env s (some n1) len qt with requesters := [req1] }] }
      s.wait { new_resolution env s (some n1) len qt with requesters := [req1] } []
      (fun y hy => hnone2 y (List.mem_append_left _ hy)) rfl
      (fun y hy => hnone2 y (List.mem_append_right _ hy))
      (by
        rw [← pick_resolution_match_congr n1 n2 len qt _ hcase]
        exact pick_resolution_match_self n1 len qt _ rfl rfl rfl)
    rw [resolv_link_resolution_found env _ requester2 type2 n2 qt req2 _ ht2 hn2
      (by rw [hl2]; exact hf)]
    unfold store_resolution
    simp
  refine ⟨e1, e2, ?_, ?_⟩
  · rw [e2]
    simp only [List.length_append, List.length_cons, List.length_nil]
    omega
  · intro s2 R hc hw hh hlen hq hreq
    have hf := find_resolution_curr (pick_resolution_match n2 len qt) s2 s.curr R []
      hc (fun y hy => hnone2 y (List.mem_append_left _ hy))
      (by
        rw [← pick_resolution_match_congr n1 n2 len qt _ hcase]
        exact pick_resolution_match_self n1 len qt R hh hlen hq)
    rw [resolv_link_resolution_found env s2 requester2 type2 n2 qt req2 _ ht2 hn2
      (by rw [hl2]; exact hf)]
    unfold store_resolution
    simp [hreq]


/-- Witness for C12: the servers number 1 and 2, whose hostnames are `www.ab`
and `WWW.AB`, are linked to the sample section, which has no resolution. -/
theorem resolv_link_resolution_shared_witness :
    link_requester (sample_env_case 500) 1 .SERVER = some (DNS_RTYPE_A, server_requester 1)
    ∧ link_requester (sample_env_case 500) 2 .SERVER = some (DNS_RTYPE_A, server_requester 2)
    ∧ (sample_env_case 500).hostname_dn .SERVER 1 = some [3, 119, 119, 119, 2, 97, 98]
    ∧ (sample_env_case 500).hostname_dn .SERVER 2 = some [3, 87, 87, 87, 2, 65, 66]
    ∧ ([3, 119, 119, 119, 2, 97, 98] : List Nat).map tolower
        = ([3, 87, 87, 87, 2, 65, 66] : List Nat).map tolower
    ∧ (resolv_link_resolution (sample_env_case 500)
          (resolv_link_resolution (sample_env_case 500) sample_section 1 .SERVER).2
          2 .SERVER).2.curr.length
        + (resolv_link_resolution (sample_env_case 500)
          (resolv_link_resolution (sample_env_case 500) sample_section 1 .SERVER).2
          2 .SERVER).2.wait.length
      = sample_section.curr.length + sample_section.wait.length + 1 :=
  ⟨by decide, by decide, by decide, by decide, by decide,
   (resolv_link_resolution_shared (sample_env_case 500) sample_section 1 2 .SERVER .SERVER
      [3, 119, 119, 119, 2, 97, 98] [3, 87, 87, 87, 2, 65, 66] 7 DNS_RTYPE_A
      (server_requester 1) (server_requester 2)
      (by decide) (by decide) (by decide) (by decide) (by decide) (by decide) (by decide)
      (by decide)).2.2.1⟩


/-! ## Theorems: what `resolv_send_query` sends, and the fallback of the query
type in `resolv_process_responses` -/

/-- The datagrams handed out by the loop of `resolv_send_query` over the
nameservers. -/
theorem send_query_loop_events (env : resolv_env) (query : Option (Nat × List Nat)) :
    ∀ (nss : List dns_counters) (i : Nat),
      (send_query_loop env query i nss).2.2
        = match query with
          | none => []
          | some q => (List.range nss.length).map
              (fun j => resolv_event.send (i + j) (q.2.take q.1)) := by
  intro nss
  induction nss with
  | nil =>
    intro i
    cases query <;> rfl
  | cons c nss ih =>
    intro i
    cases query with
    | none =>
      have := ih (i + 1)
      rw [send_query_loop]
      dsimp only at this ⊢
      exact this
    | some q =>
      have := ih (i + 1)
      rw [send_query_loop]
      dsimp only at this ⊢
      have e : (List.range (nss.length + 1)).map
            (fun j => resolv_event.send (i + j) (q.2.take q.1))
          = resolv_event.send i (q.2.take q.1)
            :: (List.range nss.length).map
                (fun j => resolv_event.send (i + 1 + j) (q.2.take q.1)) := by
        rw [List.range_succ_eq_map, List.map_cons, List.map_map]
        simp only [Nat.add_zero, List.cons.injEq, true_and]
        apply List.map_congr_left
        intro j _
        simp only [Function.comp_apply]
        rw [Nat.add_assoc, Nat.add_comm 1 j]
      rw [List.length_cons, e]
      split <;> (dsimp only; rw [this])

/-- The events of the section after `resolv_send_query`: the datagrams of the
query built for the resolution follow those that were there. -/
theorem resolv_send_query_events (env : resolv_env) (s : resolvers) (r : res_ptr) :
    (resolv_send_query env s r).events
      = s.events
        ++ query_events
            (resolv_build_query r.res.query_id r.res.query_type s.accepted_payload_size
              (r.res.hostname_dn.getD []) r.res.hostname_dn_len env.trash_size)
            s.nameservers.length := by
  have e := send_query_loop_events env
    (resolv_build_query r.res.query_id r.res.query_type s.accepted_payload_size
      (r.res.hostname_dn.getD []) r.res.hostname_dn_len env.trash_size) s.nameservers 0
  unfold resolv_send_query list_delete query_events
  dsimp only
  rw [e]
  split <;> (split <;> simp)

/-- Counting on a nameserver keeps the number of nameservers and the
configuration of the section. -/
theorem ns_counters_config (f : dns_counters → dns_counters) (ns : Nat) (s : resolvers) :
    (ns_counters f ns s).nameservers.length = s.nameservers.length
    ∧ (ns_counters f ns s).accepted_payload_size = s.accepted_payload_size := by
  unfold ns_counters
  split
  · exact ⟨rfl, rfl⟩
  · exact ⟨by simp, rfl⟩


/-- The fallback of `resolv_process_responses`, on the handling of a response
that is not valid. -/
theorem process_response_error_fallback (env : resolv_env) (ns : Nat) (s : resolvers)
    (r : res_ptr) (dns_resp : RSLV_RESP) (other : Nat)
    (hall : ¬ (r.res.nb_responses < r.res.nb_queries))
    (hqt : r.res.query_type = r.res.prefered_query_type)
    (hother : (r.res.prefered_query_type = DNS_RTYPE_A ∧ other = DNS_RTYPE_AAAA)
      ∨ (r.res.prefered_query_type = DNS_RTYPE_AAAA ∧ other = DNS_RTYPE_A)) :
    process_response_error env ns s r dns_resp
      = resolv_send_query env (ns_counters (response_error_status dns_resp).2 ns s)
          { r with
            res := { r.res with
                     status := (response_error_status dns_resp).1, query_type := other } } := by
  unfold process_response_error
  dsimp only
  rw [if_neg hall, if_neg (not_not.mpr hqt.symm)]
  rcases hother with ⟨hp, ho⟩ | ⟨hp, ho⟩
  · rw [if_pos hp, ho]
  · have hne : ¬ (r.res.prefered_query_type = DNS_RTYPE_A) := by rw [hp]; decide
    rw [if_neg hne, if_pos hp, ho]

/-- C17: in `resolv_process_responses`, when a response that is not valid
arrives for a RUNNING resolution, every query sent has now been answered
(`nb_responses >= nb_queries` once this response is counted) and `query_type
== prefered_query_type` is A (resp. AAAA), then the query type of the
resolution becomes AAAA (resp. A), the query is sent again at once (the events
that follow are the datagrams of the query of the other type, with the same
query id), `try` and `query_id` are unchanged, the resolution is RUNNING at the
end of `resolutions.curr`, and no callback of a requester is called. -/
theorem process_response_fallback (env : resolv_env) (header_size min_record_size ns : Nat)
    (buf : List Nat) (calls : List resolv_call) (s : resolvers) (r : res_ptr) (other : Nat)
    (hbig : buf.length ≤ s.accepted_payload_size) (hlen : 2 ≤ buf.length)
    (hlook : eb32_lookup s (buf.getD 0 0 * 256 + buf.getD 1 0) = some r)
    (hstep : r.res.step = .RUNNING)
    (hresp : (resolv_validate_dns_response buf r.res.response
        (Int.tdiv ((s.accepted_payload_size : Int) - header_size) min_record_size)
        env.now_ms s.hold_obsolete).1 ≠ .VALID)
    (hall : r.res.nb_queries ≤ r.res.nb_responses + 1)
    (hqt : r.res.query_type = r.res.prefered_query_type)
    (hother : (r.res.prefered_query_type = DNS_RTYPE_A ∧ other = DNS_RTYPE_AAAA)
      ∨ (r.res.prefered_query_type = DNS_RTYPE_AAAA ∧ other = DNS_RTYPE_A)) :
    ∃ res2,
      (process_response env header_size min_record_size ns buf calls s).curr
        = (list_delete s r).curr ++ [res2]
      ∧ (process_response env header_size min_record_size ns buf calls s).wait
        = (list_delete s r).wait
      ∧ res2.query_type = other
      ∧ res2.prefered_query_type = r.res.prefered_query_type
      ∧ res2.try_ = r.res.try_
      ∧ res2.query_id = r.res.query_id
      ∧ res2.step = .RUNNING
      ∧ res2.qid_linked = true
      ∧ res2.requesters = r.res.requesters
      ∧ (process_response env header_size min_record_size ns buf calls s).events
        = s.events
          ++ query_events
              (resolv_build_query r.res.query_id other s.accepted_payload_size
                (r.res.hostname_dn.getD []) r.res.hostname_dn_len env.trash_size)
              s.nameservers.length := by
  obtain ⟨_, hlinked, _⟩ := eb32_lookup_some s _ r hlook
  have e : process_response env header_size min_record_size ns buf calls s
      = resolv_send_query env
          (ns_counters (response_error_status (resolv_validate_dns_response buf r.res.response
            (Int.tdiv ((s.accepted_payload_size : Int) - header_size) min_record_size)
            env.now_ms s.hold_obsolete).1).2 ns s)
          { r with
            res := { r.res with
                     nb_responses := r.res.nb_responses + 1,
                     response := (resolv_validate_dns_response buf r.res.response
                       (Int.tdiv ((s.accepted_payload_size : Int) - header_size)
                         min_record_size) env.now_ms s.hold_obsolete).2,
                     status := (response_error_status (resolv_validate_dns_response buf
                       r.res.response
                       (Int.tdiv ((s.accepted_payload_size : Int) - header_size)
                         min_record_size) env.now_ms s.hold_obsolete).1).1,
                     query_type := other } } := by
    unfold process_response
    dsimp only
    rw [if_neg (by omega), if_neg (by omega), hlook]
    dsimp only
    rw [if_pos hresp]
    exact process_response_error_fallback env ns s _ _ other (by dsimp only; omega) hqt hother
  rw [e]
  generalize (response_error_status (resolv_validate_dns_response buf r.res.response
    (Int.tdiv ((s.accepted_payload_size : Int) - header_size) min_record_size)
    env.now_ms s.hold_obsolete).1) = st
  generalize (resolv_validate_dns_response buf r.res.response
    (Int.tdiv ((s.accepted_payload_size : Int) - header_size) min_record_size)
    env.now_ms s.hold_obsolete).2 = resp2
  obtain ⟨ec, ew, ee⟩ := ns_counters_lists st.2 ns s
  obtain ⟨en, ea⟩ := ns_counters_config st.2 ns s
  obtain ⟨n, c1, c2⟩ := resolv_send_query_lists env (ns_counters st.2 ns s)
    { r with
      res := { r.res with
               nb_responses := r.res.nb_responses + 1, response := resp2,
               status := st.1, query_type := other } }
  have hd : ∀ R : resolv_resolution,
      (list_delete (ns_counters st.2 ns s) { r with res := R }).curr = (list_delete s r).curr
      ∧ (list_delete (ns_counters st.2 ns s) { r with res := R }).wait
          = (list_delete s r).wait := by
    intro R
    unfold list_delete
    dsimp only
    split
    · exact ⟨rfl, ew⟩
    · exact ⟨ec, rfl⟩
  refine ⟨{ r.res with
            nb_queries := n, nb_responses := 0, last_query := env.now_ms, response := resp2,
            status := st.1, query_type := other },
    ?_, ?_, rfl, rfl, rfl, rfl, hstep, hlinked, rfl, ?_⟩
  · rw [c1, (hd _).1]
  · rw [c2, (hd _).2]
  · rw [resolv_send_query_events, ee, en, ea]


/-- Witness for C17: the NXDOMAIN response to the A query of the running
resolution of the sample section, which has one nameserver. -/
theorem process_response_fallback_witness :
    eb32_lookup sample_section_running
        ((nx_response sample_resolution.query_id).getD 0 0 * 256
          + (nx_response sample_resolution.query_id).getD 1 0)
      = some { on_curr := true, before := [], res := sample_resolution, after := [] }
    ∧ sample_resolution.step = .RUNNING
    ∧ sample_resolution.query_type = DNS_RTYPE_A
    ∧ sample_resolution.prefered_query_type = DNS_RTYPE_A
    ∧ ∃ res2,
        (process_response (sample_env 1200) 12 11 0 (nx_response sample_resolution.query_id) []
          sample_section_running).curr = [res2]
        ∧ res2.query_type = DNS_RTYPE_AAAA :=
  ⟨by decide, by decide, by decide, by decide,
   (process_response_fallback (sample_env 1200) 12 11 0 (nx_response sample_resolution.query_id)
      [] sample_section_running
      { on_curr := true, before := [], res := sample_resolution, after := [] } DNS_RTYPE_AAAA
      (by decide) (by decide) (by decide) (by decide) (by decide) (by decide) (by decide)
      (Or.inl ⟨by decide, rfl⟩)).imp
     (fun _ h => ⟨h.1, h.2.2.1⟩)⟩


/-! ## Theorems: retries of a resolution until the timeout -/

/-- The loop of `resolv_send_query` keeps the number of nameservers. -/
theorem send_query_loop_length (env : resolv_env) (query : Option (Nat × List Nat)) :
    ∀ (nss : List dns_counters) (i : Nat),
      (send_query_loop env query i nss).1.length = nss.length := by
  intro nss
  induction nss with
  | nil => intro i; cases query <;> rfl
  | cons c nss ih =>
    intro i
    cases query with
    | none =>
      rw [send_query_loop]
      simp only [List.length_cons, ih]
    | some q =>
      rw [send_query_loop]
      split <;> simp only [List.length_cons, ih]

/-- The section after `resolv_send_query` on the only resolution of the active
list, the wait list being empty. -/
theorem resolv_send_query_single (env : resolv_env) (s : resolvers) (res : resolv_resolution) :
    ∃ n, (resolv_send_query env s
          { on_curr := true, before := [], res := res, after := [] }).curr
        = [{ res with nb_queries := n, nb_responses := 0, last_query := env.now_ms }]
      ∧ (resolv_send_query env s
          { on_curr := true, before := [], res := res, after := [] }).wait = s.wait
      ∧ (resolv_send_query env s
          { on_curr := true, before := [], res := res, after := [] }).nameservers.length
        = s.nameservers.length
      ∧ (resolv_send_query env s
          { on_curr := true, before := [], res := res, after := [] }).events
        = s.events
          ++ query_events
              (resolv_build_query res.query_id res.query_type s.accepted_payload_size
                (res.hostname_dn.getD []) res.hostname_dn_len env.trash_size)
              s.nameservers.length := by
  refine ⟨_, rfl, rfl, ?_, ?_⟩
  · exact send_query_loop_length env _ s.nameservers 0
  · exact resolv_send_query_events env s _

/-- A tick on a section whose only resolution is on the active list, has a
requester, has not been answered, has tries left, and whose timer has expired:
the query is sent again with one try less. -/
theorem process_resolvers_retry (env : resolv_env) (f : Nat) (s : resolvers)
    (res : resolv_resolution) (hc : s.curr = [res]) (hw : s.wait = [])
    (hreq : res.requesters ≠ [])
    (hexp : tick_is_expired (tick_add res.last_query s.timeout_retry) env.now_ms = true)
    (htry : res.try_ ≠ 0) (hnr : res.nb_responses = 0) :
    process_resolvers env (f + 1) s
      = some (resolv_update_resolvers_timeout env
          (resolv_send_query env s
            { on_curr := true, before := [],
              res := { res with query_type := res.prefered_query_type, try_ := res.try_ - 1 },
              after := [] })) := by
  have hcurr : process_curr_loop env (f + 1) s
      = some (resolv_send_query env s
          { on_curr := true, before := [],
            res := { res with query_type := res.prefered_query_type, try_ := res.try_ - 1 },
            after := [] }) := by
    rw [process_curr_loop, hc]
    dsimp only
    unfold process_curr_resolution
    dsimp only
    rw [if_neg hreq, if_neg (not_not.mpr hexp), if_neg htry, if_pos (Or.inl hnr)]
    simp
  unfold process_resolvers
  rw [hcurr]
  dsimp only
  have hwait : process_wait_loop env (f + 1)
      (resolv_send_query env s
        { on_curr := true, before := [],
          res := { res with query_type := res.prefered_query_type, try_ := res.try_ - 1 },
          after := [] }) 0
      = some (resolv_send_query env s
        { on_curr := true, before := [],
          res := { res with query_type := res.prefered_query_type, try_ := res.try_ - 1 },
          after := [] }) := by
    rw [process_wait_loop]
    obtain ⟨n, _, ew, _, _⟩ := resolv_send_query_single env s
      { res with query_type := res.prefered_query_type, try_ := res.try_ - 1 }
    rw [ew, hw]
    rfl
  rw [hwait]

/-- A tick on a section whose only resolution is on the active list, has a
requester, has not been answered, has no try left, and whose timer has
expired, when `timeout.resolve` is not 0 and the date is not 0: the status is
TIMEOUT, the error callbacks of the requesters are called with it, and the
resolution is reset and put on the wait list. -/
theorem process_resolvers_timeout (env : resolv_env) (f : Nat) (s : resolvers)
    (res : resolv_resolution) (hc : s.curr = [res]) (hw : s.wait = [])
    (hreq : res.requesters ≠ [])
    (hexp : tick_is_expired (tick_add res.last_query s.timeout_retry) env.now_ms = true)
    (htry : res.try_ = 0) (hnr : res.nb_responses = 0)
    (hres : 0 < s.timeout_resolve) (hnow : env.now_ms ≠ 0) :
    process_resolvers env (f + 2) s
      = some (resolv_update_resolvers_timeout env
          { s with
            curr := [],
            wait := [resolv_reset_resolution env { res with status := .TIMEOUT }],
            events := s.events
              ++ res.requesters.map
                  (fun req => resolv_event.requester_error_cb req (.status .TIMEOUT)) }) := by
  have hcurr : process_curr_loop env (f + 2) s
      = some { s with
          curr := [],
          wait := [resolv_reset_resolution env { res with status := .TIMEOUT }],
          events := s.events
            ++ res.requesters.map
                (fun req => resolv_event.requester_error_cb req (.status .TIMEOUT)) } := by
    rw [process_curr_loop, hc]
    dsimp only
    unfold process_curr_resolution
    dsimp only
    rw [if_neg hreq, if_neg (not_not.mpr hexp), if_pos htry]
    dsimp only
    rw [if_pos rfl, process_curr_loop]
    unfold list_delete
    simp [hnr, hw]
  unfold process_resolvers
  rw [hcurr]
  dsimp only
  have hwait : process_wait_loop env (f + 2)
      { s with
        curr := [],
        wait := [resolv_reset_resolution env { res with status := .TIMEOUT }],
        events := s.events
          ++ res.requesters.map
              (fun req => resolv_event.requester_error_cb req (.status .TIMEOUT)) } 0
      = some { s with
        curr := [],
        wait := [resolv_reset_resolution env { res with status := .TIMEOUT }],
        events := s.events
          ++ res.requesters.map
              (fun req => resolv_event.requester_error_cb req (.status .TIMEOUT)) } := by
    rw [process_wait_loop]
    dsimp only [List.drop_zero]
    unfold process_wait_resolution
    dsimp only
    have h1 : (resolv_reset_resolution env { res with status := .TIMEOUT }).requesters
        = res.requesters := rfl
    have h2 : (resolv_reset_resolution env { res with status := .TIMEOUT }).last_resolution
        = env.now_ms := rfl
    rw [h1, h2, if_neg hreq]
    have hheld : tick_isset env.now_ms = true
        ∧ ¬ tick_is_expired (tick_add env.now_ms s.timeout_resolve) env.now_ms = true := by
      unfold tick_is_expired tick_isset tick_add TICK_ETERNITY
      simp only [decide_eq_true_eq, Bool.and_eq_true, not_and, Nat.not_le]
      exact ⟨hnow, fun _ => by omega⟩
    rw [if_pos hheld]
    dsimp only
    rw [process_wait_loop]
    simp
  rw [hwait]


/-- The tick that starts the only resolution of a section, which waits with a
requester and a hostname and is not held by `timeout.resolve`: the resolution
goes running to the active list, its query sent once, with `resolve_retries - 1`
tries left. -/
theorem process_resolvers_run (env : resolv_env) (f : Nat) (s : resolvers)
    (R : resolv_resolution) (hcurr : s.curr = []) (hwait : s.wait = [R])
    (hhost : R.hostname_dn ≠ none) (hstep : R.step = .NONE) (hlinked : R.qid_linked = false)
    (hreq : R.requesters ≠ [])
    (hheld : ¬ (tick_isset R.last_resolution = true
      ∧ ¬ tick_is_expired (tick_add R.last_resolution s.timeout_resolve) env.now_ms = true)) :
    ∃ s1, process_resolvers env (f + 2) s = some s1
      ∧ retry_running s R (resolv_rnd16 env.now_ms s.resolv_query_id_seed).1
          (s.resolve_retries - 1) env.now_ms
          (s.events
            ++ query_events
                (resolv_build_query (resolv_rnd16 env.now_ms s.resolv_query_id_seed).1
                  R.prefered_query_type s.accepted_payload_size (R.hostname_dn.getD [])
                  R.hostname_dn_len env.trash_size)
                s.nameservers.length) s1 := by
  have hfree : eb32_lookup s (resolv_rnd16 env.now_ms s.resolv_query_id_seed).1 = none := by
    unfold eb32_lookup
    apply find_resolution_eq_none
    intro y hy
    rw [hcurr, hwait] at hy
    simp only [List.nil_append, List.mem_singleton] at hy
    subst hy
    rw [hlinked]
    rfl
  have hrun : resolv_run_resolution env s
        { on_curr := false, before := [], res := R, after := [] }
      = (1, resolv_send_query env
          { s with resolv_query_id_seed := (resolv_rnd16 env.now_ms s.resolv_query_id_seed).2 }
          { on_curr := false, before := [],
            res := { R with
                     query_id := (resolv_rnd16 env.now_ms s.resolv_query_id_seed).1,
                     qid_key := (resolv_rnd16 env.now_ms s.resolv_query_id_seed).1,
                     step := .RUNNING, query_type := R.prefered_query_type,
                     try_ := s.resolve_retries - 1, qid_linked := true },
            after := [] }) := by
    unfold resolv_run_resolution
    dsimp only
    rw [if_neg hhost, if_neg (not_not.mpr hstep)]
    have hq : run_resolution_query_id env s 100 s.resolv_query_id_seed
        = (some (resolv_rnd16 env.now_ms s.resolv_query_id_seed).1,
           (resolv_rnd16 env.now_ms s.resolv_query_id_seed).2) := by
      rw [run_resolution_query_id, hfree]
      rfl
    rw [hq]
  obtain ⟨S1, hS1⟩ : ∃ S1, S1 = resolv_send_query env
      { s with resolv_query_id_seed := (resolv_rnd16 env.now_ms s.resolv_query_id_seed).2 }
      { on_curr := false, before := [],
        res := { R with
                 query_id := (resolv_rnd16 env.now_ms s.resolv_query_id_seed).1,
                 qid_key := (resolv_rnd16 env.now_ms s.resolv_query_id_seed).1,
                 step := .RUNNING, query_type := R.prefered_query_type,
                 try_ := s.resolve_retries - 1, qid_linked := true },
        after := [] } := ⟨_, rfl⟩
  rw [← hS1] at hrun
  have ew2 : S1.wait = [] := by
    rw [hS1]
    exact (resolv_send_query_from_wait env _ _ rfl).2
  have hproc : process_resolvers env (f + 2) s
      = some (resolv_update_resolvers_timeout env S1) := by
    unfold process_resolvers
    have hc : process_curr_loop env (f + 2) s = some s := by
      rw [process_curr_loop, hcurr]
    rw [hc]
    dsimp only
    have hw : process_wait_loop env (f + 2) s 0 = some S1 := by
      rw [process_wait_loop, hwait]
      dsimp only [List.drop_zero]
      unfold process_wait_resolution
      dsimp only
      rw [if_neg hreq, if_neg hheld, hwait]
      dsimp only [List.take_zero, List.drop_succ_cons, List.drop_nil, List.drop_zero]
      rw [hrun]
      dsimp only
      rw [if_neg (by decide)]
      dsimp only
      rw [process_wait_loop, ew2]
      rfl
    rw [hw]
  refine ⟨_, hproc, ?_⟩
  unfold retry_running
  refine ⟨{ R with
            query_id := (resolv_rnd16 env.now_ms s.resolv_query_id_seed).1,
            qid_key := (resolv_rnd16 env.now_ms s.resolv_query_id_seed).1,
            step := .RUNNING, query_type := R.prefered_query_type,
            try_ := s.resolve_retries - 1, qid_linked := true,
            nb_queries := (send_query_loop env
              (resolv_build_query (resolv_rnd16 env.now_ms s.resolv_query_id_seed).1
                R.prefered_query_type s.accepted_payload_size (R.hostname_dn.getD [])
                R.hostname_dn_len env.trash_size) 0 s.nameservers).2.1,
            nb_responses := 0, last_query := env.now_ms },
    ?_, ?_, ?_, ?_, ?_, ?_, ?_, rfl, rfl, rfl, rfl, rfl, rfl, rfl, rfl, rfl, rfl⟩
  · rw [hS1]
    unfold resolv_update_resolvers_timeout resolv_send_query list_delete
    simp [hcurr]
  · exact ew2
  · rw [hS1]; rfl
  · rw [hS1]; rfl
  · rw [hS1]; rfl
  · rw [hS1]
    unfold resolv_update_resolvers_timeout resolv_send_query list_delete
    dsimp only
    exact send_query_loop_length env _ s.nameservers 0
  · rw [hS1]
    unfold resolv_update_resolvers_timeout
    dsimp only
    rw [resolv_send_query_events]

/-- A tick at a date at which the timer of the running resolution has expired,
when tries are left: the query is sent once more, with one try less. -/
theorem retry_running_retry (env : resolv_env) (f : Nat) (s : resolvers)
    (R : resolv_resolution) (q : Nat) (tries : Int) (last_query t : Nat)
    (events : List resolv_event) (sj : resolvers)
    (h : retry_running s R q tries last_query events sj) (hreq : R.requesters ≠ [])
    (htries : tries ≠ 0)
    (hexp : tick_is_expired (tick_add last_query s.timeout_retry) t = true) :
    ∃ sk, process_resolvers { env with now_ms := t } (f + 1) sj = some sk
      ∧ retry_running s R q (tries - 1) t
          (events
            ++ query_events
                (resolv_build_query q R.prefered_query_type s.accepted_payload_size
                  (R.hostname_dn.getD []) R.hostname_dn_len env.trash_size)
                s.nameservers.length) sk := by
  obtain ⟨Rj, hc, hw, c1, c2, c3, c4, c5, r1, r2, r3, r4, r5, r6, r7, r8, r9, r10⟩ := h
  have hp := process_resolvers_retry { env with now_ms := t } f sj Rj hc hw
    (by rw [r1]; exact hreq) (by rw [r10, c1]; exact hexp) (by rw [r8]; exact htries) r9
  obtain ⟨n, e1, e2, e3, e4⟩ := resolv_send_query_single { env with now_ms := t } sj
    { Rj with query_type := Rj.prefered_query_type, try_ := Rj.try_ - 1 }
  have cfg := resolv_send_query_config { env with now_ms := t } sj
    { on_curr := true, before := [],
      res := { Rj with query_type := Rj.prefered_query_type, try_ := Rj.try_ - 1 },
      after := [] }
  refine ⟨_, hp, ?_⟩
  unfold retry_running
  refine ⟨{ Rj with
            query_type := Rj.prefered_query_type, try_ := Rj.try_ - 1,
            nb_queries := n, nb_responses := 0, last_query := t },
    ?_, ?_, ?_, ?_, ?_, ?_, ?_, r1, r2, r3, r4, r4, r6, r7, ?_, rfl, rfl⟩
  · exact e1
  · exact e2.trans hw
  · exact cfg.1.trans c1
  · exact cfg.2.1.trans c2
  · exact cfg.2.2.2.1.trans c3
  · exact e3.trans c4
  · refine e4.trans ?_
    rw [c5, c3, c4]
    dsimp only
    rw [r6, r4, r2, r3]
  · show Rj.try_ - 1 = tries - 1
    rw [r8]

/-- A tick at a date at which the timer of the running resolution has expired,
when no try is left, `timeout.resolve` is not 0 and the date is not 0: the
resolution gets the status TIMEOUT, the error callbacks of its requesters are
called with it, and it is back on the wait list with the step NONE. -/
theorem retry_running_timeout (env : resolv_env) (f : Nat) (s : resolvers)
    (R : resolv_resolution) (q : Nat) (last_query t : Nat)
    (events : List resolv_event) (sj : resolvers)
    (h : retry_running s R q 0 last_query events sj) (hreq : R.requesters ≠ [])
    (hexp : tick_is_expired (tick_add last_query s.timeout_retry) t = true)
    (hres : 0 < s.timeout_resolve) (hnow : t ≠ 0) :
    ∃ sF RF, process_resolvers { env with now_ms := t } (f + 2) sj = some sF
      ∧ sF.curr = [] ∧ sF.wait = [RF]
      ∧ RF.status = .TIMEOUT ∧ RF.step = .NONE ∧ RF.qid_linked = false
      ∧ RF.requesters = R.requesters
      ∧ sF.events
        = events
          ++ R.requesters.map
              (fun req => resolv_event.requester_error_cb req (.status .TIMEOUT)) := by
  obtain ⟨Rj, hc, hw, c1, c2, c3, c4, c5, r1, r2, r3, r4, r5, r6, r7, r8, r9, r10⟩ := h
  have hp := process_resolvers_timeout { env with now_ms := t } f sj Rj hc hw
    (by rw [r1]; exact hreq) (by rw [r10, c1]; exact hexp) r8 r9 (by rw [c2]; exact hres) hnow
  refine ⟨_, _, hp, rfl, rfl, rfl, rfl, rfl, r1, ?_⟩
  show sj.events ++ _ = _
  rw [c5, r1]

/-- The ticks at dates at each of which the timer of the running resolution has
expired, as long as tries are left: each tick sends the query once more. -/
theorem retry_running_ticks (env : resolv_env) (f : Nat) (s : resolvers)
    (R : resolv_resolution) (q : Nat) (hreq : R.requesters ≠ []) :
    ∀ (ts : List Nat) (tries : Int) (last_query : Nat) (events : List resolv_event)
      (sj : resolvers),
      retry_running s R q tries last_query events sj →
      (ts.length : Int) ≤ tries → 0 ≤ tries →
      expired_dates s.timeout_retry last_query ts →
      ∃ sk, process_resolvers_at env (f + 1) ts sj = some sk
        ∧ retry_running s R q (tries - ts.length) (ts.getLastD last_query)
            (events
              ++ (List.replicate ts.length
                    (query_events
                      (resolv_build_query q R.prefered_query_type s.accepted_payload_size
                        (R.hostname_dn.getD []) R.hostname_dn_len env.trash_size)
                      s.nameservers.length)).flatten) sk := by
  intro ts
  induction ts with
  | nil =>
    intro tries last_query events sj h _ _ _
    refine ⟨sj, rfl, ?_⟩
    simpa using h
  | cons t ts ih =>
    intro tries last_query events sj h hlen hpos hexp
    obtain ⟨hexp1, hexp2⟩ := hexp
    have hl : ((t :: ts).length : Int) = (ts.length : Int) + 1 := by
      simp only [List.length_cons]; omega
    rw [hl] at hlen
    obtain ⟨s1, e1, h1⟩ := retry_running_retry env f s R q tries last_query t events sj h hreq
      (by omega) hexp1
    obtain ⟨sk, e2, h2⟩ := ih (tries - 1) t _ s1 h1 (by omega) (by omega) hexp2
    refine ⟨sk, ?_, ?_⟩
    · rw [process_resolvers_at, e1]
      exact e2
    · have e3 : tries - 1 - (ts.length : Int) = tries - ((t :: ts).length : Int) := by
        rw [hl]; omega
      have e4 : (t :: ts).getLastD last_query = ts.getLastD t := by
        cases ts <;> rfl
      rw [← e3, e4, List.length_cons, List.replicate_succ, List.flatten_cons,
        ← List.append_assoc]
      exact h2


/-- The ticks of a section whose only resolution `R` waits with a hostname and
at least one requester, is not held by `timeout.resolve` at the date `t0` and
never receives a response, `resolve_retries` being `N >= 1`, whatever
`timeout.retry` is. The tick of the date `t0` starts it (`resolv_run_resolution`
sends the query once),
and each later tick at a date at which `last_query + timeout.retry` has expired
sends it once more: after the ticks of `t0` and of the `k < N` dates `ts` the
query has been sent `k + 1` times, always with the same query id, and `N - 1 -
k` tries are left. When it has been sent `N` times, the next tick at which the
timer has expired gives it the status TIMEOUT, calls the error callback of
every requester once with that status, in the order of the list, and puts it
back on `resolutions.wait` with the step NONE, where it is when the tick ends
provided `timeout.resolve` is not 0 and the date is not 0. -/
theorem process_resolvers_retries_alone (env : resolv_env) (f : Nat) (s : resolvers)
    (R : resolv_resolution) (N t0 : Nat) (ts : List Nat)
    (hretries : s.resolve_retries = N)
    (hcurr : s.curr = []) (hwait : s.wait = [R])
    (hhost : R.hostname_dn ≠ none) (hstep : R.step = .NONE) (hlinked : R.qid_linked = false)
    (hreq : R.requesters ≠ [])
    (hheld : ¬ (tick_isset R.last_resolution = true
      ∧ ¬ tick_is_expired (tick_add R.last_resolution s.timeout_resolve) t0 = true))
    (hlen : ts.length < N)
    (hts : expired_dates s.timeout_retry t0 ts) :
    ∃ q sk Rk,
      process_resolvers_at env (f + 2) (t0 :: ts) s = some sk
      ∧ sk.curr = [Rk] ∧ sk.wait = []
      ∧ Rk.step = .RUNNING ∧ Rk.query_id = q ∧ Rk.try_ = (N : Int) - 1 - ts.length
      ∧ Rk.requesters = R.requesters
      ∧ sk.events
        = s.events
          ++ (List.replicate (ts.length + 1)
                (query_events
                  (resolv_build_query q R.prefered_query_type s.accepted_payload_size
                    (R.hostname_dn.getD []) R.hostname_dn_len env.trash_size)
                  s.nameservers.length)).flatten
      ∧ (ts.length + 1 = N → ∀ tf,
          tick_is_expired (tick_add (ts.getLastD t0) s.timeout_retry) tf = true →
          0 < s.timeout_resolve → tf ≠ 0 →
          ∃ sF RF, process_resolvers { env with now_ms := tf } (f + 2) sk = some sF
            ∧ sF.curr = [] ∧ sF.wait = [RF]
            ∧ RF.status = .TIMEOUT ∧ RF.step = .NONE ∧ RF.requesters = R.requesters
            ∧ sF.events
              = sk.events
                ++ R.requesters.map
                    (fun req => resolv_event.requester_error_cb req (.status .TIMEOUT))) := by
  obtain ⟨s1, e1, h1⟩ := process_resolvers_run { env with now_ms := t0 } f s R hcurr hwait
    hhost hstep hlinked hreq hheld
  obtain ⟨sk, e2, h2⟩ := retry_running_ticks env (f + 1) s R
    (resolv_rnd16 t0 s.resolv_query_id_seed).1 hreq ts (s.resolve_retries - 1) t0 _ s1 h1
    (by rw [hretries]; omega) (by rw [hretries]; omega) hts
  have hk := h2
  obtain ⟨Rk, hc, hw, c1, c2, c3, c4, c5, r1, r2, r3, r4, r5, r6, r7, r8, r9, r10⟩ := h2
  refine ⟨(resolv_rnd16 t0 s.resolv_query_id_seed).1, sk, Rk, ?_, hc, hw, r7, r6, ?_, r1, ?_, ?_⟩
  · rw [process_resolvers_at, e1]
    exact e2
  · rw [r8, hretries]
  · rw [c5, List.replicate_succ, List.flatten_cons, List.append_assoc]
  · intro hN tf hexp hres hnz
    have h0 : s.resolve_retries - 1 - (ts.length : Int) = 0 := by
      rw [hretries]; omega
    rw [h0] at hk
    obtain ⟨sF, RF, p1, p2, p3, p4, p5, _, p7, p8⟩ := retry_running_timeout env f s R
      (resolv_rnd16 t0 s.resolv_query_id_seed).1 (ts.getLastD t0) tf _ sk hk hreq hexp hres hnz
    refine ⟨sF, RF, p1, p2, p3, p4, p5, p7, ?_⟩
    rw [p8, c5]

/-! ## Theorems: retries of a resolution among others -/

/-- The response to the SRV question `_http._tcp.example` that carries the SRV
answer `10 5 80 backend.example` and the additional A record `backend.example`
10.0.0.1 is valid: the answer list holds one SRV item with that priority,
weight and port, the target `backend.example` in label form, `data_len` 16 (the
length of that label form, where the rdata has 23 bytes), and the additional
record, of type A with the address 10.0.0.1, attached. -/
theorem resolv_validate_dns_response_srv_sample :
    resolv_validate_dns_response
        (srv_glue_response http_tcp_example backend_example 10 5 80 [10, 0, 0, 1])
        empty_response 31 1000 0
      = (.VALID,
         { header := { id := 0x1234, qdcount := 1, ancount := 1, nscount := 0, arcount := 1 },
           query_list := [{ name := http_tcp_example, type := 33, class_ := 1 }],
           answer_list :=
             [{ pool_alloc_answer_item with
                type := DNS_RTYPE_SRV, class_ := 1, ttl := 300, priority := 10, weight := 5,
                port := 80, data_len := 16, name := http_tcp_example,
                target := backend_example, last_seen := 1000,
                ar_item := some
                  { pool_alloc_answer_item.toresolv_answer_record with
                    type := DNS_RTYPE_A, class_ := 1, ttl := 60, data_len := 4,
                    family := AF_INET, address := [10, 0, 0, 1], name := backend_example,
                    last_seen := 1000 } }] }) := by
  decide

/-- C21, failing input: the same response for the target `bé.example`, whose
first label holds the bytes `c3 a9`. The target is decoded (12 bytes), but the
offset reported for it is 4 where the name takes 13 bytes of the message,
because the byte-wise walk after `out:` takes the label byte `c3` for a
compression pointer. The additional record is then parsed from inside the
target, and the response is rejected with `RSLV_RESP_INVALID`; the SRV item is
stored without additional record. -/
theorem resolv_validate_dns_response_srv_high_byte_target :
    resolv_read_name (srv_glue_response http_tcp_example be_example 10 5 80 [10, 0, 0, 1]) 54
        DNS_MAX_NAME_SIZE 0 = .ret 12 be_example (some 4) 0
    ∧ (resolv_validate_dns_response
        (srv_glue_response http_tcp_example be_example 10 5 80 [10, 0, 0, 1])
        empty_response 31 1000 0).1 = .INVALID
    ∧ (resolv_validate_dns_response
        (srv_glue_response http_tcp_example be_example 10 5 80 [10, 0, 0, 1])
        empty_response 31 1000 0).2.answer_list
      = [{ pool_alloc_answer_item with
           type := DNS_RTYPE_SRV, class_ := 1, ttl := 300, priority := 10, weight := 5,
           port := 80, data_len := 12, name := http_tcp_example, target := be_example,
           last_seen := 1000, ar_item := none }] := by
  refine ⟨?_, ?_, ?_⟩ <;> decide

/-! ## Theorems: the sweep of `resolv_check_response` -/

/-- The sweep written as a filter followed by a map: the items that are not
obsolete are kept, in order, and a kept item loses its additional record when
that record is obsolete. -/
theorem resolv_check_response_filter_map (now hold_obsolete : Nat)
    (answer_list : List resolv_answer_item) :
    resolv_check_response now hold_obsolete answer_list
      = (answer_list.filter
          (fun item => !tick_is_lt (tick_add item.last_seen hold_obsolete) now)).map
          (fun item =>
            match item.ar_item with
            | some ar_item =>
              if tick_is_lt (tick_add ar_item.last_seen hold_obsolete) now then
                { item with ar_item := none }
              else item
            | none => item) := by
  induction answer_list with
  | nil => rfl
  | cons item l ih =>
    have ih2 := ih
    unfold resolv_check_response at ih2 ⊢
    rw [List.filterMap_cons, List.filter_cons]
    cases har : item.ar_item with
    | none =>
      by_cases h : tick_is_lt (tick_add item.last_seen hold_obsolete) now = true
      · simp only [har, h, ↓reduceIte, Bool.not_true, Bool.false_eq_true]
        exact ih2
      · simp only [Bool.not_eq_true] at h
        simp only [har, h, ↓reduceIte, Bool.not_false, Bool.false_eq_true, List.map_cons]
        rw [ih2]
    | some ar =>
      by_cases h : tick_is_lt (tick_add item.last_seen hold_obsolete) now = true
      · by_cases h2 : tick_is_lt (tick_add ar.last_seen hold_obsolete) now = true
        · simp only [har, h, h2, ↓reduceIte, Bool.not_true, Bool.false_eq_true]
          exact ih2
        · simp only [har, h, h2, ↓reduceIte, Bool.not_true, Bool.false_eq_true]
          exact ih2
      · simp only [Bool.not_eq_true] at h
        by_cases h2 : tick_is_lt (tick_add ar.last_seen hold_obsolete) now = true
        · simp only [har, h, h2, ↓reduceIte, Bool.not_false, Bool.false_eq_true, List.map_cons]
          rw [ih2]
        · simp only [har, h, h2, ↓reduceIte, Bool.not_false, Bool.false_eq_true, List.map_cons]
          rw [ih2]

/-- C22, counterexample: with `hold.obsolete` = 0 and the date 10000, an item
of type A last seen at 4000 is removed, and an SRV item seen at 10000 loses
its additional record last seen at 4000. -/
theorem resolv_check_response_hold_zero_counterexample :
    resolv_check_response 10000 0 [a_item [1, 2, 3, 4] 4000] = []
    ∧ resolv_check_response 10000 0
        [srv_item 10 5 80 [1, 98] 10000 (some (a_item [10, 0, 0, 1] 4000).toresolv_answer_record)]
      = [srv_item 10 5 80 [1, 98] 10000 none] := by
  decide

/-- C22, as amended: with `hold.obsolete` = 0 the sweep still runs.
`resolv_check_response` removes exactly the items whose `last_seen` is before
`now` and keeps the others in their order; a kept item loses its `ar_item`
exactly when the `last_seen` of that `ar_item` is before `now`. -/
theorem resolv_check_response_hold_zero (now : Nat) (answer_list : List resolv_answer_item) :
    resolv_check_response now 0 answer_list
      = (answer_list.filter (fun item => decide (now ≤ item.last_seen))).map
          (fun item =>
            match item.ar_item with
            | some ar_item =>
              if ar_item.last_seen < now then { item with ar_item := none } else item
            | none => item) := by
  rw [resolv_check_response_filter_map]
  have e1 : (fun item : resolv_answer_item => !tick_is_lt (tick_add item.last_seen 0) now)
      = (fun item => decide (now ≤ item.last_seen)) := by
    funext item
    simp only [tick_is_lt, tick_add, Nat.add_zero]
    by_cases h : item.last_seen < now
    · simp [h]
    · simp [h]
      omega
  rw [e1]
  congr 1
  funext item
  cases har : item.ar_item with
  | none => rfl
  | some ar => simp only [tick_is_lt, tick_add, Nat.add_zero, decide_eq_true_eq]

/-- C23: when `hold.obsolete` > 0, `resolv_check_response` removes from the
answer list exactly the items whose `last_seen + hold.obsolete` is before `now`
(tick comparison) and keeps every other item, in the original order; a kept
item is unchanged but for its `ar_item`, which is dropped when it is obsolete
itself. -/
theorem resolv_check_response_obsolete (now hold_obsolete : Nat)
    (answer_list : List resolv_answer_item) (hold : 0 < hold_obsolete) :
    resolv_check_response now hold_obsolete answer_list
      = (answer_list.filter
          (fun item => !tick_is_lt (tick_add item.last_seen hold_obsolete) now)).map
          (fun item =>
            match item.ar_item with
            | some ar_item =>
              if tick_is_lt (tick_add ar_item.last_seen hold_obsolete) now then
                { item with ar_item := none }
              else item
            | none => item)
    ∧ (resolv_check_response now hold_obsolete answer_list).map
          (fun item => item.toresolv_answer_record)
      = (answer_list.filter
          (fun item => !tick_is_lt (tick_add item.last_seen hold_obsolete) now)).map
          (fun item => item.toresolv_answer_record) := by
  have _ := hold
  refine ⟨resolv_check_response_filter_map now hold_obsolete answer_list, ?_⟩
  rw [resolv_check_response_filter_map, List.map_map]
  congr 1
  funext item
  simp only [Function.comp]
  cases har : item.ar_item with
  | none => rfl
  | some ar =>
    by_cases h2 : tick_is_lt (tick_add ar.last_seen hold_obsolete) now = true
    · simp only [h2, ↓reduceIte]
    · simp only [h2, ↓reduceIte, Bool.false_eq_true]

/-- Witness for C23: with `hold.obsolete` = 5000 at the date 10000, the item
seen 6000 ms ago is removed and the item seen 4000 ms ago is kept. -/
theorem resolv_check_response_obsolete_witness :
    0 < 5000
    ∧ resolv_check_response 10000 5000 [a_item [1, 2, 3, 4] 4000, a_item [5, 6, 7, 8] 6000]
      = [a_item [5, 6, 7, 8] 6000] :=
  ⟨by decide,
   (resolv_check_response_obsolete 10000 5000
      [a_item [1, 2, 3, 4] 4000, a_item [5, 6, 7, 8] 6000] (by decide)).1.trans (by decide)⟩

/-! ## Theorems: the weight of a server -/

/-- C24: for every DNS SRV weight `w` in 0..65535 the weight handed to the
server by `resolv_check_response` is `(w + 255) / 256`, which is the ceiling of
`w / 256` (the least `k` with `w <= 256 * k`): it lies in 0..256, is 0 exactly
when `w` = 0, is at least 1 for every non-zero `w`, and is monotone in `w`. -/
theorem ha_weight_ceil (w : Nat) (hw : w ≤ 65535) :
    ha_weight w = (w + 255) / 256
    ∧ ha_weight w = ⌈(w : ℚ) / 256⌉₊
    ∧ (w ≤ 256 * ha_weight w ∧ ∀ k, w ≤ 256 * k → ha_weight w ≤ k)
    ∧ ha_weight w ≤ 256
    ∧ (ha_weight w = 0 ↔ w = 0)
    ∧ (w ≠ 0 → 1 ≤ ha_weight w)
    ∧ (∀ w2, w ≤ w2 → ha_weight w ≤ ha_weight w2) := by
  unfold ha_weight
  refine ⟨rfl, ?_, ⟨by omega, fun k hk => by omega⟩, by omega, by omega, fun h => by omega,
    fun w2 h => by omega⟩
  symm
  apply le_antisymm
  · rw [Nat.ceil_le, div_le_iff₀ (by norm_num)]
    have h : w ≤ (w + 255) / 256 * 256 := by omega
    exact_mod_cast h
  · have hc := Nat.le_ceil ((w : ℚ) / 256)
    rw [div_le_iff₀ (by norm_num)] at hc
    have h : w ≤ ⌈(w : ℚ) / 256⌉₊ * 256 := by exact_mod_cast hc
    generalize ⌈(w : ℚ) / 256⌉₊ = c at h
    omega

/-- Witness for C24: the weights 0, 1, 256, 257 and 65535. -/
theorem ha_weight_ceil_witness :
    (1 : Nat) ≤ 65535 ∧ ha_weight 0 = 0 ∧ ha_weight 1 = 1 ∧ ha_weight 256 = 1
    ∧ ha_weight 257 = 2 ∧ ha_weight 65535 = 256 :=
  ⟨by decide, by decide, (ha_weight_ceil 1 (by decide)).1.trans (by decide), by decide,
   by decide, by decide⟩

/-! ## Theorems: the calls made for the servers call no callback -/

/-- Storing a resolution in place adds no event. -/
theorem store_resolution_events (s : resolvers) (r : res_ptr) (res : resolv_resolution) :
    (store_resolution s r res).events = s.events := by
  unfold store_resolution
  split <;> rfl

/-- Removing a resolution from its list adds no event. -/
theorem list_delete_events (s : resolvers) (r : res_ptr) :
    (list_delete s r).events = s.events := by
  unfold list_delete
  split <;> rfl

/-- A call of `resolv_link_resolution` adds no event. -/
theorem resolv_link_resolution_events (env : resolv_env) (s : resolvers) (requester : Nat)
    (requester_type : OBJ_TYPE) :
    (resolv_link_resolution env s requester requester_type).2.events = s.events := by
  unfold resolv_link_resolution
  split
  · rfl
  · dsimp only
    rw [store_resolution_events]
    unfold resolv_pick_resolution
    dsimp only
    split <;> rfl

/-- A call of `resolv_unlink_resolution` adds no event. -/
theorem resolv_unlink_resolution_events (env : resolv_env) (s : resolvers)
    (requester : resolv_requester) (safe : Int) :
    (resolv_unlink_resolution env s requester safe).events = s.events := by
  unfold resolv_unlink_resolution
  split
  · rfl
  · dsimp only
    split
    · split
      · exact store_resolution_events _ _ _
      · exact list_delete_events _ _
    · exact store_resolution_events _ _ _

/-- The calls that `resolv_check_response` makes add no event. -/
theorem resolv_apply_calls_events (env : resolv_env) :
    ∀ (calls : List resolv_call) (s : resolvers),
      (resolv_apply_calls env calls s).events = s.events
  | [], s => rfl
  | .link requester requester_type :: calls, s => by
    rw [resolv_apply_calls, resolv_apply_calls_events env calls,
      resolv_link_resolution_events]
  | .unlink requester safe :: calls, s => by
    rw [resolv_apply_calls, resolv_apply_calls_events env calls,
      resolv_unlink_resolution_events]

/-! ## Theorems: the outcome of a valid response -/

/-- When the first bytes of the name of the question differ from the hostname
of the resolution, a valid response ends at the label `report_res_error` with
the code `RSLV_RESP_WRONG_NAME`. -/
theorem process_response_valid_wrong_name (env : resolv_env) (ns : Nat) (s : resolvers)
    (r : res_ptr) (query : resolv_query_item)
    (hq : r.res.response.query_list.head? = some query)
    (hcmp : resolv_hostname_cmp query.name (r.res.hostname_dn.getD []) r.res.hostname_dn_len
      ≠ 0) :
    process_response_valid env ns s r
      = report_res_error env (ns_counters (fun c => { c with other := c.other + 1 }) ns s) r
          .WRONG_NAME := by
  have hw : (match r.res.response.query_list with
      | [] => false
      | query :: _ =>
        resolv_hostname_cmp query.name (r.res.hostname_dn.getD []) r.res.hostname_dn_len != 0)
      = true := by
    cases hl : r.res.response.query_list with
    | nil =>
      rw [hl] at hq
      exact absurd hq (by simp)
    | cons q qs =>
      rw [hl] at hq
      simp only [List.head?_cons, Option.some.injEq] at hq
      subst hq
      simp only [bne_iff_ne, ne_eq, hcmp, not_false_eq_true]
  unfold process_response_valid
  simp only [hw, ↓reduceIte]

/-- When the first bytes of the name of the question are those of the hostname
of the resolution, a valid response ends at the label `report_res_success`:
the resolution is VALID, the success callbacks are called in the order of the
requesters, and the resolution, reset, goes to the end of the wait list. -/
theorem process_response_valid_success (env : resolv_env) (ns : Nat) (s : resolvers)
    (r : res_ptr)
    (hname : ∀ query, r.res.response.query_list.head? = some query →
      resolv_hostname_cmp query.name (r.res.hostname_dn.getD []) r.res.hostname_dn_len = 0) :
    ∃ flags : List Bool,
      flags.length = r.res.requesters.length
      ∧ process_response_valid env ns s r
        = { list_delete (ns_counters (fun c => { c with valid := c.valid + 1 }) ns s) r with
            events := s.events
              ++ List.zipWith (fun req first => resolv_event.requester_cb req first)
                  r.res.requesters flags,
            wait := (list_delete
                (ns_counters (fun c => { c with valid := c.valid + 1 }) ns s) r).wait
              ++ [resolv_reset_resolution env
                    { r.res with status := .VALID, last_valid := env.now_ms }] } := by
  have hw : (match r.res.response.query_list with
      | [] => false
      | query :: _ =>
        resolv_hostname_cmp query.name (r.res.hostname_dn.getD []) r.res.hostname_dn_len != 0)
      = false := by
    cases hl : r.res.response.query_list with
    | nil => rfl
    | cons q qs =>
      have := hname q (by rw [hl]; rfl)
      simp only [this, bne_self_eq_false]
  obtain ⟨_, _, ee⟩ := ns_counters_lists (fun c => { c with valid := c.valid + 1 }) ns s
  have hev : (list_delete (ns_counters (fun c => { c with valid := c.valid + 1 }) ns s) r).events
      = s.events := by
    unfold list_delete
    split <;> exact ee
  unfold process_response_valid
  simp only [hw, Bool.false_eq_true, ↓reduceIte]
  cases hreq : r.res.requesters with
  | nil =>
    refine ⟨[], rfl, ?_⟩
    simp only [resolv_reset_resolution, hreq, hev, List.zipWith_nil_right]
  | cons req reqs =>
    refine ⟨true :: reqs.map (fun _ => false), by simp, ?_⟩
    simp only [resolv_reset_resolution, hreq, hev, List.zipWith_cons_cons]
    congr 3
    clear hreq
    induction reqs with
    | nil => rfl
    | cons q qs ih => simp only [List.map_cons, List.zipWith_cons_cons, ih]

/-- C26: in `resolv_process_responses`, when a response validates as
`RSLV_RESP_VALID` and the name of its question matches `hostname_dn`, the
resolution gets the status VALID and `last_valid = now`, the success callback
of every requester is called exactly once, in the order of the list of
requesters, and no error callback is called; afterwards the resolution has the
step NONE, its query id is out of `query_ids`, it has left `resolutions.curr`
and it is the last element of `resolutions.wait`. `S1` is the section once the
response is stored and `resolv_check_response` has made its calls, and `r2`
the resolution found again in it by its query id; the events of the pass are
those callbacks only. -/
theorem process_response_success (env : resolv_env) (header_size min_record_size ns : Nat)
    (buf : List Nat) (calls : List resolv_call) (s S1 : resolvers) (r r2 : res_ptr)
    (hinv : resolvers_invariant s)
    (hbig : buf.length ≤ s.accepted_payload_size) (hlen : 2 ≤ buf.length)
    (hlook : eb32_lookup s (buf.getD 0 0 * 256 + buf.getD 1 0) = some r)
    (hresp : (resolv_validate_dns_response buf r.res.response
        (Int.tdiv ((s.accepted_payload_size : Int) - header_size) min_record_size)
        env.now_ms s.hold_obsolete).1 = .VALID)
    (hS1 : S1 = resolv_apply_calls env calls
      (store_resolution s r
        { r.res with
          nb_responses := r.res.nb_responses + 1,
          response := (resolv_validate_dns_response buf r.res.response
            (Int.tdiv ((s.accepted_payload_size : Int) - header_size) min_record_size)
            env.now_ms s.hold_obsolete).2 }))
    (hlook2 : eb32_lookup S1 (buf.getD 0 0 * 256 + buf.getD 1 0) = some r2)
    (hname : ∀ query, r2.res.response.query_list.head? = some query →
      resolv_hostname_cmp query.name (r2.res.hostname_dn.getD []) r2.res.hostname_dn_len = 0) :
    ∃ (res2 : resolv_resolution) (flags : List Bool),
      S1.curr = r2.before ++ r2.res :: r2.after
      ∧ (process_response env header_size min_record_size ns buf calls s).curr
        = r2.before ++ r2.after
      ∧ (process_response env header_size min_record_size ns buf calls s).wait
        = S1.wait ++ [res2]
      ∧ res2.status = .VALID
      ∧ res2.last_valid = env.now_ms
      ∧ res2.step = .NONE
      ∧ res2.qid_linked = false
      ∧ res2.uuid = r2.res.uuid
      ∧ res2.hostname_dn = r2.res.hostname_dn
      ∧ res2.requesters = r2.res.requesters
      ∧ res2.response = r2.res.response
      ∧ flags.length = r2.res.requesters.length
      ∧ (process_response env header_size min_record_size ns buf calls s).events
        = s.events
          ++ List.zipWith (fun req first => resolv_event.requester_cb req first)
              r2.res.requesters flags := by
  have h := (resolvers_invariant_iff s).mp hinv
  have hev : S1.events = s.events := by
    rw [hS1, resolv_apply_calls_events, store_resolution_events]
  obtain ⟨hv, hl, _⟩ := eb32_lookup_some s _ r hlook
  obtain ⟨hon, hstep⟩ := linked_ptr_on_curr s r hv h hl
  have h1 : lists_ok S1.curr S1.wait := by
    rw [hS1]
    exact resolv_apply_calls_ok env calls _
      (store_running_ok s r r _ hv h ⟨rfl, rfl, rfl⟩ hon hstep hl)
  obtain ⟨hv2, hl2, _⟩ := eb32_lookup_some S1 _ r2 hlook2
  obtain ⟨hon2, _⟩ := linked_ptr_on_curr S1 r2 hv2 h1 hl2
  have e : process_response env header_size min_record_size ns buf calls s
      = process_response_valid env ns S1 r2 := by
    unfold process_response
    dsimp only
    rw [if_neg (by omega), if_neg (by omega), hlook]
    dsimp only
    rw [if_neg (by rw [hresp]; simp), ← hS1, hlook2]
  obtain ⟨flags, hfl, hpv⟩ := process_response_valid_success env ns S1 r2 hname
  obtain ⟨ec, ew, _⟩ := ns_counters_lists (fun c => { c with valid := c.valid + 1 }) ns S1
  have hd : (list_delete (ns_counters (fun c => { c with valid := c.valid + 1 }) ns S1) r2).curr
        = r2.before ++ r2.after
      ∧ (list_delete (ns_counters (fun c => { c with valid := c.valid + 1 }) ns S1) r2).wait
        = S1.wait := by
    unfold list_delete
    simp only [hon2, ↓reduceIte]
    exact ⟨trivial, ew⟩
  have hcurr : S1.curr = r2.before ++ r2.res :: r2.after := by
    unfold res_ptr_valid at hv2
    simp only [hon2, ↓reduceIte] at hv2
    exact hv2
  rw [e, hpv]
  refine ⟨resolv_reset_resolution env { r2.res with status := .VALID, last_valid := env.now_ms },
    flags, hcurr, hd.1, ?_, rfl, rfl, rfl, rfl, rfl, rfl, rfl, rfl, hfl, ?_⟩
  · dsimp only
    rw [hd.2]
  · dsimp only
    rw [hev]

/-- Witness for C26: the response to the A query of the running resolution of
the sample section, for `www.ab`, with the address 1.2.3.4. -/
theorem process_response_success_witness :
    resolvers_invariant sample_section_running
    ∧ eb32_lookup sample_section_running
        ((a_response_id 63983 www_ab [0xc0, 12] [1, 2, 3, 4]).getD 0 0 * 256
          + (a_response_id 63983 www_ab [0xc0, 12] [1, 2, 3, 4]).getD 1 0)
      = some { on_curr := true, before := [], res := sample_resolution, after := [] }
    ∧ (resolv_validate_dns_response (a_response_id 63983 www_ab [0xc0, 12] [1, 2, 3, 4])
        sample_resolution.response 45 1200 0).1 = .VALID
    ∧ ∃ (res2 : resolv_resolution),
        (process_response (sample_env 1200) 12 11 0
          (a_response_id 63983 www_ab [0xc0, 12] [1, 2, 3, 4]) [] sample_section_running).curr
          = []
        ∧ (process_response (sample_env 1200) 12 11 0
          (a_response_id 63983 www_ab [0xc0, 12] [1, 2, 3, 4]) [] sample_section_running).wait
          = [res2]
        ∧ res2.status = .VALID ∧ res2.last_valid = 1200 ∧ res2.step = .NONE :=
  ⟨by decide, by decide, by decide,
   (process_response_success (sample_env 1200) 12 11 0
      (a_response_id 63983 www_ab [0xc0, 12] [1, 2, 3, 4]) [] sample_section_running
      (store_resolution sample_section_running
        { on_curr := true, before := [], res := sample_resolution, after := [] }
        { sample_resolution with
          nb_responses := sample_resolution.nb_responses + 1,
          response := (resolv_validate_dns_response
            (a_response_id 63983 www_ab [0xc0, 12] [1, 2, 3, 4])
            sample_resolution.response 45 1200 0).2 })
      { on_curr := true, before := [], res := sample_resolution, after := [] }
      { on_curr := true, before := [],
        res := { sample_resolution with
          nb_responses := sample_resolution.nb_responses + 1,
          response := (resolv_validate_dns_response
            (a_response_id 63983 www_ab [0xc0, 12] [1, 2, 3, 4])
            sample_resolution.response 45 1200 0).2 },
        after := [] }
      (by decide) (by decide) (by decide) (by decide) (by decide) rfl (by decide)
      (by decide)).imp
     (fun _ h => h.elim (fun _ h => ⟨h.2.1, h.2.2.1, h.2.2.2.1, h.2.2.2.2.1, h.2.2.2.2.2.1⟩))⟩

/-- C25, at the failing input: the running resolution of the sample section is
for `www.ab`; the response with its query id echoes the question `www.ab.x`
and gives the address 1.2.3.4 for that name. The response is valid, the name
of its question is not the hostname of the resolution (9 bytes against 7), and
yet the success callback of the requester is called, not its error callback:
only the first `hostname_dn_len` bytes of the name are compared. -/
theorem process_response_name_extension :
    ((resolv_validate_dns_response (a_response_id 63983 www_ab_x [0xc0, 12] [1, 2, 3, 4])
        sample_resolution.response 45 1200 0).1 = .VALID
      ∧ (resolv_validate_dns_response (a_response_id 63983 www_ab_x [0xc0, 12] [1, 2, 3, 4])
          sample_resolution.response 45 1200 0).2.query_list.map (fun query => query.name)
        = [www_ab_x]
      ∧ sample_resolution.hostname_dn = some www_ab
      ∧ sample_resolution.hostname_dn_len = 7
      ∧ sample_resolution.requesters = [server_requester 1])
    ∧ (process_response (sample_env 1200) 12 11 0
        (a_response_id 63983 www_ab_x [0xc0, 12] [1, 2, 3, 4]) [] sample_section_running).events
      = sample_section_running.events ++ [.requester_cb (server_requester 1) true] := by
  decide

/-! ## Theorems: `resolv_get_ip_from_response` -/

/-- The loop over the preferred networks adds 4 exactly when a network of the
family of the address holds the address. -/
theorem get_ip_pref_net_eq (env : get_ip_env) (ip : List Nat) (ip_type : Nat)
    (nets : List resolv_pref_net) :
    get_ip_pref_net env ip ip_type nets
      = if nets.any (fun net => decide (net.family = (ip_type : Int))
            && ((decide (ip_type = AF_INET) && env.in_net_ipv4 ip net.mask net.addr)
              || (decide (ip_type = AF_INET6) && env.in_net_ipv6 ip net.mask net.addr)))
        then 4 else 0 := by
  induction nets with
  | nil => rfl
  | cons net nets ih =>
    rw [get_ip_pref_net, List.any_cons]
    by_cases h1 : net.family = (ip_type : Int)
    · by_cases h2 : (ip_type = AF_INET ∧ env.in_net_ipv4 ip net.mask net.addr = true)
          ∨ (ip_type = AF_INET6 ∧ env.in_net_ipv6 ip net.mask net.addr = true)
      · have h3 : ((decide (ip_type = AF_INET) && env.in_net_ipv4 ip net.mask net.addr)
              || (decide (ip_type = AF_INET6) && env.in_net_ipv6 ip net.mask net.addr)) = true := by
          simpa using h2
        simp only [h1, ne_eq, not_true_eq_false, ↓reduceIte, h2, decide_True, h3, Bool.and_self,
          Bool.true_or]
      · have h3 : ((decide (ip_type = AF_INET) && env.in_net_ipv4 ip net.mask net.addr)
              || (decide (ip_type = AF_INET6) && env.in_net_ipv6 ip net.mask net.addr)) = false := by
          rw [← Bool.not_eq_true]
          simpa using h2
        simp only [h1, ne_eq, not_true_eq_false, ↓reduceIte, h2, decide_True, h3, Bool.and_false,
          Bool.false_or, ih]
    · simp only [ne_eq, h1, not_false_eq_true, ↓reduceIte, decide_False, Bool.false_and,
        Bool.false_or, ih]

/-- The value added by the loop over the preferred networks is 0 or 4. -/
theorem get_ip_pref_net_range (env : get_ip_env) (ip : List Nat) (ip_type : Nat)
    (nets : List resolv_pref_net) :
    get_ip_pref_net env ip ip_type nets = 0 ∨ get_ip_pref_net env ip ip_type nets = 4 := by
  rw [get_ip_pref_net_eq]
  split
  · exact Or.inr rfl
  · exact Or.inl rfl

/-- What the scoring gives for an address that is scored: the address is not
skipped by the duplicate check, and the score is the sum of the four bonuses. -/
theorem get_ip_score_of_some (env : get_ip_env) (resolv_opts : resolv_options)
    (currentip : List Nat) (currentip_sin_family : Int) (owner : Option Nat)
    (ip : List Nat) (ip_type : Nat) (sc : get_ip_scored)
    (h : get_ip_score_of env resolv_opts currentip currentip_sin_family owner ip ip_type
      = some sc) :
    sc.ip = ip ∧ sc.ip_type = ip_type
    ∧ sc.currentip_sel = get_ip_current ip ip_type currentip currentip_sin_family
    ∧ (get_ip_duplicate env owner ip ip_type = true → resolv_opts.accept_duplicate_ip = true)
    ∧ sc.score
      = (if (ip_type : Int) = resolv_opts.family_prio then 8 else 0)
        + get_ip_pref_net env ip ip_type resolv_opts.pref_net
        + (if get_ip_duplicate env owner ip ip_type = true then 0 else 2)
        + (if get_ip_current ip ip_type currentip currentip_sin_family = true then 1 else 0) := by
  unfold get_ip_score_of at h
  generalize get_ip_duplicate env owner ip ip_type = dup at h ⊢
  generalize get_ip_pref_net env ip ip_type resolv_opts.pref_net = pn at h ⊢
  generalize get_ip_current ip ip_type currentip currentip_sin_family = cur at h ⊢
  by_cases h1 : dup = true ∧ resolv_opts.accept_duplicate_ip = false
  · simp only [h1, and_self, ↓reduceIte] at h
    exact absurd h (by simp)
  · simp only [h1, ↓reduceIte] at h
    have hacc : dup = true → resolv_opts.accept_duplicate_ip = true := by
      intro hdup
      cases hacc : resolv_opts.accept_duplicate_ip with
      | true => rfl
      | false => exact absurd ⟨hdup, hacc⟩ h1
    cases cur with
    | true =>
      simp only [↓reduceIte, Option.some.injEq] at h
      subst h
      refine ⟨rfl, rfl, rfl, hacc, ?_⟩
      cases dup <;> simp
    | false =>
      simp only [Bool.false_eq_true, ↓reduceIte, Option.some.injEq] at h
      subst h
      refine ⟨rfl, rfl, rfl, hacc, ?_⟩
      cases dup <;> simp

/-- A record is scored when it is of type A or AAAA and the duplicate check
does not skip it; the family is then that of the type and the address that of
the record. -/
theorem get_ip_score_some (env : get_ip_env) (resolv_opts : resolv_options)
    (currentip : List Nat) (currentip_sin_family : Int) (owner : Option Nat)
    (record : resolv_answer_item) (sc : get_ip_scored)
    (h : get_ip_score env resolv_opts currentip currentip_sin_family owner record = some sc) :
    ((record.type = DNS_RTYPE_A ∧ sc.ip_type = AF_INET)
      ∨ (record.type = DNS_RTYPE_AAAA ∧ sc.ip_type = AF_INET6))
    ∧ sc.ip = record.address
    ∧ get_ip_score_of env resolv_opts currentip currentip_sin_family owner sc.ip sc.ip_type
      = some sc := by
  unfold get_ip_score at h
  by_cases hA : record.type = DNS_RTYPE_A
  · rw [if_pos hA] at h
    obtain ⟨h1, h2, _⟩ := get_ip_score_of_some _ _ _ _ _ _ _ _ h
    rw [h1, h2]
    exact ⟨Or.inl ⟨hA, rfl⟩, rfl, h⟩
  · rw [if_neg hA] at h
    by_cases h6 : record.type = DNS_RTYPE_AAAA
    · rw [if_pos h6] at h
      obtain ⟨h1, h2, _⟩ := get_ip_score_of_some _ _ _ _ _ _ _ _ h
      rw [h1, h2]
      exact ⟨Or.inr ⟨h6, rfl⟩, rfl, h⟩
    · rw [if_neg h6] at h
      exact absurd h (by simp)

/-- The score of a scored record lies in 0..15; it is at least 8 when the
family is the preferred one and at most 7 otherwise. -/
theorem get_ip_score_of_range (env : get_ip_env) (resolv_opts : resolv_options)
    (currentip : List Nat) (currentip_sin_family : Int) (owner : Option Nat)
    (ip : List Nat) (ip_type : Nat) (sc : get_ip_scored)
    (h : get_ip_score_of env resolv_opts currentip currentip_sin_family owner ip ip_type
      = some sc) :
    0 ≤ sc.score ∧ sc.score ≤ 15
    ∧ ((ip_type : Int) = resolv_opts.family_prio → 8 ≤ sc.score)
    ∧ ((ip_type : Int) ≠ resolv_opts.family_prio → sc.score ≤ 7)
    ∧ (sc.score = 15 → get_ip_current ip ip_type currentip currentip_sin_family = true) := by
  obtain ⟨_, _, _, _, hs⟩ := get_ip_score_of_some _ _ _ _ _ _ _ _ h
  rw [hs]
  rcases get_ip_pref_net_range env ip ip_type resolv_opts.pref_net with hp | hp
  all_goals
    rw [hp]
    refine ⟨?_, ?_, ?_, ?_, ?_⟩
    all_goals
      intros
      split_ifs at * <;> first | omega | assumption

/-- The locals after the body of the loop, when the body does not return: the
record is not scored, or its score is not greater than `max_score`, or its
address and its score are kept. -/
theorem get_ip_record_ok (env : get_ip_env) (resolv_opts : resolv_options)
    (currentip : List Nat) (currentip_sin_family : Int) (owner : Option Nat)
    (l l2 : get_ip_locals) (record : resolv_answer_item)
    (h : get_ip_record env resolv_opts currentip currentip_sin_family owner l record = .ok l2) :
    (get_ip_score env resolv_opts currentip currentip_sin_family owner record = none ∧ l2 = l)
    ∨ (∃ sc, get_ip_score env resolv_opts currentip currentip_sin_family owner record = some sc
        ∧ sc.score ≤ l.max_score ∧ l2 = l)
    ∨ (∃ sc, get_ip_score env resolv_opts currentip currentip_sin_family owner record = some sc
        ∧ l.max_score < sc.score ∧ sc.score ≠ 15
        ∧ l2 = { newip4 := if sc.ip_type = AF_INET then some sc.ip else l.newip4,
                 newip6 := if sc.ip_type = AF_INET then l.newip6 else some sc.ip,
                 currentip_found := sc.currentip_sel, max_score := sc.score }) := by
  unfold get_ip_record at h
  cases hs : get_ip_score env resolv_opts currentip currentip_sin_family owner record with
  | none =>
    rw [hs] at h
    simp only [Except.ok.injEq] at h
    exact Or.inl ⟨rfl, h.symm⟩
  | some sc =>
    rw [hs] at h
    simp only at h
    by_cases h1 : sc.score > l.max_score
    · rw [if_pos h1] at h
      by_cases h2 : sc.score = 15
      · rw [if_pos h2] at h
        exact absurd h (by simp)
      · rw [if_neg h2] at h
        simp only [Except.ok.injEq] at h
        exact Or.inr (Or.inr ⟨sc, rfl, h1, h2, h.symm⟩)
    · rw [if_neg h1] at h
      simp only [Except.ok.injEq] at h
      exact Or.inr (Or.inl ⟨sc, rfl, by omega, h.symm⟩)

/-- The body of the loop returns only `RSLV_UPD_NO`, and only for a record
whose score is 15. -/
theorem get_ip_record_error (env : get_ip_env) (resolv_opts : resolv_options)
    (currentip : List Nat) (currentip_sin_family : Int) (owner : Option Nat)
    (l : get_ip_locals) (record : resolv_answer_item) (code : RSLV_UPD)
    (h : get_ip_record env resolv_opts currentip currentip_sin_family owner l record
      = .error code) :
    code = .NO
    ∧ ∃ sc, get_ip_score env resolv_opts currentip currentip_sin_family owner record = some sc
        ∧ sc.score = 15 := by
  unfold get_ip_record at h
  cases hs : get_ip_score env resolv_opts currentip currentip_sin_family owner record with
  | none =>
    rw [hs] at h
    exact absurd h (by simp)
  | some sc =>
    rw [hs] at h
    simp only at h
    by_cases h1 : sc.score > l.max_score
    · rw [if_pos h1] at h
      by_cases h2 : sc.score = 15
      · rw [if_pos h2] at h
        simp only [Except.error.injEq] at h
        exact ⟨h.symm, sc, rfl, h2⟩
      · rw [if_neg h2] at h
        exact absurd h (by simp)
    · rw [if_neg h1] at h
      exact absurd h (by simp)

/-- A record whose score is 15 makes the body of the loop return
`RSLV_UPD_NO` when `max_score` is below 15. -/
theorem get_ip_record_15 (env : get_ip_env) (resolv_opts : resolv_options)
    (currentip : List Nat) (currentip_sin_family : Int) (owner : Option Nat)
    (l : get_ip_locals) (record : resolv_answer_item) (sc : get_ip_scored)
    (hs : get_ip_score env resolv_opts currentip currentip_sin_family owner record = some sc)
    (h15 : sc.score = 15) (hmax : l.max_score < 15) :
    get_ip_record env resolv_opts currentip currentip_sin_family owner l record
      = .error .NO := by
  unfold get_ip_record
  rw [hs]
  simp only
  rw [if_pos (by omega), if_pos h15]

/-- The loop returns only `RSLV_UPD_NO`, and only when a record is scored. -/
theorem get_ip_loop_error (env : get_ip_env) (resolv_opts : resolv_options)
    (currentip : List Nat) (currentip_sin_family : Int) (owner : Option Nat) :
    ∀ (records : List resolv_answer_item) (l : get_ip_locals) (code : RSLV_UPD),
      get_ip_loop env resolv_opts currentip currentip_sin_family owner records l = .error code →
      code = .NO
      ∧ ∃ record ∈ records, ∃ sc,
          get_ip_score env resolv_opts currentip currentip_sin_family owner record = some sc
  | [], l, code, h => by
    rw [get_ip_loop] at h
    exact absurd h (by simp)
  | record :: records, l, code, h => by
    rw [get_ip_loop] at h
    cases hr : get_ip_record env resolv_opts currentip currentip_sin_family owner l record with
    | error c =>
      rw [hr] at h
      simp only [Except.error.injEq] at h
      obtain ⟨h1, sc, h2, _⟩ := get_ip_record_error _ _ _ _ _ _ _ _ hr
      exact ⟨h ▸ h1, record, List.mem_cons_self _ _, sc, h2⟩
    | ok l2 =>
      rw [hr] at h
      simp only at h
      obtain ⟨h1, r, hr1, hr2⟩ := get_ip_loop_error env resolv_opts currentip
        currentip_sin_family owner records l2 code h
      exact ⟨h1, r, List.mem_cons_of_mem _ hr1, hr2⟩

/-- The relation `get_ip_inv` is kept by the loop: when the loop ends without
a `return`, its locals are those of the record that the spec keeps. -/
theorem get_ip_loop_inv (env : get_ip_env) (resolv_opts : resolv_options)
    (currentip : List Nat) (currentip_sin_family : Int) (owner : Option Nat) :
    ∀ (records : List resolv_answer_item) (l l2 : get_ip_locals) (best : Option get_ip_scored),
      get_ip_loop env resolv_opts currentip currentip_sin_family owner records l = .ok l2 →
      get_ip_inv resolv_opts.family_prio l best →
      get_ip_inv resolv_opts.family_prio l2
        ((records.filterMap
          (get_ip_score env resolv_opts currentip currentip_sin_family owner)).foldl
          spec_best_step best)
  | [], l, l2, best, h, hinv => by
    rw [get_ip_loop] at h
    simp only [Except.ok.injEq] at h
    subst h
    exact hinv
  | record :: records, l, l2, best, h, hinv => by
    rw [get_ip_loop] at h
    cases hr : get_ip_record env resolv_opts currentip currentip_sin_family owner l record with
    | error c =>
      rw [hr] at h
      exact absurd h (by simp)
    | ok l1 =>
      rw [hr] at h
      simp only at h
      rcases get_ip_record_ok _ _ _ _ _ _ _ _ hr with ⟨hs, hl⟩ | ⟨sc, hs, hle, hl⟩
        | ⟨sc, hs, hlt, _, hl⟩
      · rw [List.filterMap_cons_none hs]
        subst hl
        exact get_ip_loop_inv env resolv_opts currentip currentip_sin_family owner records _ _ _
          h hinv
      · rw [List.filterMap_cons_some hs, List.foldl_cons]
        subst hl
        obtain ⟨_, _, hof⟩ := get_ip_score_some _ _ _ _ _ _ _ hs
        obtain ⟨h0, _⟩ := get_ip_score_of_range _ _ _ _ _ _ _ _ hof
        have hb : spec_best_step best sc = best := by
          cases best with
          | none =>
            simp only [get_ip_inv] at hinv
            omega
          | some b =>
            simp only [get_ip_inv] at hinv
            simp only [spec_best_step]
            rw [if_neg (by omega)]
        rw [hb]
        exact get_ip_loop_inv env resolv_opts currentip currentip_sin_family owner records _ _ _
          h hinv
      · rw [List.filterMap_cons_some hs, List.foldl_cons]
        obtain ⟨htype, _, hof⟩ := get_ip_score_some _ _ _ _ _ _ _ hs
        obtain ⟨h0, _, h8, h7, _⟩ := get_ip_score_of_range _ _ _ _ _ _ _ _ hof
        have hb : spec_best_step best sc = some sc := by
          cases best with
          | none => rfl
          | some b =>
            simp only [get_ip_inv] at hinv
            simp only [spec_best_step]
            rw [if_pos (by omega)]
        rw [hb]
        refine get_ip_loop_inv env resolv_opts currentip currentip_sin_family owner records _ _ _
          h ?_
        subst hl
        have htype2 : sc.ip_type = AF_INET ∨ sc.ip_type = AF_INET6 :=
          htype.imp (fun x => x.2) (fun x => x.2)
        simp only [get_ip_inv]
        refine ⟨trivial, h0, trivial, htype2, h8, ?_, ?_, ?_, ?_⟩
        · intro h4
          rw [if_pos h4]
        · intro h6
          have : ¬ sc.ip_type = AF_INET := by rw [h6]; decide
          rw [if_neg this]
        · intro hfp hne
          by_contra h4
          rw [if_neg h4] at hne
          have h7b : sc.score ≤ 7 := by
            apply h7
            rw [hfp]
            intro hc
            exact h4 (by exact_mod_cast hc)
          cases best with
          | none =>
            simp only [get_ip_inv] at hinv
            exact hne hinv.1
          | some b =>
            simp only [get_ip_inv] at hinv
            obtain ⟨hm, _, _, _, hb8, _, _, hJ, _⟩ := hinv
            have := hJ hfp hne
            have := hb8 (by rw [this, hfp])
            omega
        · intro hfp hne
          rcases htype2 with h4 | h6
          · rw [if_pos h4] at hne
            have h7b : sc.score ≤ 7 := by
              apply h7
              rw [hfp, h4]
              decide
            cases best with
            | none =>
              simp only [get_ip_inv] at hinv
              exact absurd hinv.2.1 hne
            | some b =>
              simp only [get_ip_inv] at hinv
              obtain ⟨hm, _, _, _, hb8, _, _, _, hJ⟩ := hinv
              have := hJ hfp hne
              have := hb8 (by rw [this, hfp])
              omega
          · exact h6

/-- The record kept by the spec is the first one that has the greatest score:
when the scan of `records` starts from the best record `best` so far and ends
on `b`, either `b` is `best` and no record of `records` has a greater score, or
`b` is the score of a record of `records` that is greater than the score of
`best` and of the records before it, and not smaller than the score of the
records after it. -/
theorem spec_best_foldl (env : get_ip_env) (resolv_opts : resolv_options)
    (currentip : List Nat) (currentip_sin_family : Int) (owner : Option Nat) :
    ∀ (records : List resolv_answer_item) (best : Option get_ip_scored) (b : get_ip_scored),
      (records.filterMap
        (get_ip_score env resolv_opts currentip currentip_sin_family owner)).foldl
        spec_best_step best = some b →
      (best = some b
        ∧ ∀ x ∈ records, ∀ sx,
            get_ip_score env resolv_opts currentip currentip_sin_family owner x = some sx →
            sx.score ≤ b.score)
      ∨ (∃ pre record post, records = pre ++ record :: post
          ∧ get_ip_score env resolv_opts currentip currentip_sin_family owner record = some b
          ∧ (∀ b0, best = some b0 → b0.score < b.score)
          ∧ (∀ x ∈ pre, ∀ sx,
              get_ip_score env resolv_opts currentip currentip_sin_family owner x = some sx →
              sx.score < b.score)
          ∧ (∀ x ∈ post, ∀ sx,
              get_ip_score env resolv_opts currentip currentip_sin_family owner x = some sx →
              sx.score ≤ b.score))
  | [], best, b, h => by
    simp only [List.filterMap_nil, List.foldl_nil] at h
    exact Or.inl ⟨h, fun x hx => absurd hx (List.not_mem_nil x)⟩
  | r :: rs, best, b, h => by
    cases hs : get_ip_score env resolv_opts currentip currentip_sin_family owner r with
    | none =>
      rw [List.filterMap_cons_none hs] at h
      rcases spec_best_foldl env resolv_opts currentip currentip_sin_family owner rs best b h
        with ⟨h1, h2⟩ | ⟨pre, record, post, h1, h2, h3, h4, h5⟩
      · refine Or.inl ⟨h1, fun x hx sx hsx => ?_⟩
        rcases List.mem_cons.mp hx with hx | hx
        · rw [hx, hs] at hsx
          exact absurd hsx (by simp)
        · exact h2 x hx sx hsx
      · refine Or.inr ⟨r :: pre, record, post, by rw [h1]; rfl, h2, h3, fun x hx sx hsx => ?_, h5⟩
        rcases List.mem_cons.mp hx with hx | hx
        · rw [hx, hs] at hsx
          exact absurd hsx (by simp)
        · exact h4 x hx sx hsx
    | some s =>
      rw [List.filterMap_cons_some hs, List.foldl_cons] at h
      rcases spec_best_foldl env resolv_opts currentip currentip_sin_family owner rs _ b h
        with ⟨h1, h2⟩ | ⟨pre, record, post, h1, h2, h3, h4, h5⟩
      · cases best with
        | none =>
          simp only [spec_best_step, Option.some.injEq] at h1
          subst h1
          exact Or.inr ⟨[], r, rs, rfl, hs, fun b0 hb0 => absurd hb0 (by simp),
            fun x hx => absurd hx (List.not_mem_nil x), h2⟩
        | some b0 =>
          simp only [spec_best_step] at h1
          by_cases hgt : s.score > b0.score
          · rw [if_pos hgt] at h1
            simp only [Option.some.injEq] at h1
            subst h1
            refine Or.inr ⟨[], r, rs, rfl, hs, fun b1 hb1 => ?_,
              fun x hx => absurd hx (List.not_mem_nil x), h2⟩
            simp only [Option.some.injEq] at hb1
            subst hb1
            exact hgt
          · rw [if_neg hgt] at h1
            simp only [Option.some.injEq] at h1
            subst h1
            refine Or.inl ⟨rfl, fun x hx sx hsx => ?_⟩
            rcases List.mem_cons.mp hx with hx | hx
            · rw [hx, hs] at hsx
              simp only [Option.some.injEq] at hsx
              subst hsx
              omega
            · exact h2 x hx sx hsx
      · have hstep : s.score < b.score ∧ ∀ b0, best = some b0 → b0.score < b.score := by
          cases best with
          | none =>
            have := h3 s rfl
            exact ⟨this, fun b0 hb0 => absurd hb0 (by simp)⟩
          | some b0 =>
            simp only [spec_best_step] at h3
            by_cases hgt : s.score > b0.score
            · rw [if_pos hgt] at h3
              have := h3 s rfl
              refine ⟨this, fun b1 hb1 => ?_⟩
              simp only [Option.some.injEq] at hb1
              subst hb1
              omega
            · rw [if_neg hgt] at h3
              have := h3 b0 rfl
              refine ⟨by omega, fun b1 hb1 => ?_⟩
              simp only [Option.some.injEq] at hb1
              subst hb1
              exact this
        refine Or.inr ⟨r :: pre, record, post, by rw [h1]; rfl, h2, hstep.2,
          fun x hx sx hsx => ?_, h5⟩
        rcases List.mem_cons.mp hx with hx | hx
        · rw [hx, hs] at hsx
          simp only [Option.some.injEq] at hsx
          subst hsx
          exact hstep.1
        · exact h4 x hx sx hsx

/-- The record that `spec_best_record` gives is the first record of the list
that has the greatest score among the records that are scored. -/
theorem spec_best_record_first_max (env : get_ip_env) (resolv_opts : resolv_options)
    (currentip : List Nat) (currentip_sin_family : Int) (owner : Option Nat)
    (answer_list : List resolv_answer_item) (b : get_ip_scored)
    (h : spec_best_record env resolv_opts currentip currentip_sin_family owner answer_list
      = some b) :
    ∃ pre record post, answer_list = pre ++ record :: post
      ∧ get_ip_score env resolv_opts currentip currentip_sin_family owner record = some b
      ∧ b.ip = record.address
      ∧ (∀ x ∈ pre, ∀ sx,
          get_ip_score env resolv_opts currentip currentip_sin_family owner x = some sx →
          sx.score < b.score)
      ∧ (∀ x ∈ post, ∀ sx,
          get_ip_score env resolv_opts currentip currentip_sin_family owner x = some sx →
          sx.score ≤ b.score) := by
  rcases spec_best_foldl env resolv_opts currentip currentip_sin_family owner answer_list none b h
    with ⟨h1, _⟩ | ⟨pre, record, post, h1, h2, _, h4, h5⟩
  · exact absurd h1 (by simp)
  · exact ⟨pre, record, post, h1, h2, (get_ip_score_some _ _ _ _ _ _ _ h2).2.1, h4, h5⟩

/-- Without a record of type AAAA the loop leaves `newip6` as it is. -/
theorem get_ip_loop_newip6 (env : get_ip_env) (resolv_opts : resolv_options)
    (currentip : List Nat) (currentip_sin_family : Int) (owner : Option Nat) :
    ∀ (records : List resolv_answer_item) (l l2 : get_ip_locals),
      get_ip_loop env resolv_opts currentip currentip_sin_family owner records l = .ok l2 →
      (∀ record ∈ records, record.type ≠ DNS_RTYPE_AAAA) →
      l2.newip6 = l.newip6
  | [], l, l2, h, _ => by
    rw [get_ip_loop] at h
    simp only [Except.ok.injEq] at h
    rw [h]
  | record :: records, l, l2, h, hno => by
    rw [get_ip_loop] at h
    cases hr : get_ip_record env resolv_opts currentip currentip_sin_family owner l record with
    | error c =>
      rw [hr] at h
      exact absurd h (by simp)
    | ok l1 =>
      rw [hr] at h
      simp only at h
      have ih := get_ip_loop_newip6 env resolv_opts currentip currentip_sin_family owner records
        l1 l2 h (fun x hx => hno x (List.mem_cons_of_mem _ hx))
      rw [ih]
      rcases get_ip_record_ok _ _ _ _ _ _ _ _ hr with ⟨_, hl⟩ | ⟨sc, _, _, hl⟩
        | ⟨sc, hs, _, _, hl⟩
      · rw [hl]
      · rw [hl]
      · rw [hl]
        rcases (get_ip_score_some _ _ _ _ _ _ _ hs).1 with ⟨_, h4⟩ | ⟨h6, _⟩
        · simp only [h4, ↓reduceIte]
        · exact absurd h6 (hno record (List.mem_cons_self _ _))

/-- The address and the family that `resolv_get_ip_from_response` hands back
when its loop ends without a `return` and has kept an address: the pointer of
the preferred family when it is set, the other one otherwise, IPv6 being
preferred when there is no preference. -/
theorem resolv_get_ip_from_response_select (env : get_ip_env) (r_res : resolv_response)
    (resolv_opts : resolv_options) (currentip : List Nat) (currentip_sin_family : Int)
    (owner : Option Nat) (l : get_ip_locals)
    (hloop : get_ip_loop env resolv_opts currentip currentip_sin_family owner r_res.answer_list
      { newip4 := none, newip6 := none, currentip_found := false, max_score := -1 } = .ok l)
    (hset : ¬ (l.newip4 = none ∧ l.newip6 = none)) :
    ((resolv_get_ip_from_response env r_res resolv_opts currentip currentip_sin_family
        owner).newip,
      (resolv_get_ip_from_response env r_res resolv_opts currentip currentip_sin_family
        owner).newip_sin_family)
      = if resolv_opts.family_prio = AF_INET then
          get_ip_select l.newip4 AF_INET l.newip6 AF_INET6
        else if resolv_opts.family_prio = AF_INET6 ∨ resolv_opts.family_prio = AF_UNSPEC then
          get_ip_select l.newip6 AF_INET6 l.newip4 AF_INET
        else (none, AF_UNSPEC) := by
  unfold resolv_get_ip_from_response
  simp only [hloop]
  rw [if_neg hset]
  by_cases h4 : resolv_opts.family_prio = AF_INET
  · rw [if_pos h4, if_pos h4]
    cases l.currentip_found <;> rfl
  · rw [if_neg h4, if_neg h4]
    by_cases h6 : resolv_opts.family_prio = AF_INET6
    · rw [if_pos h6, if_pos (Or.inl h6)]
      cases l.currentip_found <;> rfl
    · rw [if_neg h6]
      by_cases h0 : resolv_opts.family_prio = AF_UNSPEC
      · rw [if_pos h0, if_pos (Or.inr h0)]
        cases l.currentip_found <;> rfl
      · rw [if_neg h0, if_neg (by rintro (h | h) <;> contradiction)]

/-- The address handed back by `resolv_get_ip_from_response` is that of the
record that the spec keeps, when a family is preferred; without a preferred
family it is so when the record kept by the spec is of type AAAA or when the
list has no record of type AAAA. -/
theorem resolv_get_ip_from_response_newip (env : get_ip_env) (r_res : resolv_response)
    (resolv_opts : resolv_options) (currentip : List Nat) (currentip_sin_family : Int)
    (owner : Option Nat) (a : List Nat)
    (hnew : (resolv_get_ip_from_response env r_res resolv_opts currentip currentip_sin_family
      owner).newip = some a)
    (hfam : resolv_opts.family_prio ≠ AF_UNSPEC
      ∨ (∃ b, spec_best_record env resolv_opts currentip currentip_sin_family owner
            r_res.answer_list = some b ∧ b.ip_type = AF_INET6)
      ∨ ∀ record ∈ r_res.answer_list, record.type ≠ DNS_RTYPE_AAAA) :
    ∃ b, spec_best_record env resolv_opts currentip currentip_sin_family owner
          r_res.answer_list = some b
      ∧ b.ip = a
      ∧ (resolv_get_ip_from_response env r_res resolv_opts currentip currentip_sin_family
          owner).newip_sin_family = b.ip_type := by
  cases hloop : get_ip_loop env resolv_opts currentip currentip_sin_family owner
      r_res.answer_list
      { newip4 := none, newip6 := none, currentip_found := false, max_score := -1 } with
  | error c =>
    unfold resolv_get_ip_from_response at hnew
    simp only [hloop] at hnew
    exact absurd hnew (by simp)
  | ok l =>
    by_cases hset : l.newip4 = none ∧ l.newip6 = none
    · unfold resolv_get_ip_from_response at hnew
      simp only [hloop, hset, and_self, ↓reduceIte] at hnew
      exact absurd hnew (by simp)
    · have hsel := resolv_get_ip_from_response_select env r_res resolv_opts currentip
        currentip_sin_family owner l hloop hset
      have hinv := get_ip_loop_inv env resolv_opts currentip currentip_sin_family owner
        r_res.answer_list _ l none hloop (by simp only [get_ip_inv, and_self])
      have hbest : (r_res.answer_list.filterMap
          (get_ip_score env resolv_opts currentip currentip_sin_family owner)).foldl
          spec_best_step none
          = spec_best_record env resolv_opts currentip currentip_sin_family owner
              r_res.answer_list := rfl
      rw [hbest] at hinv
      generalize (resolv_get_ip_from_response env r_res resolv_opts currentip
        currentip_sin_family owner).newip = newip at hnew hsel ⊢
      generalize (resolv_get_ip_from_response env r_res resolv_opts currentip
        currentip_sin_family owner).newip_sin_family = fam at hsel ⊢
      subst hnew
      cases hb : spec_best_record env resolv_opts currentip currentip_sin_family owner
          r_res.answer_list with
      | none =>
        rw [hb] at hinv
        simp only [get_ip_inv] at hinv
        exact absurd ⟨hinv.1, hinv.2.1⟩ hset
      | some b =>
        rw [hb] at hinv
        simp only [get_ip_inv] at hinv
        obtain ⟨_, _, _, htype, _, hn4, hn6, hJ4, hJ6⟩ := hinv
        refine ⟨b, rfl, ?_⟩
        have h46 : ¬ (AF_INET = AF_INET6) := by decide
        by_cases h4 : resolv_opts.family_prio = AF_INET
        · rw [if_pos h4] at hsel
          cases hl4 : l.newip4 with
          | some ip =>
            have hb4 := hJ4 h4 (by rw [hl4]; simp)
            have := hn4 hb4
            rw [hl4] at hsel this
            simp only [get_ip_select, Prod.mk.injEq, Option.some.injEq] at hsel this
            exact ⟨by rw [← this, ← hsel.1], by rw [hsel.2, hb4]⟩
          | none =>
            have hb6 : b.ip_type = AF_INET6 := by
              rcases htype with h | h
              · have := hn4 h
                rw [hl4] at this
                exact absurd this (by simp)
              · exact h
            have := hn6 hb6
            rw [hl4, this] at hsel
            simp only [get_ip_select, Prod.mk.injEq, Option.some.injEq] at hsel
            exact ⟨hsel.1.symm, by rw [hsel.2, hb6]⟩
        · rw [if_neg h4] at hsel
          by_cases h60 : resolv_opts.family_prio = AF_INET6 ∨ resolv_opts.family_prio = AF_UNSPEC
          · rw [if_pos h60] at hsel
            have hcase : b.ip_type = AF_INET6 ∨ l.newip6 = none := by
              rcases h60 with h6 | h0
              · cases hl6 : l.newip6 with
                | none => exact Or.inr rfl
                | some ip => exact Or.inl (hJ6 h6 (by rw [hl6]; simp))
              · rcases hfam with hf | ⟨b2, hb2, hb6⟩ | hf
                · exact absurd h0 hf
                · rw [hb] at hb2
                  simp only [Option.some.injEq] at hb2
                  rw [hb2]
                  exact Or.inl hb6
                · have := get_ip_loop_newip6 env resolv_opts currentip currentip_sin_family
                    owner r_res.answer_list _ l hloop hf
                  exact Or.inr this
            rcases hcase with hb6 | hl6
            · have := hn6 hb6
              rw [this] at hsel
              simp only [get_ip_select, Prod.mk.injEq, Option.some.injEq] at hsel
              exact ⟨hsel.1.symm, by rw [hsel.2, hb6]⟩
            · have hb4 : b.ip_type = AF_INET := by
                rcases htype with h | h
                · exact h
                · have := hn6 h
                  rw [hl6] at this
                  exact absurd this (by simp)
              have := hn4 hb4
              rw [hl6, this] at hsel
              simp only [get_ip_select, Prod.mk.injEq, Option.some.injEq] at hsel
              exact ⟨hsel.1.symm, by rw [hsel.2, hb4]⟩
          · rw [if_neg h60] at hsel
            simp only [Prod.mk.injEq] at hsel
            exact absurd hsel.1 (by simp)

/-- The code and the answer list that `resolv_get_ip_from_response` hands back
when its loop ends without a `return` and has kept an address: the code is
`RSLV_UPD_NO` and the list is unchanged, or the code is
`RSLV_UPD_SRVIP_NOT_FOUND` and the first record is moved to the end. -/
theorem resolv_get_ip_from_response_kept (env : get_ip_env) (r_res : resolv_response)
    (resolv_opts : resolv_options) (currentip : List Nat) (currentip_sin_family : Int)
    (owner : Option Nat) (l : get_ip_locals)
    (hloop : get_ip_loop env resolv_opts currentip currentip_sin_family owner r_res.answer_list
      { newip4 := none, newip6 := none, currentip_found := false, max_score := -1 } = .ok l)
    (hset : ¬ (l.newip4 = none ∧ l.newip6 = none)) :
    ((resolv_get_ip_from_response env r_res resolv_opts currentip currentip_sin_family
          owner).code = .NO
      ∧ (resolv_get_ip_from_response env r_res resolv_opts currentip currentip_sin_family
          owner).answer_list = r_res.answer_list)
    ∨ ((resolv_get_ip_from_response env r_res resolv_opts currentip currentip_sin_family
          owner).code = .SRVIP_NOT_FOUND
      ∧ ∃ record records, r_res.answer_list = record :: records
        ∧ (resolv_get_ip_from_response env r_res resolv_opts currentip currentip_sin_family
            owner).answer_list = records ++ [record]) := by
  have hne : ∃ record records, r_res.answer_list = record :: records := by
    cases hl : r_res.answer_list with
    | nil =>
      rw [hl, get_ip_loop] at hloop
      simp only [Except.ok.injEq] at hloop
      rw [← hloop] at hset
      exact absurd ⟨rfl, rfl⟩ hset
    | cons record records => exact ⟨record, records, rfl⟩
  obtain ⟨record, records, hl⟩ := hne
  have hrot : ∀ newip fam,
      (get_ip_not_found newip fam r_res.answer_list).code = .SRVIP_NOT_FOUND
      ∧ ∃ record records, r_res.answer_list = record :: records
        ∧ (get_ip_not_found newip fam r_res.answer_list).answer_list = records ++ [record] := by
    intro newip fam
    refine ⟨rfl, record, records, hl, ?_⟩
    rw [hl]
    rfl
  unfold resolv_get_ip_from_response
  simp only [hloop]
  rw [if_neg hset]
  by_cases h4 : resolv_opts.family_prio = AF_INET
  · rw [if_pos h4]
    by_cases hc : l.currentip_found = false
    · rw [if_pos hc]
      exact Or.inr (hrot _ _)
    · rw [if_neg hc]
      exact Or.inl ⟨rfl, rfl⟩
  · rw [if_neg h4]
    by_cases h6 : resolv_opts.family_prio = AF_INET6
    · rw [if_pos h6]
      by_cases hc : l.currentip_found = false
      · rw [if_pos hc]
        exact Or.inr (hrot _ _)
      · rw [if_neg hc]
        exact Or.inl ⟨rfl, rfl⟩
    · rw [if_neg h6]
      by_cases h0 : resolv_opts.family_prio = AF_UNSPEC
      · rw [if_pos h0]
        by_cases hc : l.currentip_found = false
        · rw [if_pos hc]
          exact Or.inr (hrot _ _)
        · rw [if_neg hc]
          exact Or.inl ⟨rfl, rfl⟩
      · rw [if_neg h0]
        exact Or.inl ⟨rfl, rfl⟩

/-- The three ways `resolv_get_ip_from_response` ends: a `return` in the loop
and the end without an address leave the list as it is, with the codes
`RSLV_UPD_NO` and `RSLV_UPD_NO_IP_FOUND`; otherwise an address is kept. -/
theorem resolv_get_ip_from_response_cases (env : get_ip_env) (r_res : resolv_response)
    (resolv_opts : resolv_options) (currentip : List Nat) (currentip_sin_family : Int)
    (owner : Option Nat) :
    (∃ record ∈ r_res.answer_list, ∃ sc,
        get_ip_score env resolv_opts currentip currentip_sin_family owner record = some sc)
      ∧ (((resolv_get_ip_from_response env r_res resolv_opts currentip currentip_sin_family
              owner).code = .NO
          ∧ (resolv_get_ip_from_response env r_res resolv_opts currentip currentip_sin_family
              owner).answer_list = r_res.answer_list)
        ∨ ((resolv_get_ip_from_response env r_res resolv_opts currentip currentip_sin_family
              owner).code = .SRVIP_NOT_FOUND
          ∧ ∃ record records, r_res.answer_list = record :: records
            ∧ (resolv_get_ip_from_response env r_res resolv_opts currentip
                currentip_sin_family owner).answer_list = records ++ [record]))
    ∨ ((∀ record ∈ r_res.answer_list,
          get_ip_score env resolv_opts currentip currentip_sin_family owner record = none)
      ∧ (resolv_get_ip_from_response env r_res resolv_opts currentip currentip_sin_family
          owner).code = .NO_IP_FOUND
      ∧ (resolv_get_ip_from_response env r_res resolv_opts currentip currentip_sin_family
          owner).answer_list = r_res.answer_list) := by
  cases hloop : get_ip_loop env resolv_opts currentip currentip_sin_family owner
      r_res.answer_list
      { newip4 := none, newip6 := none, currentip_found := false, max_score := -1 } with
  | error c =>
    obtain ⟨hc, hex⟩ := get_ip_loop_error _ _ _ _ _ _ _ _ hloop
    refine Or.inl ⟨hex, Or.inl ?_⟩
    unfold resolv_get_ip_from_response
    simp only [hloop]
    exact ⟨hc, trivial⟩
  | ok l =>
    have hinv := get_ip_loop_inv env resolv_opts currentip currentip_sin_family owner
      r_res.answer_list _ l none hloop (by simp only [get_ip_inv, and_self])
    cases hb : (r_res.answer_list.filterMap
        (get_ip_score env resolv_opts currentip currentip_sin_family owner)).foldl
        spec_best_step none with
    | none =>
      rw [hb] at hinv
      simp only [get_ip_inv] at hinv
      refine Or.inr ⟨?_, ?_⟩
      · intro record hrec
        cases hs : get_ip_score env resolv_opts currentip currentip_sin_family owner record with
        | none => rfl
        | some sc =>
          exfalso
          obtain ⟨pre, post, hsplit⟩ := List.append_of_mem hrec
          have hall : ∀ (xs : List get_ip_scored) (b : get_ip_scored),
              xs.foldl spec_best_step (some b) ≠ none := by
            intro xs
            induction xs with
            | nil => intro b; simp
            | cons x xs ih =>
              intro b
              rw [List.foldl_cons]
              simp only [spec_best_step]
              split
              · exact ih _
              · exact ih _
          have hall2 : ∀ (xs : List get_ip_scored) (o : Option get_ip_scored),
              xs.foldl spec_best_step o = none → xs = [] := by
            intro xs o
            cases xs with
            | nil => intro _; rfl
            | cons x xs =>
              intro h
              rw [List.foldl_cons] at h
              cases o with
              | none => exact absurd h (hall xs x)
              | some b =>
                simp only [spec_best_step] at h
                split at h
                · exact absurd h (hall xs _)
                · exact absurd h (hall xs _)
          have := hall2 _ _ hb
          rw [hsplit, List.filterMap_append, List.filterMap_cons_some hs] at this
          simp at this
      · unfold resolv_get_ip_from_response
        simp only [hloop]
        rw [if_pos ⟨hinv.1, hinv.2.1⟩]
        exact ⟨rfl, rfl⟩
    | some b =>
      rw [hb] at hinv
      simp only [get_ip_inv] at hinv
      obtain ⟨_, _, _, htype, _, hn4, hn6, _, _⟩ := hinv
      have hset : ¬ (l.newip4 = none ∧ l.newip6 = none) := by
        rintro ⟨h4, h6⟩
        rcases htype with h | h
        · have := hn4 h
          rw [h4] at this
          exact absurd this (by simp)
        · have := hn6 h
          rw [h6] at this
          exact absurd this (by simp)
      refine Or.inl ⟨?_, resolv_get_ip_from_response_kept env r_res resolv_opts currentip
        currentip_sin_family owner l hloop hset⟩
      obtain ⟨pre, record, post, h1, h2, _⟩ := spec_best_record_first_max env resolv_opts
        currentip currentip_sin_family owner r_res.answer_list b hb
      exact ⟨record, by rw [h1]; simp, b, h2⟩

/-- A record is not scored when it is neither A nor AAAA, or when the probe
finds its address for an owner that is set while duplicates are not accepted. -/
theorem get_ip_score_none_iff (env : get_ip_env) (resolv_opts : resolv_options)
    (currentip : List Nat) (currentip_sin_family : Int) (owner : Option Nat)
    (record : resolv_answer_item) :
    get_ip_score env resolv_opts currentip currentip_sin_family owner record = none
      ↔ ((record.type = DNS_RTYPE_A ∨ record.type = DNS_RTYPE_AAAA) →
          resolv_opts.accept_duplicate_ip = false
          ∧ ∃ o, owner = some o
            ∧ env.snr_check_ip_callback o record.address
                (if record.type = DNS_RTYPE_A then AF_INET else AF_INET6) = true) := by
  have key : ∀ ip_type,
      get_ip_score_of env resolv_opts currentip currentip_sin_family owner record.address
          ip_type = none
        ↔ (resolv_opts.accept_duplicate_ip = false
            ∧ ∃ o, owner = some o ∧ env.snr_check_ip_callback o record.address ip_type = true) := by
    intro ip_type
    have hd : get_ip_duplicate env owner record.address ip_type = true
        ↔ ∃ o, owner = some o ∧ env.snr_check_ip_callback o record.address ip_type = true := by
      cases owner with
      | none => simp [get_ip_duplicate]
      | some o => simp [get_ip_duplicate]
    unfold get_ip_score_of
    simp only
    rw [← hd]
    by_cases h1 : get_ip_duplicate env owner record.address ip_type = true
        ∧ resolv_opts.accept_duplicate_ip = false
    · rw [if_pos h1]
      exact ⟨fun _ => ⟨h1.2, h1.1⟩, fun _ => rfl⟩
    · rw [if_neg h1]
      constructor
      · intro h
        split at h <;> exact absurd h (by simp)
      · intro h
        exact absurd ⟨h.2, h.1⟩ h1
  unfold get_ip_score
  by_cases hA : record.type = DNS_RTYPE_A
  · rw [if_pos hA, if_pos hA, key]
    exact ⟨fun h _ => h, fun h => h (Or.inl hA)⟩
  · rw [if_neg hA, if_neg hA]
    by_cases h6 : record.type = DNS_RTYPE_AAAA
    · rw [if_pos h6, key]
      exact ⟨fun h _ => h, fun h => h (Or.inr h6)⟩
    · rw [if_neg h6]
      exact ⟨fun _ h => absurd h (by rintro (h | h) <;> contradiction), fun _ => rfl⟩

/-- The loop returns `RSLV_UPD_NO` at the first record whose score is 15. -/
theorem get_ip_loop_15 (env : get_ip_env) (resolv_opts : resolv_options)
    (currentip : List Nat) (currentip_sin_family : Int) (owner : Option Nat)
    (record : resolv_answer_item) (post : List resolv_answer_item) (sc : get_ip_scored)
    (hs : get_ip_score env resolv_opts currentip currentip_sin_family owner record = some sc)
    (h15 : sc.score = 15) :
    ∀ (pre : List resolv_answer_item) (l : get_ip_locals), l.max_score < 15 →
      (∀ x ∈ pre, ∀ sx,
        get_ip_score env resolv_opts currentip currentip_sin_family owner x = some sx →
        sx.score ≠ 15) →
      get_ip_loop env resolv_opts currentip currentip_sin_family owner
        (pre ++ record :: post) l = .error .NO
  | [], l, hmax, _ => by
    rw [List.nil_append, get_ip_loop, get_ip_record_15 _ _ _ _ _ _ _ _ hs h15 hmax]
  | x :: pre, l, hmax, hpre => by
    rw [List.cons_append, get_ip_loop]
    cases hr : get_ip_record env resolv_opts currentip currentip_sin_family owner l x with
    | error c =>
      obtain ⟨_, sx, hsx, hx15⟩ := get_ip_record_error _ _ _ _ _ _ _ _ hr
      exact absurd hx15 (hpre x (List.mem_cons_self _ _) sx hsx)
    | ok l1 =>
      simp only
      apply get_ip_loop_15 env resolv_opts currentip currentip_sin_family owner record post sc
        hs h15 pre l1
      · rcases get_ip_record_ok _ _ _ _ _ _ _ _ hr with ⟨_, hl⟩ | ⟨sx, _, _, hl⟩
          | ⟨sx, hsx, _, hne, hl⟩
        · rw [hl]
          exact hmax
        · rw [hl]
          exact hmax
        · rw [hl]
          simp only
          obtain ⟨_, _, hof⟩ := get_ip_score_some _ _ _ _ _ _ _ hsx
          obtain ⟨_, hle, _⟩ := get_ip_score_of_range _ _ _ _ _ _ _ _ hof
          omega
      · exact fun y hy => hpre y (List.mem_cons_of_mem _ hy)

/-- C27, counterexample: without a preferred family (`AF_UNSPEC`), for the
list of the AAAA record 2001:db8::1 (score 2) followed by the A record 10.0.0.1
of the preferred network (score 6), the address handed back is 2001:db8::1,
which is not the address of the first record that has the greatest score. -/
theorem resolv_get_ip_from_response_unspec_counterexample :
    (resolv_get_ip_from_response sample_get_ip_env
        (response_of [aaaa_item sample_ipv6 0, a_item [10, 0, 0, 1] 0])
        (sample_options AF_UNSPEC) [9, 9, 9, 9] AF_INET none).code = .SRVIP_NOT_FOUND
    ∧ (resolv_get_ip_from_response sample_get_ip_env
        (response_of [aaaa_item sample_ipv6 0, a_item [10, 0, 0, 1] 0])
        (sample_options AF_UNSPEC) [9, 9, 9, 9] AF_INET none).newip = some sample_ipv6
    ∧ ¬ ∃ pre record post sc,
        [aaaa_item sample_ipv6 0, a_item [10, 0, 0, 1] 0] = pre ++ record :: post
        ∧ get_ip_score sample_get_ip_env (sample_options AF_UNSPEC) [9, 9, 9, 9] AF_INET none
            record = some sc
        ∧ record.address = sample_ipv6
        ∧ (∀ x ∈ pre, ∀ sx,
            get_ip_score sample_get_ip_env (sample_options AF_UNSPEC) [9, 9, 9, 9] AF_INET none
              x = some sx → sx.score < sc.score)
        ∧ (∀ x ∈ post, ∀ sx,
            get_ip_score sample_get_ip_env (sample_options AF_UNSPEC) [9, 9, 9, 9] AF_INET none
              x = some sx → sx.score ≤ sc.score) := by
  refine ⟨by decide, by decide, ?_⟩
  rintro ⟨pre, record, post, sc, hl, hs, ha, _, hpost⟩
  have h6 : get_ip_score sample_get_ip_env (sample_options AF_UNSPEC) [9, 9, 9, 9] AF_INET none
      (aaaa_item sample_ipv6 0)
      = some { ip := sample_ipv6, ip_type := AF_INET6, score := 2, currentip_sel := false } := by
    decide
  have h4 : get_ip_score sample_get_ip_env (sample_options AF_UNSPEC) [9, 9, 9, 9] AF_INET none
      (a_item [10, 0, 0, 1] 0)
      = some { ip := [10, 0, 0, 1], ip_type := AF_INET, score := 6, currentip_sel := false } := by
    decide
  cases pre with
  | nil =>
    simp only [List.nil_append, List.cons.injEq] at hl
    obtain ⟨h1, h2⟩ := hl
    rw [← h1, h6] at hs
    simp only [Option.some.injEq] at hs
    have := hpost (a_item [10, 0, 0, 1] 0) (by rw [← h2]; simp) _ h4
    rw [← hs] at this
    exact absurd this (by decide)
  | cons p pre =>
    simp only [List.cons_append, List.cons.injEq] at hl
    obtain ⟨_, h2⟩ := hl
    cases pre with
    | nil =>
      simp only [List.nil_append, List.cons.injEq] at h2
      rw [← h2.1] at ha
      exact absurd ha (by decide)
    | cons q pre =>
      simp only [List.cons_append, List.cons.injEq] at h2
      exact absurd h2.2 (by simp)

/-- C27, as amended: whenever `resolv_get_ip_from_response` hands back an
address, with a preferred family (`family_prio` other than `AF_UNSPEC`) that
address is the address of the first record, in the order of the answer list,
that has the greatest score among the A and AAAA records that the duplicate
check does not skip. Without a preferred family it is so when that record is
of type AAAA, or when the list has no record of type AAAA. -/
theorem resolv_get_ip_from_response_first_max (env : get_ip_env) (r_res : resolv_response)
    (resolv_opts : resolv_options) (currentip : List Nat) (currentip_sin_family : Int)
    (owner : Option Nat) (a : List Nat)
    (hnew : (resolv_get_ip_from_response env r_res resolv_opts currentip currentip_sin_family
      owner).newip = some a)
    (hfam : resolv_opts.family_prio ≠ AF_UNSPEC
      ∨ (∃ b, spec_best_record env resolv_opts currentip currentip_sin_family owner
            r_res.answer_list = some b ∧ b.ip_type = AF_INET6)
      ∨ ∀ record ∈ r_res.answer_list, record.type ≠ DNS_RTYPE_AAAA) :
    ∃ pre record post sc, r_res.answer_list = pre ++ record :: post
      ∧ get_ip_score env resolv_opts currentip currentip_sin_family owner record = some sc
      ∧ record.address = a
      ∧ (resolv_get_ip_from_response env r_res resolv_opts currentip currentip_sin_family
          owner).newip_sin_family = sc.ip_type
      ∧ (∀ x ∈ pre, ∀ sx,
          get_ip_score env resolv_opts currentip currentip_sin_family owner x = some sx →
          sx.score < sc.score)
      ∧ (∀ x ∈ post, ∀ sx,
          get_ip_score env resolv_opts currentip currentip_sin_family owner x = some sx →
          sx.score ≤ sc.score) := by
  obtain ⟨b, hb, hba, hbf⟩ := resolv_get_ip_from_response_newip env r_res resolv_opts currentip
    currentip_sin_family owner a hnew hfam
  obtain ⟨pre, record, post, h1, h2, h3, h4, h5⟩ := spec_best_record_first_max env resolv_opts
    currentip currentip_sin_family owner r_res.answer_list b hb
  exact ⟨pre, record, post, b, h1, h2, by rw [← h3, hba], hbf, h4, h5⟩

/-- Witness for C27: IPv4 is preferred, the list holds 1.2.3.4 then 5.6.7.8,
which is the current address; the address handed back is 5.6.7.8, the only
record whose score is 11. -/
theorem resolv_get_ip_from_response_first_max_witness :
    (resolv_get_ip_from_response sample_get_ip_env
        (response_of [a_item [1, 2, 3, 4] 0, a_item [5, 6, 7, 8] 0])
        (sample_options AF_INET) [5, 6, 7, 8] AF_INET none).newip = some [5, 6, 7, 8]
    ∧ ∃ pre record post sc,
        (response_of [a_item [1, 2, 3, 4] 0, a_item [5, 6, 7, 8] 0]).answer_list
          = pre ++ record :: post
        ∧ get_ip_score sample_get_ip_env (sample_options AF_INET) [5, 6, 7, 8] AF_INET none
            record = some sc
        ∧ record.address = [5, 6, 7, 8]
        ∧ (resolv_get_ip_from_response sample_get_ip_env
            (response_of [a_item [1, 2, 3, 4] 0, a_item [5, 6, 7, 8] 0])
            (sample_options AF_INET) [5, 6, 7, 8] AF_INET none).newip_sin_family = sc.ip_type
        ∧ (∀ x ∈ pre, ∀ sx,
            get_ip_score sample_get_ip_env (sample_options AF_INET) [5, 6, 7, 8] AF_INET none
              x = some sx → sx.score < sc.score)
        ∧ (∀ x ∈ post, ∀ sx,
            get_ip_score sample_get_ip_env (sample_options AF_INET) [5, 6, 7, 8] AF_INET none
              x = some sx → sx.score ≤ sc.score) :=
  ⟨by decide,
   resolv_get_ip_from_response_first_max sample_get_ip_env
     (response_of [a_item [1, 2, 3, 4] 0, a_item [5, 6, 7, 8] 0])
     (sample_options AF_INET) [5, 6, 7, 8] AF_INET none [5, 6, 7, 8] (by decide)
     (Or.inl (by decide))⟩

/-- C28: in `resolv_get_ip_from_response` the score of a record of type A or
AAAA that is scored is 8 if its family is `family_prio`, plus 4 if its address
is in a preferred network of its family, plus 2 if the duplicate check finds
no conflict, plus 1 if it is the current address; it lies in 0..15. A record
whose score is 15 has the family and the address bytes of `currentip`, and at
the first such record of the list the function returns `RSLV_UPD_NO` at once,
without an output address and with the list unchanged. -/
theorem resolv_get_ip_from_response_score (env : get_ip_env) (r_res : resolv_response)
    (resolv_opts : resolv_options) (currentip : List Nat) (currentip_sin_family : Int)
    (owner : Option Nat) (pre post : List resolv_answer_item) (record : resolv_answer_item)
    (sc : get_ip_scored)
    (hlist : r_res.answer_list = pre ++ record :: post)
    (hsc : get_ip_score env resolv_opts currentip currentip_sin_family owner record = some sc) :
    ((record.type = DNS_RTYPE_A ∧ sc.ip_type = AF_INET)
      ∨ (record.type = DNS_RTYPE_AAAA ∧ sc.ip_type = AF_INET6))
    ∧ sc.ip = record.address
    ∧ sc.score
      = (if (sc.ip_type : Int) = resolv_opts.family_prio then 8 else 0)
        + (if resolv_opts.pref_net.any (fun net => decide (net.family = (sc.ip_type : Int))
              && ((decide (sc.ip_type = AF_INET) && env.in_net_ipv4 sc.ip net.mask net.addr)
                || (decide (sc.ip_type = AF_INET6) && env.in_net_ipv6 sc.ip net.mask net.addr)))
           then 4 else 0)
        + (if get_ip_duplicate env owner sc.ip sc.ip_type = true then 0 else 2)
        + (if get_ip_current sc.ip sc.ip_type currentip currentip_sin_family = true
           then 1 else 0)
    ∧ 0 ≤ sc.score ∧ sc.score ≤ 15
    ∧ (sc.score = 15 →
        ((sc.ip_type : Int) = currentip_sin_family
          ∧ ((currentip_sin_family = AF_INET ∧ record.address.take 4 = currentip.take 4)
            ∨ (currentip_sin_family = AF_INET6
              ∧ record.address.take 16 = currentip.take 16)))
        ∧ ((∀ x ∈ pre, ∀ sx,
              get_ip_score env resolv_opts currentip currentip_sin_family owner x = some sx →
              sx.score ≠ 15) →
            resolv_get_ip_from_response env r_res resolv_opts currentip currentip_sin_family
                owner
              = { code := .NO, newip := none, newip_sin_family := AF_UNSPEC,
                  answer_list := r_res.answer_list })) := by
  obtain ⟨htype, hip, hof⟩ := get_ip_score_some _ _ _ _ _ _ _ hsc
  obtain ⟨_, _, _, _, hscore⟩ := get_ip_score_of_some _ _ _ _ _ _ _ _ hof
  obtain ⟨h0, h15, _, _, hcur⟩ := get_ip_score_of_range _ _ _ _ _ _ _ _ hof
  rw [get_ip_pref_net_eq] at hscore
  refine ⟨htype, hip, hscore, h0, h15, fun hs15 => ⟨?_, fun hpre => ?_⟩⟩
  · have := hcur hs15
    unfold get_ip_current at this
    rw [decide_eq_true_eq, hip] at this
    exact this
  · unfold resolv_get_ip_from_response
    simp only
    rw [hlist, get_ip_loop_15 env resolv_opts currentip currentip_sin_family owner record post sc
      hsc hs15 pre _ (by decide) hpre]

/-- Witness for C28: IPv4 and the network 10.0.0.0/8 are preferred, and the
current address 10.0.0.1 is the second record of the list: its score is 15
and the function returns `RSLV_UPD_NO`. -/
theorem resolv_get_ip_from_response_score_witness :
    get_ip_score sample_get_ip_env (sample_options AF_INET) [10, 0, 0, 1] AF_INET none
        (a_item [10, 0, 0, 1] 0)
      = some { ip := [10, 0, 0, 1], ip_type := AF_INET, score := 15, currentip_sel := true }
    ∧ resolv_get_ip_from_response sample_get_ip_env
        (response_of [a_item [1, 2, 3, 4] 0, a_item [10, 0, 0, 1] 0, a_item [10, 0, 0, 2] 0])
        (sample_options AF_INET) [10, 0, 0, 1] AF_INET none
      = { code := .NO, newip := none, newip_sin_family := AF_UNSPEC,
          answer_list := [a_item [1, 2, 3, 4] 0, a_item [10, 0, 0, 1] 0, a_item [10, 0, 0, 2] 0] } :=
  ⟨by decide,
   ((resolv_get_ip_from_response_score sample_get_ip_env
      (response_of [a_item [1, 2, 3, 4] 0, a_item [10, 0, 0, 1] 0, a_item [10, 0, 0, 2] 0])
      (sample_options AF_INET) [10, 0, 0, 1] AF_INET none
      [a_item [1, 2, 3, 4] 0] [a_item [10, 0, 0, 2] 0] (a_item [10, 0, 0, 1] 0)
      { ip := [10, 0, 0, 1], ip_type := AF_INET, score := 15, currentip_sel := true }
      rfl (by decide)).2.2.2.2.2 rfl).2 (by decide)⟩

/-- C29: `resolv_get_ip_from_response` rotates the answer list exactly when it
returns `RSLV_UPD_SRVIP_NOT_FOUND`: the list is then not empty and the new list
is the old one with its first item moved to the end. When it returns
`RSLV_UPD_NO` or `RSLV_UPD_NO_IP_FOUND` the list is unchanged. In all cases the
new list is a permutation of the old one. -/
theorem resolv_get_ip_from_response_rotation (env : get_ip_env) (r_res : resolv_response)
    (resolv_opts : resolv_options) (currentip : List Nat) (currentip_sin_family : Int)
    (owner : Option Nat) :
    ((resolv_get_ip_from_response env r_res resolv_opts currentip currentip_sin_family
          owner).code = .SRVIP_NOT_FOUND →
        ∃ record records, r_res.answer_list = record :: records
          ∧ (resolv_get_ip_from_response env r_res resolv_opts currentip currentip_sin_family
              owner).answer_list = records ++ [record])
    ∧ ((resolv_get_ip_from_response env r_res resolv_opts currentip currentip_sin_family
            owner).code = .NO
        ∨ (resolv_get_ip_from_response env r_res resolv_opts currentip currentip_sin_family
            owner).code = .NO_IP_FOUND →
        (resolv_get_ip_from_response env r_res resolv_opts currentip currentip_sin_family
          owner).answer_list = r_res.answer_list)
    ∧ List.Perm
        (resolv_get_ip_from_response env r_res resolv_opts currentip currentip_sin_family
          owner).answer_list r_res.answer_list := by
  rcases resolv_get_ip_from_response_cases env r_res resolv_opts currentip currentip_sin_family
    owner with ⟨_, ⟨hc, hl⟩ | ⟨hc, record, records, hl, hl2⟩⟩ | ⟨_, hc, hl⟩
  · rw [hc, hl]
    exact ⟨fun h => absurd h (by decide), fun _ => rfl, List.Perm.refl _⟩
  · rw [hc, hl2, hl]
    exact ⟨fun _ => ⟨record, records, rfl, rfl⟩,
      fun h => absurd h (by decide), List.perm_append_singleton record records⟩
  · rw [hc, hl]
    exact ⟨fun h => absurd h (by decide), fun _ => rfl, List.Perm.refl _⟩

/-- C30: `resolv_get_ip_from_response` returns `RSLV_UPD_NO_IP_FOUND` if and
only if the answer list has no record of type A or AAAA that the duplicate
check lets through, that is every record of type A or AAAA has its address
found by the probe for an owner that is set, while duplicates are not
accepted; the records of the other types do not count. -/
theorem resolv_get_ip_from_response_no_ip (env : get_ip_env) (r_res : resolv_response)
    (resolv_opts : resolv_options) (currentip : List Nat) (currentip_sin_family : Int)
    (owner : Option Nat) :
    (resolv_get_ip_from_response env r_res resolv_opts currentip currentip_sin_family
        owner).code = .NO_IP_FOUND
      ↔ ∀ record ∈ r_res.answer_list,
          (record.type = DNS_RTYPE_A ∨ record.type = DNS_RTYPE_AAAA) →
          resolv_opts.accept_duplicate_ip = false
          ∧ ∃ o, owner = some o
            ∧ env.snr_check_ip_callback o record.address
                (if record.type = DNS_RTYPE_A then AF_INET else AF_INET6) = true := by
  rcases resolv_get_ip_from_response_cases env r_res resolv_opts currentip currentip_sin_family
    owner with ⟨⟨record, hmem, sc, hsc⟩, hcode⟩ | ⟨hnone, hc, _⟩
  · constructor
    · intro h
      rcases hcode with ⟨hc, _⟩ | ⟨hc, _⟩
      · rw [hc] at h
        exact absurd h (by decide)
      · rw [hc] at h
        exact absurd h (by decide)
    · intro h
      have := (get_ip_score_none_iff env resolv_opts currentip currentip_sin_family owner
        record).mpr (h record hmem)
      rw [hsc] at this
      exact absurd this (by simp)
  · exact ⟨fun _ record hmem =>
      (get_ip_score_none_iff env resolv_opts currentip currentip_sin_family owner record).mp
        (hnone record hmem), fun _ => hc⟩

/-! ## Theorems: the address handed back with `RSLV_UPD_NO` -/

/-- When `resolv_get_ip_from_response` returns `RSLV_UPD_NO` with an output
address, its loop has ended without a `return` and `currentip_found` is set. -/
theorem resolv_get_ip_from_response_no_found (env : get_ip_env) (r_res : resolv_response)
    (resolv_opts : resolv_options) (currentip : List Nat) (currentip_sin_family : Int)
    (owner : Option Nat) (a : List Nat)
    (hcode : (resolv_get_ip_from_response env r_res resolv_opts currentip currentip_sin_family
      owner).code = .NO)
    (hnew : (resolv_get_ip_from_response env r_res resolv_opts currentip currentip_sin_family
      owner).newip = some a) :
    ∃ l, get_ip_loop env resolv_opts currentip currentip_sin_family owner r_res.answer_list
          { newip4 := none, newip6 := none, currentip_found := false, max_score := -1 } = .ok l
      ∧ l.currentip_found = true := by
  cases hloop : get_ip_loop env resolv_opts currentip currentip_sin_family owner
      r_res.answer_list
      { newip4 := none, newip6 := none, currentip_found := false, max_score := -1 } with
  | error c =>
    unfold resolv_get_ip_from_response at hnew
    simp only [hloop] at hnew
    exact absurd hnew (by simp)
  | ok l =>
    refine ⟨l, rfl, ?_⟩
    cases hc : l.currentip_found with
    | true => rfl
    | false =>
      exfalso
      unfold resolv_get_ip_from_response at hnew hcode
      simp only [hloop] at hnew hcode
      by_cases hset : l.newip4 = none ∧ l.newip6 = none
      · rw [if_pos hset] at hnew
        exact absurd hnew (by simp)
      · rw [if_neg hset] at hnew hcode
        by_cases h4 : resolv_opts.family_prio = AF_INET
        · rw [if_pos h4, if_pos hc] at hcode
          exact absurd hcode (by simp [get_ip_not_found])
        · rw [if_neg h4] at hnew hcode
          by_cases h6 : resolv_opts.family_prio = AF_INET6
          · rw [if_pos h6, if_pos hc] at hcode
            exact absurd hcode (by simp [get_ip_not_found])
          · rw [if_neg h6] at hnew hcode
            by_cases h0 : resolv_opts.family_prio = AF_UNSPEC
            · rw [if_pos h0, if_pos hc] at hcode
              exact absurd hcode (by simp [get_ip_not_found])
            · rw [if_neg h0] at hnew
              exact absurd hnew (by simp)

/-- When `resolv_get_ip_from_response` returns `RSLV_UPD_NO` with an output
address that is the address of the record the spec keeps, that address has the
family and the bytes of `currentip`. -/
theorem resolv_get_ip_from_response_current (env : get_ip_env) (r_res : resolv_response)
    (resolv_opts : resolv_options) (currentip : List Nat) (currentip_sin_family : Int)
    (owner : Option Nat) (a : List Nat)
    (hcode : (resolv_get_ip_from_response env r_res resolv_opts currentip currentip_sin_family
      owner).code = .NO)
    (hnew : (resolv_get_ip_from_response env r_res resolv_opts currentip currentip_sin_family
      owner).newip = some a)
    (hfam : resolv_opts.family_prio ≠ AF_UNSPEC
      ∨ (∃ b, spec_best_record env resolv_opts currentip currentip_sin_family owner
            r_res.answer_list = some b ∧ b.ip_type = AF_INET6)
      ∨ ∀ record ∈ r_res.answer_list, record.type ≠ DNS_RTYPE_AAAA) :
    (((resolv_get_ip_from_response env r_res resolv_opts currentip currentip_sin_family
        owner).newip_sin_family : Nat) : Int) = currentip_sin_family
    ∧ ((currentip_sin_family = AF_INET ∧ a.take 4 = currentip.take 4)
      ∨ (currentip_sin_family = AF_INET6 ∧ a.take 16 = currentip.take 16)) := by
  obtain ⟨b, hb, hba, hbf⟩ := resolv_get_ip_from_response_newip env r_res resolv_opts currentip
    currentip_sin_family owner a hnew hfam
  obtain ⟨l, hloop, hfound⟩ := resolv_get_ip_from_response_no_found env r_res resolv_opts
    currentip currentip_sin_family owner a hcode hnew
  have hinv := get_ip_loop_inv env resolv_opts currentip currentip_sin_family owner
    r_res.answer_list _ l none hloop (by simp only [get_ip_inv, and_self])
  have hbest : (r_res.answer_list.filterMap
      (get_ip_score env resolv_opts currentip currentip_sin_family owner)).foldl
      spec_best_step none
      = spec_best_record env resolv_opts currentip currentip_sin_family owner
          r_res.answer_list := rfl
  rw [hbest, hb] at hinv
  simp only [get_ip_inv] at hinv
  obtain ⟨_, _, hsel, _⟩ := hinv
  obtain ⟨pre, record, post, _, hscore, _⟩ := spec_best_record_first_max env resolv_opts
    currentip currentip_sin_family owner r_res.answer_list b hb
  obtain ⟨_, _, hof⟩ := get_ip_score_some _ _ _ _ _ _ _ hscore
  obtain ⟨_, _, hcur, _⟩ := get_ip_score_of_some _ _ _ _ _ _ _ _ hof
  rw [← hsel, hfound] at hcur
  have h := hcur.symm
  unfold get_ip_current at h
  rw [decide_eq_true_eq, hba] at h
  rw [hbf]
  exact h

/-- C38, counterexample: without a preferred family (`AF_UNSPEC`), for the
list of the AAAA record 2001:db8::1 followed by the A record 10.0.0.1, which is
the current address, the function returns `RSLV_UPD_NO` with the output address
2001:db8::1 of the family `AF_INET6`, where `currentip` is 10.0.0.1 of the
family `AF_INET`. -/
theorem resolv_get_ip_from_response_current_counterexample :
    resolv_get_ip_from_response sample_get_ip_env
        (response_of [aaaa_item sample_ipv6 0, a_item [10, 0, 0, 1] 0])
        (sample_options AF_UNSPEC) [10, 0, 0, 1] AF_INET none
      = { code := .NO, newip := some sample_ipv6, newip_sin_family := AF_INET6,
          answer_list := [aaaa_item sample_ipv6 0, a_item [10, 0, 0, 1] 0] }
    ∧ ((AF_INET6 : Nat) : Int) ≠ ((AF_INET : Nat) : Int)
    ∧ sample_ipv6.take 4 ≠ [10, 0, 0, 1] := by
  decide

/-- C38, as amended: whenever `resolv_get_ip_from_response` returns
`RSLV_UPD_NO` and has set an output address, with a preferred family
(`family_prio` other than `AF_UNSPEC`) that address has the family of
`currentip` and its bytes (the first 4 for IPv4, the first 16 for IPv6).
Without a preferred family it is so when the first record with the greatest
score is of type AAAA, or when the list has no record of type AAAA. -/
theorem resolv_get_ip_from_response_no_change (env : get_ip_env) (r_res : resolv_response)
    (resolv_opts : resolv_options) (currentip : List Nat) (currentip_sin_family : Int)
    (owner : Option Nat) (a : List Nat)
    (hcode : (resolv_get_ip_from_response env r_res resolv_opts currentip currentip_sin_family
      owner).code = .NO)
    (hnew : (resolv_get_ip_from_response env r_res resolv_opts currentip currentip_sin_family
      owner).newip = some a)
    (hfam : resolv_opts.family_prio ≠ AF_UNSPEC
      ∨ (∃ b, spec_best_record env resolv_opts currentip currentip_sin_family owner
            r_res.answer_list = some b ∧ b.ip_type = AF_INET6)
      ∨ ∀ record ∈ r_res.answer_list, record.type ≠ DNS_RTYPE_AAAA) :
    (((resolv_get_ip_from_response env r_res resolv_opts currentip currentip_sin_family
        owner).newip_sin_family : Nat) : Int) = currentip_sin_family
    ∧ ((currentip_sin_family = AF_INET ∧ a.take 4 = currentip.take 4)
      ∨ (currentip_sin_family = AF_INET6 ∧ a.take 16 = currentip.take 16)) :=
  resolv_get_ip_from_response_current env r_res resolv_opts currentip currentip_sin_family
    owner a hcode hnew hfam

/-- Witness for C38: IPv4 is preferred, the list holds 1.2.3.4 then 5.6.7.8,
which is the current address: the function returns `RSLV_UPD_NO` with the
address 5.6.7.8. -/
theorem resolv_get_ip_from_response_no_change_witness :
    (resolv_get_ip_from_response sample_get_ip_env
        (response_of [a_item [1, 2, 3, 4] 0, a_item [5, 6, 7, 8] 0])
        (sample_options AF_INET) [5, 6, 7, 8] AF_INET none).code = .NO
    ∧ (resolv_get_ip_from_response sample_get_ip_env
        (response_of [a_item [1, 2, 3, 4] 0, a_item [5, 6, 7, 8] 0])
        (sample_options AF_INET) [5, 6, 7, 8] AF_INET none).newip = some [5, 6, 7, 8]
    ∧ (((resolv_get_ip_from_response sample_get_ip_env
        (response_of [a_item [1, 2, 3, 4] 0, a_item [5, 6, 7, 8] 0])
        (sample_options AF_INET) [5, 6, 7, 8] AF_INET none).newip_sin_family : Nat) : Int)
      = ((AF_INET : Nat) : Int) :=
  ⟨by decide, by decide,
   (resolv_get_ip_from_response_no_change sample_get_ip_env
     (response_of [a_item [1, 2, 3, 4] 0, a_item [5, 6, 7, 8] 0])
     (sample_options AF_INET) [5, 6, 7, 8] AF_INET none [5, 6, 7, 8] (by decide) (by decide)
     (Or.inl (by decide))).1⟩

/-! ## Theorems: the offset reported by `resolv_read_name` -/

/-- C32, failing input: the name made of the single label `c3 a9` at offset 0
of a 4-byte buffer. The call succeeds and returns 3, the name takes 4 bytes on
the wire, and the offset reported is 3: the walk after `out:` takes the label
byte `c3` for a compression pointer. The same happens for a zero byte inside a
label: for the label `00 61` the offset reported is 2. -/
theorem resolv_read_name_offset_high_byte :
    resolv_read_name [2, 0xc3, 0xa9, 0] 0 DNS_MAX_NAME_SIZE 0
        = .ret 3 [2, 0xc3, 0xa9] (some 3) 0
    ∧ name_wire_size [2, 0xc3, 0xa9, 0] 0 = some 4
    ∧ resolv_read_name [2, 0, 97, 0] 0 DNS_MAX_NAME_SIZE 0 = .ret 3 [2, 0, 97] (some 2) 0
    ∧ name_wire_size [2, 0, 97, 0] 0 = some 4 := by
  decide

/-- For the name `www.ab`, whose label bytes are letters, the offset reported
is the size of the name on the wire, written in full or ended by a pointer. -/
theorem resolv_read_name_offset_sample :
    resolv_read_name (www_ab ++ [0]) 0 DNS_MAX_NAME_SIZE 0 = .ret 7 www_ab (some 8) 0
    ∧ name_wire_size (www_ab ++ [0]) 0 = some 8
    ∧ resolv_read_name ([2, 97, 98, 0, 3, 119, 119, 119, 0xc0, 0]) 4 DNS_MAX_NAME_SIZE 0
        = .ret 7 www_ab (some 6) 1
    ∧ name_wire_size ([2, 97, 98, 0, 3, 119, 119, 119, 0xc0, 0]) 4 = some 6 := by
  decide

/-! ## Theorems: the owner name of an answer record -/

/-- A record after the first whose name differs from the expected name within
its own length makes the pass of the answer loop return
`RSLV_RESP_CNAME_ERROR`, for a question that is not SRV. -/
theorem validate_answer_record_cname_error (resp : List Nat) (now query_type ancount i : Nat)
    (st : validate_answers) (len : Nat) (tmpname : List Nat) (offset : Option Nat) (ptrs : Nat)
    (hreader : st.reader < resp.length)
    (hname : resolv_read_name resp st.reader DNS_MAX_NAME_SIZE 0 = .ret len tmpname offset ptrs)
    (hlen : len ≠ 0) (hq : query_type ≠ DNS_RTYPE_SRV) (hi : i ≠ 0)
    (hcmp : resolv_hostname_cmp st.previous_dname tmpname len ≠ 0) :
    validate_answer_record resp now query_type ancount i st
      = .error (.CNAME_ERROR, st.answer_list) := by
  unfold validate_answer_record
  simp only [hname]
  rw [if_neg (by omega), if_neg hlen, if_pos ⟨hq, hcmp⟩, if_neg hi]

/-- C33, failing input: the response to the A question `www.ab` with two A
answers, the first for `www.ab` and the second for `www`. The name of the
second record (4 bytes in label form) is not the expected name `www.ab` (7
bytes), and yet the response is valid and both addresses are stored: only the
first 4 bytes of the expected name are compared. A second record for `www.ac`
or for `www.ab.x` gives `RSLV_RESP_CNAME_ERROR`. -/
theorem resolv_validate_dns_response_owner_prefix :
    resolv_validate_dns_response (two_a_response [3, 119, 119, 119, 0]) empty_response 31
        1000 0
      = (.VALID,
         { header := { id := 0x1234, qdcount := 1, ancount := 2, nscount := 0, arcount := 2 },
           query_list := [{ name := www_ab, type := 1, class_ := 1 }],
           answer_list :=
             [{ pool_alloc_answer_item with
                type := 1, class_ := 1, ttl := 300, data_len := 4, family := AF_INET,
                address := [1, 2, 3, 4], name := www_ab, last_seen := 1000, ar_item := none },
              { pool_alloc_answer_item with
                type := 1, class_ := 1, ttl := 300, data_len := 4, family := AF_INET,
                address := [5, 6, 7, 8], name := [3, 119, 119, 119], last_seen := 1000,
                ar_item := none }] })
    ∧ (resolv_validate_dns_response (two_a_response (www_ac ++ [0])) empty_response 31
        1000 0).1 = .CNAME_ERROR
    ∧ (resolv_validate_dns_response (two_a_response (www_ab_x ++ [0])) empty_response 31
        1000 0).1 = .CNAME_ERROR := by
  refine ⟨?_, ?_, ?_⟩ <;> decide

/-! ## Theorems: the additional records of an SRV response -/

/-- C40, failing input: the SRV response whose additional section holds a TXT
record with 4 bytes of rdata followed by the A record of the target. The
response is valid, but the A record is not attached to the SRV item: after the
TXT record the cursor is at the start of its rdata, not after it, and the next
record is read from there (its owner is read as `abc.backend.example`). With
the A record alone, or after a TXT record without rdata, it is attached. -/
theorem resolv_validate_dns_response_additional_rdata :
    (resolv_validate_dns_response (srv_additional_response txt_record glue_record)
        empty_response 31 1000 0).1 = .VALID
    ∧ (resolv_validate_dns_response (srv_additional_response txt_record glue_record)
        empty_response 31 1000 0).2.answer_list = [sample_srv_item none]
    ∧ (resolv_validate_dns_response
        (srv_additional_response (backend_example ++ [0] ++ [0, 16, 0, 1, 0, 0, 0, 60, 0, 0])
          glue_record)
        empty_response 31 1000 0).2.answer_list = [sample_srv_item (some sample_glue)] := by
  refine ⟨?_, ?_, ?_⟩ <;> decide

/-! ## Theorems: the status after a response for another name -/

/-- C36, failing input: the running resolution of the sample section is for
`www.ab` and has the status NONE; the response with its query id is for
`www.ac`. The error callback is called with `RSLV_RESP_WRONG_NAME` and the
resolution goes back to the wait list, but its status is still NONE, not
OTHER. In the section where the resolution runs again after a valid response,
the status after such a response is still VALID. -/
theorem process_response_wrong_name_status :
    sample_resolution.status = .NONE
    ∧ (process_response (sample_env 1200) 12 11 0
        (a_response_id 63983 www_ac [0xc0, 12] [1, 2, 3, 4]) [] sample_section_running).events
      = sample_section_running.events
        ++ [.requester_error_cb (server_requester 1) (.resp .WRONG_NAME)]
    ∧ (process_response (sample_env 1200) 12 11 0
        (a_response_id 63983 www_ac [0xc0, 12] [1, 2, 3, 4]) [] sample_section_running).curr
      = []
    ∧ (process_response (sample_env 1200) 12 11 0
        (a_response_id 63983 www_ac [0xc0, 12] [1, 2, 3, 4]) []
        sample_section_running).wait.map (fun res => (res.step, res.status))
      = [(.NONE, .NONE)]
    ∧ sample_section_rerun.curr.map (fun res => (res.step, res.status, res.query_id))
      = [(.RUNNING, .VALID, 9692)]
    ∧ (process_response (sample_env 2400) 12 11 0
        (a_response_id 9692 www_ac [0xc0, 12] [1, 2, 3, 4]) []
        sample_section_rerun).wait.map (fun res => (res.step, res.status, res.last_valid))
      = [(.NONE, .VALID, 1200)] := by
  refine ⟨?_, ?_, ?_, ?_, ?_, ?_⟩ <;> decide

/-! ## Theorems: the answer list of a response that is rejected early -/

/-- Past the header, the question and the test of the TC flag,
`resolv_validate_dns_response` returns `INVALID`, `CNAME_ERROR` or `VALID`
only. -/
theorem validate_records_code (resp : List Nat) (r_res : resolv_response)
    (max_answer_records : Int) (now hold_obsolete : Nat) (q : validate_question)
    (hq : validate_header_question resp r_res max_answer_records = .ok q)
    (htc : ¬ (q.query.type ≠ DNS_RTYPE_SRV ∧ q.flags &&& DNS_FLAG_TRUNCATED ≠ 0)) :
    (resolv_validate_dns_response resp r_res max_answer_records now hold_obsolete).1 = .INVALID
    ∨ (resolv_validate_dns_response resp r_res max_answer_records now hold_obsolete).1
        = .CNAME_ERROR
    ∨ (resolv_validate_dns_response resp r_res max_answer_records now hold_obsolete).1
        = .VALID := by
  unfold resolv_validate_dns_response
  rw [hq]
  dsimp only
  rw [if_neg htc]
  split
  · rename_i e he
    rcases validate_answer_loop_error _ _ _ _ _ _ _ _ he with h | h
    · exact Or.inl h
    · exact Or.inr (Or.inl h)
  · split
    · exact Or.inr (Or.inr rfl)
    · split
      · exact Or.inl rfl
      · split
        · rename_i e he
          exact Or.inl (validate_additional_loop_error _ _ _ _ _ he)
        · exact Or.inr (Or.inr rfl)

/-- A response rejected with a code other than `INVALID`, `CNAME_ERROR` and
`VALID` leaves the answer list as it was. -/
theorem validate_rejected_answer_list (resp : List Nat) (r_res : resolv_response)
    (max_answer_records : Int) (now hold_obsolete : Nat)
    (h1 : (resolv_validate_dns_response resp r_res max_answer_records now hold_obsolete).1
      ≠ .INVALID)
    (h2 : (resolv_validate_dns_response resp r_res max_answer_records now hold_obsolete).1
      ≠ .CNAME_ERROR)
    (h3 : (resolv_validate_dns_response resp r_res max_answer_records now hold_obsolete).1
      ≠ .VALID) :
    (resolv_validate_dns_response resp r_res max_answer_records now hold_obsolete).2.answer_list
      = r_res.answer_list := by
  cases hq : validate_header_question resp r_res max_answer_records with
  | error e =>
    unfold resolv_validate_dns_response
    rw [hq]
    exact validate_header_question_error resp r_res max_answer_records e hq
  | ok q =>
    by_cases htc : q.query.type ≠ DNS_RTYPE_SRV ∧ q.flags &&& DNS_FLAG_TRUNCATED ≠ 0
    · unfold resolv_validate_dns_response
      rw [hq]
      dsimp only
      rw [if_pos htc]
      exact (validate_header_question_ok resp r_res max_answer_records q hq).2.2.2.2.2.2.2.2.1
    · rcases validate_records_code resp r_res max_answer_records now hold_obsolete q hq htc
        with h | h | h
      · exact absurd h h1
      · exact absurd h h2
      · exact absurd h h3

/-- C39: when `resolv_validate_dns_response` returns `RSLV_RESP_NX_DOMAIN`,
`RSLV_RESP_REFUSED`, `RSLV_RESP_ERROR`, `RSLV_RESP_QUERY_COUNT_ERROR`,
`RSLV_RESP_ANCOUNT_ZERO` or `RSLV_RESP_TRUNCATED`, the answer list of the
resolution is exactly as it was before the call. -/
theorem resolv_validate_dns_response_rejected (resp : List Nat) (r_res : resolv_response)
    (max_answer_records : Int) (now hold_obsolete : Nat)
    (h : (resolv_validate_dns_response resp r_res max_answer_records now hold_obsolete).1
          = .NX_DOMAIN
      ∨ (resolv_validate_dns_response resp r_res max_answer_records now hold_obsolete).1
          = .REFUSED
      ∨ (resolv_validate_dns_response resp r_res max_answer_records now hold_obsolete).1
          = .ERROR
      ∨ (resolv_validate_dns_response resp r_res max_answer_records now hold_obsolete).1
          = .QUERY_COUNT_ERROR
      ∨ (resolv_validate_dns_response resp r_res max_answer_records now hold_obsolete).1
          = .ANCOUNT_ZERO
      ∨ (resolv_validate_dns_response resp r_res max_answer_records now hold_obsolete).1
          = .TRUNCATED) :
    (resolv_validate_dns_response resp r_res max_answer_records now hold_obsolete).2.answer_list
      = r_res.answer_list := by
  apply validate_rejected_answer_list
  all_goals
    intro hc
    rw [hc] at h
    revert h
    decide

/-- Witness for C39: the NXDOMAIN response on a resolution whose answer list
holds the address 1.2.3.4 seen at 500 and an SRV item with its additional
record. -/
theorem resolv_validate_dns_response_rejected_witness :
    (resolv_validate_dns_response (nx_response 63983)
        (response_of [a_item [1, 2, 3, 4] 500, sample_srv_item (some sample_glue)])
        45 1200 0).1 = .NX_DOMAIN
    ∧ (resolv_validate_dns_response (nx_response 63983)
        (response_of [a_item [1, 2, 3, 4] 500, sample_srv_item (some sample_glue)])
        45 1200 0).2.answer_list
      = [a_item [1, 2, 3, 4] 500, sample_srv_item (some sample_glue)] :=
  ⟨by decide,
   resolv_validate_dns_response_rejected (nx_response 63983)
     (response_of [a_item [1, 2, 3, 4] 500, sample_srv_item (some sample_glue)])
     45 1200 0 (Or.inl (by decide))⟩

/-! ## Theorems: the root name -/

/-- The walk after `out:` on a buffer that starts with a zero byte. -/
theorem read_name_offset_zero (rest : List Nat) : read_name_offset (0 :: rest) 0 = 1 := by
  rw [read_name_offset]
  have c2 : ¬ (0 &&& 0xc0 = 0xc0) := by decide
  simp only [c2, ↓reduceIte]

/-- On a zero byte `resolv_read_name_fuel` returns at once, with the bytes
counted so far. -/
theorem read_name_fuel_zero (buffer : List Nat) (fuel name reader nb_bytes : Nat)
    (dest : List Nat) (dest_len : Int) (depth : Nat)
    (hz : buffer[reader]? = some 0) :
    resolv_read_name_fuel buffer (fuel + 1) name reader nb_bytes dest dest_len depth
      = .ret nb_bytes dest (some (read_name_offset (buffer.drop name) 0)) 0 := by
  have hlt : reader < buffer.length := by
    rcases List.getElem?_eq_some_iff.mp hz with ⟨h, _⟩
    exact h
  have c1 : ¬ (reader ≥ buffer.length) := by omega
  have c2 : ¬ (0 &&& 0xc0 = 0xc0) := by decide
  rw [resolv_read_name_fuel]
  simp only [c1, ↓reduceIte, hz, c2]

/-- The root name written as a zero byte: `resolv_read_name` returns 0. -/
theorem resolv_read_name_zero (buffer : List Nat) (name : Nat) (dest_len : Int) (depth : Nat)
    (hz : buffer[name]? = some 0) :
    resolv_read_name buffer name dest_len depth = .ret 0 [] (some 1) 0 := by
  have hlt : name < buffer.length := by
    rcases List.getElem?_eq_some_iff.mp hz with ⟨h, _⟩
    exact h
  have hd : buffer.drop name = 0 :: buffer.drop (name + 1) := by
    rw [List.drop_eq_getElem_cons hlt]
    congr 1
    rcases List.getElem?_eq_some_iff.mp hz with ⟨_, h2⟩
    exact h2
  unfold resolv_read_name read_name_budget
  obtain ⟨f, hf⟩ : ∃ f, (buffer.length + 1) * 103 = f + 1 := ⟨(buffer.length + 1) * 103 - 1, by omega⟩
  rw [hf, read_name_fuel_zero buffer f name name 0 [] dest_len depth hz, hd,
    read_name_offset_zero]

/-- The root name written as a compression pointer to a zero byte:
`resolv_read_name` returns 0. -/
theorem resolv_read_name_pointer_zero (buffer : List Nat) (name : Nat) (dest_len : Int)
    (depth c c1 : Nat)
    (hc : buffer[name]? = some c) (hptr : c &&& 0xc0 = 0xc0)
    (hc1 : buffer[name + 1]? = some c1) (hback : c1 ≤ name) (hdepth : depth ≤ 100)
    (hz : buffer[(c &&& 0x3f) * 256 + c1]? = some 0) :
    resolv_read_name buffer name dest_len depth = .ret 0 [] (some 1) 1 := by
  have hlt : name + 1 < buffer.length := by
    rcases List.getElem?_eq_some_iff.mp hc1 with ⟨h, _⟩
    exact h
  have hlt2 : (c &&& 0x3f) * 256 + c1 < buffer.length := by
    rcases List.getElem?_eq_some_iff.mp hz with ⟨h, _⟩
    exact h
  have hd : buffer.drop ((c &&& 0x3f) * 256 + c1)
      = 0 :: buffer.drop ((c &&& 0x3f) * 256 + c1 + 1) := by
    rw [List.drop_eq_getElem_cons hlt2]
    congr 1
    rcases List.getElem?_eq_some_iff.mp hz with ⟨_, h2⟩
    exact h2
  unfold resolv_read_name read_name_budget
  obtain ⟨f, hf⟩ : ∃ f, (buffer.length + 1) * 103 = f + 1 + 1 :=
    ⟨(buffer.length + 1) * 103 - 2, by omega⟩
  rw [hf, resolv_read_name_fuel]
  have c1' : ¬ (name ≥ buffer.length) := by omega
  have c2' : ¬ (name + 1 ≥ buffer.length) := by omega
  have c3' : ¬ (c1 > name) := by omega
  have c4' : ¬ (depth > 100) := by omega
  simp only [c1', ↓reduceIte, hc, hptr, c2', hc1, c3', c4']
  rw [read_name_fuel_zero buffer f _ _ 0 [] _ (depth + 1) hz, hd, read_name_offset_zero]
  simp only [↓reduceIte, List.append_nil]

/-- A root name as the question makes the parsing of the question fail with
`RSLV_RESP_INVALID`. -/
theorem validate_header_question_root (resp : List Nat) (r_res : resolv_response)
    (max_answer_records : Int) (d : List Nat) (o : Option Nat) (p : Nat)
    (hlen : 12 < resp.length)
    (hrc : read_n16 resp 2 &&& DNS_FLAG_REPLYCODE = DNS_RCODE_NO_ERROR)
    (hqd : read_n16 resp 4 = 1)
    (han : read_n16 resp 6 ≠ 0) (hmax : (read_n16 resp 6 : Int) ≤ max_answer_records)
    (hname : resolv_read_name resp 12 DNS_MAX_NAME_SIZE 0 = .ret 0 d o p) :
    ∃ r, validate_header_question resp r_res max_answer_records = .error (.INVALID, r) := by
  have h1 : ¬ (0 + 2 ≥ resp.length) := by omega
  have h2 : ¬ (0 + 2 + 2 ≥ resp.length) := by omega
  have hrc2 : read_n16 resp (0 + 2) &&& DNS_FLAG_REPLYCODE = DNS_RCODE_NO_ERROR := hrc
  have h3 : ¬ (0 + 2 + 2 + 2 ≥ resp.length) := by omega
  have hqd1 : read_n16 resp (0 + 2 + 2) = 1 := hqd
  have hqd2 : ¬ (1 > DNS_MAX_QUERY_RECORDS) := by decide
  have h4 : ¬ (0 + 2 + 2 + 2 + 2 ≥ resp.length) := by omega
  have han2 : ¬ (read_n16 resp (0 + 2 + 2 + 2) = 0) := han
  have hmax2 : ¬ ((read_n16 resp (0 + 2 + 2 + 2) : Int) > max_answer_records) := by
    have : (read_n16 resp (0 + 2 + 2 + 2) : Int) ≤ max_answer_records := hmax
    omega
  have h5 : ¬ (0 + 2 + 2 + 2 + 2 + 2 ≥ resp.length) := by omega
  have h6 : ¬ (0 + 2 + 2 + 2 + 2 + 2 + 2 ≥ resp.length) := by omega
  have hname2 : resolv_read_name resp (0 + 2 + 2 + 2 + 2 + 2 + 2) DNS_MAX_NAME_SIZE 0
      = .ret 0 d o p := hname
  unfold validate_header_question
  simp only [h1, h2, hrc2, h3, hqd1, hqd2, h4, han2, hmax2, h5, h6, hname2, ne_eq,
    not_true_eq_false, not_false_eq_true, ↓reduceIte]
  exact ⟨_, rfl⟩

/-- A root name as the owner of an answer record makes the pass of the answer
loop fail with `RSLV_RESP_INVALID`. -/
theorem validate_answer_record_root (resp : List Nat) (now query_type ancount i : Nat)
    (st : validate_answers) (d : List Nat) (o : Option Nat) (p : Nat)
    (hreader : st.reader < resp.length)
    (hname : resolv_read_name resp st.reader DNS_MAX_NAME_SIZE 0 = .ret 0 d o p) :
    validate_answer_record resp now query_type ancount i st
      = .error (.INVALID, st.answer_list) := by
  unfold validate_answer_record
  simp only [hname]
  rw [if_neg (by omega)]
  simp only [↓reduceIte]

/-- A root name as the target of a CNAME record that is not the last record,
or as the target of an SRV record, makes the switch on the record type fail
with `RSLV_RESP_INVALID`. -/
theorem answer_record_content_root (resp : List Nat) (ancount i : Nat)
    (previous_dname tmpname : List Nat) (f : record_fields) (d : List Nat) (o : Option Nat)
    (p : Nat) :
    (f.type = DNS_RTYPE_CNAME → i + 1 ≠ ancount →
      resolv_read_name resp f.reader DNS_MAX_NAME_SIZE 0 = .ret 0 d o p →
      answer_record_content resp ancount i previous_dname tmpname f = .error .INVALID)
    ∧ (f.type = DNS_RTYPE_SRV →
      resolv_read_name resp (f.reader + 2 + 2 + 2) DNS_MAX_NAME_SIZE 0 = .ret 0 d o p →
      answer_record_content resp ancount i previous_dname tmpname f = .error .INVALID) := by
  constructor
  · intro ht hi hname
    have hA : ¬ (f.type = DNS_RTYPE_A) := by rw [ht]; decide
    unfold answer_record_content
    dsimp only
    rw [if_neg hA, if_pos ht, if_neg hi]
    simp only [hname, ↓reduceIte]
  · intro ht hname
    have hA : ¬ (f.type = DNS_RTYPE_A) := by rw [ht]; decide
    have hC : ¬ (f.type = DNS_RTYPE_CNAME) := by rw [ht]; decide
    unfold answer_record_content
    dsimp only
    rw [if_neg hA, if_neg hC, if_pos ht]
    by_cases h6 : f.data_len ≤ 6
    · rw [if_pos h6]
    · rw [if_neg h6]
      simp only [hname, ↓reduceIte]

/-- A root name as the owner of an authority record or of an additional record
makes the pass of the loop end on a `continue`: the reader and the answer list
are where they were. -/
theorem validate_skipped_record_root (resp : List Nat) (now : Nat) (st : validate_answers)
    (d : List Nat) (o : Option Nat) (p : Nat)
    (hname : resolv_read_name resp st.reader DNS_MAX_NAME_SIZE 0 = .ret 0 d o p) :
    validate_authority_record resp st.reader = some st.reader
    ∧ (st.reader < resp.length → validate_additional_record resp now st = .ok st) := by
  constructor
  · unfold validate_authority_record
    simp only [hname, ↓reduceIte]
  · intro hreader
    unfold validate_additional_record
    simp only [hname]
    rw [if_neg (by omega)]
    simp only [↓reduceIte]

/-- C37, counterexample: the SRV response whose additional section holds the A
record of the target followed by the OPT record of EDNS, whose owner is the
root name. `resolv_read_name` returns 0 on the owner of the OPT record, and the
response is valid, with the A record attached: the loop over the additional
records goes on to the next record where the loops over the question and the
answers return `RSLV_RESP_INVALID`. -/
theorem resolv_validate_dns_response_root_owner_counterexample :
    resolv_read_name (srv_additional_response glue_record opt_record) 102 DNS_MAX_NAME_SIZE 0
        = .ret 0 [] (some 1) 0
    ∧ (resolv_validate_dns_response (srv_additional_response glue_record opt_record)
        empty_response 31 1000 0).1 = .VALID
    ∧ (resolv_validate_dns_response (srv_additional_response glue_record opt_record)
        empty_response 31 1000 0).2.answer_list = [sample_srv_item (some sample_glue)] := by
  refine ⟨?_, ?_, ?_⟩ <;> decide

/-- C37, as amended: `resolv_read_name` cannot decode the root name. When the
name at the cursor is a single zero byte, or a compression pointer that leads
to a zero byte, it returns 0, the value it returns on error. The callers in
the question and in the answer section (question name, owner of an answer,
target of a CNAME or of an SRV record) then return `RSLV_RESP_INVALID`; the
loops over the authority and the additional records pass over the record with
a `continue`, the reader staying where it is. -/
theorem resolv_read_name_root :
    (∀ (buffer : List Nat) (name : Nat) (dest_len : Int) (depth : Nat),
      buffer[name]? = some 0 →
      resolv_read_name buffer name dest_len depth = .ret 0 [] (some 1) 0)
    ∧ (∀ (buffer : List Nat) (name : Nat) (dest_len : Int) (depth c c1 : Nat),
      buffer[name]? = some c → c &&& 0xc0 = 0xc0 → buffer[name + 1]? = some c1 →
      c1 ≤ name → depth ≤ 100 → buffer[(c &&& 0x3f) * 256 + c1]? = some 0 →
      resolv_read_name buffer name dest_len depth = .ret 0 [] (some 1) 1)
    ∧ (∀ (resp : List Nat) (r_res : resolv_response) (max_answer_records : Int)
        (now hold_obsolete : Nat) (d : List Nat) (o : Option Nat) (p : Nat),
      12 < resp.length → read_n16 resp 2 &&& DNS_FLAG_REPLYCODE = DNS_RCODE_NO_ERROR →
      read_n16 resp 4 = 1 → read_n16 resp 6 ≠ 0 →
      (read_n16 resp 6 : Int) ≤ max_answer_records →
      resolv_read_name resp 12 DNS_MAX_NAME_SIZE 0 = .ret 0 d o p →
      (resolv_validate_dns_response resp r_res max_answer_records now hold_obsolete).1
        = .INVALID)
    ∧ (∀ (resp : List Nat) (now query_type ancount i : Nat) (st : validate_answers)
        (d : List Nat) (o : Option Nat) (p : Nat),
      st.reader < resp.length →
      resolv_read_name resp st.reader DNS_MAX_NAME_SIZE 0 = .ret 0 d o p →
      validate_answer_record resp now query_type ancount i st
        = .error (.INVALID, st.answer_list))
    ∧ (∀ (resp : List Nat) (ancount i : Nat) (previous_dname tmpname : List Nat)
        (f : record_fields) (d : List Nat) (o : Option Nat) (p : Nat),
      (f.type = DNS_RTYPE_CNAME → i + 1 ≠ ancount →
        resolv_read_name resp f.reader DNS_MAX_NAME_SIZE 0 = .ret 0 d o p →
        answer_record_content resp ancount i previous_dname tmpname f = .error .INVALID)
      ∧ (f.type = DNS_RTYPE_SRV →
        resolv_read_name resp (f.reader + 2 + 2 + 2) DNS_MAX_NAME_SIZE 0 = .ret 0 d o p →
        answer_record_content resp ancount i previous_dname tmpname f = .error .INVALID))
    ∧ (∀ (resp : List Nat) (now : Nat) (st : validate_answers) (d : List Nat)
        (o : Option Nat) (p : Nat),
      resolv_read_name resp st.reader DNS_MAX_NAME_SIZE 0 = .ret 0 d o p →
      validate_authority_record resp st.reader = some st.reader
      ∧ (st.reader < resp.length → validate_additional_record resp now st = .ok st)) := by
  refine ⟨resolv_read_name_zero, resolv_read_name_pointer_zero, ?_,
    validate_answer_record_root, answer_record_content_root, validate_skipped_record_root⟩
  intro resp r_res max_answer_records now hold_obsolete d o p hlen hrc hqd han hmax hname
  obtain ⟨r, hr⟩ := validate_header_question_root resp r_res max_answer_records d o p hlen hrc
    hqd han hmax hname
  unfold resolv_validate_dns_response
  rw [hr]

/-- Witness for C37: the root name alone in a buffer, and a pointer to it. -/
theorem resolv_read_name_root_witness :
    resolv_read_name [0] 0 DNS_MAX_NAME_SIZE 0 = .ret 0 [] (some 1) 0
    ∧ resolv_read_name [0, 0xc0, 0] 1 DNS_MAX_NAME_SIZE 0 = .ret 0 [] (some 1) 1 :=
  ⟨resolv_read_name_root.1 [0] 0 DNS_MAX_NAME_SIZE 0 rfl,
   resolv_read_name_root.2.1 [0, 0xc0, 0] 1 DNS_MAX_NAME_SIZE 0 0xc0 0 rfl (by decide) rfl
     (by decide) (by decide) rfl⟩

/-! ## Theorems: the tree of the query ids, and the last requester of a resolution -/

/-- The keys of two lists of resolutions put end to end. -/
theorem qid_keys_append (a b : List resolv_resolution) :
    qid_keys (a ++ b) = qid_keys a ++ qid_keys b := by
  unfold qid_keys
  rw [List.filter_append, List.map_append]

/-- The keys of the tree around the resolution a pointer points to: removing
the resolution from its list removes its key, and storing other fields in it
puts the key of these fields in place of it. -/
theorem query_ids_ptr (s : resolvers) (r : res_ptr) (hv : res_ptr_valid s r) :
    ∃ A B, query_ids s = A ++ qid_keys [r.res] ++ B
      ∧ query_ids (list_delete s r) = A ++ B
      ∧ ∀ res2, query_ids (store_resolution s r res2) = A ++ qid_keys [res2] ++ B := by
  have hc : ∀ (x : resolv_resolution) (l : List resolv_resolution),
      qid_keys (x :: l) = qid_keys [x] ++ qid_keys l := fun x l => qid_keys_append [x] l
  unfold res_ptr_valid at hv
  unfold query_ids list_delete store_resolution
  by_cases hon : r.on_curr = true
  · simp only [hon, ↓reduceIte] at hv ⊢
    refine ⟨qid_keys r.before, qid_keys r.after ++ qid_keys s.wait, ?_, ?_, fun res2 => ?_⟩
    · simp only [hv, qid_keys_append, hc r.res r.after, List.append_assoc]
    · simp only [qid_keys_append, List.append_assoc]
    · simp only [qid_keys_append, hc res2 r.after, List.append_assoc]
  · simp only [hon, Bool.false_eq_true, ↓reduceIte] at hv ⊢
    refine ⟨qid_keys s.curr ++ qid_keys r.before, qid_keys r.after, ?_, ?_, fun res2 => ?_⟩
    · simp only [hv, qid_keys_append, hc r.res r.after, List.append_assoc]
    · simp only [qid_keys_append, List.append_assoc]
    · simp only [qid_keys_append, hc res2 r.after, List.append_assoc]

/-- A key is found by `eb32_lookup` exactly when it is among the keys of the
tree. -/
theorem eb32_lookup_none_iff (s : resolvers) (query_id : Nat) :
    (eb32_lookup s query_id).isNone = true ↔ query_id ∉ query_ids s := by
  unfold eb32_lookup query_ids qid_keys
  constructor
  · intro h hin
    have hn : find_resolution (fun res => res.qid_linked && res.qid_key == query_id) s = none := by
      cases hf : find_resolution (fun res => res.qid_linked && res.qid_key == query_id) s with
      | none => rfl
      | some x => rw [hf] at h; exact Bool.noConfusion h
    obtain ⟨R, hR, hk⟩ := List.mem_map.mp hin
    obtain ⟨hR1, hR2⟩ := List.mem_filter.mp hR
    have := find_resolution_none _ s hn R hR1
    simp only [hR2, hk, beq_self_eq_true, Bool.and_self, Bool.true_eq_false] at this
  · intro h
    rw [find_resolution_eq_none _ s (fun R hR => ?_)]
    · rfl
    · by_cases hl : R.qid_linked = true
      · by_cases hk : R.qid_key = query_id
        · exact absurd (List.mem_map.mpr ⟨R, List.mem_filter.mpr ⟨hR, hl⟩, hk⟩) h
        · simp only [hl, Bool.true_and, beq_eq_false_iff_ne, ne_eq, hk, not_false_eq_true]
      · simp only [Bool.not_eq_true] at hl
        simp only [hl, Bool.false_and]

/-- Unlinking a requester that has no resolution changes nothing. -/
theorem resolv_unlink_resolution_none (env : resolv_env) (s : resolvers)
    (requester : resolv_requester) (safe : Int)
    (hfind : find_resolution (fun res => decide (requester ∈ res.requesters)) s = none) :
    resolv_unlink_resolution env s requester safe = s := by
  unfold resolv_unlink_resolution
  rw [hfind]

/-- Unlinking the last requester of a resolution with `safe` at 0 releases the
resolution. -/
theorem resolv_unlink_resolution_free (env : resolv_env) (s : resolvers)
    (requester : resolv_requester) (r : res_ptr)
    (hfind : find_resolution (fun res => decide (requester ∈ res.requesters)) s = some r)
    (hlast : r.res.requesters.erase requester = []) :
    resolv_unlink_resolution env s requester 0 = list_delete s r := by
  unfold resolv_unlink_resolution
  rw [hfind]
  dsimp only
  rw [hlast]
  dsimp only
  rw [if_neg (by decide)]
  rfl

/-- Unlinking the last requester of a resolution with `safe` set resets the
resolution where it is. -/
theorem resolv_unlink_resolution_safe (env : resolv_env) (s : resolvers)
    (requester : resolv_requester) (safe : Int) (r : res_ptr)
    (hfind : find_resolution (fun res => decide (requester ∈ res.requesters)) s = some r)
    (hlast : r.res.requesters.erase requester = []) (hsafe : safe ≠ 0) :
    resolv_unlink_resolution env s requester safe
      = store_resolution s r
          (resolv_purge_resolution_answer_records
            { resolv_reset_resolution env { r.res with requesters := [] } with
              hostname_dn := none, hostname_dn_len := 0 }) := by
  unfold resolv_unlink_resolution
  rw [hfind]
  dsimp only
  rw [hlast]
  dsimp only
  rw [if_pos hsafe]

/-- The lists after `list_delete` and `store_resolution`. -/
theorem list_delete_store_lists (s : resolvers) (r : res_ptr) (res2 : resolv_resolution) :
    (list_delete s r).curr = (if r.on_curr then r.before ++ r.after else s.curr)
    ∧ (list_delete s r).wait = (if r.on_curr then s.wait else r.before ++ r.after)
    ∧ (store_resolution s r res2).curr
        = (if r.on_curr then r.before ++ res2 :: r.after else s.curr)
    ∧ (store_resolution s r res2).wait
        = (if r.on_curr then s.wait else r.before ++ res2 :: r.after) := by
  unfold list_delete store_resolution
  cases r.on_curr <;> exact ⟨rfl, rfl, rfl, rfl⟩

/-- C31: let `r` point to the resolution of a requester, the requester being
the last one of the resolution; `r` points into `resolutions.curr` or
`resolutions.wait`, and the keys of the tree `query_ids` are `A`, then the key
of the resolution if its node is in the tree, then `B`. After
`resolv_unlink_resolution` with `safe` at 0 the resolution is released: the
list it was on is what was before it followed by what was after it, the other
list is unchanged, and the keys of the tree are `A` then `B`. With `safe` not 0
the resolution stays at its place on the list it was on, with the step NONE,
`try` 0, no hostname, `hostname_dn_len` 0, its node out of the tree (the keys
are `A` then `B`), an empty `answer_list` and no requester. In both cases the
requester is linked to nothing in what remains of the resolution. Unlinking a
requester that has no resolution changes nothing. -/
theorem resolv_unlink_resolution_last (env : resolv_env) (s : resolvers)
    (requester : resolv_requester) (safe : Int) (r : res_ptr)
    (hfind : find_resolution (fun res => decide (requester ∈ res.requesters)) s = some r)
    (hlast : r.res.requesters.erase requester = []) :
    ∃ A B,
      res_ptr_valid s r
      ∧ requester ∈ r.res.requesters
      ∧ query_ids s = A ++ qid_keys [r.res] ++ B
      ∧ (safe = 0 →
          resolv_unlink_resolution env s requester safe = list_delete s r
          ∧ (resolv_unlink_resolution env s requester safe).curr
              = (if r.on_curr then r.before ++ r.after else s.curr)
          ∧ (resolv_unlink_resolution env s requester safe).wait
              = (if r.on_curr then s.wait else r.before ++ r.after)
          ∧ query_ids (resolv_unlink_resolution env s requester safe) = A ++ B)
      ∧ (safe ≠ 0 →
          ∃ res2,
            resolv_unlink_resolution env s requester safe = store_resolution s r res2
            ∧ (resolv_unlink_resolution env s requester safe).curr
                = (if r.on_curr then r.before ++ res2 :: r.after else s.curr)
            ∧ (resolv_unlink_resolution env s requester safe).wait
                = (if r.on_curr then s.wait else r.before ++ res2 :: r.after)
            ∧ query_ids (resolv_unlink_resolution env s requester safe) = A ++ B
            ∧ res2.uuid = r.res.uuid
            ∧ res2.step = .NONE
            ∧ res2.try_ = 0
            ∧ res2.hostname_dn = none
            ∧ res2.hostname_dn_len = 0
            ∧ res2.qid_linked = false
            ∧ res2.response.answer_list = []
            ∧ res2.requesters = [])
      ∧ (∀ (other : resolv_requester) (safe2 : Int),
          find_resolution (fun res => decide (other ∈ res.requesters)) s = none →
            resolv_unlink_resolution env s other safe2 = s) := by
  obtain ⟨hv, hm⟩ := find_resolution_some _ s r hfind
  obtain ⟨A, B, hA, hd, hs⟩ := query_ids_ptr s r hv
  refine ⟨A, B, hv, of_decide_eq_true hm, hA, fun h0 => ?_, fun h1 => ?_,
    fun other safe2 hn => resolv_unlink_resolution_none env s other safe2 hn⟩
  · subst h0
    rw [resolv_unlink_resolution_free env s requester r hfind hlast]
    exact ⟨rfl, (list_delete_store_lists s r r.res).1, (list_delete_store_lists s r r.res).2.1, hd⟩
  · rw [resolv_unlink_resolution_safe env s requester safe r hfind hlast h1]
    refine ⟨_, rfl, (list_delete_store_lists s r _).2.2.1, (list_delete_store_lists s r _).2.2.2,
      ?_, rfl, rfl, rfl, rfl, rfl, rfl, rfl, rfl⟩
    rw [hs]
    simp [qid_keys, resolv_purge_resolution_answer_records, resolv_reset_resolution]

/-- Witness for C31: the server number 2 is the only requester of the second
running resolution of the sample section with two servers; unlinked with `safe`
set, its resolution stays second on `resolutions.curr` with the step NONE and
out of the tree, whose keys were 63983 and 9692. -/
theorem resolv_unlink_resolution_last_witness :
    find_resolution (fun res => decide (server_requester 2 ∈ res.requesters))
        sample_section_two_running
      = some (requester_ptr sample_section_two_running (server_requester 2))
    ∧ (requester_ptr sample_section_two_running (server_requester 2)).res.requesters.erase
        (server_requester 2) = []
    ∧ query_ids sample_section_two_running = [63983, 9692]
    ∧ (resolv_unlink_resolution (sample_env 1200) sample_section_two_running
        (server_requester 2) 1).curr.map (fun R => (R.step, R.qid_linked, R.hostname_dn))
        = [(.RUNNING, true, some [3, 119, 119, 119, 2, 97, 98]), (.NONE, false, none)]
    ∧ ∃ A B,
      query_ids sample_section_two_running
        = A ++ qid_keys [(requester_ptr sample_section_two_running (server_requester 2)).res]
          ++ B
      ∧ query_ids (resolv_unlink_resolution (sample_env 1200) sample_section_two_running
          (server_requester 2) 1) = A ++ B :=
  ⟨by decide, by decide, by decide, by decide,
   (resolv_unlink_resolution_last (sample_env 1200) sample_section_two_running
      (server_requester 2) 1 (requester_ptr sample_section_two_running (server_requester 2))
      (by decide) (by decide)).imp
     (fun _ h => h.imp
       (fun _ h => ⟨h.2.2.1, ((h.2.2.2.2.1 (by decide)).elim (fun _ h2 => h2.2.2.2.1))⟩))⟩

/-! ## Theorems: the query id that `resolv_run_resolution` assigns -/

/-- The values kept of the resolutions of a section, in the order of the lists,
once a resolution that was not kept has moved, with other fields, to the end of
the active list: the value of these fields comes first, up to the order. -/
theorem keys_moved (p : resolv_resolution → Bool) (f : resolv_resolution → Nat)
    (s s2 : resolvers) (r : res_ptr) (x : resolv_resolution) (hv : res_ptr_valid s r)
    (hp : p r.res = false) (hx : p x = true)
    (hc : s2.curr = (list_delete s r).curr ++ [x]) (hw : s2.wait = (list_delete s r).wait) :
    (((s2.curr ++ s2.wait).filter p).map f).Perm
      (f x :: ((s.curr ++ s.wait).filter p).map f) := by
  have hnp : ¬ (p r.res = true) := by rw [hp]; exact Bool.false_ne_true
  have e : ((s.curr ++ s.wait).filter p).map f
      = (((list_delete s r).curr ++ (list_delete s r).wait).filter p).map f := by
    unfold res_ptr_valid at hv
    unfold list_delete
    by_cases hon : r.on_curr = true
    · simp only [hon, ↓reduceIte] at hv ⊢
      rw [hv]
      simp only [List.filter_append, List.filter_cons, if_neg hnp]
    · simp only [hon, Bool.false_eq_true, ↓reduceIte] at hv ⊢
      rw [hv]
      simp only [List.filter_append, List.filter_cons, if_neg hnp]
  rw [e, hc, hw]
  simp only [List.filter_append, List.map_append, List.filter_cons, hx, ↓reduceIte,
    List.filter_nil, List.map_cons, List.map_nil, List.append_assoc, List.singleton_append]
  exact List.perm_middle

/-- A query id that the loop of `resolv_run_resolution` finds is one of the
values drawn and is not in the tree. -/
theorem run_resolution_query_id_some (env : resolv_env) (s : resolvers) :
    ∀ (n seed q : Nat), (run_resolution_query_id env s n seed).1 = some q →
      (eb32_lookup s q).isNone = true ∧ q ∈ resolv_rnd16_draws env.now_ms n seed := by
  intro n
  induction n with
  | zero => intro seed q h; exact Option.noConfusion h
  | succ n ih =>
    intro seed q h
    rw [run_resolution_query_id] at h
    rw [resolv_rnd16_draws]
    by_cases hf : (eb32_lookup s (resolv_rnd16 env.now_ms seed).1).isNone = true
    · rw [if_pos hf] at h
      injection h with h
      subst h
      exact ⟨hf, List.mem_cons_self _ _⟩
    · rw [if_neg hf] at h
      exact ⟨(ih _ q h).1, List.mem_cons_of_mem _ (ih _ q h).2⟩

/-- The loop of `resolv_run_resolution` finds no query id exactly when every
value drawn is in the tree. -/
theorem run_resolution_query_id_none (env : resolv_env) (s : resolvers) :
    ∀ (n seed : Nat), (run_resolution_query_id env s n seed).1 = none
      ↔ ∀ d ∈ resolv_rnd16_draws env.now_ms n seed, d ∈ query_ids s := by
  intro n
  induction n with
  | zero =>
    intro seed
    exact ⟨fun _ d hd => absurd hd (List.not_mem_nil d), fun _ => rfl⟩
  | succ n ih =>
    intro seed
    rw [run_resolution_query_id, resolv_rnd16_draws]
    by_cases hf : (eb32_lookup s (resolv_rnd16 env.now_ms seed).1).isNone = true
    · rw [if_pos hf]
      constructor
      · intro h; exact Option.noConfusion h
      · intro h
        exact absurd (h _ (List.mem_cons_self _ _)) ((eb32_lookup_none_iff s _).mp hf)
    · rw [if_neg hf]
      have hin : (resolv_rnd16 env.now_ms seed).1 ∈ query_ids s := by
        by_contra hc
        exact hf ((eb32_lookup_none_iff s _).mpr hc)
      rw [ih]
      constructor
      · intro h d hd
        rcases List.mem_cons.mp hd with rfl | hd
        · exact hin
        · exact h d hd
      · intro h d hd
        exact h d (List.mem_cons_of_mem _ hd)

/-- The three returns of `resolv_run_resolution`, with the values drawn: -1
exactly when the resolution has a hostname, is at the step NONE and every one
of the 100 values drawn is in the tree, and then only the seed changes; 1 with
a query id that is one of the values drawn and is not in the tree. -/
theorem resolv_run_resolution_draws (env : resolv_env) (s : resolvers) (r : res_ptr) :
    ((resolv_run_resolution env s r).1 = -1
      ↔ (r.res.hostname_dn ≠ none ∧ r.res.step = .NONE
        ∧ ∀ d ∈ resolv_rnd16_draws env.now_ms 100 s.resolv_query_id_seed, d ∈ query_ids s))
    ∧ ((resolv_run_resolution env s r).1 = -1 →
        ∃ seed, (resolv_run_resolution env s r).2 = { s with resolv_query_id_seed := seed })
    ∧ ((resolv_run_resolution env s r).1 = 1 →
        r.res.step = .NONE
        ∧ ∃ seed query_id,
          query_id ∈ resolv_rnd16_draws env.now_ms 100 s.resolv_query_id_seed
          ∧ (eb32_lookup s query_id).isNone = true
          ∧ (resolv_run_resolution env s r).2
            = resolv_send_query env { s with resolv_query_id_seed := seed }
                { r with res :=
                  { r.res with
                    query_id := query_id, qid_key := query_id, step := .RUNNING,
                    query_type := r.res.prefered_query_type,
                    try_ := s.resolve_retries - 1, qid_linked := true } }) := by
  unfold resolv_run_resolution
  dsimp only
  by_cases hh : r.res.hostname_dn = none
  · rw [if_pos hh]
    exact ⟨⟨fun h => absurd (show (0 : Int) = -1 from h) (by decide), fun h => absurd hh h.1⟩,
      fun h => absurd (show (0 : Int) = -1 from h) (by decide),
      fun h => absurd (show (0 : Int) = 1 from h) (by decide)⟩
  · rw [if_neg hh]
    by_cases hs : r.res.step ≠ .NONE
    · rw [if_pos hs]
      exact ⟨⟨fun h => absurd (show (0 : Int) = -1 from h) (by decide),
          fun h => absurd h.2.1 hs⟩,
        fun h => absurd (show (0 : Int) = -1 from h) (by decide),
        fun h => absurd (show (0 : Int) = 1 from h) (by decide)⟩
    · rw [if_neg hs]
      have hs2 : r.res.step = .NONE := not_not.mp hs
      cases hd : (run_resolution_query_id env s 100 s.resolv_query_id_seed).1 with
      | none =>
        dsimp only
        exact ⟨⟨fun _ => ⟨hh, hs2, (run_resolution_query_id_none env s 100 _).mp hd⟩,
            fun _ => rfl⟩,
          fun _ => ⟨_, rfl⟩, fun h => absurd (show (-1 : Int) = 1 from h) (by decide)⟩
      | some q =>
        dsimp only
        obtain ⟨hfree, hmem⟩ := run_resolution_query_id_some env s 100 _ q hd
        refine ⟨⟨fun h => absurd (show (1 : Int) = -1 from h) (by decide), fun h => ?_⟩,
          fun h => absurd (show (1 : Int) = -1 from h) (by decide),
          fun _ => ⟨hs2, _, q, hmem, hfree, rfl⟩⟩
        have := (run_resolution_query_id_none env s 100 _).mpr h.2.2
        rw [hd] at this
        exact Option.noConfusion this

/-- C35: in a section in which a resolution has its node in the tree
`query_ids` exactly when it is RUNNING (the invariant), under the key that is
its query id, let `r` point to a resolution. When `resolv_run_resolution`
returns 1, the query id it assigned is one of the 100 values drawn and was not
in the tree: `eb32_lookup` did not find it; the resolution is RUNNING with
this id at the end of `resolutions.curr`, the keys of the tree are the former
ones and this id, and so are the query ids of the RUNNING resolutions: if no
two RUNNING resolutions shared a query id before, none do afterwards. It
returns -1 exactly when the resolution has a hostname, is at the step NONE and
each of the 100 values drawn is in the tree; both lists are then as they were,
every resolution with its fields, and so are the keys of the tree. -/
theorem resolv_run_resolution_query_id (env : resolv_env) (s : resolvers) (r : res_ptr)
    (hv : res_ptr_valid s r) (hinv : resolvers_invariant s)
    (hkey : ∀ R ∈ s.curr ++ s.wait, R.qid_linked = true → R.qid_key = R.query_id) :
    ((resolv_run_resolution env s r).1 = 1 →
      ∃ query_id res2,
        query_id ∈ resolv_rnd16_draws env.now_ms 100 s.resolv_query_id_seed
        ∧ (eb32_lookup s query_id).isNone = true
        ∧ query_id ∉ query_ids s
        ∧ (resolv_run_resolution env s r).2.curr = (list_delete s r).curr ++ [res2]
        ∧ (resolv_run_resolution env s r).2.wait = (list_delete s r).wait
        ∧ res2.query_id = query_id
        ∧ res2.qid_key = query_id
        ∧ res2.qid_linked = true
        ∧ res2.step = .RUNNING
        ∧ (query_ids (resolv_run_resolution env s r).2).Perm (query_id :: query_ids s)
        ∧ (running_query_ids (resolv_run_resolution env s r).2).Perm
            (query_id :: running_query_ids s)
        ∧ ((running_query_ids s).Nodup →
            (running_query_ids (resolv_run_resolution env s r).2).Nodup))
    ∧ ((resolv_run_resolution env s r).1 = -1
      ↔ (r.res.hostname_dn ≠ none ∧ r.res.step = .NONE
        ∧ ∀ d ∈ resolv_rnd16_draws env.now_ms 100 s.resolv_query_id_seed, d ∈ query_ids s))
    ∧ ((resolv_run_resolution env s r).1 = -1 →
        (resolv_run_resolution env s r).2.curr = s.curr
        ∧ (resolv_run_resolution env s r).2.wait = s.wait
        ∧ query_ids (resolv_run_resolution env s r).2 = query_ids s
        ∧ running_query_ids (resolv_run_resolution env s r).2 = running_query_ids s) := by
  obtain ⟨h1, h2, h3⟩ := resolv_run_resolution_draws env s r
  refine ⟨fun hret => ?_, h1, fun hret => ?_⟩
  · obtain ⟨hstep, seed, q, hmem, hfree, e⟩ := h3 hret
    have hin : r.res ∈ s.curr ++ s.wait := by
      unfold res_ptr_valid at hv
      by_cases hon : r.on_curr = true
      · simp only [hon, ↓reduceIte] at hv
        rw [hv]; simp
      · simp only [hon, Bool.false_eq_true, ↓reduceIte] at hv
        rw [hv]; simp
    have hun : r.res.qid_linked = false := by
      cases hl : r.res.qid_linked with
      | false => rfl
      | true =>
        have := (hinv.1 _ hin).mp hl
        rw [hstep] at this
        exact RSLV_STEP.noConfusion this
    have hnot : q ∉ query_ids s := (eb32_lookup_none_iff s q).mp hfree
    obtain ⟨n, ec, ew⟩ := resolv_send_query_lists env { s with resolv_query_id_seed := seed }
      { r with res :=
        { r.res with
          query_id := q, qid_key := q, step := .RUNNING,
          query_type := r.res.prefered_query_type,
          try_ := s.resolve_retries - 1, qid_linked := true } }
    rw [← e] at ec ew
    have ec2 : (resolv_run_resolution env s r).2.curr = (list_delete s r).curr
        ++ [{ r.res with
              query_id := q, qid_key := q, step := .RUNNING,
              query_type := r.res.prefered_query_type,
              try_ := s.resolve_retries - 1, qid_linked := true,
              nb_queries := n, nb_responses := 0, last_query := env.now_ms }] := by
      rw [ec]
      unfold list_delete
      cases r.on_curr <;> rfl
    have ew2 : (resolv_run_resolution env s r).2.wait = (list_delete s r).wait := by
      rw [ew]
      unfold list_delete
      cases r.on_curr <;> rfl
    have hq : (query_ids (resolv_run_resolution env s r).2).Perm (q :: query_ids s) :=
      keys_moved (fun res => res.qid_linked) (fun res => res.qid_key) s
        (resolv_run_resolution env s r).2 r _ hv hun (by rfl) ec2 ew2
    have hr : (running_query_ids (resolv_run_resolution env s r).2).Perm
        (q :: running_query_ids s) :=
      keys_moved (fun res => decide (res.step = .RUNNING)) (fun res => res.query_id) s
        (resolv_run_resolution env s r).2 r _ hv
        (by show decide (r.res.step = .RUNNING) = false
            rw [hstep]; rfl) (by rfl) ec2 ew2
    refine ⟨q, _, hmem, hfree, hnot, ec2, ew2, rfl, rfl, rfl, rfl, hq, hr, fun hnd => ?_⟩
    refine (List.Perm.nodup_iff hr).mpr (List.nodup_cons.mpr ⟨fun hqin => hnot ?_, hnd⟩)
    obtain ⟨R, hR, hk⟩ := List.mem_map.mp hqin
    obtain ⟨hR1, hR2⟩ := List.mem_filter.mp hR
    have hlinked : R.qid_linked = true := (hinv.1 R hR1).mpr (of_decide_eq_true hR2)
    exact List.mem_map.mpr ⟨R, List.mem_filter.mpr ⟨hR1, hlinked⟩,
      (hkey R hR1 hlinked).trans hk⟩
  · obtain ⟨seed, e⟩ := h2 hret
    rw [e]
    exact ⟨rfl, rfl, rfl, rfl⟩

/-- Witness for C35: at the date 0 with the seed 0 every value drawn is 0. In
the sample section with the servers number 1 and 2 linked, the run of the
first resolution returns 1 and assigns the query id 0; the run of the second
one then returns -1 and leaves the lists as they were. -/
theorem resolv_run_resolution_query_id_witness :
    res_ptr_valid sample_section_zero (requester_ptr sample_section_zero (server_requester 2))
    ∧ resolvers_invariant sample_section_zero
    ∧ (∀ R ∈ sample_section_zero.curr ++ sample_section_zero.wait,
        R.qid_linked = true → R.qid_key = R.query_id)
    ∧ query_ids sample_section_zero = [0]
    ∧ (resolv_run_resolution (sample_env 0) sample_section_zero
        (requester_ptr sample_section_zero (server_requester 2))).1 = -1
    ∧ (resolv_run_resolution (sample_env 0) sample_section_zero
        (requester_ptr sample_section_zero (server_requester 2))).2.curr
        = sample_section_zero.curr
    ∧ (resolv_run_resolution (sample_env 0) sample_section_zero
        (requester_ptr sample_section_zero (server_requester 2))).2.wait
        = sample_section_zero.wait :=
  ⟨by decide, by decide, by decide, by decide, by decide,
   ((resolv_run_resolution_query_id (sample_env 0) sample_section_zero
      (requester_ptr sample_section_zero (server_requester 2))
      (by decide) (by decide) (by decide)).2.2 (by decide)).1,
   ((resolv_run_resolution_query_id (sample_env 0) sample_section_zero
      (requester_ptr sample_section_zero (server_requester 2))
      (by decide) (by decide) (by decide)).2.2 (by decide)).2.1⟩

/-! ## Theorems: the query type of a resolution after a fallback -/

/-- What `find_resolution` finds is the first resolution that satisfies `p`, in
the active list, or in the wait list when none of the active list does. -/
theorem find_resolution_first (p : resolv_resolution → Bool) (s : resolvers) (r : res_ptr)
    (h : find_resolution p s = some r) :
    (r.on_curr = true ∧ s.curr = r.before ++ r.res :: r.after
      ∧ (∀ y ∈ r.before, p y = false) ∧ p r.res = true)
    ∨ (r.on_curr = false ∧ (∀ y ∈ s.curr, p y = false)
      ∧ s.wait = r.before ++ r.res :: r.after
      ∧ (∀ y ∈ r.before, p y = false) ∧ p r.res = true) := by
  unfold find_resolution at h
  cases hc : list_find_split p s.curr with
  | some x =>
    obtain ⟨a, x, b⟩ := x
    rw [hc] at h
    injection h with h
    subst h
    obtain ⟨e, hp, ha⟩ := list_find_split_some p _ _ _ _ hc
    exact Or.inl ⟨rfl, e, ha, hp⟩
  | none =>
    rw [hc] at h
    cases hw : list_find_split p s.wait with
    | some x =>
      obtain ⟨a, x, b⟩ := x
      rw [hw] at h
      injection h with h
      subst h
      obtain ⟨e, hp, ha⟩ := list_find_split_some p _ _ _ _ hw
      exact Or.inr ⟨rfl, list_find_split_none p _ hc, e, ha, hp⟩
    | none =>
      rw [hw] at h
      exact Option.noConfusion h

/-- Storing in the resolution that `eb32_lookup` found fields with the same
node of the tree: the lookup finds the resolution again, with these fields. -/
theorem eb32_lookup_store (s : resolvers) (query_id : Nat) (r : res_ptr)
    (res2 : resolv_resolution) (h : eb32_lookup s query_id = some r)
    (hl : res2.qid_linked = r.res.qid_linked) (hk : res2.qid_key = r.res.qid_key) :
    eb32_lookup (store_resolution s r res2) query_id = some { r with res := res2 } := by
  unfold eb32_lookup at h ⊢
  rcases find_resolution_first _ s r h with ⟨hon, _, hb, hp⟩ | ⟨hon, hc, _, hb, hp⟩
  · have e := find_resolution_curr (fun res => res.qid_linked && res.qid_key == query_id)
      (store_resolution s r res2) r.before res2 r.after
      (by unfold store_resolution; rw [if_pos hon]) hb
      (by dsimp only at hp ⊢; rw [hl, hk]; exact hp)
    rw [e, ← hon]
  · have e := find_resolution_wait (fun res => res.qid_linked && res.qid_key == query_id)
      (store_resolution s r res2) r.before res2 r.after
      (by unfold store_resolution; rw [hon]; exact hc)
      (by unfold store_resolution; rw [hon]; rfl) hb
      (by dsimp only at hp ⊢; rw [hl, hk]; exact hp)
    rw [e, ← hon]

/-- The lists after the label `report_res_error`: the resolution, reset, has
gone to the end of the wait list. -/
theorem report_res_error_lists (env : resolv_env) (s : resolvers) (r : res_ptr)
    (dns_resp : RSLV_RESP) :
    (report_res_error env s r dns_resp).curr = (list_delete s r).curr
    ∧ (report_res_error env s r dns_resp).wait
        = (list_delete s r).wait ++ [resolv_reset_resolution env r.res] :=
  ⟨rfl, rfl⟩

/-- The lists after a valid response: whatever the name of the question, the
resolution has gone to the end of the wait list, reset. -/
theorem process_response_valid_lists (env : resolv_env) (ns : Nat) (s : resolvers)
    (r : res_ptr) :
    ∃ res2,
      (process_response_valid env ns s r).curr = (list_delete s r).curr
      ∧ (process_response_valid env ns s r).wait = (list_delete s r).wait ++ [res2]
      ∧ res2.step = .NONE
      ∧ res2.try_ = 0
      ∧ res2.qid_linked = false
      ∧ res2.query_type = r.res.prefered_query_type
      ∧ res2.prefered_query_type = r.res.prefered_query_type := by
  have hd : ∀ (f : dns_counters → dns_counters),
      (list_delete (ns_counters f ns s) r).curr = (list_delete s r).curr
      ∧ (list_delete (ns_counters f ns s) r).wait = (list_delete s r).wait := by
    intro f
    obtain ⟨ec, ew, _⟩ := ns_counters_lists f ns s
    unfold list_delete
    cases r.on_curr
    · exact ⟨ec, rfl⟩
    · exact ⟨rfl, ew⟩
  unfold process_response_valid
  dsimp only
  split
  · refine ⟨resolv_reset_resolution env r.res, ?_, ?_, rfl, rfl, rfl, rfl, rfl⟩
    · rw [(report_res_error_lists env _ r .WRONG_NAME).1, (hd _).1]
    · rw [(report_res_error_lists env _ r .WRONG_NAME).2, (hd _).2]
  · refine ⟨resolv_reset_resolution env
      { r.res with status := .VALID, last_valid := env.now_ms }, (hd _).1, ?_,
      rfl, rfl, rfl, rfl, rfl⟩
    dsimp only
    rw [(hd _).2]

/-- Once the fallback on the query type is done, a response with a code other
than `RSLV_RESP_VALID` is stored in the resolution where it is, with its
status, or, when every nameserver has answered and no try is left, ends the
resolution at the label `report_res_error`. -/
theorem process_response_error_no_fallback (env : resolv_env) (ns : Nat) (s : resolvers)
    (r : res_ptr) (dns_resp : RSLV_RESP)
    (hqt : r.res.query_type ≠ r.res.prefered_query_type) :
    process_response_error env ns s r dns_resp
      = (if r.res.nb_responses < r.res.nb_queries ∨ r.res.try_ ≠ 0 then
          store_resolution (ns_counters (response_error_status dns_resp).2 ns s) r
            { r.res with status := (response_error_status dns_resp).1 }
        else
          report_res_error env (ns_counters (response_error_status dns_resp).2 ns s)
            { r with res := { r.res with status := (response_error_status dns_resp).1 } }
            dns_resp) := by
  unfold process_response_error
  dsimp only
  by_cases hall : r.res.nb_responses < r.res.nb_queries
  · rw [if_pos hall, if_pos (Or.inl hall)]
  · rw [if_neg hall, if_pos (fun h => hqt h.symm)]
    by_cases htry : r.res.try_ = 0
    · rw [if_pos htry, if_neg (fun h => h.elim hall (fun h => h htry))]
    · rw [if_neg htry, if_pos (Or.inr htry)]

/-- Once the fallback on the query type is done, one pass of
`resolv_process_responses` on a message for the resolution, without calls of
`resolv_check_response`, leaves the resolution where it is with its query type,
its tries and its step, or moves it, reset, to the end of the wait list. -/
theorem process_response_no_fallback (env : resolv_env) (header_size min_record_size ns : Nat)
    (buf : List Nat) (s : resolvers) (r : res_ptr)
    (hbig : buf.length ≤ s.accepted_payload_size) (hlen : 2 ≤ buf.length)
    (hlook : eb32_lookup s (buf.getD 0 0 * 256 + buf.getD 1 0) = some r)
    (hqt : r.res.query_type ≠ r.res.prefered_query_type) :
    (∃ res2,
      (process_response env header_size min_record_size ns buf [] s).curr
        = (store_resolution s r res2).curr
      ∧ (process_response env header_size min_record_size ns buf [] s).wait
        = (store_resolution s r res2).wait
      ∧ res2.query_type = r.res.query_type
      ∧ res2.prefered_query_type = r.res.prefered_query_type
      ∧ res2.try_ = r.res.try_
      ∧ res2.step = r.res.step
      ∧ res2.query_id = r.res.query_id)
    ∨ (∃ res2,
      (process_response env header_size min_record_size ns buf [] s).curr
        = (list_delete s r).curr
      ∧ (process_response env header_size min_record_size ns buf [] s).wait
        = (list_delete s r).wait ++ [res2]
      ∧ res2.step = .NONE
      ∧ res2.try_ = 0
      ∧ res2.qid_linked = false
      ∧ res2.query_type = r.res.prefered_query_type
      ∧ res2.prefered_query_type = r.res.prefered_query_type) := by
  have hst : ∀ (f : dns_counters → dns_counters) (res2 : resolv_resolution),
      (store_resolution (ns_counters f ns s) r res2).curr = (store_resolution s r res2).curr
      ∧ (store_resolution (ns_counters f ns s) r res2).wait
          = (store_resolution s r res2).wait := by
    intro f res2
    obtain ⟨ec, ew, _⟩ := ns_counters_lists f ns s
    unfold store_resolution
    cases r.on_curr
    · exact ⟨ec, rfl⟩
    · exact ⟨rfl, ew⟩
  have hd : ∀ (f : dns_counters → dns_counters) (res3 : resolv_resolution),
      (list_delete (ns_counters f ns s) { r with res := res3 }).curr = (list_delete s r).curr
      ∧ (list_delete (ns_counters f ns s) { r with res := res3 }).wait
          = (list_delete s r).wait := by
    intro f res3
    obtain ⟨ec, ew, _⟩ := ns_counters_lists f ns s
    unfold list_delete
    dsimp only
    cases r.on_curr
    · exact ⟨ec, rfl⟩
    · exact ⟨rfl, ew⟩
  obtain ⟨v, hv⟩ : ∃ v, v = resolv_validate_dns_response buf r.res.response
      (Int.tdiv ((s.accepted_payload_size : Int) - header_size) min_record_size)
      env.now_ms s.hold_obsolete := ⟨_, rfl⟩
  unfold process_response
  dsimp only
  rw [if_neg (by omega), if_neg (by omega), hlook]
  dsimp only
  rw [← hv]
  by_cases hcode : v.1 ≠ .VALID
  · rw [if_pos hcode]
    have e := process_response_error_no_fallback env ns s
      { r with res := { r.res with nb_responses := r.res.nb_responses + 1, response := v.2 } }
      v.1 hqt
    dsimp only at e
    rw [e]
    split
    · exact Or.inl ⟨_, (hst _ _).1, (hst _ _).2, rfl, rfl, rfl, rfl, rfl⟩
    · refine Or.inr ⟨resolv_reset_resolution env
        { r.res with
          nb_responses := r.res.nb_responses + 1, response := v.2,
          status := (response_error_status v.1).1 }, ?_, ?_, rfl, rfl, rfl, rfl, rfl⟩
      · rw [(report_res_error_lists env _ _ _).1]
        exact (hd _ _).1
      · rw [(report_res_error_lists env _ _ _).2, (hd _ _).2]
  · rw [if_neg hcode]
    simp only [resolv_apply_calls]
    rw [eb32_lookup_store s _ r
      { r.res with nb_responses := r.res.nb_responses + 1, response := v.2 } hlook rfl rfl]
    dsimp only
    obtain ⟨res2, ec, ew, h1, h2, h3, h4, h5⟩ := process_response_valid_lists env ns
      (store_resolution s r
        { r.res with nb_responses := r.res.nb_responses + 1, response := v.2 })
      { r with
        res := { r.res with nb_responses := r.res.nb_responses + 1, response := v.2 } }
    refine Or.inr ⟨res2, ?_, ?_, h1, h2, h3, h4, h5⟩
    · rw [ec]
      unfold list_delete store_resolution
      cases r.on_curr <;> rfl
    · rw [ew]
      unfold list_delete store_resolution
      cases r.on_curr <;> rfl

/-- Once the fallback on the query type is done, the pass of `process_resolvers`
on the resolution, at the head of the active list with a requester: nothing
before the retry timeout; at the timeout, without try left, the resolution
goes reset to the end of the wait list; with a try left, the query is sent
again with the preferred query type and one try less, the resolution going to
the end of the active list. -/
theorem process_curr_resolution_no_fallback (env : resolv_env) (s : resolvers)
    (res : resolv_resolution) (rest : List resolv_resolution)
    (hqt : res.query_type ≠ res.prefered_query_type) (hreq : res.requesters ≠ []) :
    (tick_is_expired (tick_add res.last_query s.timeout_retry) env.now_ms = false →
      process_curr_resolution env s res rest = (s, false))
    ∧ (tick_is_expired (tick_add res.last_query s.timeout_retry) env.now_ms = true →
        res.try_ = 0 →
        ∃ res2,
          (process_curr_resolution env s res rest).1.curr = rest
          ∧ (process_curr_resolution env s res rest).1.wait = s.wait ++ [res2]
          ∧ res2.step = .NONE
          ∧ res2.try_ = 0
          ∧ res2.qid_linked = false
          ∧ res2.query_type = res.prefered_query_type)
    ∧ (tick_is_expired (tick_add res.last_query s.timeout_retry) env.now_ms = true →
        res.try_ ≠ 0 →
        ∃ res2,
          (process_curr_resolution env s res rest).1.curr = rest ++ [res2]
          ∧ (process_curr_resolution env s res rest).1.wait = s.wait
          ∧ res2.step = res.step
          ∧ res2.try_ = res.try_ - 1
          ∧ res2.query_type = res.prefered_query_type
          ∧ res2.prefered_query_type = res.prefered_query_type
          ∧ res2.query_id = res.query_id) := by
  refine ⟨fun hexp => ?_, fun hexp htry => ?_, fun hexp htry => ?_⟩
  · unfold process_curr_resolution
    dsimp only
    rw [if_neg hreq, if_pos (by rw [hexp]; exact Bool.false_ne_true)]
  · unfold process_curr_resolution
    dsimp only
    rw [if_neg hreq, if_neg (not_not.mpr hexp), if_pos htry]
    refine ⟨resolv_reset_resolution env
      (if res.nb_responses = 0 then { res with status := .TIMEOUT } else res), rfl, rfl,
      rfl, rfl, rfl, ?_⟩
    unfold resolv_reset_resolution
    dsimp only
    split <;> rfl
  · unfold process_curr_resolution
    dsimp only
    rw [if_neg hreq, if_neg (not_not.mpr hexp), if_neg htry,
      if_pos (Or.inr (fun h => hqt h.symm))]
    obtain ⟨n, ec, ew⟩ := resolv_send_query_lists env s
      { on_curr := true, before := [],
        res := { res with query_type := res.prefered_query_type, try_ := res.try_ - 1 },
        after := rest }
    exact ⟨_, ec, ew, rfl, rfl, rfl, rfl, rfl⟩

/-- C34: let a message of a nameserver carry the query id of a resolution
whose `query_type` is not its `prefered_query_type` (the fallback is done; such
a resolution asks for A or AAAA records, for which `resolv_check_response`
makes no call). After the pass of `resolv_process_responses` on the message,
either the resolution is where it was with the same `query_type`, `try`, step
and query id, or it is reset at the end of `resolutions.wait`: step NONE, `try`
0, out of the tree, `query_type` back to `prefered_query_type`. After the pass
of `process_resolvers` on the resolution, at the head of `resolutions.curr` with
a requester: before the retry timeout nothing changes; at the timeout without
try left the resolution is reset at the end of `resolutions.wait`; at the
timeout with a try left it is at the end of `resolutions.curr` with the same
step, `query_type` equal to `prefered_query_type` and `try` one less. -/
theorem query_type_after_fallback (env : resolv_env) (header_size min_record_size ns : Nat)
    (buf : List Nat) (s : resolvers) (r : res_ptr)
    (hbig : buf.length ≤ s.accepted_payload_size) (hlen : 2 ≤ buf.length)
    (hlook : eb32_lookup s (buf.getD 0 0 * 256 + buf.getD 1 0) = some r)
    (hqt : r.res.query_type ≠ r.res.prefered_query_type) :
    ((∃ res2,
        (process_response env header_size min_record_size ns buf [] s).curr
          = (store_resolution s r res2).curr
        ∧ (process_response env header_size min_record_size ns buf [] s).wait
          = (store_resolution s r res2).wait
        ∧ res2.query_type = r.res.query_type
        ∧ res2.prefered_query_type = r.res.prefered_query_type
        ∧ res2.try_ = r.res.try_
        ∧ res2.step = r.res.step
        ∧ res2.query_id = r.res.query_id)
      ∨ (∃ res2,
        (process_response env header_size min_record_size ns buf [] s).curr
          = (list_delete s r).curr
        ∧ (process_response env header_size min_record_size ns buf [] s).wait
          = (list_delete s r).wait ++ [res2]
        ∧ res2.step = .NONE
        ∧ res2.try_ = 0
        ∧ res2.qid_linked = false
        ∧ res2.query_type = r.res.prefered_query_type
        ∧ res2.prefered_query_type = r.res.prefered_query_type))
    ∧ (∀ (env2 : resolv_env) (rest : List resolv_resolution), r.res.requesters ≠ [] →
        (tick_is_expired (tick_add r.res.last_query s.timeout_retry) env2.now_ms = false →
          process_curr_resolution env2 s r.res rest = (s, false))
        ∧ (tick_is_expired (tick_add r.res.last_query s.timeout_retry) env2.now_ms = true →
            r.res.try_ = 0 →
            ∃ res2,
              (process_curr_resolution env2 s r.res rest).1.curr = rest
              ∧ (process_curr_resolution env2 s r.res rest).1.wait = s.wait ++ [res2]
              ∧ res2.step = .NONE
              ∧ res2.try_ = 0
              ∧ res2.qid_linked = false
              ∧ res2.query_type = r.res.prefered_query_type)
        ∧ (tick_is_expired (tick_add r.res.last_query s.timeout_retry) env2.now_ms = true →
            r.res.try_ ≠ 0 →
            ∃ res2,
              (process_curr_resolution env2 s r.res rest).1.curr = rest ++ [res2]
              ∧ (process_curr_resolution env2 s r.res rest).1.wait = s.wait
              ∧ res2.step = r.res.step
              ∧ res2.try_ = r.res.try_ - 1
              ∧ res2.query_type = r.res.prefered_query_type
              ∧ res2.prefered_query_type = r.res.prefered_query_type
              ∧ res2.query_id = r.res.query_id)) :=
  ⟨process_response_no_fallback env header_size min_record_size ns buf s r hbig hlen hlook hqt,
   fun env2 rest hreq => process_curr_resolution_no_fallback env2 s r.res rest hqt hreq⟩

/-- Witness for C34: the running resolution of the sample section after the
fallback from A to AAAA, with 2 tries left. A second NXDOMAIN response, at the
date 1300, leaves it RUNNING with the type AAAA and 2 tries; the tick of the
date 2300 sends the query again with the type A and leaves 1 try. -/
theorem query_type_after_fallback_witness :
    eb32_lookup sample_section_fallback
        ((nx_response 63983).getD 0 0 * 256 + (nx_response 63983).getD 1 0)
      = some (requester_ptr sample_section_fallback (server_requester 1))
    ∧ sample_section_fallback.curr.map
        (fun R => (R.step, R.query_type, R.prefered_query_type, R.try_))
        = [(.RUNNING, DNS_RTYPE_AAAA, DNS_RTYPE_A, 2)]
    ∧ (process_response (sample_env 1300) 12 11 0 (nx_response 63983) []
        sample_section_fallback).curr.map (fun R => (R.step, R.query_type, R.try_))
        = [(.RUNNING, DNS_RTYPE_AAAA, 2)]
    ∧ ∃ res2,
        (process_curr_resolution (sample_env 2300) sample_section_fallback
          (requester_ptr sample_section_fallback (server_requester 1)).res []).1.curr = [res2]
        ∧ res2.step = .RUNNING
        ∧ res2.try_ = 1
        ∧ res2.query_type = DNS_RTYPE_A :=
  ⟨by decide, by decide, by decide,
   (((query_type_after_fallback (sample_env 1300) 12 11 0 (nx_response 63983)
      sample_section_fallback (requester_ptr sample_section_fallback (server_requester 1))
      (by decide) (by decide) (by decide) (by decide)).2 (sample_env 2300) []
      (by decide)).2.2 (by decide) (by decide)).imp
     (fun _ h => ⟨h.1, h.2.2.1.trans (by decide), h.2.2.2.1.trans (by decide),
       h.2.2.2.2.1.trans (by decide)⟩)⟩

end Resolvers
